import Mathlib

/-!
# Adaptive ANC: verification development

A shallow embedding of the adaptation core and the adaptation loop of `main` in
`src/src/main.c` with the types and inline helpers of `src/inc/config.h` and the
constants of `src/inc/coeffs.h`, of the FIR convolver in `src/src/fir_filter.c`,
of the time-domain simulator in `src/src/time_domain_sim.c` and of the WAV reader
in `src/src/wav_io.c`.

Modelling conventions.

* A C `float` is an element of an arbitrary linearly ordered field `α` (the
  rationals, the reals); `+ - * /` are exact and comparisons are the order of
  `α`.  Rounding, overflow, infinities and NaN are outside the model.
* The one place where a `float` result is cast to an array index, the source index
  `(int)(i * ratio)` of `anti_alias_decimate`, is computed in binary32 as the code
  does (`round_binary32` after each conversion and operation, `FLT_EVAL_METHOD`
  0): there rounding changes which sample is read.
* The C math library (`powf`, `sinf`, `cosf`, `sqrtf`, `log10f`, `atan2f`) is
  not code of this repository: it is the parameter `Libm`.  `fabsf` is exact
  and is the absolute value.
* A C array is a total function on `Nat`; only indices below the declared
  length are meaningful.  A store `a[i] = v` is `Function.update a i v`.
* A C `int` counter is an `Int`; an array index or loop variable is a `Nat`.
  Sums and products of `int`s are those of the integers: a statement that depends on
  one of them carries the range in which the C operation does not overflow as a
  hypothesis (`main_in_range`, `time_sim_in_range`).
  The `int` fields `length` and `write_index` of `FIRFilter` are `Int`s and
  index the arrays through `Int.toNat`; the read cursor `current_sample` of the
  simulator is a `Nat`.
* The three sample arrays of the simulator are separate allocations and do not
  alias.
* A `for (i = 0; i < n; i++)` loop is `forLoop n body`.
* A `while` loop is a recursion on a bound for the number of passes; for each one a
  lemma shows that the bound used is never the reason the loop stops.
* An integer division executed with a zero divisor is undefined behaviour: the
  function that executes it returns `none`.
* `log_printf` calls have no effect on the state and are dropped, except the two
  Phase 2 lines of the adaptation loop, which are recorded in `phase2_log`.
-/

namespace ANC

set_option linter.unusedSectionVars false

variable {α : Type} [LinearOrderedField α]

/-! ## Constants (`config.h`, `coeffs.h`) -/

def NUM_BIQUADS : Nat := 10
def DSP_SAMPLE_RATE : Nat := 32000
def REALTIME_SAMPLE_RATE : Nat := 375000
def FFT_LENGTH : Nat := 2048
def FFT_HALF_LENGTH : Nat := 1025
def PROCESS_INTERVAL_MS : Nat := 5
def ACCUMULATE_TIME_MS : Nat := 100
/-- Macro `((DSP_SAMPLE_RATE * PROCESS_INTERVAL_MS) / 1000)`, integer division. -/
def SAMPLES_PER_INTERVAL : Nat := (DSP_SAMPLE_RATE * PROCESS_INTERVAL_MS) / 1000
def FFT_OVERLAP_RATIO : α := 0.75
/-- Macro `((int)(FFT_LENGTH * (1.0f - FFT_OVERLAP_RATIO)))`. -/
def FFT_HOP_SIZE : Int := Rat.floor ((FFT_LENGTH : ℚ) * (1 - ( FFT_OVERLAP_RATIO : ℚ)))
def NUM_FFT_AVERAGE : Int := 10

def LEARNING_RATE_GAIN : α := 0.1
def LEARNING_RATE_Q : α := 0.01
def LEARNING_RATE_FC : α := 10
def LEARNING_RATE_TOTAL_GAIN : α := 0.05
def MAX_DELTA_GAIN : α := 2
def MAX_DELTA_Q : α := 0.2
def MAX_DELTA_FC : α := 100
def MAX_DELTA_TOTAL_GAIN : α := 1
def MIN_GAIN_DB : α := -20
def MAX_GAIN_DB : α := 20
def MIN_Q : α := 0.3
def MAX_Q : α := 10
def MIN_FC : α := 20
def MAX_FC : α := 20000
def MIN_TOTAL_GAIN_DB : α := -10
def MAX_TOTAL_GAIN_DB : α := 10
def LOSS_IMPROVEMENT_FACTOR : α := 0.95
/-- The value `1e-8f`. -/
def SP_EPSILON : α := 1 / 100000000
def STABLE_CHECK_FREQ_LOW : ℚ := 200
def STABLE_CHECK_FREQ_HIGH : ℚ := 1000
def SMOOTH_ALPHA : α := 3
def SPIKE_DELTA_DB : α := 6
def SPIKE_RATIO_THR : α := 0.1
def RESPONSE_LOW_DB : α := -40
def RESPONSE_HIGH_DB : α := 10
def MEAN_SHIFT_THR_DB : α := 3
def EPSILON_GAIN : α := 0.01
def EPSILON_Q : α := 0.001
def EPSILON_FC : α := 1
def EPSILON_TOTAL_GAIN : α := 0.01
/-- The fallback `#define M_PI 3.14159265358979323846` of `main.c`. -/
def M_PI : α := 3.14159265358979323846

/-! ## The C math library, a parameter -/

/-- The functions of `<math.h>` the program calls. -/
structure Libm (α : Type) where
  powf : α → α → α
  sinf : α → α
  cosf : α → α
  sqrtf : α → α
  log10f : α → α
  atan2f : α → α → α

/-- The exact `fabsf`. -/
def fabsf (x : α) : α := if x < 0 then -x else x

/-- A C cast `(int)x` of a float: truncation toward zero.  The program casts only
values computed from integers and constants, which are rationals. -/
def toInt (x : ℚ) : Int := if 0 ≤ x then Rat.floor x else -Rat.floor (-x)

/-- The loop `for (i = 0; i < n; i++) s = body i s`. -/
def forLoop {σ : Type} (n : Nat) (body : Nat → σ → σ) (s : σ) : σ :=
  match n with
  | 0 => s
  | k + 1 => body k (forLoop k body s)

/-! ## Data model (`config.h`) -/

inductive BiquadType where
  | BIQUAD_LOWSHELF
  | BIQUAD_PEAKING
  | BIQUAD_HIGHSHELF
  deriving DecidableEq, Repr

structure BiquadParam (α : Type) where
  type : BiquadType
  gain_dB : α
  q : α
  fc : α

structure Complex (α : Type) where
  real : α
  imag : α

structure TimeBuffer (α : Type) where
  data : Nat → α
  write_index : Nat
  sample_count : Int

structure FreqResponse (α : Type) where
  bins : Nat → Complex α

structure FFTAccumulator (α : Type) where
  ff_accum : FreqResponse α
  fb_accum : FreqResponse α
  spk_accum : FreqResponse α
  pp_accum : Nat → Complex α
  accum_count : Int

structure BiquadCoeffs (α : Type) where
  b0 : α
  b1 : α
  b2 : α
  a0 : α
  a1 : α
  a2 : α

structure BiquadState (α : Type) where
  x1 : α
  x2 : α
  y1 : α
  y2 : α

structure FeedforwardFilter (α : Type) where
  coeffs : Nat → BiquadCoeffs α
  states : Nat → BiquadState α
  total_gain : α

structure BiquadGradient (α : Type) where
  gain_dB : α
  q : α
  fc : α

structure EQUpdateState (α : Type) where
  params : Nat → BiquadParam α
  total_gain_dB : α
  gradients : Nat → BiquadGradient α
  total_gain_gradient : α
  init_loss : α
  current_loss : α
  update_accepted : Int

inductive ProcessState where
  | SIGNAL_PROCESS
  | CAL_MU
  | CAL_FF_RESPONSE
  | CAL_TARGET_FF
  | STABLE_CHECK
  | CAL_FF_INIT_LOSS
  | UPDATE_EQ_PARAMS
  | UPDATE_FILTER_COEFFS
  deriving DecidableEq, Repr

structure SystemState (α : Type) where
  state : ProcessState
  ff_buffer : TimeBuffer α
  fb_buffer : TimeBuffer α
  spk_buffer : TimeBuffer α
  fft_accum : FFTAccumulator α
  ff_avg : FreqResponse α
  fb_avg : FreqResponse α
  spk_avg : FreqResponse α
  pp_average : Nat → Complex α
  secondary_path : Nat → Complex α
  mu : Nat → α
  target_ff : Nat → Complex α
  current_ff : Nat → Complex α
  prev_target_ff : Nat → Complex α
  prev_smoothness : α
  target_valid : Int
  ff_filter : FeedforwardFilter α
  eq_update : EQUpdateState α
  current_preset_index : Int
  fft_count : Int
  frame_count : Int

/-! ## Complex helpers (`config.h`) -/

def complex_add (a b : Complex α) : Complex α :=
  ⟨a.real + b.real, a.imag + b.imag⟩

def complex_sub (a b : Complex α) : Complex α :=
  ⟨a.real - b.real, a.imag - b.imag⟩

def complex_mul (a b : Complex α) : Complex α :=
  ⟨a.real * b.real - a.imag * b.imag, a.real * b.imag + a.imag * b.real⟩

/-- Division guarded on the squared magnitude of the divisor (`1e-10f`). -/
def complex_div (a b : Complex α) : Complex α :=
  let denom := b.real * b.real + b.imag * b.imag
  if denom > 1 / 10000000000 then
    ⟨(a.real * b.real + a.imag * b.imag) / denom,
     (a.imag * b.real - a.real * b.imag) / denom⟩
  else
    ⟨0, 0⟩

def complex_mag (lm : Libm α) (a : Complex α) : α :=
  lm.sqrtf (a.real * a.real + a.imag * a.imag)

def complex_scale (a : Complex α) (scale : α) : Complex α :=
  ⟨a.real * scale, a.imag * scale⟩

/-! ## Biquad math and cascade response (`main.c`) -/

/-- Function `eq_to_biquad_coeffs`: RBJ synthesis followed by normalisation by `a0`. -/
def eq_to_biquad_coeffs (lm : Libm α) (eq_param : BiquadParam α) (sample_rate : α) : BiquadCoeffs α :=
  let A := lm.powf 10 (eq_param.gain_dB / 40)
  let omega0 := 2 * M_PI * eq_param.fc / sample_rate
  let alpha := lm.sinf omega0 / (2 * eq_param.q)
  let cos_omega0 := lm.cosf omega0
  let c : BiquadCoeffs α :=
    match eq_param.type with
    | BiquadType.BIQUAD_LOWSHELF =>
      { b0 := A * ((A + 1) - (A - 1) * cos_omega0 + 2 * lm.sqrtf A * alpha)
        b1 := 2 * A * ((A - 1) - (A + 1) * cos_omega0)
        b2 := A * ((A + 1) - (A - 1) * cos_omega0 - 2 * lm.sqrtf A * alpha)
        a0 := (A + 1) + (A - 1) * cos_omega0 + 2 * lm.sqrtf A * alpha
        a1 := -2 * ((A - 1) + (A + 1) * cos_omega0)
        a2 := (A + 1) + (A - 1) * cos_omega0 - 2 * lm.sqrtf A * alpha }
    | BiquadType.BIQUAD_HIGHSHELF =>
      { b0 := A * ((A + 1) + (A - 1) * cos_omega0 + 2 * lm.sqrtf A * alpha)
        b1 := -2 * A * ((A - 1) + (A + 1) * cos_omega0)
        b2 := A * ((A + 1) + (A - 1) * cos_omega0 - 2 * lm.sqrtf A * alpha)
        a0 := (A + 1) - (A - 1) * cos_omega0 + 2 * lm.sqrtf A * alpha
        a1 := 2 * ((A - 1) - (A + 1) * cos_omega0)
        a2 := (A + 1) - (A - 1) * cos_omega0 - 2 * lm.sqrtf A * alpha }
    | BiquadType.BIQUAD_PEAKING =>
      { b0 := 1 + alpha * A
        b1 := -2 * cos_omega0
        b2 := 1 - alpha * A
        a0 := 1 + alpha / A
        a1 := -2 * cos_omega0
        a2 := 1 - alpha / A }
  { b0 := c.b0 / c.a0
    b1 := c.b1 / c.a0
    b2 := c.b2 / c.a0
    a0 := 1
    a1 := c.a1 / c.a0
    a2 := c.a2 / c.a0 }

/-- The body of the loop over `k` in `calculate_ff_response`: the value stored in
`current_ff[k]`, the product of the ten section responses at
`omega = 2*pi*k/FFT_LENGTH` times `total_gain`. -/
def ff_response_bin (lm : Libm α) (ff_filter : FeedforwardFilter α) (k : Nat) : Complex α :=
  let omega := 2 * M_PI * (k : α) / (FFT_LENGTH : α)
  let H := forLoop NUM_BIQUADS (fun stage (H : Complex α) =>
    let c := ff_filter.coeffs stage
    let z_inv : Complex α := ⟨lm.cosf omega, -lm.sinf omega⟩
    let z_inv2 := complex_mul z_inv z_inv
    let num : Complex α := ⟨c.b0, 0⟩
    let num := complex_add num (complex_scale z_inv c.b1)
    let num := complex_add num (complex_scale z_inv2 c.b2)
    let den : Complex α := ⟨1, 0⟩
    let den := complex_add den (complex_scale z_inv c.a1)
    let den := complex_add den (complex_scale z_inv2 c.a2)
    let H_stage := complex_div num den
    complex_mul H H_stage) ⟨1, 0⟩
  complex_scale H ff_filter.total_gain

/-- Function `calculate_ff_response`: fills `current_ff[0 .. FFT_HALF_LENGTH)`. -/
def calculate_ff_response (lm : Libm α) (state : SystemState α) : SystemState α :=
  { state with
    current_ff := forLoop FFT_HALF_LENGTH
      (fun k current_ff => Function.update current_ff k (ff_response_bin lm state.ff_filter k))
      state.current_ff }

/-- Function `calculate_loss`: mean over the bins of `|target_ff - current_ff|^2`. -/
def calculate_loss (state : SystemState α) : α :=
  let loss := forLoop FFT_HALF_LENGTH (fun i (loss : α) =>
    let diff := complex_sub (state.target_ff i) (state.current_ff i)
    let mag_squared := diff.real * diff.real + diff.imag * diff.imag
    loss + mag_squared) 0
  loss / (FFT_HALF_LENGTH : α)

/-- The store `state->eq_update.init_loss = v`. -/
def set_init_loss (state : SystemState α) (v : α) : SystemState α :=
  { state with eq_update := { state.eq_update with init_loss := v } }

/-- The store `state->eq_update.current_loss = v`. -/
def set_current_loss (state : SystemState α) (v : α) : SystemState α :=
  { state with eq_update := { state.eq_update with current_loss := v } }

/-- The store `state->eq_update.update_accepted = v`. -/
def set_update_accepted (state : SystemState α) (v : Int) : SystemState α :=
  { state with eq_update := { state.eq_update with update_accepted := v } }

/-- The store `state->eq_update.total_gain_dB = v`. -/
def set_total_gain_dB (state : SystemState α) (v : α) : SystemState α :=
  { state with eq_update := { state.eq_update with total_gain_dB := v } }

/-- The store `state->ff_filter.total_gain = v`. -/
def set_total_gain (state : SystemState α) (v : α) : SystemState α :=
  { state with ff_filter := { state.ff_filter with total_gain := v } }

/-- The store of a whole array into `state->target_ff`. -/
def set_target_ff (state : SystemState α) (t : Nat → Complex α) : SystemState α :=
  { state with target_ff := t }

/-- Function `calculate_ff_init_loss`. -/
def calculate_ff_init_loss (lm : Libm α) (state : SystemState α) : SystemState α :=
  let state := calculate_ff_response lm state
  let state := set_init_loss state (calculate_loss state)
  set_current_loss state state.eq_update.init_loss

def clamp_value (value min_val max_val : α) : α :=
  if value < min_val then min_val
  else if value > max_val then max_val
  else value

/-! ## EQ optimizer (`main.c`) -/

/-- The locals set by the `switch (param_type)` of `update_single_param`. -/
structure ParamSetup (α : Type) where
  original_value : α
  epsilon : α
  learning_rate : α
  max_delta : α
  min_val : α
  max_val : α

/-- The `switch (param_type)` of `update_single_param`; `none` is its `default: return 0`. -/
def param_setup (param : BiquadParam α) (param_type : Nat) : Option (ParamSetup α) :=
  match param_type with
  | 0 => some ⟨param.gain_dB, EPSILON_GAIN, LEARNING_RATE_GAIN, MAX_DELTA_GAIN, MIN_GAIN_DB, MAX_GAIN_DB⟩
  | 1 => some ⟨param.q, EPSILON_Q, LEARNING_RATE_Q, MAX_DELTA_Q, MIN_Q, MAX_Q⟩
  | 2 => some ⟨param.fc, EPSILON_FC, LEARNING_RATE_FC, MAX_DELTA_FC, MIN_FC, MAX_FC⟩
  | _ => none

/-- The store `*param_ptr = v`, where `param_ptr` is `&param->gain_dB` for type 0,
`&param->q` for type 1 and `&param->fc` otherwise. -/
def store_param (param : BiquadParam α) (param_type : Nat) (v : α) : BiquadParam α :=
  if param_type = 0 then { param with gain_dB := v }
  else if param_type = 1 then { param with q := v }
  else { param with fc := v }

/-- The store `*param_ptr = v` through `param = &state->eq_update.params[biquad_idx]`. -/
def write_param (state : SystemState α) (biquad_idx param_type : Nat) (v : α) : SystemState α :=
  { state with
    eq_update := { state.eq_update with
      params := Function.update state.eq_update.params biquad_idx
        (store_param (state.eq_update.params biquad_idx) param_type v) } }

/-- The store `state->eq_update.params[i] = pr` of a whole record. -/
def set_param_record (state : SystemState α) (i : Nat) (pr : BiquadParam α) : SystemState α :=
  { state with
    eq_update := { state.eq_update with
      params := Function.update state.eq_update.params i pr } }

/-- The call `eq_to_biquad_coeffs(&state->eq_update.params[i], REALTIME_SAMPLE_RATE,
&state->ff_filter.coeffs[i])`. -/
def rebuild_coeffs (lm : Libm α) (state : SystemState α) (i : Nat) : SystemState α :=
  { state with
    ff_filter := { state.ff_filter with
      coeffs := Function.update state.ff_filter.coeffs i
        (eq_to_biquad_coeffs lm (state.eq_update.params i) (REALTIME_SAMPLE_RATE : α)) } }

/-- Function `update_single_param`: the new state and the returned `int`. -/
def update_single_param (lm : Libm α) (state : SystemState α) (biquad_idx param_type : Nat) :
    SystemState α × Int :=
  let param := state.eq_update.params biquad_idx
  let original_loss := state.eq_update.current_loss
  match param_setup param param_type with
  | none => (state, 0)
  | some su =>
    let state := write_param state biquad_idx param_type (su.original_value + su.epsilon)
    let state := rebuild_coeffs lm state biquad_idx
    let state := calculate_ff_response lm state
    let loss_plus := calculate_loss state
    let gradient := (loss_plus - original_loss) / su.epsilon
    let state := write_param state biquad_idx param_type su.original_value
    let delta := -su.learning_rate * gradient
    let delta := clamp_value delta (-su.max_delta) su.max_delta
    let new_value := su.original_value + delta
    let new_value := clamp_value new_value su.min_val su.max_val
    let state := write_param state biquad_idx param_type new_value
    let state := rebuild_coeffs lm state biquad_idx
    let state := calculate_ff_response lm state
    let new_loss := calculate_loss state
    if new_loss < original_loss then
      (set_current_loss state new_loss, 1)
    else
      let state := write_param state biquad_idx param_type su.original_value
      let state := rebuild_coeffs lm state biquad_idx
      let state := calculate_ff_response lm state
      (state, 0)

/-- Function `update_eq_params`.  The local `total_accepted` is only logged. -/
def update_eq_params (lm : Libm α) (state : SystemState α) : SystemState α :=
  let state := calculate_ff_response lm state
  let state := set_current_loss state (calculate_loss state)
  let loss_threshold := state.eq_update.init_loss * LOSS_IMPROVEMENT_FACTOR
  if state.eq_update.current_loss ≤ loss_threshold then
    set_update_accepted state 1
  else
    let state := forLoop NUM_BIQUADS (fun i state =>
      let state := (update_single_param lm state i 0).1
      let state := (update_single_param lm state i 1).1
      (update_single_param lm state i 2).1) state
    let original_total_gain := state.eq_update.total_gain_dB
    let original_loss := state.eq_update.current_loss
    let state := set_total_gain_dB state (state.eq_update.total_gain_dB + EPSILON_TOTAL_GAIN)
    let state := set_total_gain state (lm.powf 10 (state.eq_update.total_gain_dB / 20))
    let state := calculate_ff_response lm state
    let loss_plus := calculate_loss state
    let gradient := (loss_plus - original_loss) / EPSILON_TOTAL_GAIN
    let state := set_total_gain_dB state original_total_gain
    let delta := -LEARNING_RATE_TOTAL_GAIN * gradient
    let delta := clamp_value delta (-MAX_DELTA_TOTAL_GAIN) MAX_DELTA_TOTAL_GAIN
    let new_total_gain := original_total_gain + delta
    let new_total_gain := clamp_value new_total_gain MIN_TOTAL_GAIN_DB MAX_TOTAL_GAIN_DB
    let state := set_total_gain_dB state new_total_gain
    let state := set_total_gain state (lm.powf 10 (new_total_gain / 20))
    let state := calculate_ff_response lm state
    let new_loss := calculate_loss state
    let state :=
      if new_loss < original_loss then
        set_current_loss state new_loss
      else
        let state := set_total_gain_dB state original_total_gain
        let state := set_total_gain state (lm.powf 10 (original_total_gain / 20))
        calculate_ff_response lm state
    if state.eq_update.current_loss < state.eq_update.init_loss then
      set_update_accepted state 1
    else
      set_update_accepted state 0

/-- Function `update_filter_coeffs`. -/
def update_filter_coeffs (lm : Libm α) (state : SystemState α) : SystemState α :=
  let state := forLoop NUM_BIQUADS (fun i state => rebuild_coeffs lm state i) state
  set_total_gain state (lm.powf 10 (state.eq_update.total_gain_dB / 20))

/-! ## Target synthesis (`main.c`) -/

/-- Function `calculate_mu`. -/
def calculate_mu (lm : Libm α) (state : SystemState α) : SystemState α :=
  let mu_min : α := 0.0001
  let mu_max : α := 0.1
  let regularization : α := 0.000001
  { state with
    mu := forLoop FFT_HALF_LENGTH (fun i mu =>
      let ff_power := (state.ff_avg.bins i).real * (state.ff_avg.bins i).real +
        (state.ff_avg.bins i).imag * (state.ff_avg.bins i).imag
      let sec_path_mag := complex_mag lm (state.secondary_path i)
      let m := mu_max / (sec_path_mag * sec_path_mag * ff_power + regularization)
      let m := if m < mu_min then mu_min else m
      let m := if m > mu_max then mu_max else m
      Function.update mu i m) state.mu }

/-- The body of the loop of `calculate_target_ff`: the value stored in `target_ff[i]`. -/
def target_ff_bin (lm : Libm α) (state : SystemState α) (i : Nat) : Complex α :=
  let current_ff := state.current_ff i
  let pp := state.pp_average i
  let sp := state.secondary_path i
  let sp_mag := complex_mag lm sp
  let sp : Complex α :=
    if sp_mag < SP_EPSILON then
      let phase := lm.atan2f sp.imag sp.real
      ⟨SP_EPSILON * lm.cosf phase, SP_EPSILON * lm.sinf phase⟩
    else sp
  let pp_over_sp := complex_div pp sp
  let update := complex_scale pp_over_sp (state.mu i)
  complex_add current_ff update

/-- Function `calculate_target_ff`. -/
def calculate_target_ff (lm : Libm α) (state : SystemState α) : SystemState α :=
  { state with
    target_ff := forLoop FFT_HALF_LENGTH
      (fun i target_ff => Function.update target_ff i (target_ff_bin lm state i))
      state.target_ff }

/-! ## Stability gate (`main.c`) -/

/-- Function `calculate_smoothness`: mean square of the second difference. -/
def calculate_smoothness (H_db : Nat → α) (length : Int) : α :=
  if length < 3 then 0
  else
    let acc := forLoop (length - 2).toNat (fun i (acc : α × Int) =>
      let d2 := H_db (i + 2) - 2 * H_db (i + 1) + H_db i
      (acc.1 + d2 * d2, acc.2 + 1)) ((0 : α), (0 : Int))
    if acc.2 > 0 then acc.1 / (acc.2 : α) else 0

/-- The local `bin_low` of `check_target_stability`, clamped at 0. -/
def stable_bin_low : Int :=
  let bin_low := toInt (STABLE_CHECK_FREQ_LOW * (FFT_LENGTH : ℚ) / (DSP_SAMPLE_RATE : ℚ))
  if bin_low < 0 then 0 else bin_low

/-- The local `bin_high` of `check_target_stability`, clamped at `FFT_HALF_LENGTH - 1`. -/
def stable_bin_high : Int :=
  let bin_high := toInt (STABLE_CHECK_FREQ_HIGH * (FFT_LENGTH : ℚ) / (DSP_SAMPLE_RATE : ℚ))
  if bin_high ≥ (FFT_HALF_LENGTH : Int) then (FFT_HALF_LENGTH : Int) - 1 else bin_high

/-- The local `band_len` of `check_target_stability`. -/
def stable_band_len : Int := stable_bin_high - stable_bin_low + 1

/-- The dB conversion loop of `check_target_stability` for one spectrum:
`H[i] = 20 * log10f(|spec[bin_low + i]| + eps)` for `i < band_len`. -/
def band_db (lm : Libm α) (spec : Nat → Complex α) : Nat → α :=
  forLoop stable_band_len.toNat (fun i H =>
    Function.update H i
      (20 * lm.log10f (complex_mag lm (spec (stable_bin_low.toNat + i)) + 1 / 100000000)))
    (fun _ => 0)

/-- Check 2 of `check_target_stability`: the loop counting the bins whose level
moved by more than `SPIKE_DELTA_DB`. -/
def spike_count (H_curr_db H_prev_db : Nat → α) (band_len : Int) : Int :=
  forLoop band_len.toNat (fun i (spike_count : Int) =>
    let delta := fabsf (H_curr_db i - H_prev_db i)
    if delta > SPIKE_DELTA_DB then spike_count + 1 else spike_count) 0

/-- Check 2 of `check_target_stability`: the test `spike_ratio > SPIKE_RATIO_THR`
that rejects. -/
def spike_check_fails (H_curr_db H_prev_db : Nat → α) (band_len : Int) : Prop :=
  ((spike_count H_curr_db H_prev_db band_len : Int) : α) / (band_len : α) > SPIKE_RATIO_THR

instance (H_curr_db H_prev_db : Nat → α) (band_len : Int) :
    Decidable (spike_check_fails H_curr_db H_prev_db band_len) := by
  unfold spike_check_fails; infer_instance

/-- Check 3 of `check_target_stability`: the loop computing `(min_db, max_db)`. -/
def band_min_max (H_curr_db : Nat → α) (band_len : Int) : α × α :=
  forLoop (band_len - 1).toNat (fun j (mm : α × α) =>
    let i := j + 1
    let min_db := if H_curr_db i < mm.1 then H_curr_db i else mm.1
    let max_db := if H_curr_db i > mm.2 then H_curr_db i else mm.2
    (min_db, max_db)) (H_curr_db 0, H_curr_db 0)

/-- Check 4 of `check_target_stability`: the local `mean_delta`. -/
def mean_delta (H_curr_db H_prev_db : Nat → α) (band_len : Int) : α :=
  forLoop band_len.toNat (fun i (mean_delta : α) =>
    mean_delta + (H_curr_db i - H_prev_db i)) 0 / (band_len : α)

/-- The store `state->prev_smoothness = v`. -/
def set_prev_smoothness (state : SystemState α) (v : α) : SystemState α :=
  { state with prev_smoothness := v }

/-- Function `check_target_stability`: the new state and the returned `int`. -/
def check_target_stability (lm : Libm α) (state : SystemState α) : SystemState α × Int :=
  let eps : α := 1 / 100000000
  let band_len := stable_band_len
  if band_len < 3 then (state, 1)
  else
    let H_curr_db := band_db lm state.target_ff
    let H_prev_db := band_db lm state.prev_target_ff
    let smooth_curr := calculate_smoothness H_curr_db band_len
    if smooth_curr > SMOOTH_ALPHA * state.prev_smoothness ∧ state.prev_smoothness > eps then
      (state, 0)
    else if spike_check_fails H_curr_db H_prev_db band_len then
      (state, 0)
    else
      let mm := band_min_max H_curr_db band_len
      if mm.1 < RESPONSE_LOW_DB ∨ mm.2 > RESPONSE_HIGH_DB then
        (state, 0)
      else if fabsf (mean_delta H_curr_db H_prev_db band_len) > MEAN_SHIFT_THR_DB then
        (state, 0)
      else
        (set_prev_smoothness state smooth_curr, 1)

/-! ## Block-rate analyzer and scheduler (`main.c`) -/

/-- Rounding to the nearest integer, ties to the even one. -/
def round_half_even (x : ℚ) : Int :=
  let f := Rat.floor x
  if x - (f : ℚ) < 1 / 2 then f
  else if 1 / 2 < x - (f : ℚ) then f + 1
  else if f % 2 = 0 then f else f + 1

/-- The binary32 value nearest to the rational `x`, ties to even: 24 significant bits
in the binade of `x`, the last place never below `2^-149` (subnormals).  Overflow to
infinity (`|x| >= 2^128`) is outside the model. -/
def round_binary32 (x : ℚ) : ℚ :=
  if x = 0 then 0
  else
    let e := max (Int.log 2 |x|) (-126)
    let ulp : ℚ := 2 ^ (e - 23)
    (round_half_even (x / ulp) : ℚ) * ulp

/-- The local `src_idx` of `anti_alias_decimate` at loop index `i`, the value of
`(int)(i * ratio)` with `ratio = (float)input_len / (float)output_len`: the two
conversions, the quotient, the conversion of `i` and the product are each rounded to
binary32. -/
def decimate_src_idx (input_len : Int) (output_len i : Nat) : Int :=
  let ratio : ℚ :=
    round_binary32 (round_binary32 (input_len : ℚ) / round_binary32 (output_len : ℚ))
  toInt (round_binary32 (round_binary32 (i : ℚ) * ratio))

/-- Function `anti_alias_decimate`: nearest-index resampling into `output`. -/
def anti_alias_decimate (input : Nat → α) (input_len : Int) (output : Nat → α)
    (output_len : Nat) : Nat → α :=
  forLoop output_len (fun i output =>
    let src_idx := decimate_src_idx input_len output_len i
    if src_idx < input_len then Function.update output i (input src_idx.toNat) else output)
    output

/-- Function `apply_window` with the global `blackman_window`. -/
def apply_window (blackman_window : Nat → α) (buffer : Nat → α) (windowed : Nat → α)
    (length : Nat) : Nat → α :=
  forLoop length (fun i windowed =>
    Function.update windowed i (buffer i * blackman_window i)) windowed

/-- Function `perform_fft`: the direct DFT sum on `FFT_HALF_LENGTH` bins. -/
def perform_fft (lm : Libm α) (input : Nat → α) (output : Nat → Complex α) (length : Nat) :
    Nat → Complex α :=
  forLoop FFT_HALF_LENGTH (fun k output =>
    Function.update output k
      (forLoop length (fun n (acc : Complex α) =>
        let angle := -2 * M_PI * (k : α) * (n : α) / (length : α)
        (⟨acc.real + input n * lm.cosf angle, acc.imag + input n * lm.sinf angle⟩ : Complex α))
        ⟨0, 0⟩)) output

/-- Function `accumulate_fft_results`. -/
def accumulate_fft_results (fft_result : Nat → Complex α) (accum : FreqResponse α) :
    FreqResponse α :=
  { bins := forLoop FFT_HALF_LENGTH (fun i bins =>
      Function.update bins i
        ⟨(bins i).real + (fft_result i).real, (bins i).imag + (fft_result i).imag⟩) accum.bins }

/-- Function `average_fft_results`: writes the four averages into the state. -/
def average_fft_results (g : SystemState α) : SystemState α :=
  let scale : α := 1 / (g.fft_accum.accum_count : α)
  { g with
    ff_avg := ⟨forLoop FFT_HALF_LENGTH (fun i bins =>
      Function.update bins i (complex_scale (g.fft_accum.ff_accum.bins i) scale)) g.ff_avg.bins⟩
    fb_avg := ⟨forLoop FFT_HALF_LENGTH (fun i bins =>
      Function.update bins i (complex_scale (g.fft_accum.fb_accum.bins i) scale)) g.fb_avg.bins⟩
    spk_avg := ⟨forLoop FFT_HALF_LENGTH (fun i bins =>
      Function.update bins i (complex_scale (g.fft_accum.spk_accum.bins i) scale)) g.spk_avg.bins⟩
    pp_average := forLoop FFT_HALF_LENGTH (fun i pp =>
      Function.update pp i (complex_scale (g.fft_accum.pp_accum i) scale)) g.pp_average }

/-- One store `buf->data[buf->write_index] = x` followed by the advance of
`write_index` modulo `FFT_LENGTH`. -/
def push_sample (buf : TimeBuffer α) (x : α) : TimeBuffer α :=
  { buf with
    data := Function.update buf.data buf.write_index x
    write_index := (buf.write_index + 1) % FFT_LENGTH }

/-- Steps 1 and 2 of `process_audio_frame`: decimate the three frames, append them
to the ring buffers and advance the three `sample_count`s.  The local arrays
`ff_decimated`, `fb_decimated`, `spk_decimated` start as zeros here; for a frame of
positive length every entry is overwritten. -/
def buffer_frame (g : SystemState α) (ff_in fb_in spk_in : Nat → α) (frame_len : Int) :
    SystemState α :=
  let ff_decimated := anti_alias_decimate ff_in frame_len (fun _ => 0) SAMPLES_PER_INTERVAL
  let fb_decimated := anti_alias_decimate fb_in frame_len (fun _ => 0) SAMPLES_PER_INTERVAL
  let spk_decimated := anti_alias_decimate spk_in frame_len (fun _ => 0) SAMPLES_PER_INTERVAL
  let bufs := forLoop SAMPLES_PER_INTERVAL
    (fun i (b : TimeBuffer α × TimeBuffer α × TimeBuffer α) =>
      (push_sample b.1 (ff_decimated i), push_sample b.2.1 (fb_decimated i),
        push_sample b.2.2 (spk_decimated i)))
    (g.ff_buffer, g.fb_buffer, g.spk_buffer)
  { g with
    ff_buffer := { bufs.1 with sample_count := bufs.1.sample_count + SAMPLES_PER_INTERVAL }
    fb_buffer := { bufs.2.1 with sample_count := bufs.2.1.sample_count + SAMPLES_PER_INTERVAL }
    spk_buffer := { bufs.2.2 with sample_count := bufs.2.2.sample_count + SAMPLES_PER_INTERVAL } }

/-- The FFT pass of `case SIGNAL_PROCESS`: window and transform the three ring
buffers, accumulate, accumulate the per-bin ratio FB/FF, count, and take one hop off
the three `sample_count`s. -/
def fft_pass (lm : Libm α) (blackman_window : Nat → α) (g : SystemState α) : SystemState α :=
  let windowed := apply_window blackman_window g.ff_buffer.data (fun _ => 0) FFT_LENGTH
  let ff_fft := perform_fft lm windowed (fun _ => ⟨0, 0⟩) FFT_LENGTH
  let ff_accum := accumulate_fft_results ff_fft g.fft_accum.ff_accum
  let windowed := apply_window blackman_window g.fb_buffer.data windowed FFT_LENGTH
  let fb_fft := perform_fft lm windowed (fun _ => ⟨0, 0⟩) FFT_LENGTH
  let fb_accum := accumulate_fft_results fb_fft g.fft_accum.fb_accum
  let windowed := apply_window blackman_window g.spk_buffer.data windowed FFT_LENGTH
  let fft_result := perform_fft lm windowed (fun _ => ⟨0, 0⟩) FFT_LENGTH
  let spk_accum := accumulate_fft_results fft_result g.fft_accum.spk_accum
  let pp_accum := forLoop FFT_HALF_LENGTH (fun i pp_accum =>
    let pp := complex_div (fb_fft i) (ff_fft i)
    Function.update pp_accum i
      ⟨(pp_accum i).real + pp.real, (pp_accum i).imag + pp.imag⟩) g.fft_accum.pp_accum
  { g with
    fft_accum :=
      { ff_accum := ff_accum
        fb_accum := fb_accum
        spk_accum := spk_accum
        pp_accum := pp_accum
        accum_count := g.fft_accum.accum_count + 1 }
    fft_count := g.fft_count + 1
    ff_buffer := { g.ff_buffer with sample_count := g.ff_buffer.sample_count - FFT_HOP_SIZE }
    fb_buffer := { g.fb_buffer with sample_count := g.fb_buffer.sample_count - FFT_HOP_SIZE }
    spk_buffer := { g.spk_buffer with sample_count := g.spk_buffer.sample_count - FFT_HOP_SIZE } }

/-- The all-zero accumulator left by `memset(&g_system_state.fft_accum, 0, ...)`. -/
def zero_accum : FFTAccumulator α :=
  ⟨⟨fun _ => ⟨0, 0⟩⟩, ⟨fun _ => ⟨0, 0⟩⟩, ⟨fun _ => ⟨0, 0⟩⟩, fun _ => ⟨0, 0⟩, 0⟩

/-- The body of `case SIGNAL_PROCESS` of `process_audio_frame`. -/
def signal_process (lm : Libm α) (blackman_window : Nat → α) (g : SystemState α) :
    SystemState α :=
  let g :=
    if g.frame_count = 0 ∧ g.ff_buffer.sample_count ≥ (FFT_LENGTH : Int) then
      { g with fft_count := 0, fft_accum := zero_accum }
    else g
  let g :=
    if g.ff_buffer.sample_count ≥ FFT_HOP_SIZE ∧ g.fft_count < NUM_FFT_AVERAGE then
      fft_pass lm blackman_window g
    else g
  let g :=
    if g.fft_count ≥ NUM_FFT_AVERAGE then
      { average_fft_results g with state := ProcessState.CAL_MU }
    else g
  { g with frame_count := g.frame_count + 1 }

/-- The body of `case STABLE_CHECK` of `process_audio_frame`. -/
def stable_check (lm : Libm α) (g : SystemState α) : SystemState α :=
  let r := check_target_stability lm g
  let g : SystemState α := { r.1 with target_valid := r.2 }
  if g.target_valid ≠ 0 then
    { g with prev_target_ff := g.target_ff, state := ProcessState.CAL_FF_INIT_LOSS }
  else
    { g with state := ProcessState.SIGNAL_PROCESS, frame_count := 0, fft_count := 0 }

/-- Function `process_audio_frame` on the global `g_system_state`, with the global
`blackman_window` as an argument. -/
def process_audio_frame (lm : Libm α) (blackman_window : Nat → α) (g : SystemState α)
    (ff_in fb_in spk_in : Nat → α) (frame_len : Int) : SystemState α :=
  let g := buffer_frame g ff_in fb_in spk_in frame_len
  match g.state with
  | ProcessState.SIGNAL_PROCESS => signal_process lm blackman_window g
  | ProcessState.CAL_MU =>
    { calculate_mu lm g with state := ProcessState.CAL_FF_RESPONSE }
  | ProcessState.CAL_FF_RESPONSE =>
    { calculate_ff_response lm g with state := ProcessState.CAL_TARGET_FF }
  | ProcessState.CAL_TARGET_FF =>
    { calculate_target_ff lm g with state := ProcessState.STABLE_CHECK }
  | ProcessState.STABLE_CHECK => stable_check lm g
  | ProcessState.CAL_FF_INIT_LOSS =>
    { calculate_ff_init_loss lm g with state := ProcessState.UPDATE_EQ_PARAMS }
  | ProcessState.UPDATE_EQ_PARAMS =>
    { update_eq_params lm g with state := ProcessState.UPDATE_FILTER_COEFFS }
  | ProcessState.UPDATE_FILTER_COEFFS =>
    { update_filter_coeffs lm g with
      state := ProcessState.SIGNAL_PROCESS, frame_count := 0, fft_count := 0 }

/-! ## Presets and initialisation (`coeffs.h`, `main.c`) -/

/-- The table `secondary_path[set][j]` of `coeffs.h`: set 0 gives the entries
written in the initialiser, every other entry is zero-initialised. -/
def secondary_path_table (set j : Nat) : α :=
  if set = 0 then
    if j = 0 then 1
    else if j = 1 then 0
    else if j = 2 then 0.99
    else if j = 3 then 0.1
    else if j = FFT_HALF_LENGTH * 2 - 2 then 0.5
    else 0
  else 0

/-- The record `eq_presets[set]` of `coeffs.h`: set 0 as written, the other sets
zero-initialised. -/
def eq_presets_biquads (set i : Nat) : BiquadParam α :=
  if set = 0 then
    match i with
    | 0 => ⟨BiquadType.BIQUAD_LOWSHELF, 0, 0.707, 100⟩
    | 1 => ⟨BiquadType.BIQUAD_PEAKING, 0, 1, 250⟩
    | 2 => ⟨BiquadType.BIQUAD_PEAKING, 0, 1, 500⟩
    | 3 => ⟨BiquadType.BIQUAD_PEAKING, 0, 1, 1000⟩
    | 4 => ⟨BiquadType.BIQUAD_PEAKING, 0, 1, 2000⟩
    | 5 => ⟨BiquadType.BIQUAD_PEAKING, 0, 1, 4000⟩
    | 6 => ⟨BiquadType.BIQUAD_PEAKING, 0, 1, 8000⟩
    | 7 => ⟨BiquadType.BIQUAD_PEAKING, 0, 1, 12000⟩
    | 8 => ⟨BiquadType.BIQUAD_PEAKING, 0, 1, 14000⟩
    | 9 => ⟨BiquadType.BIQUAD_HIGHSHELF, 0, 0.707, 15000⟩
    | _ => ⟨BiquadType.BIQUAD_LOWSHELF, 0, 0, 0⟩
  else ⟨BiquadType.BIQUAD_LOWSHELF, 0, 0, 0⟩

/-- The field `eq_presets[set].total_gain_dB`. -/
def eq_presets_total_gain_dB (_set : Nat) : α := 0

/-- Function `init_blackman_window`: the contents of the global `blackman_window`. -/
def init_blackman_window (lm : Libm α) : Nat → α :=
  forLoop FFT_LENGTH (fun i w =>
    Function.update w i
      (0.42 - 0.5 * lm.cosf (2 * M_PI * (i : α) / ((FFT_LENGTH : α) - 1))
        + 0.08 * lm.cosf (4 * M_PI * (i : α) / ((FFT_LENGTH : α) - 1))))
    (fun _ => 0)

/-- The all-zero `SystemState` left by `memset(&g_system_state, 0, ...)`. -/
def zero_state : SystemState α :=
  { state := ProcessState.SIGNAL_PROCESS
    ff_buffer := ⟨fun _ => 0, 0, 0⟩
    fb_buffer := ⟨fun _ => 0, 0, 0⟩
    spk_buffer := ⟨fun _ => 0, 0, 0⟩
    fft_accum := ⟨⟨fun _ => ⟨0, 0⟩⟩, ⟨fun _ => ⟨0, 0⟩⟩, ⟨fun _ => ⟨0, 0⟩⟩, fun _ => ⟨0, 0⟩, 0⟩
    ff_avg := ⟨fun _ => ⟨0, 0⟩⟩
    fb_avg := ⟨fun _ => ⟨0, 0⟩⟩
    spk_avg := ⟨fun _ => ⟨0, 0⟩⟩
    pp_average := fun _ => ⟨0, 0⟩
    secondary_path := fun _ => ⟨0, 0⟩
    mu := fun _ => 0
    target_ff := fun _ => ⟨0, 0⟩
    current_ff := fun _ => ⟨0, 0⟩
    prev_target_ff := fun _ => ⟨0, 0⟩
    prev_smoothness := 0
    target_valid := 0
    ff_filter := ⟨fun _ => ⟨0, 0, 0, 0, 0, 0⟩, fun _ => ⟨0, 0, 0, 0⟩, 0⟩
    eq_update :=
      { params := fun _ => ⟨BiquadType.BIQUAD_LOWSHELF, 0, 0, 0⟩
        total_gain_dB := 0
        gradients := fun _ => ⟨0, 0, 0⟩
        total_gain_gradient := 0
        init_loss := 0
        current_loss := 0
        update_accepted := 0 }
    current_preset_index := 0
    fft_count := 0
    frame_count := 0 }

/-- Function `system_init`: the value of `g_system_state` it leaves (the global
`blackman_window` is `init_blackman_window`). -/
def system_init (lm : Libm α) : SystemState α :=
  let g := zero_state
  let g := { g with state := ProcessState.SIGNAL_PROCESS, current_preset_index := 0 }
  let g := { g with
    secondary_path := forLoop FFT_HALF_LENGTH (fun i sp =>
      Function.update sp i
        ⟨secondary_path_table g.current_preset_index.toNat (i * 2),
         secondary_path_table g.current_preset_index.toNat (i * 2 + 1)⟩) g.secondary_path }
  let preset := g.current_preset_index.toNat
  let g := forLoop NUM_BIQUADS (fun i g =>
    let g := set_param_record g i (eq_presets_biquads preset i)
    rebuild_coeffs lm g i) g
  let g := { g with
    eq_update := { g.eq_update with
      total_gain_dB := eq_presets_total_gain_dB preset
      init_loss := 0
      current_loss := 0
      update_accepted := 0 }
    ff_filter := { g.ff_filter with
      total_gain := lm.powf 10 (eq_presets_total_gain_dB preset / 20) } }
  { g with
    prev_target_ff := fun _ => ⟨0, 0⟩
    prev_smoothness := 1
    target_valid := 1 }

/-- A stand-in math library for instantiating theorems at concrete inputs.  It
is exact at the arguments `powf(x, 0)`, `sinf(0)`, `cosf(0)`, `sqrtf(0)`,
`sqrtf(1)`, `sqrtf(1e-12)`, `log10f(1)`, `atan2f(0, x)` with `x >= 0`; its values
elsewhere are arbitrary. -/
def sample_libm : Libm ℚ :=
  { powf := fun x y => if y = 0 then 1 else x
    sinf := fun _ => 0
    cosf := fun _ => 1
    sqrtf := fun x => if x = 1 / 1000000000000 then 1 / 1000000 else x
    log10f := fun x => x - 1
    atan2f := fun _ _ => 0 }

/-! ## Specification-side notions for the optimizer (spec §4.7) -/

/-- Spec §4.7 step 5, "install v; recompute cascade response": parameter `p` of
biquad `b` is set to `v`, that biquad's coefficients are rebuilt at the realtime
rate and the cascade response is recomputed. -/
def install_value (lm : Libm α) (state : SystemState α) (b p : Nat) (v : α) : SystemState α :=
  calculate_ff_response lm (rebuild_coeffs lm (write_param state b p v) b)

/-- The loss with value `v` installed. -/
def loss_with (lm : Libm α) (state : SystemState α) (b p : Nat) (v : α) : α :=
  calculate_loss (install_value lm state b p v)

/-- Spec §4.7 step 1: the finite-difference gradient against the cached loss. -/
def fd_gradient (lm : Libm α) (state : SystemState α) (b p : Nat) (su : ParamSetup α) : α :=
  (loss_with lm state b p (su.original_value + su.epsilon) - state.eq_update.current_loss)
    / su.epsilon

/-- Spec §4.7 steps 3 and 4: the capped step, clipped to the box. -/
def candidate_value (lm : Libm α) (state : SystemState α) (b p : Nat) (su : ParamSetup α) : α :=
  clamp_value
    (su.original_value +
      clamp_value (-su.learning_rate * fd_gradient lm state b p su) (-su.max_delta) su.max_delta)
    su.min_val su.max_val

/-- A concrete state whose target is the response of the installed filter: the
state left by `system_init` with `target_ff` set to the cascade response. -/
def fixed_point_state : SystemState ℚ :=
  set_target_ff (system_init sample_libm)
    (fun k => ff_response_bin sample_libm (system_init sample_libm).ff_filter k)

/-- The state left by `system_init` with the gain of biquad 0 raised to 19.5 dB. -/
def clamp_demo_base : SystemState ℚ :=
  set_param_record (system_init sample_libm) 0 ⟨BiquadType.BIQUAD_LOWSHELF, 19.5, 0.707, 100⟩

/-- A concrete state in which the gain step of biquad 0 leaves the box: gain 19.5 dB,
the target is the response with gain 19.51 dB and the cached loss is 1. -/
def clamp_demo_state : SystemState ℚ :=
  set_current_loss
    (set_target_ff clamp_demo_base
      (install_value sample_libm clamp_demo_base 0 0 (19.5 + 0.01)).current_ff)
    1

/-- The parameter box of one biquad. -/
def in_box (pr : BiquadParam α) : Prop :=
  -20 ≤ pr.gain_dB ∧ pr.gain_dB ≤ 20 ∧ (0.3 : α) ≤ pr.q ∧ pr.q ≤ 10 ∧ 20 ≤ pr.fc ∧ pr.fc ≤ 20000

/-- The parameter box of the whole filter. -/
def param_box (state : SystemState α) : Prop :=
  (∀ b, b < NUM_BIQUADS → in_box (state.eq_update.params b)) ∧
    -10 ≤ state.eq_update.total_gain_dB ∧ state.eq_update.total_gain_dB ≤ 10

/-! ## The phases of `update_eq_params`, for the proofs -/

/-- The state `update_eq_params` tests for the early skip: the response is
recomputed and the loss cached. -/
def eq_entry (lm : Libm α) (state : SystemState α) : SystemState α :=
  set_current_loss (calculate_ff_response lm state)
    (calculate_loss (calculate_ff_response lm state))

/-- The 30 per-parameter steps of `update_eq_params`, biquad by biquad. -/
def biquad_sweep (lm : Libm α) (state : SystemState α) : SystemState α :=
  forLoop NUM_BIQUADS (fun i state =>
    let state := (update_single_param lm state i 0).1
    let state := (update_single_param lm state i 1).1
    (update_single_param lm state i 2).1) state

/-- The state with total gain `g` (in dB) installed and the response recomputed. -/
def install_total_gain (lm : Libm α) (state : SystemState α) (g : α) : SystemState α :=
  calculate_ff_response lm (set_total_gain (set_total_gain_dB state g) (lm.powf 10 (g / 20)))

/-- The clipped candidate of the total-gain step of `update_eq_params`. -/
def total_gain_candidate (lm : Libm α) (state : SystemState α) : α :=
  clamp_value
    (state.eq_update.total_gain_dB +
      clamp_value
        (-LEARNING_RATE_TOTAL_GAIN *
          ((calculate_loss (install_total_gain lm state
              (state.eq_update.total_gain_dB + EPSILON_TOTAL_GAIN))
            - state.eq_update.current_loss) / EPSILON_TOTAL_GAIN))
        (-MAX_DELTA_TOTAL_GAIN) MAX_DELTA_TOTAL_GAIN)
    MIN_TOTAL_GAIN_DB MAX_TOTAL_GAIN_DB

/-- The total-gain step of `update_eq_params`. -/
def total_gain_step (lm : Libm α) (state : SystemState α) : SystemState α :=
  if calculate_loss (install_total_gain lm state (total_gain_candidate lm state))
      < state.eq_update.current_loss then
    set_current_loss (install_total_gain lm state (total_gain_candidate lm state))
      (calculate_loss (install_total_gain lm state (total_gain_candidate lm state)))
  else
    install_total_gain lm state state.eq_update.total_gain_dB

/-- The final verdict of `update_eq_params`. -/
def final_verdict (state : SystemState α) : SystemState α :=
  if state.eq_update.current_loss < state.eq_update.init_loss then
    set_update_accepted state 1
  else
    set_update_accepted state 0

/-! ## The gate as one decision, for the proofs -/

/-- The four tests of `check_target_stability` as the code evaluates them: none of
the four rejecting conditions holds. -/
def gate_accepts (lm : Libm α) (target prev : Nat → Complex α) (prev_smoothness : α) : Prop :=
  ¬ (calculate_smoothness (band_db lm target) stable_band_len > SMOOTH_ALPHA * prev_smoothness ∧
      prev_smoothness > 1 / 100000000) ∧
    ¬ spike_check_fails (band_db lm target) (band_db lm prev) stable_band_len ∧
    ¬ ((band_min_max (band_db lm target) stable_band_len).1 < RESPONSE_LOW_DB ∨
      (band_min_max (band_db lm target) stable_band_len).2 > RESPONSE_HIGH_DB) ∧
    ¬ (fabsf (mean_delta (band_db lm target) (band_db lm prev) stable_band_len)
      > MEAN_SHIFT_THR_DB)

instance (lm : Libm α) (target prev : Nat → Complex α) (prev_smoothness : α) :
    Decidable (gate_accepts lm target prev prev_smoothness) := by
  unfold gate_accepts; infer_instance

/-! ## Specification-side notions for target synthesis (spec §4.5) and sample states -/

/-- The exact complex quotient `a / b = a * conj(b) / |b|^2`. -/
def complex_div_exact (a b : Complex α) : Complex α :=
  ⟨(a.real * b.real + a.imag * b.imag) / (b.real * b.real + b.imag * b.imag),
   (a.imag * b.real - a.real * b.imag) / (b.real * b.real + b.imag * b.imag)⟩

/-- Spec §4.5: the secondary path with the phase-preserving floor, `S` itself when
`|S| >= 1e-8` and `1e-8 * (cos phi, sin phi)` with `phi = atan2(Im S, Re S)` otherwise. -/
def floored_secondary_path (lm : Libm α) (sp : Complex α) : Complex α :=
  if 1 / 100000000 ≤ complex_mag lm sp then sp
  else
    ⟨1 / 100000000 * lm.cosf (lm.atan2f sp.imag sp.real),
     1 / 100000000 * lm.sinf (lm.atan2f sp.imag sp.real)⟩

/-- Spec §4.5: the target `W_current + mu * (PP / S')` with exact division. -/
def spec_target_bin (lm : Libm α) (state : SystemState α) (k : Nat) : Complex α :=
  complex_add (state.current_ff k)
    (complex_scale
      (complex_div_exact (state.pp_average k)
        (floored_secondary_path lm (state.secondary_path k)))
      (state.mu k))

/-- A state with an all-zero secondary path, `pp_average = 1` and `mu = 0.1` on
every bin. -/
def floor_demo_state : SystemState ℚ :=
  { zero_state with pp_average := fun _ => ⟨1, 0⟩, mu := fun _ => 0.1 }

/-- A state with secondary path `1e-6` (magnitude above the `1e-8` floor, squared
magnitude below the `1e-10` guard), `pp_average = 1` and `mu = 0.1` on every bin. -/
def guard_demo_state : SystemState ℚ :=
  { zero_state with
    secondary_path := fun _ => ⟨1 / 1000000, 0⟩
    pp_average := fun _ => ⟨1, 0⟩
    mu := fun _ => 0.1 }

/-- A state with secondary path `1`, `pp_average = 1` and `mu = 0.1` on every bin. -/
def unit_sp_state : SystemState ℚ :=
  { zero_state with
    secondary_path := fun _ => ⟨1, 0⟩
    pp_average := fun _ => ⟨1, 0⟩
    mu := fun _ => 0.1 }

/-! ## Specification-side notions for the stability gate (spec §4.6) and sample inputs -/

/-- Spec §4.6: `H_db[i] = 20 * log10(|W[k]| + 1e-8)` on the band bins `k = 12 + i`,
`i = 0 .. 52` (200 Hz to 1000 Hz). -/
def spec_H_db (lm : Libm α) (spec : Nat → Complex α) (i : Nat) : α :=
  20 * lm.log10f (complex_mag lm (spec (12 + i)) + 1 / 100000000)

/-- Spec §4.6 check 1: the mean over `i` of `(H[i+2] - 2 H[i+1] + H[i])^2`. -/
def spec_smoothness (H : Nat → α) : α :=
  (∑ i in Finset.range 51, (H (i + 2) - 2 * H (i + 1) + H i) ^ 2) / 51

/-- Spec §4.6 check 2: the number of `i` with `|H[i] - H_prev[i]| > 6`. -/
def spec_spike_number (H Hp : Nat → α) : Nat :=
  ((Finset.range 53).filter (fun i => |H i - Hp i| > 6)).card

/-- Spec §4.6 check 4: the mean of `H - H_prev` over the band. -/
def spec_mean_shift (H Hp : Nat → α) : α :=
  (∑ i in Finset.range 53, (H i - Hp i)) / 53

/-- Spec §4.6: the four conditions under which the gate passes. -/
def spec_gate_passes (H Hp : Nat → α) (prev_smoothness : α) : Prop :=
  ¬ (spec_smoothness H > 3 * prev_smoothness ∧ prev_smoothness > 1 / 100000000) ∧
    (spec_spike_number H Hp : α) ≤ 0.1 * 53 ∧
    ((∀ i, i < 53 → -40 ≤ H i) ∧ (∀ i, i < 53 → H i ≤ 10)) ∧
    |spec_mean_shift H Hp| ≤ 3

/-- A previous band level of 0 dB on every band bin. -/
def spike_prev_db : Nat → ℚ := fun _ => 0

/-- The band level of `spike_prev_db` with a 20 dB spike at band index 20 (bin 32,
500 Hz). -/
def spike_curr_db : Nat → ℚ := fun i => if i = 20 then 20 else 0

/-- A state whose target differs from the previous target at bin 32 only, by
20 dB under `sample_libm`. -/
def spike_demo_state : SystemState ℚ :=
  { zero_state with
    prev_target_ff := fun _ => ⟨1, 0⟩
    target_ff := fun k => if k = 32 then ⟨1, 1⟩ else ⟨1, 0⟩ }

/-! ## FIR convolver (`fir_filter.h`, `fir_filter.c`) -/

def MAX_FIR_LENGTH : Nat := 8192

/-- The `FIRFilter` record; the `int` fields index the arrays through `Int.toNat`. -/
structure FIRFilter (α : Type) where
  coeffs : Nat → α
  buffer : Nat → α
  length : Int
  write_index : Int

/-- Function `fir_init`: truncate the length, copy `length` coefficients, clear the
delay line. -/
def fir_init (fir : FIRFilter α) (coeffs : Nat → α) (length : Int) : FIRFilter α :=
  let length := if length > (MAX_FIR_LENGTH : Int) then (MAX_FIR_LENGTH : Int) else length
  { length := length
    write_index := 0
    coeffs := fun i => if (i : Int) < length then coeffs i else fir.coeffs i
    buffer := fun i => if i < MAX_FIR_LENGTH then 0 else fir.buffer i }

/-- Function `fir_process`: the new filter state and the returned sample. -/
def fir_process (fir : FIRFilter α) (input : α) : FIRFilter α × α :=
  let buffer := Function.update fir.buffer fir.write_index.toNat input
  let acc := forLoop fir.length.toNat (fun k (acc : α × Int) =>
    let output := acc.1 + fir.coeffs k * buffer acc.2.toNat
    let read_index := acc.2 - 1
    let read_index := if read_index < 0 then fir.length - 1 else read_index
    (output, read_index)) ((0 : α), fir.write_index)
  let write_index := fir.write_index + 1
  let write_index := if write_index ≥ fir.length then 0 else write_index
  ({ fir with buffer := buffer, write_index := write_index }, acc.1)

/-- Function `fir_reset`. -/
def fir_reset (fir : FIRFilter α) : FIRFilter α :=
  { fir with
    buffer := fun i => if i < MAX_FIR_LENGTH then 0 else fir.buffer i
    write_index := 0 }

/-- The filter state after the first `n` calls `fir_process(fir, x[0])`, ...,
`fir_process(fir, x[n-1])`. -/
def fir_run (fir : FIRFilter α) (x : Nat → α) : Nat → FIRFilter α
  | 0 => fir
  | n + 1 => (fir_process (fir_run fir x n) (x n)).1

/-! ## Time-domain simulator (`time_domain_sim.h`, `time_domain_sim.c`) -/

structure BiquadTimeDomainState (α : Type) where
  x1 : α
  x2 : α
  y1 : α
  y2 : α

/-- The `TimeDomainSimulator` record.  The three sample arrays are the three
separate allocations of `time_sim_init`; `current_sample` is the read cursor into
them. -/
structure TimeDomainSimulator (α : Type) where
  biquad_states : Nat → BiquadTimeDomainState α
  secondary_path_fir : FIRFilter α
  original_ff : Nat → α
  original_fb : Nat → α
  simulated_fb : Nat → α
  total_samples : Int
  current_sample : Nat
  enabled : Int

/-- Function `time_sim_init` (the allocations succeed): the simulator it sets up from
an arbitrary prior record. -/
def time_sim_init (sim : TimeDomainSimulator α) (ff_signal fb_signal : Nat → α)
    (num_samples : Int) (sp_ir : Nat → α) (sp_length : Int) : TimeDomainSimulator α :=
  { total_samples := num_samples
    current_sample := 0
    original_ff := ff_signal
    original_fb := fb_signal
    simulated_fb := fb_signal
    biquad_states := fun _ => ⟨0, 0, 0, 0⟩
    secondary_path_fir := fir_init sim.secondary_path_fir sp_ir sp_length
    enabled := 1 }

/-- Function `biquad_process_sample` (Direct Form II Transposed): the new state and
the returned sample. -/
def biquad_process_sample (input : α) (coeffs : BiquadCoeffs α)
    (state : BiquadTimeDomainState α) : BiquadTimeDomainState α × α :=
  let output := coeffs.b0 * input + state.x1
  let x1 := coeffs.b1 * input - coeffs.a1 * output + state.x2
  let x2 := coeffs.b2 * input - coeffs.a2 * output
  ({ state with x1 := x1, x2 := x2 }, output)

/-- The cascade loop of `time_sim_process`: the ten stepper states after the sample
and the sample `filtered` leaving the last section. -/
def biquad_cascade (coeffs : Nat → BiquadCoeffs α) (states : Nat → BiquadTimeDomainState α)
    (input : α) : (Nat → BiquadTimeDomainState α) × α :=
  forLoop NUM_BIQUADS (fun stage (acc : (Nat → BiquadTimeDomainState α) × α) =>
    let r := biquad_process_sample acc.2 (coeffs stage) (acc.1 stage)
    (Function.update acc.1 stage r.1, r.2)) (states, input)

/-- The body of the sample loop of `time_sim_process` for loop index `i`. -/
def time_sim_step (coeffs : Nat → BiquadCoeffs α) (total_gain : α) (start_idx : Nat) (i : Nat)
    (sim : TimeDomainSimulator α) : TimeDomainSimulator α :=
  let idx := start_idx + i
  let ff_sample := sim.original_ff idx
  let st := biquad_cascade coeffs sim.biquad_states ff_sample
  let filtered := st.2 * total_gain
  let fr := fir_process sim.secondary_path_fir filtered
  let anti_noise := fr.2
  let original_error := sim.original_fb idx
  let simulated_error := original_error - anti_noise
  { sim with
    biquad_states := st.1
    secondary_path_fir := fr.1
    simulated_fb := Function.update sim.simulated_fb idx simulated_error }

/-- The two resets of `time_sim_process`: the `memset` of `biquad_states` and
`fir_reset`. -/
def time_sim_reset_filters (sim : TimeDomainSimulator α) : TimeDomainSimulator α :=
  { sim with
    biquad_states := fun _ => ⟨0, 0, 0, 0⟩
    secondary_path_fir := fir_reset sim.secondary_path_fir }

/-- The clipped sample count of `time_sim_process`.  The sum of the test is the sum of
the integers; it is the value of the C expression `start_idx + num_samples` when that
stays in `int` range (`time_sim_in_range`), and the C addition overflows otherwise. -/
def time_sim_count (sim : TimeDomainSimulator α) (num_samples : Int) : Int :=
  if (sim.current_sample : Int) + num_samples > sim.total_samples then
    sim.total_samples - (sim.current_sample : Int)
  else num_samples

/-- Function `time_sim_process`. -/
def time_sim_process (sim : TimeDomainSimulator α) (coeffs : Nat → BiquadCoeffs α)
    (total_gain : α) (num_samples : Int) : TimeDomainSimulator α :=
  if sim.enabled = 0 then sim
  else
    let start_idx := sim.current_sample
    let num_samples := time_sim_count sim num_samples
    if num_samples ≤ 0 then sim
    else
      forLoop num_samples.toNat (time_sim_step coeffs total_gain start_idx)
        (time_sim_reset_filters sim)

/-- Function `time_sim_get_signals`: the new simulator, the two frames copied out
(as arrays indexed from 0) and the returned count. -/
def time_sim_get_signals (sim : TimeDomainSimulator α) (num_samples : Int) :
    TimeDomainSimulator α × (Nat → α) × (Nat → α) × Int :=
  if sim.enabled = 0 then (sim, fun _ => 0, fun _ => 0, 0)
  else
    let available := sim.total_samples - (sim.current_sample : Int)
    if available ≤ 0 then (sim, fun _ => 0, fun _ => 0, 0)
    else
      let num_samples := if num_samples > available then available else num_samples
      ({ sim with current_sample := sim.current_sample + num_samples.toNat },
        fun i => sim.original_ff (sim.current_sample + i),
        fun i => sim.simulated_fb (sim.current_sample + i),
        num_samples)

/-- A length-2 filter with taps (1, 2) whose delay line and write index hold stale
data. -/
def stale_fir : FIRFilter ℚ :=
  { coeffs := fun k => (k : ℚ) + 1
    buffer := fun _ => 7
    length := 2
    write_index := 1 }

/-- The ramp 1, 2, 3, ... used as an input sequence. -/
def ramp_input : Nat → ℚ := fun n => (n : ℚ) + 1

/-- A simulator caught mid-stream: read cursor at 3 of 10 samples, stale stepper
states and a stale delay line. -/
def stale_sim : TimeDomainSimulator ℚ :=
  { biquad_states := fun _ => ⟨5, 6, 7, 8⟩
    secondary_path_fir := stale_fir
    original_ff := ramp_input
    original_fb := fun _ => 100
    simulated_fb := fun _ => 100
    total_samples := 10
    current_sample := 3
    enabled := 1 }

/-! ## The DC bin of the cascade response, for the proofs -/

/-- The response of one section at `omega = 0` as `calculate_ff_response` computes it
when `cosf(0) = 1` and `sinf(0) = 0`: the guarded quotient of `b0 + b1 + b2` by
`1 + a1 + a2`. -/
def dc_stage (c : BiquadCoeffs α) : Complex α :=
  complex_div ⟨c.b0 + c.b1 + c.b2, 0⟩ ⟨1 + c.a1 + c.a2, 0⟩

/-- The value `alpha` of `eq_to_biquad_coeffs`. -/
def section_alpha (lm : Libm α) (eq_param : BiquadParam α) (sample_rate : α) : α :=
  lm.sinf (2 * M_PI * eq_param.fc / sample_rate) / (2 * eq_param.q)

/-- A stand-in math library with the second-order Taylor values `sinf(x) = x` and
`cosf(x) = 1 - x^2/2`, exact at 0 and within `x^3/6` and `x^4/24` of the true values;
`powf` and `sqrtf` are exact at `powf(x, 0)`, `sqrtf(0)` and `sqrtf(1)`. -/
def taylor_libm : Libm ℚ :=
  { powf := fun x y => if y = 0 then 1 else x
    sinf := fun x => x
    cosf := fun x => 1 - x * x / 2
    sqrtf := fun x => x
    log10f := fun x => x - 1
    atan2f := fun _ _ => 0 }

/-- A cascade of ten flat peaking sections at 20 kHz, `Q = 1`, with their realtime
coefficients installed and total gain 0 dB. -/
def flat_demo_state : SystemState ℚ :=
  { zero_state with
    eq_update := { (zero_state : SystemState ℚ).eq_update with
      params := fun _ => ⟨BiquadType.BIQUAD_PEAKING, 0, 1, 20000⟩ }
    ff_filter := { (zero_state : SystemState ℚ).ff_filter with
      coeffs := fun _ =>
        eq_to_biquad_coeffs taylor_libm ⟨BiquadType.BIQUAD_PEAKING, 0, 1, 20000⟩
          (REALTIME_SAMPLE_RATE : ℚ)
      total_gain := 1 } }

/-! ## The frame loop and its control part, for the proofs -/

/-- The state after the calls `process_audio_frame(ff[0], fb[0], spk[0], len[0])`, ...,
`process_audio_frame(ff[n-1], fb[n-1], spk[n-1], len[n-1])` of the frame loop of `main`,
starting in state `g`. -/
def run_frames (lm : Libm α) (blackman_window : Nat → α) (ff fb spk : Nat → Nat → α)
    (len : Nat → Int) (g : SystemState α) : Nat → SystemState α
  | 0 => g
  | n + 1 =>
    process_audio_frame lm blackman_window (run_frames lm blackman_window ff fb spk len g n)
      (ff n) (fb n) (spk n) (len n)

/-- The fields of `g_system_state` the scheduler of `process_audio_frame` reads and
writes: `state`, `frame_count`, `fft_count`, `ff_buffer.sample_count` and
`fft_accum.accum_count`. -/
structure Ctrl where
  state : ProcessState
  frame_count : Int
  fft_count : Int
  sample_count : Int
  accum_count : Int
  deriving DecidableEq

/-- The control part of a state. -/
def ctrl_of (g : SystemState α) : Ctrl :=
  ⟨g.state, g.frame_count, g.fft_count, g.ff_buffer.sample_count, g.fft_accum.accum_count⟩

/-- One call of `process_audio_frame` on the control part, with the constants written
out (`SAMPLES_PER_INTERVAL = 160`, `FFT_LENGTH = 2048`, `FFT_HOP_SIZE = 512`,
`NUM_FFT_AVERAGE = 10`); `verdict` is the outcome of `check_target_stability`, read only
in `STABLE_CHECK`. -/
def ctrl_step (c : Ctrl) (verdict : Bool) : Ctrl :=
  let sc := c.sample_count + 160
  match c.state with
  | ProcessState.SIGNAL_PROCESS =>
    let r : Int × Int :=
      if c.frame_count = 0 ∧ sc ≥ 2048 then (0, 0) else (c.fft_count, c.accum_count)
    let p : Int × Int × Int :=
      if sc ≥ 512 ∧ r.1 < 10 then (r.1 + 1, r.2 + 1, sc - 512) else (r.1, r.2, sc)
    ⟨if p.1 ≥ 10 then ProcessState.CAL_MU else ProcessState.SIGNAL_PROCESS,
      c.frame_count + 1, p.1, p.2.2, p.2.1⟩
  | ProcessState.CAL_MU => { c with state := ProcessState.CAL_FF_RESPONSE, sample_count := sc }
  | ProcessState.CAL_FF_RESPONSE =>
    { c with state := ProcessState.CAL_TARGET_FF, sample_count := sc }
  | ProcessState.CAL_TARGET_FF =>
    { c with state := ProcessState.STABLE_CHECK, sample_count := sc }
  | ProcessState.STABLE_CHECK =>
    if verdict then { c with state := ProcessState.CAL_FF_INIT_LOSS, sample_count := sc }
    else ⟨ProcessState.SIGNAL_PROCESS, 0, 0, sc, c.accum_count⟩
  | ProcessState.CAL_FF_INIT_LOSS =>
    { c with state := ProcessState.UPDATE_EQ_PARAMS, sample_count := sc }
  | ProcessState.UPDATE_EQ_PARAMS =>
    { c with state := ProcessState.UPDATE_FILTER_COEFFS, sample_count := sc }
  | ProcessState.UPDATE_FILTER_COEFFS => ⟨ProcessState.SIGNAL_PROCESS, 0, 0, sc, c.accum_count⟩

/-- The control part after `n` calls, the `i`-th with verdict `verdicts i`. -/
def ctrl_run (verdicts : Nat → Bool) (c : Ctrl) : Nat → Ctrl
  | 0 => c
  | n + 1 => ctrl_step (ctrl_run verdicts c n) (verdicts n)

/-- The control part left by `system_init`. -/
def ctrl_init : Ctrl := ⟨ProcessState.SIGNAL_PROCESS, 0, 0, 0, 0⟩

/-- The states `s` and `t` agree outside the fields the optimizer writes:
`current_ff`, `ff_filter` and `eq_update`. -/
def same_analysis (s t : SystemState α) : Prop :=
  t = { s with current_ff := t.current_ff, ff_filter := t.ff_filter, eq_update := t.eq_update }

/-- The ten installed coefficient records are `eq_to_biquad_coeffs` of the current
parameters at `REALTIME_SAMPLE_RATE`. -/
def coeffs_at_realtime (lm : Libm α) (state : SystemState α) : Prop :=
  ∀ i, i < NUM_BIQUADS →
    state.ff_filter.coeffs i
      = eq_to_biquad_coeffs lm (state.eq_update.params i) (REALTIME_SAMPLE_RATE : α)

/-- The installed coefficient records and the parameter records of a state. -/
def filter_part (s : SystemState α) : (Nat → BiquadCoeffs α) × (Nat → BiquadParam α) :=
  (s.ff_filter.coeffs, s.eq_update.params)

/-- Silent input: every sample of every frame is zero. -/
def silent_frames : Nat → Nat → ℚ := fun _ _ => 0

/-- The last `c` samples pushed into the ring buffer are zero (and the write index is
inside the ring). -/
def ring_recent_zero (buf : TimeBuffer α) (c : Nat) : Prop :=
  buf.write_index < FFT_LENGTH ∧
    ∀ j, j < c → j < FFT_LENGTH →
      buf.data ((buf.write_index + FFT_LENGTH - 1 - j) % FFT_LENGTH) = 0

/-- The FF ring contents with its write index, the accumulators and the averaged FF
and PP spectra of a state: what the block-rate analyzer leaves for target synthesis. -/
def analysis_part (g : SystemState α) :
    (Nat → α) × Nat × FFTAccumulator α × FreqResponse α × (Nat → Complex α) :=
  (g.ff_buffer.data, g.ff_buffer.write_index, g.fft_accum, g.ff_avg, g.pp_average)

/-- The analyzer has seen only silence on FF: the FF ring is zero and the FF and PP
accumulators and averages are zero. -/
def silent_state (g : SystemState α) : Prop :=
  ring_recent_zero g.ff_buffer FFT_LENGTH ∧
    (∀ k, g.fft_accum.pp_accum k = ⟨0, 0⟩) ∧ (∀ k, g.fft_accum.ff_accum.bins k = ⟨0, 0⟩) ∧
    (∀ k, g.pp_average k = ⟨0, 0⟩) ∧ (∀ k, g.ff_avg.bins k = ⟨0, 0⟩)

/-! ## Iterating one stepper section (`time_domain_sim.c`) -/

/-- The state of one section after the first `n` calls
`biquad_process_sample(x[0], coeffs, state)`, ..., `biquad_process_sample(x[n-1], ...)`. -/
def biquad_run (coeffs : BiquadCoeffs α) (state : BiquadTimeDomainState α) (x : Nat → α) :
    Nat → BiquadTimeDomainState α
  | 0 => state
  | n + 1 => (biquad_process_sample (x n) coeffs (biquad_run coeffs state x n)).1

/-- The sample returned by call number `n` (counted from 0) of that iteration. -/
def biquad_output (coeffs : BiquadCoeffs α) (state : BiquadTimeDomainState α) (x : Nat → α)
    (n : Nat) : α :=
  (biquad_process_sample (x n) coeffs (biquad_run coeffs state x n)).2

/-- A sequence read at an integer index, taken as 0 at negative indices. -/
def at_index (s : Nat → α) (k : Int) : α :=
  if k < 0 then 0 else s k.toNat

/-- The optimizer's parameters of a state: the ten `BiquadParam` records and
`total_gain_dB`. -/
def params_part (s : SystemState α) : (Nat → BiquadParam α) × α :=
  (s.eq_update.params, s.eq_update.total_gain_dB)

/-- The state left by `system_init` (stand-in library), moved to `STABLE_CHECK`. -/
def stable_check_demo_state : SystemState ℚ :=
  { system_init sample_libm with state := ProcessState.STABLE_CHECK }

/-- A stand-in math library that is exact where the gate meets an all-zero spectrum:
`sqrtf(0) = 0` and `log10f(1e-8) = -8`; `log10f` is 0 elsewhere, the other functions
are those of `sample_libm`. -/
def gate_libm : Libm ℚ :=
  { sample_libm with log10f := fun x => if x = 1 / 100000000 then -8 else 0 }

/-- The gate's reference: `prev_target_ff` and `prev_smoothness`. -/
def reference_part (s : SystemState α) : (Nat → Complex α) × α :=
  (s.prev_target_ff, s.prev_smoothness)

/-! ## The adaptation loop of `main` (`main.c`) -/

/-- The variables of `main` the adaptation loop updates: the globals `g_time_sim` and
`g_system_state`, the counter `iteration`, and the Phase 2 lines the loop has written
to the log, oldest first (`true` for "[Phase 2] Time Domain Filtering", `false` for
"[Phase 2] Skipped (parameters not updated)"). -/
structure MainLoop (α : Type) where
  time_sim : TimeDomainSimulator α
  system_state : SystemState α
  iteration : Int
  phase2_log : List Bool

/-- The local `iteration_samples = (int)(iteration_time_ms * sample_rate_actual / 1000.0f)`
of `main`, with `iteration_time_ms = 325.0f`. -/
def iteration_samples (sample_rate_actual : Int) : Int :=
  toInt (325 * (sample_rate_actual : ℚ) / 1000)

/-- The values of `total_samples` and `sample_rate_actual` for which the `int`
arithmetic of the adaptation loop stays in range. -/
def main_in_range (total_samples sample_rate_actual : Int) : Prop :=
  0 ≤ sample_rate_actual ∧ sample_rate_actual * (PROCESS_INTERVAL_MS : Int) < 2 ^ 31 ∧
    0 ≤ total_samples ∧ total_samples + iteration_samples sample_rate_actual < 2 ^ 31

/-- The frame loop `while (samples_processed < target_samples)` of `main` on the triple
(`g_time_sim`, `g_system_state`, `samples_processed`); `spk_frame` is the `calloc`
block of zeros.  The first argument bounds the number of passes. -/
def frame_loop (lm : Libm α) (blackman_window : Nat → α)
    (sample_rate_actual target_samples : Int) :
    Nat → TimeDomainSimulator α × SystemState α × Int →
      TimeDomainSimulator α × SystemState α × Int
  | 0, v => v
  | fuel + 1, v =>
    if v.2.2 < target_samples then
      let samples_per_frame := Int.tdiv (sample_rate_actual * (PROCESS_INTERVAL_MS : Int)) 1000
      let remaining := target_samples - v.2.2
      let samples_per_frame := if samples_per_frame > remaining then remaining else samples_per_frame
      let r := time_sim_get_signals v.1 samples_per_frame
      if r.2.2.2 ≤ 0 then (r.1, v.2.1, v.2.2)
      else
        frame_loop lm blackman_window sample_rate_actual target_samples fuel
          (r.1, process_audio_frame lm blackman_window v.2.1 r.2.1 r.2.2.1 (fun _ => 0) r.2.2.2,
            v.2.2 + r.2.2.2)
    else v

/-- Step 5.2 of the adaptation loop (Phase 2): the filtering pass over the remaining
samples when the machine is back in `SIGNAL_PROCESS` with `update_accepted` set, and
the log line of either branch. -/
def phase2 (total_samples : Int) (m : MainLoop α) : MainLoop α :=
  if m.system_state.state = ProcessState.SIGNAL_PROCESS ∧
      m.system_state.eq_update.update_accepted ≠ 0 then
    let filter_start_sample : Int := m.time_sim.current_sample
    let remaining_samples := total_samples - filter_start_sample
    { m with
      time_sim :=
        if remaining_samples > 0 then
          time_sim_process m.time_sim m.system_state.ff_filter.coeffs
            m.system_state.ff_filter.total_gain remaining_samples
        else m.time_sim
      system_state := set_update_accepted m.system_state 0
      phase2_log := m.phase2_log ++ [true] }
  else { m with phase2_log := m.phase2_log ++ [false] }

/-- The adaptation loop
`while (g_time_sim.current_sample < total_samples && iteration < max_iterations)` of
`main`, with `max_iterations = 100`.  The first argument bounds the number of passes. -/
def adaptation_loop (lm : Libm α) (blackman_window : Nat → α)
    (total_samples sample_rate_actual : Int) : Nat → MainLoop α → MainLoop α
  | 0, m => m
  | fuel + 1, m =>
    if (m.time_sim.current_sample : Int) < total_samples ∧ m.iteration < 100 then
      let iteration_start_sample : Int := m.time_sim.current_sample
      let target_samples :=
        if iteration_start_sample + iteration_samples sample_rate_actual > total_samples then
          total_samples - iteration_start_sample
        else iteration_samples sample_rate_actual
      let r := frame_loop lm blackman_window sample_rate_actual target_samples
        target_samples.toNat (m.time_sim, m.system_state, 0)
      if r.2.2 = 0 then { m with time_sim := r.1, system_state := r.2.1 }
      else
        let m := phase2 total_samples { m with time_sim := r.1, system_state := r.2.1 }
        adaptation_loop lm blackman_window total_samples sample_rate_actual fuel
          { m with iteration := m.iteration + 1 }
    else m

/-- The invariant of a machine that has never passed the gate: it is in one of the five
analysis states, the gate's reference is as `system_init` left it, and `eq_update` is
as `system_init` left it. -/
def never_adapted (lm : Libm α) (s : SystemState α) : Prop :=
  (s.state ≠ ProcessState.CAL_FF_INIT_LOSS ∧ s.state ≠ ProcessState.UPDATE_EQ_PARAMS ∧
      s.state ≠ ProcessState.UPDATE_FILTER_COEFFS) ∧
    reference_part s = (fun _ => ⟨0, 0⟩, 1) ∧
    s.eq_update = (system_init lm).eq_update


/-- Steps 3 to 5 of `main`: `time_sim_init` (which succeeds), `system_init`, and the
adaptation loop, whose 100 passes allowed are `max_iterations`; the window is the one
`system_init` builds with `init_blackman_window`. -/
def main_adaptation (lm : Libm α) (sim : TimeDomainSimulator α) (ff_signal fb_signal : Nat → α)
    (total_samples sample_rate_actual : Int) (sp_ir : Nat → α) (sp_length : Int) : MainLoop α :=
  adaptation_loop lm (init_blackman_window lm) total_samples sample_rate_actual 100
    ⟨time_sim_init sim ff_signal fb_signal total_samples sp_ir sp_length, system_init lm, 0, []⟩

/-- A `SIGNAL_PROCESS` state with full rings: every ring holds ones, `sample_count` is
`NUM_FFT_AVERAGE * FFT_HOP_SIZE = 5120` and `fft_count = 0`, some frames into the
iteration. -/
def full_ring_state : SystemState ℚ :=
  { zero_state with
    state := ProcessState.SIGNAL_PROCESS
    ff_buffer := ⟨fun _ => 1, 0, 5120⟩
    fb_buffer := ⟨fun _ => 1, 0, 5120⟩
    spk_buffer := ⟨fun _ => 1, 0, 5120⟩
    frame_count := 32
    fft_count := 0 }

/-- Spec §4.1: the decimated frame length `F' = ceil(F * R_dsp / R_rt)` for a frame of
`F` realtime samples. -/
def spec_decimated_length (F : Nat) : Nat :=
  (F * DSP_SAMPLE_RATE + REALTIME_SAMPLE_RATE - 1) / REALTIME_SAMPLE_RATE

/-- The ring `new` is the ring `old` with the `SAMPLES_PER_INTERVAL = 160` samples
`input[src_idx(i)]`, `i = 0 .. 159`, appended at the write index, `src_idx(i)` being the
index `(int)(i * ratio)` that `anti_alias_decimate` computes for a frame of `F`
samples: the write index has advanced by 160 modulo `FFT_LENGTH`, the 160 slots from
the old write index on hold those samples, and every other slot is as it was. -/
def ring_appended (old new : TimeBuffer α) (input : Nat → α) (F : Nat) : Prop :=
  new.write_index = (old.write_index + 160) % FFT_LENGTH ∧
    (∀ i, i < 160 →
      new.data ((old.write_index + i) % FFT_LENGTH)
        = input (decimate_src_idx (F : Int) 160 i).toNat) ∧
    (∀ j, (∀ i, i < 160 → j ≠ (old.write_index + i) % FFT_LENGTH) → new.data j = old.data j)

/-- The contents and write indices of the three rings. -/
def rings_part (s : SystemState α) :
    ((Nat → α) × Nat) × ((Nat → α) × Nat) × ((Nat → α) × Nat) :=
  ((s.ff_buffer.data, s.ff_buffer.write_index), (s.fb_buffer.data, s.fb_buffer.write_index),
    (s.spk_buffer.data, s.spk_buffer.write_index))

/-- Spec §4.1: the `i`-th of the most recent `L = FFT_LENGTH` samples of a ring in
chronological order, `x[n - L + 1 + i]` with `x[n]` the newest: the oldest sample sits at
the write index. -/
def ring_chronological (buf : TimeBuffer α) (i : Nat) : α :=
  buf.data ((buf.write_index + i) % FFT_LENGTH)

/-- The zero ring after the two samples 1, 2 have been pushed: `data = [1, 2, 0, ...]`,
`write_index = 2`. -/
def rotated_ring : TimeBuffer ℚ :=
  push_sample (push_sample ⟨fun _ => 0, 0, 0⟩ 1) 2

/-! ## WAV input (`wav_io.h`, `wav_io.c`, step 1 of `main`) -/

/-- The record `WavHeader`; the four-byte tags are lists of characters, the `uint16_t`
and `uint32_t` fields are their values. -/
structure WavHeader where
  chunk_id : List Char
  chunk_size : Nat
  format : List Char
  subchunk1_id : List Char
  subchunk1_size : Nat
  audio_format : Nat
  num_channels : Nat
  sample_rate : Nat
  byte_rate : Nat
  block_align : Nat
  bits_per_sample : Nat
  subchunk2_id : List Char
  subchunk2_size : Nat

/-- The record `WavData`; `channels` is `none` for the `NULL` pointer and otherwise the
samples `channels[ch][i]`. -/
structure WavData (α : Type) where
  header : WavHeader
  channels : Option (Nat → Nat → α)
  num_channels : Int
  num_samples : Int
  sample_rate : Int
  valid : Int

/-- What `wav_read` sees of a file that can be opened: the header (`none` when the file
is shorter than `sizeof(WavHeader)`), the integer stored for channel `ch` of payload
frame `i`, and the number of complete frames the payload holds. -/
structure WavFile where
  header : Option WavHeader
  frames : Nat → Nat → Int
  num_frames : Nat

/-- The conversion of a `uint32_t` value to `int`. -/
def to_int32 (n : Nat) : Int :=
  if n % 2 ^ 32 < 2 ^ 31 then ((n % 2 ^ 32 : Nat) : Int) else ((n % 2 ^ 32 : Nat) : Int) - 2 ^ 32

/-- Function `wav_free`. -/
def wav_free (wav_data : WavData α) : WavData α :=
  { wav_data with channels := none, valid := 0 }

/-- The two sample loops of `wav_read`: entry `channels[ch][i]` is the stored integer
over `scale` for the frames read before the loop ends or `fread` comes up short, and
whatever `malloc` returned (`heap`) elsewhere. -/
def wav_read_samples (file : WavFile) (heap : Nat → Nat → α) (num_channels num_samples : Int)
    (scale : α) : Nat → Nat → α :=
  fun ch i =>
    if (ch : Int) < num_channels ∧ (i : Int) < num_samples ∧ i < file.num_frames then
      (file.frames i ch : α) / scale
    else heap ch i

/-- Function `wav_read` (the allocations succeed): the record left in `*wav_data` and
the returned `int`, or `none` when the call executes the integer division
`subchunk2_size / (num_channels * bytes_per_sample)` with a zero divisor, which is
undefined.  `file` is `none` when `fopen` fails. -/
def wav_read (file : Option WavFile) (heap : Nat → Nat → α) (wav_data : WavData α) :
    Option (WavData α × Int) :=
  match file with
  | none => some ({ wav_data with valid := 0 }, -1)
  | some f =>
    match f.header with
    | none => some ({ wav_data with valid := 0 }, -1)
    | some h =>
      let wav_data := { wav_data with header := h }
      if h.chunk_id ≠ ['R', 'I', 'F', 'F'] ∨ h.format ≠ ['W', 'A', 'V', 'E'] then
        some ({ wav_data with valid := 0 }, -1)
      else if h.audio_format ≠ 1 then
        some ({ wav_data with valid := 0 }, -1)
      else
        let wav_data :=
          { wav_data with num_channels := h.num_channels, sample_rate := to_int32 h.sample_rate }
        let bytes_per_sample : Int := ((h.bits_per_sample / 8 : Nat) : Int)
        let divisor := wav_data.num_channels * bytes_per_sample
        if divisor = 0 then none
        else
          let wav_data :=
            { wav_data with num_samples := to_int32 (h.subchunk2_size / divisor.toNat) }
          if h.bits_per_sample = 16 then
            some ({ wav_data with
              channels := some (wav_read_samples f heap wav_data.num_channels
                wav_data.num_samples 32768)
              valid := 1 }, 0)
          else if h.bits_per_sample = 32 then
            some ({ wav_data with
              channels := some (wav_read_samples f heap wav_data.num_channels
                wav_data.num_samples 2147483648)
              valid := 1 }, 0)
          else
            some ({ wav_free { wav_data with channels := some heap } with valid := 0 }, -1)

/-- Step 1 of `main`: the flag `use_wav_input` after the attempt to load the WAV file
(0 selects the generated signal), or `none` when `wav_read` divides by zero. -/
def main_use_wav_input (file : Option WavFile) (heap : Nat → Nat → α) (wav_data : WavData α) :
    Option Int :=
  match file with
  | none => some 0
  | some _ =>
    match wav_read file heap wav_data with
    | none => none
    | some r => if r.2 = 0 then (if r.1.num_channels ≥ 2 then some 1 else some 0) else some 0

/-- A PCM header with the given channel count and bit depth: RIFF/WAVE, 48 kHz, a
payload of 4096 bytes. -/
def pcm_header (num_channels bits_per_sample : Nat) : WavHeader :=
  { chunk_id := ['R', 'I', 'F', 'F']
    chunk_size := 4132
    format := ['W', 'A', 'V', 'E']
    subchunk1_id := ['f', 'm', 't', Char.ofNat 32]
    subchunk1_size := 16
    audio_format := 1
    num_channels := num_channels
    sample_rate := 48000
    byte_rate := 48000 * num_channels * (bits_per_sample / 8)
    block_align := num_channels * (bits_per_sample / 8)
    bits_per_sample := bits_per_sample
    subchunk2_id := ['d', 'a', 't', 'a']
    subchunk2_size := 4096 }

/-- A file with the header `pcm_header num_channels bits_per_sample` and a payload of
zeros. -/
def pcm_file (num_channels bits_per_sample : Nat) : WavFile :=
  { header := some (pcm_header num_channels bits_per_sample)
    frames := fun _ _ => 0
    num_frames := 0 }

/-- An arbitrary prior content of the local `wav_data` of `main`. -/
def blank_wav_data : WavData ℚ :=
  { header := pcm_header 0 0, channels := none, num_channels := 0, num_samples := 0,
    sample_rate := 0, valid := 0 }

/-- The state after the first `j` of the 30 `update_single_param` calls of
`update_eq_params`, call number `j` (from 0) being for biquad `j / 3`, parameter
`j % 3`. -/
def sweep_steps (lm : Libm α) (state : SystemState α) : Nat → SystemState α
  | 0 => state
  | j + 1 => (update_single_param lm (sweep_steps lm state j) (j / 3) (j % 3)).1

/-- The read `*param_ptr` of `update_single_param`: `gain_dB` for type 0, `q` for type
1 and `fc` otherwise. -/
def param_value (param : BiquadParam α) (param_type : Nat) : α :=
  if param_type = 0 then param.gain_dB
  else if param_type = 1 then param.q
  else param.fc

/-- Spec §4.7: the cap `Delta_max` of a parameter type. -/
def spec_max_delta (param_type : Nat) : α :=
  if param_type = 0 then 2 else if param_type = 1 then 0.2 else 100

/-- The cached response is current: `current_ff` is the cascade response of the
installed filter on every bin. -/
def response_cached (lm : Libm α) (state : SystemState α) : Prop :=
  ∀ k, k < FFT_HALF_LENGTH → state.current_ff k = ff_response_bin lm state.ff_filter k

/-- The cached loss is current: `current_loss` is `calculate_loss` of the state. -/
def loss_cached (state : SystemState α) : Prop :=
  state.eq_update.current_loss = calculate_loss state

/-- The installed linear gain is `10^(total_gain_dB / 20)`. -/
def gain_consistent (lm : Libm α) (state : SystemState α) : Prop :=
  state.ff_filter.total_gain = lm.powf 10 (state.eq_update.total_gain_dB / 20)

/-- The three facts the optimizer keeps between steps: the cached response is current,
the coefficients are those of the parameters, and the cached loss is current. -/
def optimizer_cache (lm : Libm α) (state : SystemState α) : Prop :=
  response_cached lm state ∧ coeffs_at_realtime lm state ∧ loss_cached state

/-- Call number `j` (from 0) of the 30 `update_single_param` calls of `update_eq_params`
returns 1: the step is accepted. -/
def step_accepts (lm : Libm α) (state : SystemState α) (j : Nat) : Prop :=
  (update_single_param lm (sweep_steps lm state j) (j / 3) (j % 3)).2 = 1

/-- The test `new_loss < original_loss` of the total-gain step of `update_eq_params`
holds: the step is accepted. -/
def total_gain_accepts (lm : Libm α) (state : SystemState α) : Prop :=
  calculate_loss (install_total_gain lm state (total_gain_candidate lm state))
    < state.eq_update.current_loss

/-- The state left by `system_init` with `target_ff` set to the cascade response plus 1
on every bin: a target the installed filter does not meet. -/
def offset_target_state : SystemState ℚ :=
  set_target_ff (system_init sample_libm)
    (fun k =>
      ⟨(ff_response_bin sample_libm (system_init sample_libm).ff_filter k).real + 1,
        (ff_response_bin sample_libm (system_init sample_libm).ff_filter k).imag⟩)

/-- The linear gain of the filter and the gain in dB of the optimizer. -/
def gain_part (s : SystemState α) : α × α :=
  (s.ff_filter.total_gain, s.eq_update.total_gain_dB)

/-- The number of analysis cycles completed in the first `n` calls of the frame loop
from `system_init`: the calls that leave the machine in `CAL_MU`, which are the calls in
which `average_fft_results` runs. -/
def completed_cycles (lm : Libm α) (blackman_window : Nat → α) (ff fb spk : Nat → Nat → α)
    (len : Nat → Int) : Nat → Nat
  | 0 => 0
  | n + 1 =>
    completed_cycles lm blackman_window ff fb spk len n +
      (if (run_frames lm blackman_window ff fb spk len (system_init lm) (n + 1)).state
          = ProcessState.CAL_MU then 1 else 0)

/-- Bounds on the counters of the scheduler after `cycles` completed analysis cycles: at
most 1279 samples are pending on entry to a call in `SIGNAL_PROCESS`, and `accum_count`
is ten times the completed cycles plus the passes of the cycle under way. -/
def ctrl_bounds (c : Ctrl) (cycles : Int) : Prop :=
  0 ≤ c.sample_count ∧
    match c.state with
    | ProcessState.SIGNAL_PROCESS =>
      0 ≤ c.fft_count ∧ c.fft_count ≤ 9 ∧ c.accum_count = 10 * cycles + c.fft_count ∧
        (c.sample_count < 512 ∨ (c.fft_count = 0 ∧ c.sample_count < 1280) ∨
          (c.fft_count = 1 ∧ c.sample_count < 928) ∨ (c.fft_count = 2 ∧ c.sample_count < 576))
    | ProcessState.CAL_MU => c.accum_count = 10 * cycles ∧ c.sample_count < 160
    | ProcessState.CAL_FF_RESPONSE => c.accum_count = 10 * cycles ∧ c.sample_count < 320
    | ProcessState.CAL_TARGET_FF => c.accum_count = 10 * cycles ∧ c.sample_count < 480
    | ProcessState.STABLE_CHECK => c.accum_count = 10 * cycles ∧ c.sample_count < 640
    | ProcessState.CAL_FF_INIT_LOSS => c.accum_count = 10 * cycles ∧ c.sample_count < 800
    | ProcessState.UPDATE_EQ_PARAMS => c.accum_count = 10 * cycles ∧ c.sample_count < 960
    | ProcessState.UPDATE_FILTER_COEFFS => c.accum_count = 10 * cycles ∧ c.sample_count < 1120

/-! ## Basic lemmas -/

theorem forLoop_zero {σ : Type} (body : Nat → σ → σ) (s : σ) :
    forLoop 0 body s = s := rfl

theorem forLoop_succ {σ : Type} (n : Nat) (body : Nat → σ → σ) (s : σ) :
    forLoop (n + 1) body s = body n (forLoop n body s) := rfl

attribute [irreducible] forLoop

theorem forLoop_update_apply {β : Type} (n : Nat) (f : Nat → β) (a : Nat → β) (k : Nat) :
    forLoop n (fun i arr => Function.update arr i (f i)) a k = if k < n then f k else a k := by
  induction n with
  | zero => simp [forLoop_zero]
  | succ n ih =>
    rw [forLoop_succ]
    by_cases hk : k = n
    · subst hk; simp
    · rw [Function.update_noteq hk, ih]
      have : (k < n + 1) = (k < n) := by
        apply propext; constructor <;> intro h <;> omega
      simp only [this]

theorem forLoop_invariant {σ : Type} (P : σ → Prop) (n : Nat) (body : Nat → σ → σ) (s : σ)
    (h0 : P s) (hstep : ∀ i t, i < n → P t → P (body i t)) : P (forLoop n body s) := by
  induction n with
  | zero => rw [forLoop_zero]; exact h0
  | succ n ih =>
    rw [forLoop_succ]
    exact hstep n _ (Nat.lt_succ_self n)
      (ih (fun i t hi ht => hstep i t (Nat.lt_succ_of_lt hi) ht))

theorem clamp_value_bounds (v lo hi : α) (h : lo ≤ hi) :
    lo ≤ clamp_value v lo hi ∧ clamp_value v lo hi ≤ hi := by
  unfold clamp_value
  split_ifs with h1 h2
  · exact ⟨le_refl _, h⟩
  · exact ⟨h, le_refl _⟩
  · exact ⟨not_lt.mp h1, not_lt.mp h2⟩

@[simp] theorem calculate_ff_response_eq_update (lm : Libm α) (s : SystemState α) :
    (calculate_ff_response lm s).eq_update = s.eq_update := rfl

@[simp] theorem calculate_ff_response_ff_filter (lm : Libm α) (s : SystemState α) :
    (calculate_ff_response lm s).ff_filter = s.ff_filter := rfl

@[simp] theorem calculate_ff_response_target_ff (lm : Libm α) (s : SystemState α) :
    (calculate_ff_response lm s).target_ff = s.target_ff := rfl

theorem calculate_ff_response_current_ff (lm : Libm α) (s : SystemState α) (k : Nat) :
    (calculate_ff_response lm s).current_ff k =
      if k < FFT_HALF_LENGTH then ff_response_bin lm s.ff_filter k else s.current_ff k := by
  unfold calculate_ff_response
  exact forLoop_update_apply _ _ _ _

theorem store_param_store_param (pr : BiquadParam α) (p : Nat) (x y : α) :
    store_param (store_param pr p x) p y = store_param pr p y := by
  unfold store_param
  split_ifs <;> rfl

/-- Installing a value discards whatever was installed for the same parameter before. -/
theorem install_value_absorb (lm : Libm α) (s : SystemState α) (b p : Nat) (x y z : α) :
    install_value lm (write_param (install_value lm s b p x) b p y) b p z =
      install_value lm s b p z := by
  have hcur : ∀ (t u : SystemState α), t.ff_filter = u.ff_filter →
      (∀ k, FFT_HALF_LENGTH ≤ k → t.current_ff k = u.current_ff k) →
      (calculate_ff_response lm t).current_ff = (calculate_ff_response lm u).current_ff := by
    intro t u hf hc
    funext k
    rw [calculate_ff_response_current_ff, calculate_ff_response_current_ff, hf]
    split_ifs with hk
    · rfl
    · exact hc k (not_lt.mp hk)
  have hc := hcur
    (rebuild_coeffs lm (write_param (write_param (install_value lm s b p x) b p y) b p z) b)
    (rebuild_coeffs lm (write_param s b p z) b)
    (by simp [install_value, write_param, rebuild_coeffs, store_param_store_param])
    (by
      intro k hk
      simp only [install_value, write_param, rebuild_coeffs]
      rw [calculate_ff_response_current_ff]
      simp [not_lt.mpr hk])
  unfold install_value at hc ⊢
  unfold calculate_ff_response at hc ⊢
  simp only at hc
  simp only [write_param, rebuild_coeffs, Function.update_same, Function.update_idem,
    store_param_store_param, SystemState.mk.injEq, true_and, and_true]
  simpa [write_param, rebuild_coeffs, store_param_store_param] using hc

theorem update_single_param_eq (lm : Libm α) (s : SystemState α) (b p : Nat) (su : ParamSetup α)
    (h : param_setup (s.eq_update.params b) p = some su) :
    update_single_param lm s b p =
      if loss_with lm s b p (candidate_value lm s b p su) < s.eq_update.current_loss then
        (set_current_loss (install_value lm s b p (candidate_value lm s b p su))
          (loss_with lm s b p (candidate_value lm s b p su)), 1)
      else
        (install_value lm s b p su.original_value, 0) := by
  have e1 : ∀ x y, calculate_ff_response lm (rebuild_coeffs lm
      (write_param (write_param (calculate_ff_response lm (rebuild_coeffs lm
        (write_param s b p x) b)) b p su.original_value) b p y) b)
      = calculate_ff_response lm (rebuild_coeffs lm (write_param s b p y) b) := by
    intro x y
    have h1 := install_value_absorb lm s b p x y y
    unfold install_value at h1
    simpa [write_param, rebuild_coeffs, store_param_store_param] using h1
  have e2 : ∀ x z, calculate_ff_response lm (rebuild_coeffs lm
      (write_param (calculate_ff_response lm (rebuild_coeffs lm (write_param s b p x) b))
        b p z) b) = calculate_ff_response lm (rebuild_coeffs lm (write_param s b p z) b) := by
    intro x z
    have h1 := install_value_absorb lm s b p x z z
    unfold install_value at h1
    simpa [write_param, rebuild_coeffs, store_param_store_param] using h1
  unfold update_single_param
  dsimp only
  rw [h]
  simp only [e1, e2, loss_with, candidate_value, fd_gradient, install_value]

/-! ## Lemmas on the optimizer -/

theorem param_setup_min_le_max (pr : BiquadParam α) (p : Nat) (su : ParamSetup α)
    (h : param_setup pr p = some su) : su.min_val ≤ su.max_val := by
  unfold param_setup at h
  split at h <;> simp at h <;> subst h <;>
    norm_num [MIN_GAIN_DB, MAX_GAIN_DB, MIN_Q, MAX_Q, MIN_FC, MAX_FC]

theorem store_param_original (pr : BiquadParam α) (p : Nat) (su : ParamSetup α)
    (h : param_setup pr p = some su) : store_param pr p su.original_value = pr := by
  unfold param_setup at h
  split at h <;> simp at h <;> subst h <;> simp [store_param]

theorem in_box_store_param (pr : BiquadParam α) (p : Nat) (su : ParamSetup α)
    (h : param_setup pr p = some su) (hb : in_box pr) (v : α)
    (hv : su.min_val ≤ v ∧ v ≤ su.max_val) : in_box (store_param pr p v) := by
  unfold param_setup at h
  unfold in_box at hb ⊢
  obtain ⟨h1, h2, h3, h4, h5, h6⟩ := hb
  split at h <;> simp at h <;> subst h <;>
    simp only [store_param, MIN_GAIN_DB, MAX_GAIN_DB, MIN_Q, MAX_Q, MIN_FC, MAX_FC] at hv ⊢ <;>
    norm_num at h3 hv ⊢ <;> refine ⟨?_, ?_, ?_, ?_, ?_, ?_⟩ <;> linarith [hv.1, hv.2]

theorem install_value_eq_update (lm : Libm α) (s : SystemState α) (b p : Nat) (v : α) :
    (install_value lm s b p v).eq_update =
      { s.eq_update with
        params := Function.update s.eq_update.params b
          (store_param (s.eq_update.params b) p v) } := by
  simp [install_value, rebuild_coeffs, write_param]

theorem install_value_coeffs (lm : Libm α) (s : SystemState α) (b p : Nat) (v : α) :
    (install_value lm s b p v).ff_filter.coeffs =
      Function.update s.ff_filter.coeffs b
        (eq_to_biquad_coeffs lm (store_param (s.eq_update.params b) p v)
          (REALTIME_SAMPLE_RATE : α)) := by
  simp [install_value, rebuild_coeffs, write_param]

theorem install_value_total_gain (lm : Libm α) (s : SystemState α) (b p : Nat) (v : α) :
    (install_value lm s b p v).ff_filter.total_gain = s.ff_filter.total_gain := by
  simp [install_value, rebuild_coeffs, write_param]

theorem update_single_param_none (lm : Libm α) (s : SystemState α) (b p : Nat)
    (h : param_setup (s.eq_update.params b) p = none) :
    update_single_param lm s b p = (s, 0) := by
  unfold update_single_param
  dsimp only
  rw [h]

theorem candidate_value_bounds (lm : Libm α) (s : SystemState α) (b p : Nat) (su : ParamSetup α)
    (h : param_setup (s.eq_update.params b) p = some su) :
    su.min_val ≤ candidate_value lm s b p su ∧ candidate_value lm s b p su ≤ su.max_val :=
  clamp_value_bounds _ _ _ (param_setup_min_le_max _ _ _ h)

/-! ### Projections of the stores, stated as rewriting rules -/

theorem set_current_loss_eq_update (s : SystemState α) (v : α) :
    (set_current_loss s v).eq_update = { s.eq_update with current_loss := v } := by
  cases s; rfl

theorem set_current_loss_ff_filter (s : SystemState α) (v : α) :
    (set_current_loss s v).ff_filter = s.ff_filter := by
  cases s; rfl

theorem set_current_loss_target_ff (s : SystemState α) (v : α) :
    (set_current_loss s v).target_ff = s.target_ff := by
  cases s; rfl

theorem set_current_loss_current_ff (s : SystemState α) (v : α) :
    (set_current_loss s v).current_ff = s.current_ff := by
  cases s; rfl

theorem set_update_accepted_eq_update (s : SystemState α) (v : Int) :
    (set_update_accepted s v).eq_update = { s.eq_update with update_accepted := v } := by
  cases s; rfl

theorem set_update_accepted_ff_filter (s : SystemState α) (v : Int) :
    (set_update_accepted s v).ff_filter = s.ff_filter := by
  cases s; rfl

theorem install_value_target_ff (lm : Libm α) (s : SystemState α) (b p : Nat) (v : α) :
    (install_value lm s b p v).target_ff = s.target_ff := by
  simp [install_value, rebuild_coeffs, write_param]

/-- One `update_single_param` call keeps the parameter box. -/
theorem update_single_param_param_box (lm : Libm α) (s : SystemState α) (b p : Nat)
    (hbox : param_box s) : param_box (update_single_param lm s b p).1 := by
  cases h : param_setup (s.eq_update.params b) p with
  | none => rw [update_single_param_none lm s b p h]; exact hbox
  | some su =>
    rw [update_single_param_eq lm s b p su h]
    obtain ⟨hb, hg1, hg2⟩ := hbox
    have key : ∀ v, su.min_val ≤ v ∧ v ≤ su.max_val → ∀ b', b' < NUM_BIQUADS →
        in_box (Function.update s.eq_update.params b
          (store_param (s.eq_update.params b) p v) b') := by
      intro v hv b' hb'
      by_cases e : b' = b
      · subst e
        rw [Function.update_same]
        exact in_box_store_param _ _ _ h (hb _ hb') v hv
      · rw [Function.update_noteq e]
        exact hb _ hb'
    unfold param_box
    split_ifs with hlt
    · simp only [set_current_loss_eq_update, install_value_eq_update]
      exact ⟨key _ (candidate_value_bounds lm s b p su h), hg1, hg2⟩
    · simp only [install_value_eq_update, store_param_original _ _ _ h,
        Function.update_eq_self]
      exact ⟨hb, hg1, hg2⟩

/-- One `update_single_param` call never raises the cached loss and keeps
`init_loss` and the target. -/
theorem update_single_param_loss (lm : Libm α) (s : SystemState α) (b p : Nat) :
    (update_single_param lm s b p).1.eq_update.current_loss ≤ s.eq_update.current_loss ∧
      (update_single_param lm s b p).1.eq_update.init_loss = s.eq_update.init_loss ∧
      (update_single_param lm s b p).1.target_ff = s.target_ff := by
  cases h : param_setup (s.eq_update.params b) p with
  | none => rw [update_single_param_none lm s b p h]; exact ⟨le_refl _, rfl, rfl⟩
  | some su =>
    rw [update_single_param_eq lm s b p su h]
    split_ifs with hlt
    · refine ⟨?_, ?_, ?_⟩
      · simp only [set_current_loss_eq_update]
        exact le_of_lt hlt
      · simp only [set_current_loss_eq_update, install_value_eq_update]
      · simp only [set_current_loss_target_ff, install_value_target_ff]
    · refine ⟨?_, ?_, ?_⟩
      · simp only [install_value_eq_update]
        exact le_refl _
      · simp only [install_value_eq_update]
      · simp only [install_value_target_ff]

theorem set_total_gain_dB_eq_update (s : SystemState α) (v : α) :
    (set_total_gain_dB s v).eq_update = { s.eq_update with total_gain_dB := v } := by
  cases s; rfl

theorem set_total_gain_dB_ff_filter (s : SystemState α) (v : α) :
    (set_total_gain_dB s v).ff_filter = s.ff_filter := by
  cases s; rfl

theorem set_total_gain_dB_target_ff (s : SystemState α) (v : α) :
    (set_total_gain_dB s v).target_ff = s.target_ff := by
  cases s; rfl

theorem set_total_gain_dB_current_ff (s : SystemState α) (v : α) :
    (set_total_gain_dB s v).current_ff = s.current_ff := by
  cases s; rfl

theorem set_total_gain_eq_update (s : SystemState α) (v : α) :
    (set_total_gain s v).eq_update = s.eq_update := by
  cases s; rfl

theorem set_total_gain_ff_filter (s : SystemState α) (v : α) :
    (set_total_gain s v).ff_filter = { s.ff_filter with total_gain := v } := by
  cases s; rfl

theorem set_total_gain_target_ff (s : SystemState α) (v : α) :
    (set_total_gain s v).target_ff = s.target_ff := by
  cases s; rfl

theorem set_total_gain_current_ff (s : SystemState α) (v : α) :
    (set_total_gain s v).current_ff = s.current_ff := by
  cases s; rfl

theorem set_total_gain_dB_idem (s : SystemState α) (v w : α) :
    set_total_gain_dB (set_total_gain_dB s v) w = set_total_gain_dB s w := by
  cases s; rfl

theorem set_total_gain_idem (s : SystemState α) (v w : α) :
    set_total_gain (set_total_gain s v) w = set_total_gain s w := by
  cases s; rfl

theorem set_total_gain_dB_comm (s : SystemState α) (v w : α) :
    set_total_gain_dB (set_total_gain s v) w = set_total_gain (set_total_gain_dB s w) v := by
  cases s; rfl

/-- Installing a total gain discards the total gain installed before. -/
theorem install_total_gain_absorb (lm : Libm α) (s : SystemState α) (x o n : α) :
    install_total_gain lm (set_total_gain_dB (install_total_gain lm s x) o) n =
      install_total_gain lm s n := by
  have hcur : ∀ (t u : SystemState α), t.ff_filter = u.ff_filter →
      (∀ k, FFT_HALF_LENGTH ≤ k → t.current_ff k = u.current_ff k) →
      (calculate_ff_response lm t).current_ff = (calculate_ff_response lm u).current_ff := by
    intro t u hf hc
    funext k
    rw [calculate_ff_response_current_ff, calculate_ff_response_current_ff, hf]
    split_ifs with hk
    · rfl
    · exact hc k (not_lt.mp hk)
  have hc := hcur
    (set_total_gain (set_total_gain_dB (set_total_gain_dB (install_total_gain lm s x) o) n)
      (lm.powf 10 (n / 20)))
    (set_total_gain (set_total_gain_dB s n) (lm.powf 10 (n / 20)))
    (by simp [install_total_gain, set_total_gain, set_total_gain_dB])
    (by
      intro k hk
      simp only [install_total_gain, set_total_gain_current_ff, set_total_gain_dB_current_ff]
      rw [calculate_ff_response_current_ff]
      simp [not_lt.mpr hk, set_total_gain_current_ff, set_total_gain_dB_current_ff])
  unfold install_total_gain at hc ⊢
  unfold calculate_ff_response at hc ⊢
  simp only at hc
  simp only [set_total_gain, set_total_gain_dB, SystemState.mk.injEq, true_and, and_true]
  simpa [set_total_gain, set_total_gain_dB] using hc

/-- The code of `update_eq_params` by phases. -/
theorem update_eq_params_eq (lm : Libm α) (s : SystemState α) :
    update_eq_params lm s =
      if (eq_entry lm s).eq_update.current_loss
          ≤ (eq_entry lm s).eq_update.init_loss * LOSS_IMPROVEMENT_FACTOR then
        set_update_accepted (eq_entry lm s) 1
      else
        final_verdict (total_gain_step lm (biquad_sweep lm (eq_entry lm s))) := by
  have e0 : ∀ (t : SystemState α) (v : α), (set_total_gain_dB t v).eq_update.total_gain_dB = v := by
    intro t v
    rw [set_total_gain_dB_eq_update]
  have e1 : ∀ (t : SystemState α) (x o n : α),
      calculate_ff_response lm (set_total_gain (set_total_gain_dB (set_total_gain_dB
        (calculate_ff_response lm (set_total_gain (set_total_gain_dB t x) (lm.powf 10 (x / 20))))
          o) n) (lm.powf 10 (n / 20)))
      = calculate_ff_response lm (set_total_gain (set_total_gain_dB t n) (lm.powf 10 (n / 20))) := by
    intro t x o n
    exact install_total_gain_absorb lm t x o n
  have e2 : ∀ (t : SystemState α) (n o : α),
      calculate_ff_response lm (set_total_gain (set_total_gain_dB
        (calculate_ff_response lm (set_total_gain (set_total_gain_dB t n) (lm.powf 10 (n / 20))))
          o) (lm.powf 10 (o / 20)))
      = calculate_ff_response lm (set_total_gain (set_total_gain_dB t o) (lm.powf 10 (o / 20))) := by
    intro t n o
    have h := install_total_gain_absorb lm t n o o
    unfold install_total_gain at h
    rw [set_total_gain_dB_idem] at h
    exact h
  unfold update_eq_params
  dsimp only
  simp only [e0, e1, e2, eq_entry, biquad_sweep, total_gain_step, final_verdict,
    total_gain_candidate, install_total_gain]

/-! ### Loss lemmas -/

theorem forLoop_congr {σ : Type} (n : Nat) (f g : Nat → σ → σ) (s : σ)
    (h : ∀ i, i < n → ∀ x, f i x = g i x) : forLoop n f s = forLoop n g s := by
  induction n with
  | zero => rw [forLoop_zero, forLoop_zero]
  | succ n ih =>
    rw [forLoop_succ, forLoop_succ, ih (fun i hi x => h i (Nat.lt_succ_of_lt hi) x),
      h n (Nat.lt_succ_self n)]

/-- The loss reads `target_ff` and `current_ff` on the bins only. -/
theorem calculate_loss_congr (t u : SystemState α)
    (ht : ∀ k, k < FFT_HALF_LENGTH → t.target_ff k = u.target_ff k)
    (hc : ∀ k, k < FFT_HALF_LENGTH → t.current_ff k = u.current_ff k) :
    calculate_loss t = calculate_loss u := by
  unfold calculate_loss
  dsimp only
  rw [forLoop_congr FFT_HALF_LENGTH _
    (fun i (loss : α) => loss +
      ((complex_sub (u.target_ff i) (u.current_ff i)).real *
          (complex_sub (u.target_ff i) (u.current_ff i)).real +
        (complex_sub (u.target_ff i) (u.current_ff i)).imag *
          (complex_sub (u.target_ff i) (u.current_ff i)).imag)) 0]
  intro i hi x
  rw [ht i hi, hc i hi]

theorem complex_sub_self (a : Complex α) : complex_sub a a = ⟨0, 0⟩ := by
  simp [complex_sub]

/-- The loss is zero when the response meets the target on every bin. -/
theorem calculate_loss_eq_zero (t : SystemState α)
    (h : ∀ k, k < FFT_HALF_LENGTH → t.target_ff k = t.current_ff k) :
    calculate_loss t = 0 := by
  unfold calculate_loss
  dsimp only
  have hz : forLoop FFT_HALF_LENGTH (fun i (loss : α) => loss +
      ((complex_sub (t.target_ff i) (t.current_ff i)).real *
          (complex_sub (t.target_ff i) (t.current_ff i)).real +
        (complex_sub (t.target_ff i) (t.current_ff i)).imag *
          (complex_sub (t.target_ff i) (t.current_ff i)).imag)) 0 = 0 := by
    apply forLoop_invariant (fun acc : α => acc = 0)
    · rfl
    · intro i acc hi hacc
      rw [hacc, h i hi, complex_sub_self]
      norm_num
  rw [hz]
  norm_num

/-- The loss is never negative. -/
theorem calculate_loss_nonneg (t : SystemState α) : 0 ≤ calculate_loss t := by
  unfold calculate_loss
  dsimp only
  apply div_nonneg
  · apply forLoop_invariant (fun acc : α => 0 ≤ acc)
    · exact le_refl _
    · intro i acc _ hacc
      have h1 := mul_self_nonneg (complex_sub (t.target_ff i) (t.current_ff i)).real
      have h2 := mul_self_nonneg (complex_sub (t.target_ff i) (t.current_ff i)).imag
      linarith
  · norm_num [FFT_HALF_LENGTH]

/-- The loss after recomputing the response reads the filter and the target only. -/
theorem calculate_loss_response_congr (lm : Libm α) (t u : SystemState α)
    (hf : t.ff_filter = u.ff_filter) (ht : t.target_ff = u.target_ff) :
    calculate_loss (calculate_ff_response lm t) = calculate_loss (calculate_ff_response lm u) := by
  apply calculate_loss_congr
  · intro k _
    rw [calculate_ff_response_target_ff, calculate_ff_response_target_ff, ht]
  · intro k hk
    rw [calculate_ff_response_current_ff, calculate_ff_response_current_ff, hf]
    simp [hk]

/-! ### Facts on the phases of `update_eq_params` -/

theorem set_init_loss_eq_update (s : SystemState α) (v : α) :
    (set_init_loss s v).eq_update = { s.eq_update with init_loss := v } := by
  cases s; rfl

theorem set_init_loss_ff_filter (s : SystemState α) (v : α) :
    (set_init_loss s v).ff_filter = s.ff_filter := by
  cases s; rfl

theorem set_init_loss_target_ff (s : SystemState α) (v : α) :
    (set_init_loss s v).target_ff = s.target_ff := by
  cases s; rfl

theorem set_init_loss_current_ff (s : SystemState α) (v : α) :
    (set_init_loss s v).current_ff = s.current_ff := by
  cases s; rfl

theorem eq_entry_eq_update (lm : Libm α) (s : SystemState α) :
    (eq_entry lm s).eq_update =
      { s.eq_update with current_loss := calculate_loss (calculate_ff_response lm s) } := by
  unfold eq_entry
  rw [set_current_loss_eq_update, calculate_ff_response_eq_update]

theorem eq_entry_ff_filter (lm : Libm α) (s : SystemState α) :
    (eq_entry lm s).ff_filter = s.ff_filter := by
  unfold eq_entry
  rw [set_current_loss_ff_filter, calculate_ff_response_ff_filter]

theorem eq_entry_target_ff (lm : Libm α) (s : SystemState α) :
    (eq_entry lm s).target_ff = s.target_ff := by
  unfold eq_entry
  rw [set_current_loss_target_ff, calculate_ff_response_target_ff]

theorem install_total_gain_eq_update (lm : Libm α) (s : SystemState α) (g : α) :
    (install_total_gain lm s g).eq_update = { s.eq_update with total_gain_dB := g } := by
  unfold install_total_gain
  rw [calculate_ff_response_eq_update, set_total_gain_eq_update, set_total_gain_dB_eq_update]

theorem install_total_gain_target_ff (lm : Libm α) (s : SystemState α) (g : α) :
    (install_total_gain lm s g).target_ff = s.target_ff := by
  unfold install_total_gain
  rw [calculate_ff_response_target_ff, set_total_gain_target_ff, set_total_gain_dB_target_ff]

theorem total_gain_candidate_bounds (lm : Libm α) (s : SystemState α) :
    -10 ≤ total_gain_candidate lm s ∧ total_gain_candidate lm s ≤ 10 := by
  have h := clamp_value_bounds
    (s.eq_update.total_gain_dB +
      clamp_value
        (-LEARNING_RATE_TOTAL_GAIN *
          ((calculate_loss (install_total_gain lm s
              (s.eq_update.total_gain_dB + EPSILON_TOTAL_GAIN))
            - s.eq_update.current_loss) / EPSILON_TOTAL_GAIN))
        (-MAX_DELTA_TOTAL_GAIN) MAX_DELTA_TOTAL_GAIN)
    MIN_TOTAL_GAIN_DB MAX_TOTAL_GAIN_DB (by norm_num [MIN_TOTAL_GAIN_DB, MAX_TOTAL_GAIN_DB])
  unfold total_gain_candidate
  simpa [MIN_TOTAL_GAIN_DB, MAX_TOTAL_GAIN_DB] using h

/-- The biquad sweep keeps the parameter box. -/
theorem biquad_sweep_param_box (lm : Libm α) (s : SystemState α) (h : param_box s) :
    param_box (biquad_sweep lm s) := by
  unfold biquad_sweep
  apply forLoop_invariant param_box
  · exact h
  · intro i t _ ht
    exact update_single_param_param_box lm _ i 2
      (update_single_param_param_box lm _ i 1 (update_single_param_param_box lm t i 0 ht))

/-- The biquad sweep never raises the cached loss and keeps `init_loss`. -/
theorem biquad_sweep_loss (lm : Libm α) (s : SystemState α) :
    (biquad_sweep lm s).eq_update.current_loss ≤ s.eq_update.current_loss ∧
      (biquad_sweep lm s).eq_update.init_loss = s.eq_update.init_loss := by
  unfold biquad_sweep
  apply forLoop_invariant (fun t : SystemState α =>
    t.eq_update.current_loss ≤ s.eq_update.current_loss ∧
      t.eq_update.init_loss = s.eq_update.init_loss)
  · exact ⟨le_refl _, rfl⟩
  · intro i t _ ht
    have h0 := update_single_param_loss lm t i 0
    have h1 := update_single_param_loss lm (update_single_param lm t i 0).1 i 1
    have h2 := update_single_param_loss lm
      (update_single_param lm (update_single_param lm t i 0).1 i 1).1 i 2
    refine ⟨?_, ?_⟩
    · exact le_trans h2.1 (le_trans h1.1 (le_trans h0.1 ht.1))
    · rw [h2.2.1, h1.2.1, h0.2.1, ht.2]

/-- The total-gain step keeps the biquad parameters, keeps the total gain in its
range, never raises the cached loss and keeps `init_loss`. -/
theorem total_gain_step_facts (lm : Libm α) (s : SystemState α) :
    (total_gain_step lm s).eq_update.params = s.eq_update.params ∧
      ((total_gain_step lm s).eq_update.total_gain_dB = s.eq_update.total_gain_dB ∨
        (-10 ≤ (total_gain_step lm s).eq_update.total_gain_dB ∧
          (total_gain_step lm s).eq_update.total_gain_dB ≤ 10)) ∧
      (total_gain_step lm s).eq_update.current_loss ≤ s.eq_update.current_loss ∧
      (total_gain_step lm s).eq_update.init_loss = s.eq_update.init_loss := by
  unfold total_gain_step
  split_ifs with hlt
  · simp only [set_current_loss_eq_update, install_total_gain_eq_update]
    exact ⟨trivial, Or.inr (total_gain_candidate_bounds lm s), le_of_lt hlt, trivial⟩
  · simp only [install_total_gain_eq_update]
    exact ⟨trivial, Or.inl trivial, le_refl _, trivial⟩

theorem final_verdict_eq_update (s : SystemState α) :
    (final_verdict s).eq_update =
      { s.eq_update with
        update_accepted :=
          if s.eq_update.current_loss < s.eq_update.init_loss then 1 else 0 } := by
  unfold final_verdict
  split_ifs <;> rw [set_update_accepted_eq_update]

/-! ### Initial state -/

theorem rebuild_coeffs_eq_update (lm : Libm α) (s : SystemState α) (i : Nat) :
    (rebuild_coeffs lm s i).eq_update = s.eq_update := by
  cases s; rfl

theorem rebuild_coeffs_coeffs (lm : Libm α) (s : SystemState α) (i : Nat) :
    (rebuild_coeffs lm s i).ff_filter.coeffs =
      Function.update s.ff_filter.coeffs i
        (eq_to_biquad_coeffs lm (s.eq_update.params i) (REALTIME_SAMPLE_RATE : α)) := by
  cases s; rfl

theorem set_param_record_params (s : SystemState α) (i : Nat) (pr : BiquadParam α) :
    (set_param_record s i pr).eq_update.params = Function.update s.eq_update.params i pr := by
  cases s; rfl

theorem set_param_record_ff_filter (s : SystemState α) (i : Nat) (pr : BiquadParam α) :
    (set_param_record s i pr).ff_filter = s.ff_filter := by
  cases s; rfl

/-- The preset loop of `system_init` installs the preset parameters and the
coefficients built from them. -/
theorem init_loop_facts (lm : Libm α) (preset n : Nat) (g : SystemState α) :
    (forLoop n (fun i (g : SystemState α) =>
        rebuild_coeffs lm (set_param_record g i (eq_presets_biquads preset i)) i)
        g).eq_update.params
      = (fun i => if i < n then eq_presets_biquads preset i else g.eq_update.params i) ∧
    (forLoop n (fun i (g : SystemState α) =>
        rebuild_coeffs lm (set_param_record g i (eq_presets_biquads preset i)) i)
        g).ff_filter.coeffs
      = (fun i => if i < n then
          eq_to_biquad_coeffs lm (eq_presets_biquads preset i) (REALTIME_SAMPLE_RATE : α)
          else g.ff_filter.coeffs i) := by
  induction n with
  | zero => simp [forLoop_zero]
  | succ n ih =>
    rw [forLoop_succ]
    obtain ⟨ih1, ih2⟩ := ih
    have hlt : ∀ i, i ≠ n → (i < n + 1) = (i < n) := by
      intro i hi
      apply propext; constructor <;> intro h <;> omega
    constructor
    · funext i
      rw [rebuild_coeffs_eq_update, set_param_record_params, ih1]
      by_cases hi : i = n
      · subst hi; simp
      · rw [Function.update_noteq hi]
        simp only [hlt i hi]
    · funext i
      rw [rebuild_coeffs_coeffs, set_param_record_ff_filter, set_param_record_params, ih2]
      by_cases hi : i = n
      · subst hi; simp
      · rw [Function.update_noteq hi]
        simp only [hlt i hi]

theorem system_init_params (lm : Libm α) :
    (system_init lm).eq_update.params =
      (fun i => if i < NUM_BIQUADS then eq_presets_biquads 0 i
        else ⟨BiquadType.BIQUAD_LOWSHELF, 0, 0, 0⟩) := by
  unfold system_init
  simp only [Int.toNat_zero]
  rw [(init_loop_facts lm 0 NUM_BIQUADS _).1]
  rfl

theorem system_init_coeffs (lm : Libm α) :
    (system_init lm).ff_filter.coeffs =
      (fun i => if i < NUM_BIQUADS then
          eq_to_biquad_coeffs lm (eq_presets_biquads 0 i) (REALTIME_SAMPLE_RATE : α)
        else ⟨0, 0, 0, 0, 0, 0⟩) := by
  unfold system_init
  simp only [Int.toNat_zero]
  rw [(init_loop_facts lm 0 NUM_BIQUADS _).2]
  rfl

theorem system_init_total_gain_dB (lm : Libm α) :
    (system_init lm).eq_update.total_gain_dB = 0 := by
  unfold system_init
  rfl

theorem eq_presets_in_box (i : Nat) (hi : i < NUM_BIQUADS) :
    in_box (eq_presets_biquads 0 i : BiquadParam α) := by
  unfold NUM_BIQUADS at hi
  unfold in_box
  interval_cases i <;> simp only [eq_presets_biquads, if_true] <;> norm_num

/-- The state left by `system_init` is inside the parameter box. -/
theorem system_init_param_box (lm : Libm α) : param_box (system_init lm) := by
  refine ⟨?_, ?_, ?_⟩
  · intro b hb
    rw [system_init_params]
    simp only [hb, if_true]
    exact eq_presets_in_box b hb
  · rw [system_init_total_gain_dB]; norm_num
  · rw [system_init_total_gain_dB]; norm_num

/-! ### `calculate_ff_init_loss` followed by `update_eq_params` -/

theorem calculate_ff_init_loss_eq (lm : Libm α) (s : SystemState α) :
    calculate_ff_init_loss lm s =
      set_current_loss
        (set_init_loss (calculate_ff_response lm s) (calculate_loss (calculate_ff_response lm s)))
        (calculate_loss (calculate_ff_response lm s)) := by
  unfold calculate_ff_init_loss
  simp only [set_init_loss_eq_update]

theorem calculate_ff_init_loss_eq_update (lm : Libm α) (s : SystemState α) :
    (calculate_ff_init_loss lm s).eq_update =
      { s.eq_update with
        init_loss := calculate_loss (calculate_ff_response lm s)
        current_loss := calculate_loss (calculate_ff_response lm s) } := by
  rw [calculate_ff_init_loss_eq, set_current_loss_eq_update, set_init_loss_eq_update,
    calculate_ff_response_eq_update]

theorem calculate_ff_init_loss_ff_filter (lm : Libm α) (s : SystemState α) :
    (calculate_ff_init_loss lm s).ff_filter = s.ff_filter := by
  rw [calculate_ff_init_loss_eq, set_current_loss_ff_filter, set_init_loss_ff_filter,
    calculate_ff_response_ff_filter]

theorem calculate_ff_init_loss_target_ff (lm : Libm α) (s : SystemState α) :
    (calculate_ff_init_loss lm s).target_ff = s.target_ff := by
  rw [calculate_ff_init_loss_eq, set_current_loss_target_ff, set_init_loss_target_ff,
    calculate_ff_response_target_ff]

/-- On entry of `update_eq_params` right after `calculate_ff_init_loss` the cached
loss and `init_loss` are both the loss of the installed response. -/
theorem eq_entry_after_init_loss (lm : Libm α) (s : SystemState α) :
    (eq_entry lm (calculate_ff_init_loss lm s)).eq_update.current_loss
        = calculate_loss (calculate_ff_response lm s) ∧
      (eq_entry lm (calculate_ff_init_loss lm s)).eq_update.init_loss
        = calculate_loss (calculate_ff_response lm s) := by
  constructor
  · rw [eq_entry_eq_update]
    exact calculate_loss_response_congr lm _ _ (calculate_ff_init_loss_ff_filter lm s)
      (calculate_ff_init_loss_target_ff lm s)
  · rw [eq_entry_eq_update, calculate_ff_init_loss_eq_update]

/-- The sweep and the total-gain step together never raise the cached loss. -/
theorem descent_facts (lm : Libm α) (t : SystemState α) :
    (final_verdict (total_gain_step lm (biquad_sweep lm t))).eq_update.current_loss
        ≤ t.eq_update.current_loss ∧
      (final_verdict (total_gain_step lm (biquad_sweep lm t))).eq_update.init_loss
        = t.eq_update.init_loss := by
  have h1 := biquad_sweep_loss lm t
  have h2 := total_gain_step_facts lm (biquad_sweep lm t)
  rw [final_verdict_eq_update]
  exact ⟨le_trans h2.2.2.1 h1.1, h2.2.2.2.trans h1.2⟩

/-- C1: parameter box is preserved by the optimizer.  For every state (hence every
target spectrum) whose ten biquads have gain_dB in [-20,20], Q in [0.3,10], fc in
[20,20000] and whose total_gain_dB is in [-10,10], the same holds after
`update_eq_params` and after any single `update_single_param` call, accepted or
rejected. -/
theorem param_box_preserved (lm : Libm α) (s : SystemState α) (h : param_box s) :
    param_box (update_eq_params lm s) ∧
      ∀ b p, param_box (update_single_param lm s b p).1 := by
  refine ⟨?_, fun b p => update_single_param_param_box lm s b p h⟩
  have hentry : param_box (eq_entry lm s) := by
    unfold param_box
    rw [eq_entry_eq_update]
    exact h
  rw [update_eq_params_eq]
  split_ifs with hskip
  · unfold param_box
    rw [set_update_accepted_eq_update]
    exact hentry
  · have hsweep := biquad_sweep_param_box lm _ hentry
    have hstep := total_gain_step_facts lm (biquad_sweep lm (eq_entry lm s))
    obtain ⟨hb, hg1, hg2⟩ := hsweep
    unfold param_box
    rw [final_verdict_eq_update]
    refine ⟨?_, ?_, ?_⟩
    · intro b hb'
      show in_box ((total_gain_step lm (biquad_sweep lm (eq_entry lm s))).eq_update.params b)
      rw [hstep.1]
      exact hb b hb'
    · show -10 ≤ (total_gain_step lm (biquad_sweep lm (eq_entry lm s))).eq_update.total_gain_dB
      rcases hstep.2.1 with he | hr
      · rw [he]; exact hg1
      · exact hr.1
    · show (total_gain_step lm (biquad_sweep lm (eq_entry lm s))).eq_update.total_gain_dB ≤ 10
      rcases hstep.2.1 with he | hr
      · rw [he]; exact hg2
      · exact hr.2

/-- Witness of C1 at the state left by `system_init`. -/
theorem param_box_preserved_witness :
    param_box (system_init sample_libm) ∧
      (param_box (update_eq_params sample_libm (system_init sample_libm)) ∧
        ∀ b p, param_box (update_single_param sample_libm (system_init sample_libm) b p).1) :=
  ⟨system_init_param_box sample_libm,
    param_box_preserved sample_libm (system_init sample_libm) (system_init_param_box sample_libm)⟩

/-- C2: loss monotonicity over an iteration.  When `update_eq_params` runs right
after `calculate_ff_init_loss` on the same state, the final `current_loss` is at most
`init_loss` whether or not the iteration is accepted (so in particular when
`update_accepted = 1`), `init_loss` being the value `calculate_ff_init_loss` stored. -/
theorem loss_monotone_over_iteration (lm : Libm α) (s : SystemState α) :
    (update_eq_params lm (calculate_ff_init_loss lm s)).eq_update.current_loss
        ≤ (update_eq_params lm (calculate_ff_init_loss lm s)).eq_update.init_loss ∧
      ((update_eq_params lm (calculate_ff_init_loss lm s)).eq_update.update_accepted = 1 →
        (update_eq_params lm (calculate_ff_init_loss lm s)).eq_update.current_loss
          ≤ (update_eq_params lm (calculate_ff_init_loss lm s)).eq_update.init_loss) ∧
      (update_eq_params lm (calculate_ff_init_loss lm s)).eq_update.init_loss
        = (calculate_ff_init_loss lm s).eq_update.init_loss := by
  have hentry := eq_entry_after_init_loss lm s
  have hinit : (calculate_ff_init_loss lm s).eq_update.init_loss
      = calculate_loss (calculate_ff_response lm s) := by
    rw [calculate_ff_init_loss_eq_update]
  have key : (update_eq_params lm (calculate_ff_init_loss lm s)).eq_update.current_loss
        ≤ calculate_loss (calculate_ff_response lm s) ∧
      (update_eq_params lm (calculate_ff_init_loss lm s)).eq_update.init_loss
        = calculate_loss (calculate_ff_response lm s) := by
    rw [update_eq_params_eq]
    split_ifs with hskip
    · rw [set_update_accepted_eq_update]
      exact ⟨le_of_eq hentry.1, hentry.2⟩
    · have hd := descent_facts lm (eq_entry lm (calculate_ff_init_loss lm s))
      exact ⟨le_trans hd.1 (le_of_eq hentry.1), hd.2.trans hentry.2⟩
  refine ⟨?_, ?_, ?_⟩
  · rw [key.2]; exact key.1
  · intro _; rw [key.2]; exact key.1
  · rw [key.2, hinit]

/-- C3: per-parameter accept/revert.  Let `su` be the setup of parameter `p` of
biquad `b` (so `p` is 0, 1 or 2) and assume that on entry biquad `b`'s coefficients
are `eq_to_biquad_coeffs` of its parameters at the realtime rate.  Then
`update_single_param` returns 1 iff the loss at the clamped candidate is strictly
less than `current_loss` on entry, and then `current_loss` is that candidate loss and
the candidate is installed; otherwise it returns 0 and the parameters, the
coefficients and `current_loss` are exactly as on entry. -/
theorem update_single_param_accept_revert (lm : Libm α) (s : SystemState α) (b p : Nat)
    (su : ParamSetup α) (hsu : param_setup (s.eq_update.params b) p = some su)
    (hco : s.ff_filter.coeffs b =
      eq_to_biquad_coeffs lm (s.eq_update.params b) (REALTIME_SAMPLE_RATE : α)) :
    ((update_single_param lm s b p).2 = 1 ↔
        loss_with lm s b p (candidate_value lm s b p su) < s.eq_update.current_loss) ∧
      ((update_single_param lm s b p).2 = 1 →
        (update_single_param lm s b p).1.eq_update.current_loss
            = loss_with lm s b p (candidate_value lm s b p su) ∧
          (update_single_param lm s b p).1.eq_update.params b
            = store_param (s.eq_update.params b) p (candidate_value lm s b p su)) ∧
      ((update_single_param lm s b p).2 ≠ 1 →
        (update_single_param lm s b p).2 = 0 ∧
          (update_single_param lm s b p).1.eq_update.params = s.eq_update.params ∧
          (update_single_param lm s b p).1.ff_filter.coeffs = s.ff_filter.coeffs ∧
          (update_single_param lm s b p).1.eq_update.current_loss = s.eq_update.current_loss) := by
  rw [update_single_param_eq lm s b p su hsu]
  split_ifs with hlt
  · refine ⟨⟨fun _ => hlt, fun _ => rfl⟩, fun _ => ⟨?_, ?_⟩, fun hne => absurd rfl hne⟩
    · show (set_current_loss _ _).eq_update.current_loss = _
      rw [set_current_loss_eq_update]
    · show (set_current_loss _ _).eq_update.params b = _
      rw [set_current_loss_eq_update, install_value_eq_update]
      exact Function.update_same _ _ _
  · have h01 : (0 : Int) ≠ 1 := by decide
    refine ⟨⟨fun h1 => absurd h1 h01, fun h1 => absurd h1 hlt⟩,
      fun h1 => absurd h1 h01, fun _ => ⟨rfl, ?_, ?_, ?_⟩⟩
    · show (install_value lm s b p su.original_value).eq_update.params = _
      rw [install_value_eq_update, store_param_original _ _ _ hsu]
      exact Function.update_eq_self _ _
    · show (install_value lm s b p su.original_value).ff_filter.coeffs = _
      rw [install_value_coeffs, store_param_original _ _ _ hsu, ← hco]
      exact Function.update_eq_self _ _
    · show (install_value lm s b p su.original_value).eq_update.current_loss = _
      rw [install_value_eq_update]

/-- Witness of C3: the gain of biquad 0 in the state left by `system_init`. -/
theorem update_single_param_accept_revert_witness :
    (param_setup ((system_init sample_libm).eq_update.params 0) 0
        = some ⟨((system_init sample_libm).eq_update.params 0).gain_dB, EPSILON_GAIN,
            LEARNING_RATE_GAIN, MAX_DELTA_GAIN, MIN_GAIN_DB, MAX_GAIN_DB⟩) ∧
      ((system_init sample_libm).ff_filter.coeffs 0 =
        eq_to_biquad_coeffs sample_libm ((system_init sample_libm).eq_update.params 0)
          (REALTIME_SAMPLE_RATE : ℚ)) ∧
      ((update_single_param sample_libm (system_init sample_libm) 0 0).2 ≠ 1 →
        (update_single_param sample_libm (system_init sample_libm) 0 0).2 = 0 ∧
          (update_single_param sample_libm (system_init sample_libm) 0 0).1.eq_update.params
            = (system_init sample_libm).eq_update.params ∧
          (update_single_param sample_libm (system_init sample_libm) 0 0).1.ff_filter.coeffs
            = (system_init sample_libm).ff_filter.coeffs ∧
          (update_single_param sample_libm (system_init sample_libm) 0 0).1.eq_update.current_loss
            = (system_init sample_libm).eq_update.current_loss) :=
  have hco : (system_init sample_libm).ff_filter.coeffs 0 =
      eq_to_biquad_coeffs sample_libm ((system_init sample_libm).eq_update.params 0)
        (REALTIME_SAMPLE_RATE : ℚ) := by
    rw [system_init_coeffs, system_init_params]
    simp [NUM_BIQUADS]
  ⟨rfl, hco,
    (update_single_param_accept_revert sample_libm (system_init sample_libm) 0 0 _ rfl hco).2.2⟩

theorem set_target_ff_eq_update (s : SystemState α) (t : Nat → Complex α) :
    (set_target_ff s t).eq_update = s.eq_update := by
  cases s; rfl

theorem set_target_ff_ff_filter (s : SystemState α) (t : Nat → Complex α) :
    (set_target_ff s t).ff_filter = s.ff_filter := by
  cases s; rfl

theorem set_target_ff_target_ff (s : SystemState α) (t : Nat → Complex α) :
    (set_target_ff s t).target_ff = t := by
  cases s; rfl

theorem set_update_accepted_target_ff (s : SystemState α) (v : Int) :
    (set_update_accepted s v).target_ff = s.target_ff := by
  cases s; rfl

/-- C8: optimizer fixed point.  For every state whose `target_ff` equals the cascade
response of the installed coefficients on all bins, `calculate_ff_init_loss` followed
by `update_eq_params` leaves all biquad parameters, `total_gain_dB`, all coefficients
and `total_gain` unchanged, sets `update_accepted = 1` and ends with
`current_loss = init_loss`. -/
theorem optimizer_fixed_point (lm : Libm α) (s : SystemState α)
    (h : ∀ k, k < FFT_HALF_LENGTH → s.target_ff k = ff_response_bin lm s.ff_filter k) :
    (update_eq_params lm (calculate_ff_init_loss lm s)).eq_update.params = s.eq_update.params ∧
      (update_eq_params lm (calculate_ff_init_loss lm s)).eq_update.total_gain_dB
        = s.eq_update.total_gain_dB ∧
      (update_eq_params lm (calculate_ff_init_loss lm s)).ff_filter.coeffs = s.ff_filter.coeffs ∧
      (update_eq_params lm (calculate_ff_init_loss lm s)).ff_filter.total_gain
        = s.ff_filter.total_gain ∧
      (update_eq_params lm (calculate_ff_init_loss lm s)).eq_update.update_accepted = 1 ∧
      (update_eq_params lm (calculate_ff_init_loss lm s)).eq_update.current_loss
        = (update_eq_params lm (calculate_ff_init_loss lm s)).eq_update.init_loss := by
  have hzero : calculate_loss (calculate_ff_response lm s) = 0 := by
    apply calculate_loss_eq_zero
    intro k hk
    rw [calculate_ff_response_target_ff, calculate_ff_response_current_ff, h k hk]
    simp [hk]
  have hentry := eq_entry_after_init_loss lm s
  rw [hzero] at hentry
  have hskip : (eq_entry lm (calculate_ff_init_loss lm s)).eq_update.current_loss
      ≤ (eq_entry lm (calculate_ff_init_loss lm s)).eq_update.init_loss
        * LOSS_IMPROVEMENT_FACTOR := by
    rw [hentry.1, hentry.2]
    norm_num
  rw [update_eq_params_eq, if_pos hskip]
  refine ⟨?_, ?_, ?_, ?_, ?_, ?_⟩
  · rw [set_update_accepted_eq_update, eq_entry_eq_update, calculate_ff_init_loss_eq_update]
  · rw [set_update_accepted_eq_update, eq_entry_eq_update, calculate_ff_init_loss_eq_update]
  · rw [set_update_accepted_ff_filter, eq_entry_ff_filter, calculate_ff_init_loss_ff_filter]
  · rw [set_update_accepted_ff_filter, eq_entry_ff_filter, calculate_ff_init_loss_ff_filter]
  · rw [set_update_accepted_eq_update]
  · rw [set_update_accepted_eq_update]
    show (eq_entry lm (calculate_ff_init_loss lm s)).eq_update.current_loss
      = (eq_entry lm (calculate_ff_init_loss lm s)).eq_update.init_loss
    rw [hentry.1, hentry.2]

/-- Witness of C8 at `fixed_point_state`. -/
theorem optimizer_fixed_point_witness :
    (∀ k, k < FFT_HALF_LENGTH →
        fixed_point_state.target_ff k = ff_response_bin sample_libm fixed_point_state.ff_filter k) ∧
      (update_eq_params sample_libm
          (calculate_ff_init_loss sample_libm fixed_point_state)).eq_update.update_accepted = 1 :=
  have hyp : ∀ k, k < FFT_HALF_LENGTH →
      fixed_point_state.target_ff k
        = ff_response_bin sample_libm fixed_point_state.ff_filter k := by
    intro k _
    unfold fixed_point_state
    rw [set_target_ff_target_ff, set_target_ff_ff_filter]
  ⟨hyp, (optimizer_fixed_point sample_libm fixed_point_state hyp).2.2.2.2.1⟩

/-! ### Bound clamping -/

theorem clamp_value_eq_max (v lo hi : α) (hlo : lo ≤ hi) (hv : hi ≤ v) :
    clamp_value v lo hi = hi := by
  unfold clamp_value
  split_ifs with h1 h2
  · exact absurd (lt_of_le_of_lt (le_trans hlo hv) h1) (lt_irrefl _)
  · rfl
  · exact le_antisymm (not_lt.mp h2) hv

theorem clamp_value_ge (v lo hi x : α) (hx : x ≤ hi) (hv : x ≤ v) :
    x ≤ clamp_value v lo hi := by
  unfold clamp_value
  split_ifs with h1 h2
  · exact le_of_lt (lt_of_le_of_lt hv h1)
  · exact hx
  · exact hv

theorem install_value_current_ff (lm : Libm α) (s : SystemState α) (b p : Nat) (v : α)
    (k : Nat) (hk : k < FFT_HALF_LENGTH) :
    (install_value lm s b p v).current_ff k
      = ff_response_bin lm (install_value lm s b p v).ff_filter k := by
  unfold install_value
  rw [calculate_ff_response_current_ff, calculate_ff_response_ff_filter]
  simp [hk]

theorem install_value_ff_filter_congr (lm : Libm α) (s t : SystemState α) (b p : Nat) (v : α)
    (hf : s.ff_filter = t.ff_filter) (hp : s.eq_update.params = t.eq_update.params) :
    (install_value lm s b p v).ff_filter = (install_value lm t b p v).ff_filter := by
  unfold install_value
  rw [calculate_ff_response_ff_filter, calculate_ff_response_ff_filter]
  unfold rebuild_coeffs write_param
  simp only [hf, hp]

/-- The candidate of the gain step of biquad 0 is the upper bound 20 dB when the
gain is 19.5 dB and the scaled negative gradient is at least 0.5. -/
theorem gain_candidate_clamped (lm : Libm α) (s : SystemState α)
    (hgain : (s.eq_update.params 0).gain_dB = 19.5)
    (hgrad : 0.5 ≤ -0.1 *
      ((loss_with lm s 0 0 (19.5 + 0.01) - s.eq_update.current_loss) / 0.01)) :
    candidate_value lm s 0 0
      ⟨(s.eq_update.params 0).gain_dB, EPSILON_GAIN, LEARNING_RATE_GAIN, MAX_DELTA_GAIN,
        MIN_GAIN_DB, MAX_GAIN_DB⟩ = 20 := by
  unfold candidate_value fd_gradient
  simp only [hgain, EPSILON_GAIN, LEARNING_RATE_GAIN, MAX_DELTA_GAIN, MIN_GAIN_DB, MAX_GAIN_DB]
  apply clamp_value_eq_max
  · norm_num
  · have hd := clamp_value_ge
      (-0.1 * ((loss_with lm s 0 0 (19.5 + 0.01) - s.eq_update.current_loss) / 0.01))
      (-2) 2 0.5 (by norm_num) hgrad
    linarith

/-- C9: bound clamping.  For every state where biquad 0 has `gain_dB = 19.5` and the
finite-difference gradient `g = (L(19.5 + 0.01) - current_loss) / 0.01` satisfies
`-0.1 * g >= 0.5`, `update_single_param(0, gain)` evaluates the candidate loss with
`gain_dB` exactly 20, accepts iff that loss is strictly below the loss before the
step, installs gain 20 with that loss when it accepts, and keeps gain 19.5 and the
loss otherwise. -/
theorem bound_clamping (lm : Libm α) (s : SystemState α)
    (hgain : (s.eq_update.params 0).gain_dB = 19.5)
    (hgrad : 0.5 ≤ -0.1 *
      ((loss_with lm s 0 0 (19.5 + 0.01) - s.eq_update.current_loss) / 0.01)) :
    ((install_value lm s 0 0 20).eq_update.params 0).gain_dB = 20 ∧
      ((update_single_param lm s 0 0).2 = 1 ↔
        loss_with lm s 0 0 20 < s.eq_update.current_loss) ∧
      ((update_single_param lm s 0 0).2 = 1 →
        ((update_single_param lm s 0 0).1.eq_update.params 0).gain_dB = 20 ∧
          (update_single_param lm s 0 0).1.eq_update.current_loss = loss_with lm s 0 0 20) ∧
      ((update_single_param lm s 0 0).2 ≠ 1 →
        ((update_single_param lm s 0 0).1.eq_update.params 0).gain_dB = 19.5 ∧
          (update_single_param lm s 0 0).1.eq_update.current_loss = s.eq_update.current_loss) := by
  have hsu : param_setup (s.eq_update.params 0) 0 =
      some ⟨(s.eq_update.params 0).gain_dB, EPSILON_GAIN, LEARNING_RATE_GAIN, MAX_DELTA_GAIN,
        MIN_GAIN_DB, MAX_GAIN_DB⟩ := rfl
  have hinst : ∀ v : α, ((install_value lm s 0 0 v).eq_update.params 0).gain_dB = v := by
    intro v
    rw [install_value_eq_update]
    simp [store_param]
  rw [update_single_param_eq lm s 0 0 _ hsu, gain_candidate_clamped lm s hgain hgrad]
  refine ⟨hinst 20, ?_⟩
  split_ifs with hlt
  · refine ⟨⟨fun _ => hlt, fun _ => rfl⟩, fun _ => ⟨?_, ?_⟩, fun hne => absurd rfl hne⟩
    · show ((set_current_loss _ _).eq_update.params 0).gain_dB = 20
      rw [set_current_loss_eq_update]
      exact hinst 20
    · show (set_current_loss _ _).eq_update.current_loss = _
      rw [set_current_loss_eq_update]
  · have h01 : (0 : Int) ≠ 1 := by decide
    refine ⟨⟨fun h1 => absurd h1 h01, fun h1 => absurd h1 hlt⟩,
      fun h1 => absurd h1 h01, fun _ => ⟨?_, ?_⟩⟩
    · show ((install_value lm s 0 0 (s.eq_update.params 0).gain_dB).eq_update.params 0).gain_dB
        = 19.5
      rw [hinst, hgain]
    · show (install_value lm s 0 0 (s.eq_update.params 0).gain_dB).eq_update.current_loss = _
      rw [install_value_eq_update]

theorem clamp_demo_state_gain : (clamp_demo_state.eq_update.params 0).gain_dB = 19.5 := by
  unfold clamp_demo_state clamp_demo_base
  rw [set_current_loss_eq_update, set_target_ff_eq_update, set_param_record_params,
    Function.update_same]

theorem clamp_demo_state_current_loss : clamp_demo_state.eq_update.current_loss = 1 := by
  unfold clamp_demo_state
  rw [set_current_loss_eq_update]

theorem clamp_demo_state_loss_plus :
    loss_with sample_libm clamp_demo_state 0 0 (19.5 + 0.01) = 0 := by
  unfold loss_with
  apply calculate_loss_eq_zero
  intro k hk
  have hf : (install_value sample_libm clamp_demo_state 0 0 (19.5 + 0.01)).ff_filter
      = (install_value sample_libm clamp_demo_base 0 0 (19.5 + 0.01)).ff_filter := by
    apply install_value_ff_filter_congr
    · unfold clamp_demo_state
      rw [set_current_loss_ff_filter, set_target_ff_ff_filter]
    · unfold clamp_demo_state
      rw [set_current_loss_eq_update, set_target_ff_eq_update]
  rw [install_value_target_ff, install_value_current_ff _ _ _ _ _ k hk, hf,
    ← install_value_current_ff _ _ _ _ _ k hk]
  unfold clamp_demo_state
  rw [set_current_loss_target_ff, set_target_ff_target_ff]

/-- Witness of C9 at `clamp_demo_state`. -/
theorem bound_clamping_witness :
    (clamp_demo_state.eq_update.params 0).gain_dB = 19.5 ∧
      (0.5 : ℚ) ≤ -0.1 *
        ((loss_with sample_libm clamp_demo_state 0 0 (19.5 + 0.01)
          - clamp_demo_state.eq_update.current_loss) / 0.01) ∧
      ((update_single_param sample_libm clamp_demo_state 0 0).2 = 1 ↔
        loss_with sample_libm clamp_demo_state 0 0 20
          < clamp_demo_state.eq_update.current_loss) :=
  have hgrad : (0.5 : ℚ) ≤ -0.1 *
      ((loss_with sample_libm clamp_demo_state 0 0 (19.5 + 0.01)
        - clamp_demo_state.eq_update.current_loss) / 0.01) := by
    rw [clamp_demo_state_loss_plus, clamp_demo_state_current_loss]
    norm_num
  ⟨clamp_demo_state_gain, hgrad,
    (bound_clamping sample_libm clamp_demo_state clamp_demo_state_gain hgrad).2.1⟩

/-! ### Constants of the gate and the analyzer -/

theorem rat_floor_eq (x : ℚ) (z : Int) (h1 : (z : ℚ) ≤ x) (h2 : x < (z : ℚ) + 1) :
    Rat.floor x = z := by
  show ⌊x⌋ = z
  rw [Int.floor_eq_iff]
  exact ⟨h1, h2⟩

theorem FFT_HOP_SIZE_eq : FFT_HOP_SIZE = 512 := by
  unfold FFT_HOP_SIZE
  apply rat_floor_eq <;> norm_num [FFT_LENGTH, FFT_OVERLAP_RATIO]

theorem SAMPLES_PER_INTERVAL_eq : SAMPLES_PER_INTERVAL = 160 := by decide

theorem stable_bin_low_eq : stable_bin_low = 12 := by
  have h : Rat.floor (STABLE_CHECK_FREQ_LOW * (FFT_LENGTH : ℚ) / (DSP_SAMPLE_RATE : ℚ)) = 12 := by
    apply rat_floor_eq <;> norm_num [STABLE_CHECK_FREQ_LOW, FFT_LENGTH, DSP_SAMPLE_RATE]
  have h0 : (0 : ℚ) ≤ STABLE_CHECK_FREQ_LOW * (FFT_LENGTH : ℚ) / (DSP_SAMPLE_RATE : ℚ) := by
    norm_num [STABLE_CHECK_FREQ_LOW, FFT_LENGTH, DSP_SAMPLE_RATE]
  unfold stable_bin_low toInt
  simp only [h0, if_true, h]
  decide

theorem stable_bin_high_eq : stable_bin_high = 64 := by
  have h : Rat.floor (STABLE_CHECK_FREQ_HIGH * (FFT_LENGTH : ℚ) / (DSP_SAMPLE_RATE : ℚ)) = 64 := by
    apply rat_floor_eq <;> norm_num [STABLE_CHECK_FREQ_HIGH, FFT_LENGTH, DSP_SAMPLE_RATE]
  have h0 : (0 : ℚ) ≤ STABLE_CHECK_FREQ_HIGH * (FFT_LENGTH : ℚ) / (DSP_SAMPLE_RATE : ℚ) := by
    norm_num [STABLE_CHECK_FREQ_HIGH, FFT_LENGTH, DSP_SAMPLE_RATE]
  unfold stable_bin_high toInt
  simp only [h0, if_true, h]
  decide

theorem stable_band_len_eq : stable_band_len = 53 := by
  unfold stable_band_len
  rw [stable_bin_low_eq, stable_bin_high_eq]
  decide

/-- `check_target_stability` commits the smoothness and returns 1 when the gate
accepts, and returns 0 with the state untouched otherwise. -/
theorem check_target_stability_eq (lm : Libm α) (s : SystemState α) :
    check_target_stability lm s =
      if gate_accepts lm s.target_ff s.prev_target_ff s.prev_smoothness then
        (set_prev_smoothness s (calculate_smoothness (band_db lm s.target_ff) stable_band_len), 1)
      else (s, 0) := by
  have hlen : ¬ (stable_band_len < 3) := by rw [stable_band_len_eq]; decide
  unfold check_target_stability gate_accepts
  simp only [hlen, if_false]
  split_ifs <;> first | rfl | (exfalso; tauto)

/-! ### The scheduler -/

theorem buffer_frame_state (g : SystemState α) (ff_in fb_in spk_in : Nat → α) (n : Int) :
    (buffer_frame g ff_in fb_in spk_in n).state = g.state := rfl

theorem buffer_frame_target_ff (g : SystemState α) (ff_in fb_in spk_in : Nat → α) (n : Int) :
    (buffer_frame g ff_in fb_in spk_in n).target_ff = g.target_ff := rfl

theorem buffer_frame_prev_target_ff (g : SystemState α) (ff_in fb_in spk_in : Nat → α)
    (n : Int) : (buffer_frame g ff_in fb_in spk_in n).prev_target_ff = g.prev_target_ff := rfl

theorem buffer_frame_prev_smoothness (g : SystemState α) (ff_in fb_in spk_in : Nat → α)
    (n : Int) : (buffer_frame g ff_in fb_in spk_in n).prev_smoothness = g.prev_smoothness := rfl

theorem buffer_frame_fft_count (g : SystemState α) (ff_in fb_in spk_in : Nat → α) (n : Int) :
    (buffer_frame g ff_in fb_in spk_in n).fft_count = g.fft_count := rfl

theorem buffer_frame_frame_count (g : SystemState α) (ff_in fb_in spk_in : Nat → α) (n : Int) :
    (buffer_frame g ff_in fb_in spk_in n).frame_count = g.frame_count := rfl

theorem buffer_frame_eq_update (g : SystemState α) (ff_in fb_in spk_in : Nat → α) (n : Int) :
    (buffer_frame g ff_in fb_in spk_in n).eq_update = g.eq_update := rfl

/-- The value returned by `check_target_stability` is 1 exactly when the gate accepts. -/
theorem check_target_stability_snd (lm : Libm α) (s : SystemState α) :
    (check_target_stability lm s).2 = 1 ↔
      gate_accepts lm s.target_ff s.prev_target_ff s.prev_smoothness := by
  rw [check_target_stability_eq]
  split_ifs with h
  · exact ⟨fun _ => h, fun _ => rfl⟩
  · have h01 : (0 : Int) ≠ 1 := by decide
    exact ⟨fun h1 => absurd h1 h01, fun h1 => absurd h1 h⟩

/-- The outcome of `case STABLE_CHECK` when the gate accepts. -/
theorem stable_check_pass (lm : Libm α) (g : SystemState α)
    (h : gate_accepts lm g.target_ff g.prev_target_ff g.prev_smoothness) :
    (stable_check lm g).prev_smoothness
        = calculate_smoothness (band_db lm g.target_ff) stable_band_len ∧
      (stable_check lm g).prev_target_ff = g.target_ff ∧
      (stable_check lm g).state = ProcessState.CAL_FF_INIT_LOSS ∧
      (stable_check lm g).eq_update = g.eq_update := by
  unfold stable_check
  rw [check_target_stability_eq, if_pos h]
  simp [set_prev_smoothness]

/-- The outcome of `case STABLE_CHECK` when the gate rejects. -/
theorem stable_check_fail (lm : Libm α) (g : SystemState α)
    (h : ¬ gate_accepts lm g.target_ff g.prev_target_ff g.prev_smoothness) :
    (stable_check lm g).prev_smoothness = g.prev_smoothness ∧
      (stable_check lm g).prev_target_ff = g.prev_target_ff ∧
      (stable_check lm g).state = ProcessState.SIGNAL_PROCESS ∧
      (stable_check lm g).fft_count = 0 ∧
      (stable_check lm g).frame_count = 0 ∧
      (stable_check lm g).eq_update = g.eq_update := by
  unfold stable_check
  rw [check_target_stability_eq, if_neg h]
  simp

theorem process_audio_frame_stable_check (lm : Libm α) (w : Nat → α) (g : SystemState α)
    (ff_in fb_in spk_in : Nat → α) (n : Int) (hs : g.state = ProcessState.STABLE_CHECK) :
    process_audio_frame lm w g ff_in fb_in spk_in n
      = stable_check lm (buffer_frame g ff_in fb_in spk_in n) := by
  unfold process_audio_frame
  simp only [buffer_frame_state, hs]

/-- C4: stability commit atomicity.  For every state in `STABLE_CHECK` and every
input frame, one `process_audio_frame` step sets `prev_smoothness` to the current
smoothness and `prev_target_ff` to `target_ff` when `check_target_stability` returns
1, and leaves both unchanged when it does not. -/
theorem stability_commit_atomic (lm : Libm α) (w : Nat → α) (g : SystemState α)
    (ff_in fb_in spk_in : Nat → α) (n : Int) (hs : g.state = ProcessState.STABLE_CHECK) :
    ((check_target_stability lm g).2 = 1 →
        (process_audio_frame lm w g ff_in fb_in spk_in n).prev_smoothness
            = calculate_smoothness (band_db lm g.target_ff) stable_band_len ∧
          (process_audio_frame lm w g ff_in fb_in spk_in n).prev_target_ff = g.target_ff) ∧
      ((check_target_stability lm g).2 ≠ 1 →
        (process_audio_frame lm w g ff_in fb_in spk_in n).prev_smoothness = g.prev_smoothness ∧
          (process_audio_frame lm w g ff_in fb_in spk_in n).prev_target_ff
            = g.prev_target_ff) := by
  rw [process_audio_frame_stable_check lm w g ff_in fb_in spk_in n hs]
  constructor
  · intro h
    have hp := stable_check_pass lm (buffer_frame g ff_in fb_in spk_in n)
      ((check_target_stability_snd lm g).mp h)
    exact ⟨hp.1, hp.2.1⟩
  · intro h
    have hf := stable_check_fail lm (buffer_frame g ff_in fb_in spk_in n)
      (fun ha => h ((check_target_stability_snd lm g).mpr ha))
    exact ⟨hf.1, hf.2.1⟩

/-- Witness of C4 at the state left by `system_init` put in `STABLE_CHECK`, fed a
silent frame. -/
theorem stability_commit_atomic_witness :
    ({ system_init sample_libm with state := ProcessState.STABLE_CHECK } : SystemState ℚ).state
        = ProcessState.STABLE_CHECK ∧
      ((check_target_stability sample_libm
          { system_init sample_libm with state := ProcessState.STABLE_CHECK }).2 ≠ 1 →
        (process_audio_frame sample_libm (init_blackman_window sample_libm)
            { system_init sample_libm with state := ProcessState.STABLE_CHECK }
            (fun _ => 0) (fun _ => 0) (fun _ => 0) 1875).prev_smoothness
          = ({ system_init sample_libm with state := ProcessState.STABLE_CHECK } :
              SystemState ℚ).prev_smoothness ∧
        (process_audio_frame sample_libm (init_blackman_window sample_libm)
            { system_init sample_libm with state := ProcessState.STABLE_CHECK }
            (fun _ => 0) (fun _ => 0) (fun _ => 0) 1875).prev_target_ff
          = ({ system_init sample_libm with state := ProcessState.STABLE_CHECK } :
              SystemState ℚ).prev_target_ff) :=
  ⟨rfl, (stability_commit_atomic sample_libm (init_blackman_window sample_libm)
    { system_init sample_libm with state := ProcessState.STABLE_CHECK }
    (fun _ => 0) (fun _ => 0) (fun _ => 0) 1875 rfl).2⟩

theorem fft_pass_fft_count (lm : Libm α) (w : Nat → α) (g : SystemState α) :
    (fft_pass lm w g).fft_count = g.fft_count + 1 := rfl

theorem fft_pass_state (lm : Libm α) (w : Nat → α) (g : SystemState α) :
    (fft_pass lm w g).state = g.state := rfl

theorem average_fft_results_fft_count (g : SystemState α) :
    (average_fft_results g).fft_count = g.fft_count := rfl

/-- The outcome of `case SIGNAL_PROCESS`: the machine is in `CAL_MU` exactly when
the FFT count after the call has reached `NUM_FFT_AVERAGE`, and stays in
`SIGNAL_PROCESS` otherwise. -/
theorem signal_process_facts (lm : Libm α) (w : Nat → α) (g : SystemState α)
    (hs : g.state = ProcessState.SIGNAL_PROCESS) :
    ((signal_process lm w g).state = ProcessState.CAL_MU ↔
        10 ≤ (signal_process lm w g).fft_count) ∧
      ((signal_process lm w g).state ≠ ProcessState.CAL_MU →
        (signal_process lm w g).state = ProcessState.SIGNAL_PROCESS) ∧
      (g.fft_count < 10 → (signal_process lm w g).fft_count ≤ 10) := by
  unfold signal_process
  simp only [NUM_FFT_AVERAGE]
  split_ifs with h1 h2 h3 h3 h2 h3 h3 <;>
    (try simp only [fft_pass_fft_count, fft_pass_state, average_fft_results_fft_count] at *) <;>
    (try simp only [hs]) <;>
    (try simp) <;>
    omega

theorem process_audio_frame_signal_process (lm : Libm α) (w : Nat → α) (g : SystemState α)
    (ff_in fb_in spk_in : Nat → α) (n : Int) (hs : g.state = ProcessState.SIGNAL_PROCESS) :
    process_audio_frame lm w g ff_in fb_in spk_in n
      = signal_process lm w (buffer_frame g ff_in fb_in spk_in n) := by
  unfold process_audio_frame
  simp only [buffer_frame_state, hs]

/-- C10: state-machine progression.  For every state and every input frame, one
`process_audio_frame` call moves `CAL_MU` to `CAL_FF_RESPONSE`, that to
`CAL_TARGET_FF`, that to `STABLE_CHECK`; `STABLE_CHECK` to `CAL_FF_INIT_LOSS` when
the check returns 1 and to `SIGNAL_PROCESS` with `fft_count = 0` and
`frame_count = 0` otherwise; `CAL_FF_INIT_LOSS` to `UPDATE_EQ_PARAMS`, that to
`UPDATE_FILTER_COEFFS`, and that to `SIGNAL_PROCESS` with `fft_count = 0` and
`frame_count = 0`.  From `SIGNAL_PROCESS` the machine is in `CAL_MU` after the call
exactly when `fft_count` after the call has reached 10, and is still in
`SIGNAL_PROCESS` otherwise; coming from a count below 10 the count then is exactly
10. -/
theorem state_machine_progression (lm : Libm α) (w : Nat → α) (g : SystemState α)
    (ff_in fb_in spk_in : Nat → α) (n : Int) :
    (g.state = ProcessState.CAL_MU →
        (process_audio_frame lm w g ff_in fb_in spk_in n).state
          = ProcessState.CAL_FF_RESPONSE) ∧
      (g.state = ProcessState.CAL_FF_RESPONSE →
        (process_audio_frame lm w g ff_in fb_in spk_in n).state
          = ProcessState.CAL_TARGET_FF) ∧
      (g.state = ProcessState.CAL_TARGET_FF →
        (process_audio_frame lm w g ff_in fb_in spk_in n).state
          = ProcessState.STABLE_CHECK) ∧
      (g.state = ProcessState.STABLE_CHECK →
        ((check_target_stability lm g).2 = 1 →
          (process_audio_frame lm w g ff_in fb_in spk_in n).state
            = ProcessState.CAL_FF_INIT_LOSS) ∧
        ((check_target_stability lm g).2 ≠ 1 →
          (process_audio_frame lm w g ff_in fb_in spk_in n).state
              = ProcessState.SIGNAL_PROCESS ∧
            (process_audio_frame lm w g ff_in fb_in spk_in n).fft_count = 0 ∧
            (process_audio_frame lm w g ff_in fb_in spk_in n).frame_count = 0)) ∧
      (g.state = ProcessState.CAL_FF_INIT_LOSS →
        (process_audio_frame lm w g ff_in fb_in spk_in n).state
          = ProcessState.UPDATE_EQ_PARAMS) ∧
      (g.state = ProcessState.UPDATE_EQ_PARAMS →
        (process_audio_frame lm w g ff_in fb_in spk_in n).state
          = ProcessState.UPDATE_FILTER_COEFFS) ∧
      (g.state = ProcessState.UPDATE_FILTER_COEFFS →
        (process_audio_frame lm w g ff_in fb_in spk_in n).state
            = ProcessState.SIGNAL_PROCESS ∧
          (process_audio_frame lm w g ff_in fb_in spk_in n).fft_count = 0 ∧
          (process_audio_frame lm w g ff_in fb_in spk_in n).frame_count = 0) ∧
      (g.state = ProcessState.SIGNAL_PROCESS →
        ((process_audio_frame lm w g ff_in fb_in spk_in n).state = ProcessState.CAL_MU ↔
            10 ≤ (process_audio_frame lm w g ff_in fb_in spk_in n).fft_count) ∧
          ((process_audio_frame lm w g ff_in fb_in spk_in n).state ≠ ProcessState.CAL_MU →
            (process_audio_frame lm w g ff_in fb_in spk_in n).state
              = ProcessState.SIGNAL_PROCESS) ∧
          (g.fft_count < 10 →
            ((process_audio_frame lm w g ff_in fb_in spk_in n).state = ProcessState.CAL_MU ↔
              (process_audio_frame lm w g ff_in fb_in spk_in n).fft_count = 10))) := by
  refine ⟨?_, ?_, ?_, ?_, ?_, ?_, ?_, ?_⟩
  · intro hs
    unfold process_audio_frame
    simp only [buffer_frame_state, hs]
  · intro hs
    unfold process_audio_frame
    simp only [buffer_frame_state, hs]
  · intro hs
    unfold process_audio_frame
    simp only [buffer_frame_state, hs]
  · intro hs
    rw [process_audio_frame_stable_check lm w g ff_in fb_in spk_in n hs]
    constructor
    · intro h
      exact (stable_check_pass lm (buffer_frame g ff_in fb_in spk_in n)
        ((check_target_stability_snd lm g).mp h)).2.2.1
    · intro h
      have hf := stable_check_fail lm (buffer_frame g ff_in fb_in spk_in n)
        (fun ha => h ((check_target_stability_snd lm g).mpr ha))
      exact ⟨hf.2.2.1, hf.2.2.2.1, hf.2.2.2.2.1⟩
  · intro hs
    unfold process_audio_frame
    simp only [buffer_frame_state, hs]
  · intro hs
    unfold process_audio_frame
    simp only [buffer_frame_state, hs]
  · intro hs
    unfold process_audio_frame
    simp only [buffer_frame_state, hs, and_self]
  · intro hs
    rw [process_audio_frame_signal_process lm w g ff_in fb_in spk_in n hs]
    have hf := signal_process_facts lm w (buffer_frame g ff_in fb_in spk_in n) hs
    refine ⟨hf.1, hf.2.1, ?_⟩
    intro hlt
    have hle := hf.2.2 hlt
    rw [hf.1]
    constructor <;> intro h <;> omega

theorem calculate_target_ff_bin (lm : Libm α) (s : SystemState α) (k : Nat)
    (hk : k < FFT_HALF_LENGTH) :
    (calculate_target_ff lm s).target_ff k = target_ff_bin lm s k := by
  unfold calculate_target_ff
  simp only [forLoop_update_apply, hk, if_true]

theorem floor_demo_values :
    (calculate_target_ff sample_libm floor_demo_state).target_ff 0 = ⟨0, 0⟩ ∧
      spec_target_bin sample_libm floor_demo_state 0 = ⟨10000000, 0⟩ := by
  refine ⟨?_, ?_⟩
  · rw [calculate_target_ff_bin _ _ _ (by decide)]
    simp [target_ff_bin, floor_demo_state, zero_state, complex_mag, sample_libm, SP_EPSILON,
      complex_div, complex_scale, complex_add]
    norm_num
  · simp [spec_target_bin, floored_secondary_path, complex_div_exact, floor_demo_state,
      zero_state, complex_mag, sample_libm, complex_scale, complex_add]
    norm_num

theorem guard_demo_values :
    (calculate_target_ff sample_libm guard_demo_state).target_ff 0 = ⟨0, 0⟩ ∧
      spec_target_bin sample_libm guard_demo_state 0 = ⟨100000, 0⟩ := by
  refine ⟨?_, ?_⟩
  · rw [calculate_target_ff_bin _ _ _ (by decide)]
    simp [target_ff_bin, guard_demo_state, zero_state, complex_mag, sample_libm, SP_EPSILON,
      complex_div, complex_scale, complex_add]
    norm_num
  · simp [spec_target_bin, floored_secondary_path, complex_div_exact, guard_demo_state,
      zero_state, complex_mag, sample_libm, complex_scale, complex_add]
    norm_num

/-- Counterexample of C7: at bin 0, with a zero secondary path (floor applied) and
with a secondary path of magnitude `1e-6` (no floor), the code leaves the target at
the current response `(0, 0)`, while the formula with exact division gives
`0.1 * 1e8` and `0.1 * 1e6`. -/
theorem target_formula_counterexample :
    (calculate_target_ff sample_libm floor_demo_state).target_ff 0
        ≠ spec_target_bin sample_libm floor_demo_state 0 ∧
      (calculate_target_ff sample_libm guard_demo_state).target_ff 0
        ≠ spec_target_bin sample_libm guard_demo_state 0 := by
  constructor
  · rw [floor_demo_values.1, floor_demo_values.2]
    intro h
    have h1 := congrArg Complex.real h
    norm_num at h1
  · rw [guard_demo_values.1, guard_demo_values.2]
    intro h
    have h1 := congrArg Complex.real h
    norm_num at h1

/-- C7 (amended): on every bin whose secondary path is not floored
(`|S_k| >= 1e-8`), `calculate_target_ff` stores
`current_ff[k] + mu[k] * (pp_average[k] / S_k)` with exact complex division when
`|S_k|^2 > 1e-10`, and stores `current_ff[k]` when `|S_k|^2 <= 1e-10`, where the
guard of `complex_div` returns zero. -/
theorem target_formula_guarded (lm : Libm α) (s : SystemState α) (k : Nat)
    (hk : k < FFT_HALF_LENGTH)
    (hmag : 1 / 100000000 ≤ complex_mag lm (s.secondary_path k)) :
    ((s.secondary_path k).real * (s.secondary_path k).real
          + (s.secondary_path k).imag * (s.secondary_path k).imag > 1 / 10000000000 →
        (calculate_target_ff lm s).target_ff k = spec_target_bin lm s k) ∧
      ((s.secondary_path k).real * (s.secondary_path k).real
          + (s.secondary_path k).imag * (s.secondary_path k).imag ≤ 1 / 10000000000 →
        (calculate_target_ff lm s).target_ff k = s.current_ff k) := by
  have hnf : ¬ (complex_mag lm (s.secondary_path k) < SP_EPSILON) := by
    unfold SP_EPSILON
    exact not_lt.mpr hmag
  rw [calculate_target_ff_bin lm s k hk]
  unfold target_ff_bin spec_target_bin floored_secondary_path
  simp only [hnf, hmag, if_true, if_false]
  constructor
  · intro hd
    unfold complex_div complex_div_exact
    simp only [hd, if_true]
  · intro hd
    unfold complex_div
    simp only [not_lt.mpr hd, gt_iff_lt, if_false]
    simp [complex_scale, complex_add]

/-- Witness of C7 (amended) at bin 0 of `unit_sp_state`. -/
theorem target_formula_guarded_witness :
    0 < FFT_HALF_LENGTH ∧
      (1 / 100000000 : ℚ) ≤ complex_mag sample_libm (unit_sp_state.secondary_path 0) ∧
      ((unit_sp_state.secondary_path 0).real * (unit_sp_state.secondary_path 0).real
          + (unit_sp_state.secondary_path 0).imag * (unit_sp_state.secondary_path 0).imag
            > 1 / 10000000000 →
        (calculate_target_ff sample_libm unit_sp_state).target_ff 0
          = spec_target_bin sample_libm unit_sp_state 0) :=
  have hmag : (1 / 100000000 : ℚ) ≤ complex_mag sample_libm (unit_sp_state.secondary_path 0) := by
    simp [unit_sp_state, complex_mag, sample_libm]
    norm_num
  ⟨by decide, hmag, (target_formula_guarded sample_libm unit_sp_state 0 (by decide) hmag).1⟩

/-! ### Loops of the stability gate as sums, counts and bounds -/

theorem forLoop_sum (n : Nat) (f : Nat → α) :
    forLoop n (fun i (acc : α) => acc + f i) 0 = ∑ i in Finset.range n, f i := by
  induction n with
  | zero => rw [forLoop_zero]; simp
  | succ n ih => rw [forLoop_succ, ih, Finset.sum_range_succ]

theorem forLoop_sum_count (n : Nat) (f : Nat → α) :
    forLoop n (fun i (acc : α × Int) => (acc.1 + f i, acc.2 + 1)) ((0 : α), (0 : Int))
      = (∑ i in Finset.range n, f i, (n : Int)) := by
  induction n with
  | zero => rw [forLoop_zero]; simp
  | succ n ih =>
    rw [forLoop_succ, ih, Finset.sum_range_succ]
    simp

theorem forLoop_count (n : Nat) (p : Nat → Prop) [DecidablePred p] :
    forLoop n (fun i (c : Int) => if p i then c + 1 else c) 0
      = (((Finset.range n).filter p).card : Int) := by
  induction n with
  | zero => rw [forLoop_zero]; simp
  | succ n ih =>
    rw [forLoop_succ, ih, Finset.range_succ, Finset.filter_insert]
    by_cases hp : p n
    · simp only [hp, if_true]
      rw [Finset.card_insert_of_not_mem]
      · push_cast; ring
      · simp
    · simp only [hp, if_false]

theorem fabsf_eq_abs (x : α) : fabsf x = |x| := by
  unfold fabsf
  split_ifs with h
  · exact (abs_of_neg h).symm
  · exact (abs_of_nonneg (not_lt.mp h)).symm

/-- The min/max loop of check 3 brackets exactly the scanned levels. -/
theorem band_min_max_loop (H : Nat → α) (m : Nat) (c : α) :
    (c ≤ (forLoop m (fun j (mm : α × α) =>
        ((if H (j + 1) < mm.1 then H (j + 1) else mm.1),
          (if H (j + 1) > mm.2 then H (j + 1) else mm.2))) (H 0, H 0)).1
      ↔ ∀ i, i ≤ m → c ≤ H i) ∧
    ((forLoop m (fun j (mm : α × α) =>
        ((if H (j + 1) < mm.1 then H (j + 1) else mm.1),
          (if H (j + 1) > mm.2 then H (j + 1) else mm.2))) (H 0, H 0)).2 ≤ c
      ↔ ∀ i, i ≤ m → H i ≤ c) := by
  induction m with
  | zero =>
    rw [forLoop_zero]
    constructor
    · constructor
      · intro h i hi
        have : i = 0 := by omega
        rw [this]; exact h
      · intro h; exact h 0 (le_refl _)
    · constructor
      · intro h i hi
        have : i = 0 := by omega
        rw [this]; exact h
      · intro h; exact h 0 (le_refl _)
  | succ m ih =>
    rw [forLoop_succ]
    obtain ⟨ih1, ih2⟩ := ih
    constructor
    · show c ≤ (if H (m + 1) < _ then H (m + 1) else _) ↔ _
      constructor
      · intro h i hi
        split_ifs at h with hlt
        · by_cases e : i = m + 1
          · rw [e]; exact h
          · exact (ih1.mp (le_trans h (le_of_lt hlt))) i (by omega)
        · by_cases e : i = m + 1
          · rw [e]; exact le_trans h (not_lt.mp hlt)
          · exact (ih1.mp h) i (by omega)
      · intro h
        split_ifs with hlt
        · exact h (m + 1) (le_refl _)
        · exact ih1.mpr (fun i hi => h i (by omega))
    · show (if H (m + 1) > _ then H (m + 1) else _) ≤ c ↔ _
      constructor
      · intro h i hi
        split_ifs at h with hgt
        · by_cases e : i = m + 1
          · rw [e]; exact h
          · exact (ih2.mp (le_trans (le_of_lt hgt) h)) i (by omega)
        · by_cases e : i = m + 1
          · rw [e]; exact le_trans (not_lt.mp hgt) h
          · exact (ih2.mp h) i (by omega)
      · intro h
        split_ifs with hgt
        · exact h (m + 1) (le_refl _)
        · exact ih2.mpr (fun i hi => h i (by omega))

theorem band_db_apply (lm : Libm α) (spec : Nat → Complex α) (i : Nat) (hi : i < 53) :
    band_db lm spec i = spec_H_db lm spec i := by
  unfold band_db spec_H_db
  rw [forLoop_update_apply, stable_band_len_eq, stable_bin_low_eq]
  have h : i < (53 : Int).toNat := hi
  simp only [h, if_true]
  rfl

theorem calculate_smoothness_band (H : Nat → α) :
    calculate_smoothness H stable_band_len = spec_smoothness H := by
  unfold calculate_smoothness spec_smoothness
  rw [stable_band_len_eq]
  have h3 : ¬ ((53 : Int) < 3) := by decide
  have h51 : ((53 : Int) - 2).toNat = 51 := by decide
  simp only [h3, if_false, h51]
  rw [forLoop_sum_count 51 (fun i => (H (i + 2) - 2 * H (i + 1) + H i)
    * (H (i + 2) - 2 * H (i + 1) + H i))]
  have hpos : ((51 : Nat) : Int) > 0 := by decide
  simp only [hpos, if_true]
  congr 1
  · apply Finset.sum_congr rfl
    intro i _
    ring
  · norm_num

theorem spike_count_band (H Hp : Nat → α) :
    spike_count H Hp stable_band_len = (spec_spike_number H Hp : Int) := by
  unfold spike_count spec_spike_number
  rw [stable_band_len_eq]
  have h53 : (53 : Int).toNat = 53 := by decide
  rw [h53]
  have h := forLoop_count 53 (fun i => |H i - Hp i| > 6)
  rw [← h]
  apply forLoop_congr
  intro i _ c
  simp only [fabsf_eq_abs, SPIKE_DELTA_DB]

theorem mean_delta_band (H Hp : Nat → α) :
    mean_delta H Hp stable_band_len = spec_mean_shift H Hp := by
  unfold mean_delta spec_mean_shift
  rw [stable_band_len_eq]
  have h53 : (53 : Int).toNat = 53 := by decide
  rw [h53, forLoop_sum 53 (fun i => H i - Hp i)]
  norm_num

theorem band_min_max_band (H : Nat → α) (c : α) :
    (c ≤ (band_min_max H stable_band_len).1 ↔ ∀ i, i < 53 → c ≤ H i) ∧
      ((band_min_max H stable_band_len).2 ≤ c ↔ ∀ i, i < 53 → H i ≤ c) := by
  unfold band_min_max
  rw [stable_band_len_eq]
  have h52 : ((53 : Int) - 1).toNat = 52 := by decide
  rw [h52]
  have h := band_min_max_loop H 52 c
  have e : ∀ (P : Nat → Prop), (∀ i, i ≤ 52 → P i) ↔ (∀ i, i < 53 → P i) := by
    intro P
    constructor
    · intro hP i hi; exact hP i (by omega)
    · intro hP i hi; exact hP i (by omega)
  rw [e, e] at h
  exact h

theorem spec_gate_passes_congr (H H' Hp Hp' : Nat → α) (ps : α)
    (h : ∀ i, i < 53 → H i = H' i) (hp : ∀ i, i < 53 → Hp i = Hp' i) :
    spec_gate_passes H Hp ps ↔ spec_gate_passes H' Hp' ps := by
  have e1 : spec_smoothness H = spec_smoothness H' := by
    unfold spec_smoothness
    congr 1
    apply Finset.sum_congr rfl
    intro i hi
    have hi' : i < 51 := Finset.mem_range.mp hi
    rw [h i (by omega), h (i + 1) (by omega), h (i + 2) (by omega)]
  have e2 : spec_spike_number H Hp = spec_spike_number H' Hp' := by
    unfold spec_spike_number
    congr 1
    apply Finset.filter_congr
    intro i hi
    have hi' : i < 53 := Finset.mem_range.mp hi
    rw [h i hi', hp i hi']
  have e3 : spec_mean_shift H Hp = spec_mean_shift H' Hp' := by
    unfold spec_mean_shift
    congr 1
    apply Finset.sum_congr rfl
    intro i hi
    have hi' : i < 53 := Finset.mem_range.mp hi
    rw [h i hi', hp i hi']
  have e4 : (∀ i, i < 53 → -40 ≤ H i) ↔ (∀ i, i < 53 → -40 ≤ H' i) := by
    constructor
    · intro hh i hi; rw [← h i hi]; exact hh i hi
    · intro hh i hi; rw [h i hi]; exact hh i hi
  have e5 : (∀ i, i < 53 → H i ≤ 10) ↔ (∀ i, i < 53 → H' i ≤ 10) := by
    constructor
    · intro hh i hi; rw [← h i hi]; exact hh i hi
    · intro hh i hi; rw [h i hi]; exact hh i hi
  unfold spec_gate_passes
  rw [e1, e2, e3, e4, e5]

/-- The four tests of the code, on the dB arrays it computes, are the four
conditions of the specification. -/
theorem gate_accepts_iff_arrays (lm : Libm α) (target prev : Nat → Complex α) (ps : α) :
    gate_accepts lm target prev ps ↔
      spec_gate_passes (band_db lm target) (band_db lm prev) ps := by
  unfold gate_accepts spec_gate_passes spike_check_fails
  rw [calculate_smoothness_band, spike_count_band, mean_delta_band, fabsf_eq_abs,
    stable_band_len_eq]
  have hmin := (band_min_max_band (band_db lm target) (-40)).1
  have hmax := (band_min_max_band (band_db lm target) 10).2
  have hb : ¬ ((band_min_max (band_db lm target) stable_band_len).1 < RESPONSE_LOW_DB ∨
      (band_min_max (band_db lm target) stable_band_len).2 > RESPONSE_HIGH_DB) ↔
      ((∀ i, i < 53 → -40 ≤ band_db lm target i) ∧ (∀ i, i < 53 → band_db lm target i ≤ 10)) := by
    rw [← hmin, ← hmax, not_or, not_lt, not_lt]
    simp only [RESPONSE_LOW_DB, RESPONSE_HIGH_DB]
  have hs : ¬ (((spec_spike_number (band_db lm target) (band_db lm prev) : Int) : α)
      / ((53 : Int) : α) > SPIKE_RATIO_THR) ↔
      (spec_spike_number (band_db lm target) (band_db lm prev) : α) ≤ 0.1 * 53 := by
    rw [not_lt, SPIKE_RATIO_THR]
    push_cast
    rw [div_le_iff₀ (by norm_num : (0 : α) < 53)]
  rw [stable_band_len_eq] at hb
  simp only [SMOOTH_ALPHA, MEAN_SHIFT_THR_DB, not_lt]
  constructor
  · rintro ⟨h1, h2, h3, h4⟩
    exact ⟨h1, hs.mp (not_lt.mpr h2), hb.mp h3, h4⟩
  · rintro ⟨h1, h2, h3, h4⟩
    exact ⟨h1, not_lt.mp (hs.mpr h2), hb.mpr h3, h4⟩

/-- C5: gate decision.  With `H_db[i] = 20*log10(|target_ff[k]| + 1e-8)` and
`H_prev_db[i]` likewise from `prev_target_ff` over the band bins `k = 12 + i`,
`i < 53`, `check_target_stability` returns 1 iff all four hold: not
(`S_cur > 3 * prev_smoothness` and `prev_smoothness > 1e-8`); the number of `i` with
`|H_db[i] - H_prev_db[i]| > 6` is at most 10% of the band length 53; every `H_db[i]`
is at least -40 (the minimum is) and at most 10 (the maximum is);
`|mean(H_db - H_prev_db)| <= 3`.  Otherwise it returns 0. -/
theorem gate_decision (lm : Libm α) (s : SystemState α) :
    ((check_target_stability lm s).2 = 1 ↔
        spec_gate_passes (spec_H_db lm s.target_ff) (spec_H_db lm s.prev_target_ff)
          s.prev_smoothness) ∧
      ((check_target_stability lm s).2 = 1 ∨ (check_target_stability lm s).2 = 0) := by
  constructor
  · rw [check_target_stability_snd, gate_accepts_iff_arrays]
    exact spec_gate_passes_congr _ _ _ _ _ (fun i hi => band_db_apply lm _ i hi)
      (fun i hi => band_db_apply lm _ i hi)
  · rw [check_target_stability_eq]
    split_ifs
    · exact Or.inl rfl
    · exact Or.inr rfl

/-! ### The single-spike scenario -/

/-- With one bin raised by 20 dB and all other band bins unchanged, the loop of
check 2 counts exactly one spike on the first `n` bins once it has passed the bin. -/
theorem spike_count_single (H Hp : Nat → α) (j : Nat)
    (hspike : H j = Hp j + 20) (n : Nat)
    (hsame : ∀ i, i < n → i ≠ j → H i = Hp i) :
    forLoop n (fun i (spike_count : Int) =>
        if fabsf (H i - Hp i) > SPIKE_DELTA_DB then spike_count + 1 else spike_count) 0
      = if j < n then 1 else 0 := by
  induction n with
  | zero => rw [forLoop_zero]; simp
  | succ n ih =>
    rw [forLoop_succ, ih (fun i hi hne => hsame i (Nat.lt_succ_of_lt hi) hne)]
    by_cases e : n = j
    · subst e
      have h20 : fabsf (H n - Hp n) > SPIKE_DELTA_DB := by
        rw [hspike, fabsf_eq_abs, SPIKE_DELTA_DB]
        have : Hp n + 20 - Hp n = 20 := by ring
        rw [this]
        norm_num
      simp [h20]
    · have h0 : ¬ (fabsf (H n - Hp n) > SPIKE_DELTA_DB) := by
        rw [hsame n (Nat.lt_succ_self n) e, fabsf_eq_abs, SPIKE_DELTA_DB]
        simp
      simp only [h0, if_false]
      have : (j < n + 1) = (j < n) := by
        apply propext; constructor <;> intro h <;> omega
      simp only [this]

/-- On dB arrays that differ by a single 20 dB spike inside the band, check 2 counts
one spike and does not reject. -/
theorem single_spike_arrays (H Hp : Nat → α) (j : Nat) (hj : j < 53)
    (hspike : H j = Hp j + 20) (hsame : ∀ i, i < 53 → i ≠ j → H i = Hp i) :
    spike_count H Hp stable_band_len = 1 ∧ ¬ spike_check_fails H Hp stable_band_len := by
  have hc : spike_count H Hp stable_band_len = 1 := by
    unfold spike_count
    rw [stable_band_len_eq]
    have h53 : (53 : Int).toNat = 53 := by decide
    rw [h53]
    have h := spike_count_single H Hp j hspike 53 hsame
    simp only [hj, if_true] at h
    exact h
  refine ⟨hc, ?_⟩
  unfold spike_check_fails
  rw [hc, stable_band_len_eq, SPIKE_RATIO_THR]
  norm_num

/-- Counterexample of C6: the band levels are 0 dB except for a 20 dB spike at one
band bin, and check 2 does not reject (one spike in 53 bins is below 10%). -/
theorem single_spike_counterexample :
    (20 < 53 ∧ spike_curr_db 20 = spike_prev_db 20 + 20 ∧
        ∀ i, i < 53 → i ≠ 20 → spike_curr_db i = spike_prev_db i) ∧
      ¬ spike_check_fails spike_curr_db spike_prev_db stable_band_len := by
  have h1 : spike_curr_db 20 = spike_prev_db 20 + 20 := by
    simp [spike_curr_db, spike_prev_db]
  have h2 : ∀ i, i < 53 → i ≠ 20 → spike_curr_db i = spike_prev_db i := by
    intro i _ hne
    simp [spike_curr_db, spike_prev_db, hne]
  exact ⟨⟨by decide, h1, h2⟩,
    (single_spike_arrays spike_curr_db spike_prev_db 20 (by decide) h1 h2).2⟩

/-- C6 (amended): for every previous response and every target whose band level in
dB equals the previous one except for a +20 dB spike at exactly one band bin, the
loop of check 2 counts exactly one changed bin, which is not more than 10% of the 53
band bins, so check 2 does not reject. -/
theorem single_spike_passes_local_check (lm : Libm α) (s : SystemState α) (j : Nat)
    (hj : j < 53)
    (hspike : spec_H_db lm s.target_ff j = spec_H_db lm s.prev_target_ff j + 20)
    (hsame : ∀ i, i < 53 → i ≠ j →
      spec_H_db lm s.target_ff i = spec_H_db lm s.prev_target_ff i) :
    spike_count (band_db lm s.target_ff) (band_db lm s.prev_target_ff) stable_band_len = 1 ∧
      ¬ spike_check_fails (band_db lm s.target_ff) (band_db lm s.prev_target_ff)
        stable_band_len := by
  apply single_spike_arrays _ _ j hj
  · rw [band_db_apply lm _ j hj, band_db_apply lm _ j hj]
    exact hspike
  · intro i hi hne
    rw [band_db_apply lm _ i hi, band_db_apply lm _ i hi]
    exact hsame i hi hne

/-- Witness of C6 (amended) at `spike_demo_state`, spike at band index 20. -/
theorem single_spike_passes_local_check_witness :
    (20 < 53 ∧
      spec_H_db sample_libm spike_demo_state.target_ff 20
        = spec_H_db sample_libm spike_demo_state.prev_target_ff 20 + 20 ∧
      ∀ i, i < 53 → i ≠ 20 →
        spec_H_db sample_libm spike_demo_state.target_ff i
          = spec_H_db sample_libm spike_demo_state.prev_target_ff i) ∧
      (spike_count (band_db sample_libm spike_demo_state.target_ff)
          (band_db sample_libm spike_demo_state.prev_target_ff) stable_band_len = 1 ∧
        ¬ spike_check_fails (band_db sample_libm spike_demo_state.target_ff)
          (band_db sample_libm spike_demo_state.prev_target_ff) stable_band_len) :=
  have h1 : spec_H_db sample_libm spike_demo_state.target_ff 20
      = spec_H_db sample_libm spike_demo_state.prev_target_ff 20 + 20 := by
    simp [spec_H_db, spike_demo_state, zero_state, complex_mag, sample_libm]
    norm_num
  have h2 : ∀ i, i < 53 → i ≠ 20 →
      spec_H_db sample_libm spike_demo_state.target_ff i
        = spec_H_db sample_libm spike_demo_state.prev_target_ff i := by
    intro i _ hne
    have h32 : ¬ (12 + i = 32) := by omega
    simp [spec_H_db, spike_demo_state, zero_state, h32]
  ⟨⟨by decide, h1, h2⟩,
    single_spike_passes_local_check sample_libm spike_demo_state 20 (by decide) h1 h2⟩

/-! ### Guarded complex division and the step size -/

/-- C19: guarded complex division.  For all complex `a`, `b`: when `|b|^2 > 1e-10`,
`complex_div a b` is the exact quotient `a * conj(b) / |b|^2` and
`complex_mul (complex_div a b) b = a`; when `|b|^2 <= 1e-10` it is `(0, 0)`. -/
theorem guarded_complex_division (a b : Complex α) :
    (b.real * b.real + b.imag * b.imag > 1 / 10000000000 →
        complex_div a b = complex_div_exact a b ∧ complex_mul (complex_div a b) b = a) ∧
      (b.real * b.real + b.imag * b.imag ≤ 1 / 10000000000 → complex_div a b = ⟨0, 0⟩) := by
  constructor
  · intro hd
    have hex : complex_div a b = complex_div_exact a b := by
      unfold complex_div complex_div_exact
      simp only [hd, if_true]
    refine ⟨hex, ?_⟩
    rw [hex]
    have hne : b.real * b.real + b.imag * b.imag ≠ 0 := by
      intro h0
      rw [h0] at hd
      norm_num at hd
    obtain ⟨ar, ai⟩ := a
    obtain ⟨br, bi⟩ := b
    simp only [complex_div_exact, complex_mul, Complex.mk.injEq] at hne ⊢
    constructor
    · field_simp
      ring
    · field_simp
      ring
  · intro hd
    unfold complex_div
    simp only [not_lt.mpr hd, gt_iff_lt, if_false]

/-- Witness of C19: `(1, 0) / (2, 0)` is above the guard and multiplies back to `(1, 0)`;
`(1, 0) / (0, 0)` is under the guard and gives `(0, 0)`. -/
theorem guarded_complex_division_witness :
    complex_mul (complex_div (⟨1, 0⟩ : Complex ℚ) ⟨2, 0⟩) ⟨2, 0⟩ = ⟨1, 0⟩ ∧
      complex_div (⟨1, 0⟩ : Complex ℚ) ⟨0, 0⟩ = ⟨0, 0⟩ :=
  ⟨((guarded_complex_division (⟨1, 0⟩ : Complex ℚ) ⟨2, 0⟩).1 (by norm_num)).2,
    (guarded_complex_division (⟨1, 0⟩ : Complex ℚ) ⟨0, 0⟩).2 (by norm_num)⟩

/-- The two clamping statements of `calculate_mu` are `clamp_value`. -/
theorem mu_clamp_eq (m lo hi : α) (h : lo ≤ hi) :
    (if (if m < lo then lo else m) > hi then hi else (if m < lo then lo else m))
      = clamp_value m lo hi := by
  unfold clamp_value
  by_cases h1 : m < lo
  · simp only [h1, if_true]
    have : ¬ (lo > hi) := not_lt.mpr h
    simp only [this, if_false]
  · simp only [h1, if_false]

theorem calculate_mu_bin (lm : Libm α) (s : SystemState α) (k : Nat)
    (hk : k < FFT_HALF_LENGTH) :
    (calculate_mu lm s).mu k =
      clamp_value
        (0.1 / (complex_mag lm (s.secondary_path k) * complex_mag lm (s.secondary_path k)
            * ((s.ff_avg.bins k).real * (s.ff_avg.bins k).real
              + (s.ff_avg.bins k).imag * (s.ff_avg.bins k).imag) + 0.000001))
        0.0001 0.1 := by
  unfold calculate_mu
  simp only [forLoop_update_apply, hk, if_true]
  exact mu_clamp_eq _ _ _ (by norm_num)

/-- C20: step size.  For every bin `k`, `calculate_mu` sets
`mu[k] = clamp(0.1 / (|S_k|^2 * |FF_k|^2 + 1e-6), 1e-4, 0.1)` with `|S_k|` the
magnitude `complex_mag` of the secondary path and `|FF_k|^2` the power of `ff_avg`,
so `1e-4 <= mu[k] <= 0.1` for every secondary path and FF spectrum. -/
theorem step_size (lm : Libm α) (s : SystemState α) (k : Nat) (hk : k < FFT_HALF_LENGTH) :
    (calculate_mu lm s).mu k =
        clamp_value
          (0.1 / (complex_mag lm (s.secondary_path k) * complex_mag lm (s.secondary_path k)
              * ((s.ff_avg.bins k).real * (s.ff_avg.bins k).real
                + (s.ff_avg.bins k).imag * (s.ff_avg.bins k).imag) + 0.000001))
          0.0001 0.1 ∧
      0.0001 ≤ (calculate_mu lm s).mu k ∧ (calculate_mu lm s).mu k ≤ 0.1 := by
  rw [calculate_mu_bin lm s k hk]
  exact ⟨rfl, clamp_value_bounds _ _ _ (by norm_num)⟩

/-- Witness of C20 at bin 0 of the state left by `system_init`. -/
theorem step_size_witness :
    0 < FFT_HALF_LENGTH ∧
      (0.0001 : ℚ) ≤ (calculate_mu sample_libm (system_init sample_libm)).mu 0 ∧
      (calculate_mu sample_libm (system_init sample_libm)).mu 0 ≤ 0.1 :=
  ⟨by decide, (step_size sample_libm (system_init sample_libm) 0 (by decide)).2⟩

/-! ### The circular delay line of the FIR convolver -/

theorem emod_of_decomp (m N r q : Int) (hm : m = r + N * q) (h0 : 0 ≤ r) (h1 : r < N) :
    m % N = r := by
  rw [hm, Int.add_mul_emod_self_left, Int.emod_eq_of_lt h0 h1]

theorem wrap_pred (m N : Int) (hN : 0 < N) :
    (if m % N - 1 < 0 then N - 1 else m % N - 1) = (m - 1) % N := by
  have h0 := Int.emod_nonneg m (ne_of_gt hN)
  have h1 := Int.emod_lt_of_pos m hN
  have e := Int.emod_add_ediv m N
  generalize m % N = r at h0 h1 e ⊢
  generalize m / N = q at e
  by_cases h : r - 1 < 0
  · rw [if_pos h]
    have hr : r = 0 := by omega
    exact (emod_of_decomp (m - 1) N (N - 1) (q - 1) (by rw [← e, hr]; ring) (by omega)
      (by omega)).symm
  · rw [if_neg h]
    exact (emod_of_decomp (m - 1) N (r - 1) q (by rw [← e]; ring) (by omega) (by omega)).symm

theorem wrap_succ (m N : Int) (hN : 0 < N) :
    (if m % N + 1 ≥ N then 0 else m % N + 1) = (m + 1) % N := by
  have h0 := Int.emod_nonneg m (ne_of_gt hN)
  have h1 := Int.emod_lt_of_pos m hN
  have e := Int.emod_add_ediv m N
  generalize m % N = r at h0 h1 e ⊢
  generalize m / N = q at e
  by_cases h : r + 1 ≥ N
  · rw [if_pos h]
    have hr : r = N - 1 := by omega
    exact (emod_of_decomp (m + 1) N 0 (q + 1) (by rw [← e, hr]; ring) (by omega) (by omega)).symm
  · rw [if_neg h]
    exact (emod_of_decomp (m + 1) N (r + 1) q (by rw [← e]; ring) (by omega) (by omega)).symm

theorem emod_shift_ne (m N : Int) (k : Nat) (hk0 : 0 < k) (hkN : (k : Int) < N) :
    ((m - k) % N).toNat ≠ (m % N).toNat := by
  have hN : 0 < N := by omega
  have a0 := Int.emod_nonneg (m - k) (ne_of_gt hN)
  have b0 := Int.emod_nonneg m (ne_of_gt hN)
  intro h
  have h2 : (m - k) % N = m % N := by omega
  have h3 : (m - (m - k)) % N = 0 := Int.emod_eq_emod_iff_emod_sub_eq_zero.mp h2.symm
  have h4 : (m - (m - (k : Int))) = k := by ring
  rw [h4, Int.emod_eq_of_lt (by omega) hkN] at h3
  omega

theorem fir_process_fst (fir : FIRFilter α) (input : α) :
    (fir_process fir input).1 =
      { fir with
        buffer := Function.update fir.buffer fir.write_index.toNat input
        write_index := if fir.write_index + 1 ≥ fir.length then 0 else fir.write_index + 1 } :=
  rfl

theorem fir_process_snd (fir : FIRFilter α) (input : α) :
    (fir_process fir input).2 =
      (forLoop fir.length.toNat (fun k (acc : α × Int) =>
        (acc.1 + fir.coeffs k * Function.update fir.buffer fir.write_index.toNat input acc.2.toNat,
          if acc.2 - 1 < 0 then fir.length - 1 else acc.2 - 1)) ((0 : α), fir.write_index)).1 :=
  rfl

theorem fir_read_loop (h b : Nat → α) (N : Int) (hN : 0 < N) (m : Int) (K : Nat) :
    forLoop K (fun k (acc : α × Int) =>
        (acc.1 + h k * b acc.2.toNat, if acc.2 - 1 < 0 then N - 1 else acc.2 - 1))
        ((0 : α), m % N)
      = (∑ k in Finset.range K, h k * b (((m - (k : Int)) % N).toNat), (m - (K : Int)) % N) := by
  induction K with
  | zero => rw [forLoop_zero]; simp
  | succ K ih =>
    rw [forLoop_succ, ih, Finset.sum_range_succ]
    refine Prod.ext rfl ?_
    show (if (m - (K : Int)) % N - 1 < 0 then N - 1 else (m - (K : Int)) % N - 1) = _
    rw [wrap_pred _ _ hN]
    congr 1
    push_cast
    ring

theorem fir_run_inv (fir : FIRFilter α) (x : Nat → α) (N : Nat) (hN : 0 < N)
    (hlen : fir.length = (N : Int)) (hw : fir.write_index = 0)
    (hb : ∀ j, j < N → fir.buffer j = 0) (n : Nat) :
    (fir_run fir x n).length = (N : Int) ∧ (fir_run fir x n).coeffs = fir.coeffs ∧
      (fir_run fir x n).write_index = (n : Int) % (N : Int) ∧
      ∀ k : Nat, k < N →
        (fir_run fir x n).buffer ((((n : Int) - 1 - (k : Int)) % (N : Int)).toNat)
          = if k < n then x (n - 1 - k) else 0 := by
  have hNi : (0 : Int) < (N : Int) := by exact_mod_cast hN
  induction n with
  | zero =>
    refine ⟨hlen, rfl, ?_, ?_⟩
    · show fir.write_index = _
      rw [hw]; simp
    · intro k hk
      show fir.buffer _ = _
      rw [if_neg (Nat.not_lt_zero k)]
      apply hb
      have h1 := Int.emod_lt_of_pos (((0 : Nat) : Int) - 1 - (k : Int)) hNi
      have h0 := Int.emod_nonneg (((0 : Nat) : Int) - 1 - (k : Int)) (ne_of_gt hNi)
      omega
  | succ n ih =>
    obtain ⟨i1, i2, i3, i4⟩ := ih
    have e : fir_run fir x (n + 1) = (fir_process (fir_run fir x n) (x n)).1 := rfl
    rw [e, fir_process_fst]
    refine ⟨i1, i2, ?_, ?_⟩
    · show (if (fir_run fir x n).write_index + 1 ≥ (fir_run fir x n).length then 0
        else (fir_run fir x n).write_index + 1) = _
      rw [i1, i3, wrap_succ _ _ hNi]
      push_cast
      rfl
    · intro k hk
      show Function.update (fir_run fir x n).buffer (fir_run fir x n).write_index.toNat (x n) _ = _
      rw [i3]
      cases k with
      | zero =>
        have e0 : (((n + 1 : Nat) : Int) - 1 - ((0 : Nat) : Int)) = (n : Int) := by
          push_cast; ring
        rw [e0, Function.update_same, if_pos (Nat.succ_pos n)]
        rfl
      | succ k =>
        have e1 : (((n + 1 : Nat) : Int) - 1 - ((k + 1 : Nat) : Int))
            = (n : Int) - ((k + 1 : Nat) : Int) := by
          push_cast; ring
        rw [e1, Function.update_noteq
          (emod_shift_ne (n : Int) (N : Int) (k + 1) (Nat.succ_pos k) (by exact_mod_cast hk))]
        have e2 : (n : Int) - ((k + 1 : Nat) : Int) = (n : Int) - 1 - (k : Int) := by
          push_cast; ring
        rw [e2, i4 k (Nat.lt_of_succ_lt hk)]
        by_cases hkn : k < n
        · rw [if_pos hkn, if_pos (Nat.succ_lt_succ hkn)]
          congr 1
          omega
        · rw [if_neg hkn, if_neg (by omega)]

theorem conv_sum_clip (h x : Nat → α) (N n : Nat) (hN : 0 < N) :
    ∑ k in Finset.range N, h k * (if k < n + 1 then x (n - k) else 0)
      = ∑ k in Finset.range (min n (N - 1) + 1), h k * x (n - k) := by
  have hsub : Finset.range (min n (N - 1) + 1) ⊆ Finset.range N := by
    intro k hk
    rw [Finset.mem_range] at hk ⊢
    omega
  rw [← Finset.sum_subset hsub]
  · apply Finset.sum_congr rfl
    intro k hk
    rw [Finset.mem_range] at hk
    rw [if_pos (by omega)]
  · intro k hk hk2
    rw [Finset.mem_range] at hk hk2
    rw [if_neg (by omega), mul_zero]

theorem fir_output (fir : FIRFilter α) (x : Nat → α) (N : Nat) (hN : 0 < N)
    (hlen : fir.length = (N : Int)) (hw : fir.write_index = 0)
    (hb : ∀ j, j < N → fir.buffer j = 0) (n : Nat) :
    (fir_process (fir_run fir x n) (x n)).2
      = ∑ k in Finset.range (min n (N - 1) + 1), fir.coeffs k * x (n - k) := by
  have hNi : (0 : Int) < (N : Int) := by exact_mod_cast hN
  obtain ⟨i1, i2, i3, _⟩ := fir_run_inv fir x N hN hlen hw hb n
  obtain ⟨_, _, _, j4⟩ := fir_run_inv fir x N hN hlen hw hb (n + 1)
  have e : fir_run fir x (n + 1) = (fir_process (fir_run fir x n) (x n)).1 := rfl
  rw [e, fir_process_fst] at j4
  rw [fir_process_snd, i1, i2, i3, Int.toNat_natCast,
    fir_read_loop fir.coeffs _ (N : Int) hNi (n : Int) N, ← conv_sum_clip _ _ N n hN]
  show ∑ k in Finset.range N, _ = _
  apply Finset.sum_congr rfl
  intro k hk
  rw [Finset.mem_range] at hk
  have e1 : (((n + 1 : Nat) : Int) - 1 - (k : Int)) = (n : Int) - (k : Int) := by
    push_cast; ring
  have := j4 k hk
  rw [e1, i3] at this
  have e3 : n + 1 - 1 - k = n - k := by omega
  rw [e3] at this
  exact congrArg (fun t => fir.coeffs k * t) this

theorem fir_init_fresh (fir : FIRFilter α) (h : Nat → α) (N : Nat) (hN2 : N ≤ MAX_FIR_LENGTH) :
    (fir_init fir h (N : Int)).length = (N : Int) ∧ (fir_init fir h (N : Int)).write_index = 0 ∧
      (∀ j, j < N → (fir_init fir h (N : Int)).buffer j = 0) ∧
      ∀ k, k < N → (fir_init fir h (N : Int)).coeffs k = h k := by
  have hle : ¬ ((N : Int) > (MAX_FIR_LENGTH : Int)) := by
    have : (N : Int) ≤ (MAX_FIR_LENGTH : Int) := by exact_mod_cast hN2
    omega
  refine ⟨?_, rfl, ?_, ?_⟩
  · show (if (N : Int) > (MAX_FIR_LENGTH : Int) then (MAX_FIR_LENGTH : Int) else (N : Int)) = _
    rw [if_neg hle]
  · intro j hj
    show (if j < MAX_FIR_LENGTH then (0 : α) else fir.buffer j) = 0
    rw [if_pos (lt_of_lt_of_le hj hN2)]
  · intro k hk
    show (if (k : Int) < (if (N : Int) > (MAX_FIR_LENGTH : Int) then (MAX_FIR_LENGTH : Int)
      else (N : Int)) then h k else fir.coeffs k) = h k
    rw [if_neg hle, if_pos (by exact_mod_cast hk)]

theorem fir_reset_fresh (fir : FIRFilter α) (N : Nat) (hN2 : N ≤ MAX_FIR_LENGTH) :
    (fir_reset fir).length = fir.length ∧ (fir_reset fir).write_index = 0 ∧
      (∀ j, j < N → (fir_reset fir).buffer j = 0) ∧ (fir_reset fir).coeffs = fir.coeffs := by
  refine ⟨rfl, rfl, ?_, rfl⟩
  intro j hj
  show (if j < MAX_FIR_LENGTH then (0 : α) else fir.buffer j) = 0
  rw [if_pos (lt_of_lt_of_le hj hN2)]

/-- C18: FIR convolution.  For every length `1 ≤ N ≤ 8192`, taps `h` and input sequence
`x`, the `n`-th call of `fir_process` after `fir_init` (on any prior filter record), and
after `fir_reset` of any length-`N` filter, returns `Σ_{k=0..min(n,N-1)} h[k]·x[n-k]`. -/
theorem fir_convolution (N : Nat) (hN1 : 1 ≤ N) (hN2 : N ≤ MAX_FIR_LENGTH) (h x : Nat → α)
    (fir0 fir : FIRFilter α) (hlen : fir.length = (N : Int)) (n : Nat) :
    (fir_process (fir_run (fir_init fir0 h (N : Int)) x n) (x n)).2
        = ∑ k in Finset.range (min n (N - 1) + 1), h k * x (n - k) ∧
      (fir_process (fir_run (fir_reset fir) x n) (x n)).2
        = ∑ k in Finset.range (min n (N - 1) + 1), fir.coeffs k * x (n - k) := by
  obtain ⟨a1, a2, a3, a4⟩ := fir_init_fresh fir0 h N hN2
  obtain ⟨b1, b2, b3, b4⟩ := fir_reset_fresh fir N hN2
  constructor
  · rw [fir_output _ x N hN1 a1 a2 a3 n]
    apply Finset.sum_congr rfl
    intro k hk
    rw [Finset.mem_range] at hk
    rw [a4 k (by omega)]
  · rw [fir_output _ x N hN1 (b1.trans hlen) b2 b3 n, b4]

/-- Witness of C18: the length-2 filter with taps (1, 2) fed the ramp 1, 2, 3, 4 returns
`1·4 + 2·3 = 10` at call 3, after `fir_init` and after `fir_reset` of a stale filter. -/
theorem fir_convolution_witness :
    (1 ≤ 2 ∧ 2 ≤ MAX_FIR_LENGTH ∧ stale_fir.length = ((2 : Nat) : Int)) ∧
      (fir_process (fir_run (fir_init stale_fir (fun k => (k : ℚ) + 1) ((2 : Nat) : Int))
        ramp_input 3) (ramp_input 3)).2 = 10 ∧
      (fir_process (fir_run (fir_reset stale_fir) ramp_input 3) (ramp_input 3)).2 = 10 := by
  have hw := fir_convolution 2 (by decide) (by decide) (fun k => (k : ℚ) + 1) ramp_input
    stale_fir stale_fir rfl 3
  refine ⟨⟨by decide, by decide, rfl⟩, ?_, ?_⟩
  · rw [hw.1]
    simp [Finset.sum_range_succ, ramp_input]
    norm_num
  · rw [hw.2]
    simp [Finset.sum_range_succ, ramp_input, stale_fir]
    norm_num

/-! ### The filtering pass of the time-domain simulator -/

theorem time_sim_step_frame (coeffs : Nat → BiquadCoeffs α) (g : α) (start i : Nat)
    (s : TimeDomainSimulator α) :
    (time_sim_step coeffs g start i s).original_ff = s.original_ff ∧
      (time_sim_step coeffs g start i s).original_fb = s.original_fb ∧
      (time_sim_step coeffs g start i s).current_sample = s.current_sample ∧
      (time_sim_step coeffs g start i s).total_samples = s.total_samples ∧
      (time_sim_step coeffs g start i s).enabled = s.enabled ∧
      (time_sim_step coeffs g start i s).simulated_fb
        = Function.update s.simulated_fb (start + i)
            (s.original_fb (start + i) -
              (fir_process s.secondary_path_fir
                ((biquad_cascade coeffs s.biquad_states (s.original_ff (start + i))).2 * g)).2) :=
  ⟨rfl, rfl, rfl, rfl, rfl, rfl⟩

theorem time_sim_loop_frame (coeffs : Nat → BiquadCoeffs α) (g : α) (start : Nat)
    (s : TimeDomainSimulator α) (n : Nat) :
    (forLoop n (time_sim_step coeffs g start) s).original_ff = s.original_ff ∧
      (forLoop n (time_sim_step coeffs g start) s).original_fb = s.original_fb ∧
      (forLoop n (time_sim_step coeffs g start) s).current_sample = s.current_sample ∧
      (forLoop n (time_sim_step coeffs g start) s).total_samples = s.total_samples ∧
      (forLoop n (time_sim_step coeffs g start) s).enabled = s.enabled ∧
      ∀ j, ¬ (start ≤ j ∧ j < start + n) →
        (forLoop n (time_sim_step coeffs g start) s).simulated_fb j = s.simulated_fb j := by
  induction n with
  | zero => rw [forLoop_zero]; exact ⟨rfl, rfl, rfl, rfl, rfl, fun _ _ => rfl⟩
  | succ n ih =>
    obtain ⟨i1, i2, i3, i4, i5, i6⟩ := ih
    obtain ⟨s1, s2, s3, s4, s5, s6⟩ :=
      time_sim_step_frame coeffs g start n (forLoop n (time_sim_step coeffs g start) s)
    rw [forLoop_succ]
    refine ⟨s1.trans i1, s2.trans i2, s3.trans i3, s4.trans i4, s5.trans i5, ?_⟩
    intro j hj
    rw [s6, Function.update_noteq (by omega), i6 j (by omega)]

theorem time_sim_loop_first (coeffs : Nat → BiquadCoeffs α) (g : α) (start : Nat)
    (s : TimeDomainSimulator α) (n : Nat) :
    (forLoop (n + 1) (time_sim_step coeffs g start) s).simulated_fb start
      = s.original_fb start -
          (fir_process s.secondary_path_fir
            ((biquad_cascade coeffs s.biquad_states (s.original_ff start)).2 * g)).2 := by
  induction n with
  | zero =>
    rw [forLoop_succ, forLoop_zero, (time_sim_step_frame coeffs g start 0 s).2.2.2.2.2]
    show Function.update s.simulated_fb (start + 0) _ start = _
    rw [Nat.add_zero, Function.update_same]
  | succ n ih =>
    rw [forLoop_succ, (time_sim_step_frame coeffs g start (n + 1) _).2.2.2.2.2,
      Function.update_noteq (by omega), ih]

theorem biquad_cascade_zero_state (coeffs : Nat → BiquadCoeffs α) (x : α) :
    (biquad_cascade coeffs (fun _ => ⟨0, 0, 0, 0⟩) x).2
      = (∏ i in Finset.range NUM_BIQUADS, (coeffs i).b0) * x := by
  have key : ∀ K : Nat,
      (forLoop K (fun stage (acc : (Nat → BiquadTimeDomainState α) × α) =>
          ((Function.update acc.1 stage
              (biquad_process_sample acc.2 (coeffs stage) (acc.1 stage)).1,
            (biquad_process_sample acc.2 (coeffs stage) (acc.1 stage)).2) :
            (Nat → BiquadTimeDomainState α) × α))
          ((fun _ => ⟨0, 0, 0, 0⟩), x)).2 = (∏ i in Finset.range K, (coeffs i).b0) * x ∧
        ∀ j, K ≤ j →
          (forLoop K (fun stage (acc : (Nat → BiquadTimeDomainState α) × α) =>
            ((Function.update acc.1 stage
                (biquad_process_sample acc.2 (coeffs stage) (acc.1 stage)).1,
              (biquad_process_sample acc.2 (coeffs stage) (acc.1 stage)).2) :
              (Nat → BiquadTimeDomainState α) × α))
            ((fun _ => ⟨0, 0, 0, 0⟩), x)).1 j = ⟨0, 0, 0, 0⟩ := by
    intro K
    induction K with
    | zero => rw [forLoop_zero]; simp
    | succ K ih =>
      obtain ⟨h1, h2⟩ := ih
      rw [forLoop_succ]
      constructor
      · show (biquad_process_sample _ (coeffs K) _).2 = _
        rw [h1, h2 K (le_refl K), Finset.prod_range_succ]
        show (coeffs K).b0 * _ + 0 = _
        ring
      · intro j hj
        show Function.update _ K _ j = _
        rw [Function.update_noteq (by omega), h2 j (by omega)]
  exact (key NUM_BIQUADS).1

theorem fir_first_output (fir : FIRFilter α) (input : α) (h1 : 1 ≤ fir.length)
    (h2 : fir.length ≤ (MAX_FIR_LENGTH : Int)) :
    (fir_process (fir_reset fir) input).2 = fir.coeffs 0 * input := by
  have hN1 : 1 ≤ fir.length.toNat := by omega
  have hN2 : fir.length.toNat ≤ MAX_FIR_LENGTH := by omega
  obtain ⟨b1, b2, b3, b4⟩ := fir_reset_fresh fir fir.length.toNat hN2
  have hlen : (fir_reset fir).length = (fir.length.toNat : Int) := by
    rw [b1]; omega
  have := fir_output (fir_reset fir) (fun _ => input) fir.length.toNat hN1 hlen b2 b3 0
  rw [b4] at this
  simpa [fir_run] using this

/-- C13: realtime reset.  When the simulator is enabled, at least one sample is left
and requested, and the FIR length is within `1..8192`, the first sample rewritten by
`time_sim_process` is `original_fb[c] - h[0]·(total_gain·(Π b0)·original_ff[c])` at
`c = current_sample`, for every prior content of the stepper states and delay line. -/
theorem time_sim_first_sample (sim : TimeDomainSimulator α) (coeffs : Nat → BiquadCoeffs α)
    (total_gain : α) (num_samples : Int) (hen : sim.enabled ≠ 0) (hn : 1 ≤ num_samples)
    (hc : (sim.current_sample : Int) < sim.total_samples)
    (hl1 : 1 ≤ sim.secondary_path_fir.length)
    (hl2 : sim.secondary_path_fir.length ≤ (MAX_FIR_LENGTH : Int)) :
    (time_sim_process sim coeffs total_gain num_samples).simulated_fb sim.current_sample
      = sim.original_fb sim.current_sample -
          sim.secondary_path_fir.coeffs 0 *
            (total_gain * (∏ i in Finset.range NUM_BIQUADS, (coeffs i).b0) *
              sim.original_ff sim.current_sample) := by
  have hcnt : ¬ (time_sim_count sim num_samples ≤ 0) := by
    unfold time_sim_count
    by_cases hx : (sim.current_sample : Int) + num_samples > sim.total_samples
    · rw [if_pos hx]; omega
    · rw [if_neg hx]; omega
  obtain ⟨n, hn1⟩ : ∃ n, (time_sim_count sim num_samples).toNat = n + 1 :=
    ⟨(time_sim_count sim num_samples).toNat - 1, by omega⟩
  unfold time_sim_process
  rw [if_neg hen]
  dsimp only
  rw [if_neg hcnt, hn1, time_sim_loop_first]
  show sim.original_fb sim.current_sample -
      (fir_process (fir_reset sim.secondary_path_fir)
        ((biquad_cascade coeffs (fun _ => ⟨0, 0, 0, 0⟩)
          (sim.original_ff sim.current_sample)).2 * total_gain)).2 = _
  rw [fir_first_output _ _ hl1 hl2, biquad_cascade_zero_state]
  ring

/-- Witness of C13: on the stale simulator (cursor 3, `original_ff[3] = 4`, taps (1, 2)),
ten sections with `b0 = 2` and gain 1/2 rewrite `simulated_fb[3]` to
`100 - 1·(1/2·1024·4) = -1948`. -/
theorem time_sim_first_sample_witness :
    (stale_sim.enabled ≠ 0 ∧ (1 : Int) ≤ 5 ∧
        (stale_sim.current_sample : Int) < stale_sim.total_samples ∧
        1 ≤ stale_sim.secondary_path_fir.length ∧
        stale_sim.secondary_path_fir.length ≤ (MAX_FIR_LENGTH : Int)) ∧
      (time_sim_process stale_sim (fun _ => ⟨2, 1, 1, 1, 1, 1⟩) (1 / 2) 5).simulated_fb 3
        = -1948 := by
  have h1 : stale_sim.enabled ≠ 0 := by decide
  have h2 : (1 : Int) ≤ 5 := by decide
  have h3 : (stale_sim.current_sample : Int) < stale_sim.total_samples := by decide
  have h4 : 1 ≤ stale_sim.secondary_path_fir.length := by decide
  have h5 : stale_sim.secondary_path_fir.length ≤ (MAX_FIR_LENGTH : Int) := by decide
  refine ⟨⟨h1, h2, h3, h4, h5⟩, ?_⟩
  have hw := time_sim_first_sample stale_sim (fun _ => ⟨2, 1, 1, 1, 1, 1⟩) (1 / 2) 5 h1 h2 h3 h4 h5
  have e : stale_sim.current_sample = 3 := rfl
  rw [e] at hw
  rw [hw]
  simp [Finset.prod_const, NUM_BIQUADS, stale_sim, stale_fir, ramp_input]
  norm_num

/-! ### The DC bin of the cascade response -/

theorem complex_mul_zero_left (x : Complex α) : complex_mul ⟨0, 0⟩ x = ⟨0, 0⟩ := by
  simp [complex_mul]

theorem complex_mul_one_right (x : Complex α) : complex_mul x ⟨1, 0⟩ = x := by
  cases x; simp [complex_mul]

theorem complex_mul_zero_right (x : Complex α) : complex_mul x ⟨0, 0⟩ = ⟨0, 0⟩ := by
  simp [complex_mul]

theorem ff_response_bin_zero (lm : Libm α) (ff : FeedforwardFilter α)
    (hcos : lm.cosf 0 = 1) (hsin : lm.sinf 0 = 0) :
    ff_response_bin lm ff 0 =
      complex_scale
        (forLoop NUM_BIQUADS (fun stage (H : Complex α) =>
          complex_mul H (dc_stage (ff.coeffs stage))) ⟨1, 0⟩)
        ff.total_gain := by
  unfold ff_response_bin
  have hω : 2 * (M_PI : α) * ((0 : Nat) : α) / (FFT_LENGTH : α) = 0 := by simp
  simp only [hω, hcos, hsin]
  congr 1
  apply forLoop_congr
  intro i _ H
  simp [dc_stage, complex_add, complex_scale, complex_mul]

theorem dc_product_one (c : Nat → BiquadCoeffs α) (n : Nat)
    (h : ∀ i, i < n → dc_stage (c i) = ⟨1, 0⟩) :
    forLoop n (fun stage (H : Complex α) => complex_mul H (dc_stage (c stage))) ⟨1, 0⟩
      = ⟨1, 0⟩ := by
  induction n with
  | zero => rw [forLoop_zero]
  | succ n ih =>
    rw [forLoop_succ, ih (fun i hi => h i (Nat.lt_succ_of_lt hi)), h n (Nat.lt_succ_self n),
      complex_mul_one_right]

theorem dc_product_zero (c : Nat → BiquadCoeffs α) (n j : Nat) (hj : j < n)
    (h : dc_stage (c j) = ⟨0, 0⟩) (H0 : Complex α) :
    forLoop n (fun stage (H : Complex α) => complex_mul H (dc_stage (c stage))) H0
      = ⟨0, 0⟩ := by
  induction n with
  | zero => exact absurd hj (Nat.not_lt_zero j)
  | succ n ih =>
    rw [forLoop_succ]
    by_cases hjn : j = n
    · rw [← hjn, h, complex_mul_zero_right]
    · rw [ih (by omega), complex_mul_zero_left]

theorem flat_section (lm : Libm α) (p : BiquadParam α) (rate : α) (hg : p.gain_dB = 0)
    (hpow : lm.powf 10 0 = 1) (hsqrt : lm.sqrtf 1 = 1)
    (hα : 0 ≤ section_alpha lm p rate) :
    (eq_to_biquad_coeffs lm p rate).b0 = 1 ∧
      (eq_to_biquad_coeffs lm p rate).b1 = (eq_to_biquad_coeffs lm p rate).a1 ∧
      (eq_to_biquad_coeffs lm p rate).b2 = (eq_to_biquad_coeffs lm p rate).a2 := by
  unfold section_alpha at hα
  obtain ⟨t, g, q, fc⟩ := p
  simp only at hg hα
  subst hg
  cases t
  · simp only [eq_to_biquad_coeffs, zero_div, hpow, hsqrt]
    generalize lm.sinf (2 * M_PI * fc / rate) / (2 * q) = a at hα ⊢
    refine ⟨?_, ?_, ?_⟩
    · refine (div_eq_one_iff_eq ?_).mpr ?_
      · intro h; nlinarith
      · ring
    · ring
    · ring
  · simp only [eq_to_biquad_coeffs, zero_div, hpow, hsqrt]
    generalize lm.sinf (2 * M_PI * fc / rate) / (2 * q) = a at hα ⊢
    refine ⟨?_, trivial, ?_⟩
    · refine (div_eq_one_iff_eq ?_).mpr ?_
      · intro h; nlinarith
      · ring
    · ring
  · simp only [eq_to_biquad_coeffs, zero_div, hpow, hsqrt]
    generalize lm.sinf (2 * M_PI * fc / rate) / (2 * q) = a at hα ⊢
    refine ⟨?_, ?_, ?_⟩
    · refine (div_eq_one_iff_eq ?_).mpr ?_
      · intro h; nlinarith
      · ring
    · ring
    · ring

theorem dc_stage_flat (c : BiquadCoeffs α) (h0 : c.b0 = 1) (h1 : c.b1 = c.a1)
    (h2 : c.b2 = c.a2) :
    dc_stage c =
      if (1 + c.a1 + c.a2) * (1 + c.a1 + c.a2) > 1 / 10000000000 then ⟨1, 0⟩ else ⟨0, 0⟩ := by
  unfold dc_stage complex_div
  simp only [h0, h1, h2, mul_zero, add_zero, zero_mul, sub_zero, zero_div]
  by_cases hd : (1 + c.a1 + c.a2) * (1 + c.a1 + c.a2) > 1 / 10000000000
  · rw [if_pos hd, if_pos hd, div_self (ne_of_gt (lt_trans (by norm_num) hd))]
  · rw [if_neg hd, if_neg hd]

theorem dc_stage_of_params (lm : Libm α) (s : SystemState α) (i : Nat)
    (hpow : lm.powf 10 0 = 1) (hsqrt : lm.sqrtf 1 = 1)
    (hcoef : s.ff_filter.coeffs i
      = eq_to_biquad_coeffs lm (s.eq_update.params i) (REALTIME_SAMPLE_RATE : α))
    (hgain : (s.eq_update.params i).gain_dB = 0)
    (hq : 0 < (s.eq_update.params i).q)
    (hsin : 0 ≤ lm.sinf (2 * M_PI * (s.eq_update.params i).fc / (REALTIME_SAMPLE_RATE : α))) :
    dc_stage (s.ff_filter.coeffs i) =
      if (1 + (s.ff_filter.coeffs i).a1 + (s.ff_filter.coeffs i).a2) *
          (1 + (s.ff_filter.coeffs i).a1 + (s.ff_filter.coeffs i).a2) > 1 / 10000000000
      then ⟨1, 0⟩ else ⟨0, 0⟩ := by
  have hα : 0 ≤ section_alpha lm (s.eq_update.params i) (REALTIME_SAMPLE_RATE : α) := by
    unfold section_alpha
    exact div_nonneg hsin (by linarith)
  obtain ⟨f0, f1, f2⟩ := flat_section lm (s.eq_update.params i) (REALTIME_SAMPLE_RATE : α)
    hgain hpow hsqrt hα
  rw [← hcoef] at f0 f1 f2
  exact dc_stage_flat _ f0 f1 f2

/-- C16 (amended): unity DC response behind the division guard.  For a math library
exact at `cosf(0)`, `sinf(0)`, `powf(10, 0)`, `sqrtf(1)` and every cascade whose ten
sections have `gain_dB = 0`, `Q` and `fc` in the parameter box, `sinf(omega0) >= 0`, and
coefficients produced by `eq_to_biquad_coeffs`: bin 0 of `current_ff` is
`(10^(total_gain_dB/20), 0)` when every section has `(1 + a1 + a2)^2 > 1e-10`, and is
`(0, 0)` when some section has `(1 + a1 + a2)^2 <= 1e-10`. -/
theorem unity_dc_response (lm : Libm α) (s : SystemState α)
    (hcos : lm.cosf 0 = 1) (hsin0 : lm.sinf 0 = 0) (hpow : lm.powf 10 0 = 1)
    (hsqrt : lm.sqrtf 1 = 1)
    (hcoef : ∀ i, i < NUM_BIQUADS → s.ff_filter.coeffs i
      = eq_to_biquad_coeffs lm (s.eq_update.params i) (REALTIME_SAMPLE_RATE : α))
    (hgain : ∀ i, i < NUM_BIQUADS → (s.eq_update.params i).gain_dB = 0)
    (hbox : ∀ i, i < NUM_BIQUADS → in_box (s.eq_update.params i))
    (hsin : ∀ i, i < NUM_BIQUADS →
      0 ≤ lm.sinf (2 * M_PI * (s.eq_update.params i).fc / (REALTIME_SAMPLE_RATE : α)))
    (htot : s.ff_filter.total_gain = lm.powf 10 (s.eq_update.total_gain_dB / 20)) :
    ((∀ i, i < NUM_BIQUADS →
          (1 + (s.ff_filter.coeffs i).a1 + (s.ff_filter.coeffs i).a2) *
            (1 + (s.ff_filter.coeffs i).a1 + (s.ff_filter.coeffs i).a2) > 1 / 10000000000) →
        (calculate_ff_response lm s).current_ff 0
          = ⟨lm.powf 10 (s.eq_update.total_gain_dB / 20), 0⟩) ∧
      ((∃ i, i < NUM_BIQUADS ∧
          (1 + (s.ff_filter.coeffs i).a1 + (s.ff_filter.coeffs i).a2) *
            (1 + (s.ff_filter.coeffs i).a1 + (s.ff_filter.coeffs i).a2) ≤ 1 / 10000000000) →
        (calculate_ff_response lm s).current_ff 0 = ⟨0, 0⟩) := by
  have hst : ∀ i, i < NUM_BIQUADS → dc_stage (s.ff_filter.coeffs i) =
      if (1 + (s.ff_filter.coeffs i).a1 + (s.ff_filter.coeffs i).a2) *
          (1 + (s.ff_filter.coeffs i).a1 + (s.ff_filter.coeffs i).a2) > 1 / 10000000000
      then ⟨1, 0⟩ else ⟨0, 0⟩ := by
    intro i hi
    have hq : 0 < (s.eq_update.params i).q := by
      have := (hbox i hi).2.2.1
      exact lt_of_lt_of_le (by norm_num) this
    exact dc_stage_of_params lm s i hpow hsqrt (hcoef i hi) (hgain i hi) hq (hsin i hi)
  have h0 : (0 : Nat) < FFT_HALF_LENGTH := by decide
  rw [calculate_ff_response_current_ff, if_pos h0, ff_response_bin_zero lm _ hcos hsin0]
  constructor
  · intro hg
    rw [dc_product_one _ _ (fun i hi => by rw [hst i hi, if_pos (hg i hi)]), ← htot]
    simp [complex_scale]
  · rintro ⟨i, hi, hg⟩
    rw [dc_product_zero _ _ i hi (by rw [hst i hi, if_neg (not_lt.mpr hg)])]
    simp [complex_scale]

theorem lowshelf_100_guard_any (lm : Libm α) (hpow : lm.powf 10 0 = 1) (hsqrt : lm.sqrtf 1 = 1)
    (hs : 0 ≤ lm.sinf (2 * M_PI * 100 / (REALTIME_SAMPLE_RATE : α)))
    (hc1 : 1 - 2 / 1000000 ≤ lm.cosf (2 * M_PI * 100 / (REALTIME_SAMPLE_RATE : α)))
    (hc2 : lm.cosf (2 * M_PI * 100 / (REALTIME_SAMPLE_RATE : α)) ≤ 1) :
    (1 + (eq_to_biquad_coeffs lm (eq_presets_biquads 0 0) (REALTIME_SAMPLE_RATE : α)).a1
        + (eq_to_biquad_coeffs lm (eq_presets_biquads 0 0) (REALTIME_SAMPLE_RATE : α)).a2) *
      (1 + (eq_to_biquad_coeffs lm (eq_presets_biquads 0 0) (REALTIME_SAMPLE_RATE : α)).a1
        + (eq_to_biquad_coeffs lm (eq_presets_biquads 0 0) (REALTIME_SAMPLE_RATE : α)).a2)
      ≤ 1 / 10000000000 := by
  simp only [eq_to_biquad_coeffs, eq_presets_biquads, if_true, zero_div, hpow, hsqrt]
  generalize lm.cosf (2 * M_PI * 100 / (REALTIME_SAMPLE_RATE : α)) = c at hc1 hc2
  generalize lm.sinf (2 * M_PI * 100 / (REALTIME_SAMPLE_RATE : α)) = s at hs
  have hα : 0 ≤ s / (2 * 0.707) := div_nonneg hs (by norm_num)
  generalize s / (2 * 0.707) = a at hα
  have ha0 : (0 : α) < 1 + 1 + (1 - 1) * c + 2 * 1 * a := by nlinarith
  have e : 1 + -2 * (1 - 1 + (1 + 1) * c) / (1 + 1 + (1 - 1) * c + 2 * 1 * a)
      + (1 + 1 + (1 - 1) * c - 2 * 1 * a) / (1 + 1 + (1 - 1) * c + 2 * 1 * a)
      = (4 - 4 * c) / (1 + 1 + (1 - 1) * c + 2 * 1 * a) := by
    field_simp
    ring
  rw [e]
  have d0 : 0 ≤ (4 - 4 * c) / (1 + 1 + (1 - 1) * c + 2 * 1 * a) :=
    div_nonneg (by linarith) (le_of_lt ha0)
  have d1 : (4 - 4 * c) / (1 + 1 + (1 - 1) * c + 2 * 1 * a) ≤ 4 / 1000000 := by
    rw [div_le_iff₀ ha0]
    nlinarith
  calc (4 - 4 * c) / (1 + 1 + (1 - 1) * c + 2 * 1 * a)
        * ((4 - 4 * c) / (1 + 1 + (1 - 1) * c + 2 * 1 * a))
      ≤ 4 / 1000000 * (4 / 1000000) := mul_le_mul d1 d1 d0 (by norm_num)
    _ ≤ 1 / 10000000000 := by norm_num

theorem preset_dc_collapses (lm : Libm α) (hcos : lm.cosf 0 = 1) (hsin : lm.sinf 0 = 0)
    (hpow : lm.powf 10 0 = 1) (hsqrt : lm.sqrtf 1 = 1)
    (hs : 0 ≤ lm.sinf (2 * M_PI * 100 / (REALTIME_SAMPLE_RATE : α)))
    (hc1 : 1 - 2 / 1000000 ≤ lm.cosf (2 * M_PI * 100 / (REALTIME_SAMPLE_RATE : α)))
    (hc2 : lm.cosf (2 * M_PI * 100 / (REALTIME_SAMPLE_RATE : α)) ≤ 1) :
    (calculate_ff_response lm (system_init lm)).current_ff 0 = ⟨0, 0⟩ := by
  have h0 : (0 : Nat) < FFT_HALF_LENGTH := by decide
  have hn : (0 : Nat) < NUM_BIQUADS := by decide
  have hc0 : (system_init lm).ff_filter.coeffs 0
      = eq_to_biquad_coeffs lm (eq_presets_biquads 0 0) (REALTIME_SAMPLE_RATE : α) := by
    rw [system_init_coeffs]
    simp only [hn, if_true]
  have hα : 0 ≤ section_alpha lm (eq_presets_biquads 0 0 : BiquadParam α)
      (REALTIME_SAMPLE_RATE : α) := by
    simp only [section_alpha, eq_presets_biquads, if_true]
    exact div_nonneg hs (by norm_num)
  obtain ⟨f0, f1, f2⟩ := flat_section lm (eq_presets_biquads 0 0 : BiquadParam α)
    (REALTIME_SAMPLE_RATE : α) (by simp [eq_presets_biquads]) hpow hsqrt hα
  have hst : dc_stage ((system_init lm).ff_filter.coeffs 0) = ⟨0, 0⟩ := by
    rw [hc0, dc_stage_flat _ f0 f1 f2,
      if_neg (not_lt.mpr (lowshelf_100_guard_any lm hpow hsqrt hs hc1 hc2))]
  rw [calculate_ff_response_current_ff, if_pos h0, ff_response_bin_zero lm _ hcos hsin,
    dc_product_zero _ _ 0 hn hst]
  simp [complex_scale]

/-- C16, counterexample: the installed preset 0 has all gains 0 and total gain 0 dB, so
the claim asks for magnitude `10^0 = 1` at bin 0; but for its low shelf (100 Hz,
`Q = 0.707`) at the Taylor values of sine and cosine `1 + a1 + a2` is about `2.8e-6`, the
guard of `complex_div` returns 0 for that section, and `current_ff[0] = (0, 0)`. -/
theorem unity_dc_counterexample :
    (∀ i, i < NUM_BIQUADS →
        ((system_init taylor_libm).eq_update.params i).gain_dB = 0 ∧
          in_box ((system_init taylor_libm).eq_update.params i)) ∧
      taylor_libm.powf 10 ((system_init taylor_libm).eq_update.total_gain_dB / 20) = 1 ∧
      (calculate_ff_response taylor_libm (system_init taylor_libm)).current_ff 0 = ⟨0, 0⟩ := by
  refine ⟨?_, ?_, ?_⟩
  · intro i hi
    refine ⟨?_, (system_init_param_box taylor_libm).1 i hi⟩
    rw [system_init_params]
    simp only [hi, if_true]
    unfold NUM_BIQUADS at hi
    interval_cases i <;> simp [eq_presets_biquads]
  · rw [system_init_total_gain_dB]
    simp [taylor_libm]
  · apply preset_dc_collapses taylor_libm (by simp [taylor_libm]) rfl rfl rfl
    · simp only [taylor_libm, M_PI, REALTIME_SAMPLE_RATE]; norm_num
    · simp only [taylor_libm, M_PI, REALTIME_SAMPLE_RATE]; norm_num
    · simp only [taylor_libm, M_PI, REALTIME_SAMPLE_RATE]; norm_num

/-- Witness of C16 (amended): ten flat peaking sections at 20 kHz pass the guard
(`1 + a1 + a2` is about 0.096), and bin 0 of the response is `(1, 0)`. -/
theorem unity_dc_response_witness :
    (taylor_libm.cosf 0 = 1 ∧ taylor_libm.sinf 0 = 0 ∧ taylor_libm.powf 10 0 = 1 ∧
        taylor_libm.sqrtf 1 = 1) ∧
      (calculate_ff_response taylor_libm flat_demo_state).current_ff 0 = ⟨1, 0⟩ := by
  have hcos : taylor_libm.cosf 0 = 1 := by simp [taylor_libm]
  have hsin : taylor_libm.sinf 0 = 0 := rfl
  have hpow : taylor_libm.powf 10 0 = 1 := rfl
  have hsqrt : taylor_libm.sqrtf 1 = 1 := rfl
  have hw := (unity_dc_response taylor_libm flat_demo_state hcos hsin hpow hsqrt
    (fun _ _ => rfl) (fun _ _ => rfl)
    (fun _ _ => by simp only [in_box, flat_demo_state]; norm_num)
    (fun _ _ => by
      simp only [flat_demo_state, taylor_libm, M_PI, REALTIME_SAMPLE_RATE]; norm_num)
    (by simp [flat_demo_state, taylor_libm, zero_state])).1
    (fun _ _ => by
      simp only [flat_demo_state, eq_to_biquad_coeffs, taylor_libm, M_PI, REALTIME_SAMPLE_RATE]
      norm_num)
  refine ⟨⟨hcos, hsin, hpow, hsqrt⟩, ?_⟩
  rw [hw]
  simp [flat_demo_state, taylor_libm, zero_state]

/-! ### What the optimizer leaves alone -/

theorem same_analysis_refl (s : SystemState α) : same_analysis s s := by
  cases s; rfl

theorem same_analysis_trans (s t u : SystemState α) (h1 : same_analysis s t)
    (h2 : same_analysis t u) : same_analysis s u := by
  unfold same_analysis at *
  cases s; cases t; cases u
  simp only [SystemState.mk.injEq] at h1 h2 ⊢
  simp_all

theorem same_analysis_ctrl (s t : SystemState α) (h : same_analysis s t) :
    ctrl_of t = ctrl_of s := by
  unfold same_analysis at h
  rw [h]
  rfl

theorem same_analysis_calculate_ff_response (lm : Libm α) (s : SystemState α) :
    same_analysis s (calculate_ff_response lm s) := by
  cases s; rfl

theorem same_analysis_set_current_loss (s : SystemState α) (v : α) :
    same_analysis s (set_current_loss s v) := by
  cases s; rfl

theorem same_analysis_set_init_loss (s : SystemState α) (v : α) :
    same_analysis s (set_init_loss s v) := by
  cases s; rfl

theorem same_analysis_set_update_accepted (s : SystemState α) (v : Int) :
    same_analysis s (set_update_accepted s v) := by
  cases s; rfl

theorem same_analysis_set_total_gain_dB (s : SystemState α) (v : α) :
    same_analysis s (set_total_gain_dB s v) := by
  cases s; rfl

theorem same_analysis_set_total_gain (s : SystemState α) (v : α) :
    same_analysis s (set_total_gain s v) := by
  cases s; rfl

theorem same_analysis_write_param (s : SystemState α) (b p : Nat) (v : α) :
    same_analysis s (write_param s b p v) := by
  cases s; rfl

theorem same_analysis_rebuild_coeffs (lm : Libm α) (s : SystemState α) (i : Nat) :
    same_analysis s (rebuild_coeffs lm s i) := by
  cases s; rfl

theorem same_analysis_install_value (lm : Libm α) (s : SystemState α) (b p : Nat) (v : α) :
    same_analysis s (install_value lm s b p v) := by
  unfold install_value
  exact same_analysis_trans _ _ _ (same_analysis_write_param s b p v)
    (same_analysis_trans _ _ _ (same_analysis_rebuild_coeffs lm _ b)
      (same_analysis_calculate_ff_response lm _))

theorem same_analysis_update_single_param (lm : Libm α) (s : SystemState α) (b p : Nat) :
    same_analysis s (update_single_param lm s b p).1 := by
  cases h : param_setup (s.eq_update.params b) p with
  | none => rw [update_single_param_none lm s b p h]; exact same_analysis_refl s
  | some su =>
    rw [update_single_param_eq lm s b p su h]
    split_ifs
    · exact same_analysis_trans _ _ _ (same_analysis_install_value lm s b p _)
        (same_analysis_set_current_loss _ _)
    · exact same_analysis_install_value lm s b p _

theorem same_analysis_eq_entry (lm : Libm α) (s : SystemState α) :
    same_analysis s (eq_entry lm s) := by
  unfold eq_entry
  exact same_analysis_trans _ _ _ (same_analysis_calculate_ff_response lm s)
    (same_analysis_set_current_loss _ _)

theorem same_analysis_biquad_sweep (lm : Libm α) (s : SystemState α) :
    same_analysis s (biquad_sweep lm s) := by
  unfold biquad_sweep
  apply forLoop_invariant (fun t => same_analysis s t)
  · exact same_analysis_refl s
  · intro i t _ ht
    exact same_analysis_trans _ _ _ ht
      (same_analysis_trans _ _ _ (same_analysis_update_single_param lm t i 0)
        (same_analysis_trans _ _ _ (same_analysis_update_single_param lm _ i 1)
          (same_analysis_update_single_param lm _ i 2)))

theorem same_analysis_install_total_gain (lm : Libm α) (s : SystemState α) (g : α) :
    same_analysis s (install_total_gain lm s g) := by
  unfold install_total_gain
  exact same_analysis_trans _ _ _ (same_analysis_set_total_gain_dB s g)
    (same_analysis_trans _ _ _ (same_analysis_set_total_gain _ _)
      (same_analysis_calculate_ff_response lm _))

theorem same_analysis_total_gain_step (lm : Libm α) (s : SystemState α) :
    same_analysis s (total_gain_step lm s) := by
  unfold total_gain_step
  split_ifs
  · exact same_analysis_trans _ _ _ (same_analysis_install_total_gain lm s _)
      (same_analysis_set_current_loss _ _)
  · exact same_analysis_install_total_gain lm s _

theorem same_analysis_final_verdict (s : SystemState α) : same_analysis s (final_verdict s) := by
  unfold final_verdict
  split_ifs <;> exact same_analysis_set_update_accepted _ _

theorem same_analysis_update_eq_params (lm : Libm α) (s : SystemState α) :
    same_analysis s (update_eq_params lm s) := by
  rw [update_eq_params_eq]
  split_ifs
  · exact same_analysis_trans _ _ _ (same_analysis_eq_entry lm s)
      (same_analysis_set_update_accepted _ _)
  · exact same_analysis_trans _ _ _ (same_analysis_eq_entry lm s)
      (same_analysis_trans _ _ _ (same_analysis_biquad_sweep lm _)
        (same_analysis_trans _ _ _ (same_analysis_total_gain_step lm _)
          (same_analysis_final_verdict _)))

theorem same_analysis_calculate_ff_init_loss (lm : Libm α) (s : SystemState α) :
    same_analysis s (calculate_ff_init_loss lm s) := by
  unfold calculate_ff_init_loss
  exact same_analysis_trans _ _ _ (same_analysis_calculate_ff_response lm s)
    (same_analysis_trans _ _ _ (same_analysis_set_init_loss _ _)
      (same_analysis_set_current_loss _ _))

theorem same_analysis_update_filter_coeffs (lm : Libm α) (s : SystemState α) :
    same_analysis s (update_filter_coeffs lm s) := by
  unfold update_filter_coeffs
  refine same_analysis_trans _ _ _ ?_ (same_analysis_set_total_gain _ _)
  apply forLoop_invariant (fun t => same_analysis s t)
  · exact same_analysis_refl s
  · intro i t _ ht
    exact same_analysis_trans _ _ _ ht (same_analysis_rebuild_coeffs lm t i)

/-! ### The control part of the frame loop -/

theorem buffer_frame_sample_count (g : SystemState α) (ff_in fb_in spk_in : Nat → α) (n : Int) :
    (buffer_frame g ff_in fb_in spk_in n).ff_buffer.sample_count
      = g.ff_buffer.sample_count + 160 := by
  unfold buffer_frame
  simp only [SAMPLES_PER_INTERVAL_eq]
  have h := forLoop_invariant
    (fun b : TimeBuffer α × TimeBuffer α × TimeBuffer α =>
      b.1.sample_count = g.ff_buffer.sample_count) 160
    (fun i (b : TimeBuffer α × TimeBuffer α × TimeBuffer α) =>
      (push_sample b.1 (anti_alias_decimate ff_in n (fun _ => 0) 160 i),
        push_sample b.2.1 (anti_alias_decimate fb_in n (fun _ => 0) 160 i),
        push_sample b.2.2 (anti_alias_decimate spk_in n (fun _ => 0) 160 i)))
    (g.ff_buffer, g.fb_buffer, g.spk_buffer) rfl (fun i t _ ht => ht)
  simp only at h
  rw [h]
  rfl

theorem buffer_frame_ctrl (g : SystemState α) (ff_in fb_in spk_in : Nat → α) (n : Int) :
    ctrl_of (buffer_frame g ff_in fb_in spk_in n)
      = { ctrl_of g with sample_count := (ctrl_of g).sample_count + 160 } := by
  unfold ctrl_of
  rw [buffer_frame_sample_count]
  rfl

theorem signal_process_ctrl (lm : Libm α) (w : Nat → α) (g : SystemState α)
    (hs : g.state = ProcessState.SIGNAL_PROCESS) :
    ctrl_of (signal_process lm w g) =
      ctrl_step { ctrl_of g with sample_count := (ctrl_of g).sample_count - 160 } false := by
  unfold signal_process ctrl_step ctrl_of
  simp only [hs, FFT_HOP_SIZE_eq, NUM_FFT_AVERAGE, FFT_LENGTH, sub_add_cancel, Nat.cast_ofNat]
  split_ifs <;> simp_all [fft_pass, average_fft_results, zero_accum, FFT_HOP_SIZE_eq]

theorem ctrl_step_verdict (c : Ctrl) (b b2 : Bool) (h : c.state ≠ ProcessState.STABLE_CHECK) :
    ctrl_step c b = ctrl_step c b2 := by
  obtain ⟨st, a1, a2, a3, a4⟩ := c
  cases st <;> first | rfl | exact absurd rfl h

theorem process_audio_frame_ctrl (lm : Libm α) (w : Nat → α) (g : SystemState α)
    (ff_in fb_in spk_in : Nat → α) (n : Int) :
    ctrl_of (process_audio_frame lm w g ff_in fb_in spk_in n)
      = ctrl_step (ctrl_of g)
          (decide (gate_accepts lm g.target_ff g.prev_target_ff g.prev_smoothness)) := by
  have hb := buffer_frame_ctrl g ff_in fb_in spk_in n
  have hsc := buffer_frame_sample_count g ff_in fb_in spk_in n
  cases hs : g.state with
  | SIGNAL_PROCESS =>
    rw [process_audio_frame_signal_process lm w g ff_in fb_in spk_in n hs,
      signal_process_ctrl lm w _ (by rw [buffer_frame_state]; exact hs), hb]
    have e : ({ ({ ctrl_of g with sample_count := (ctrl_of g).sample_count + 160 } : Ctrl) with
        sample_count := ({ ctrl_of g with
          sample_count := (ctrl_of g).sample_count + 160 } : Ctrl).sample_count - 160 } : Ctrl)
        = ctrl_of g := by
      simp [ctrl_of]
    rw [e]
    apply ctrl_step_verdict
    show g.state ≠ _
    rw [hs]; decide
  | STABLE_CHECK =>
    rw [process_audio_frame_stable_check lm w g ff_in fb_in spk_in n hs]
    unfold stable_check
    rw [check_target_stability_eq]
    simp only [buffer_frame_target_ff, buffer_frame_prev_target_ff, buffer_frame_prev_smoothness]
    by_cases hg : gate_accepts lm g.target_ff g.prev_target_ff g.prev_smoothness
    · simp [hg, ctrl_of, ctrl_step, hs, set_prev_smoothness, hsc, buffer_frame_state,
        buffer_frame_fft_count, buffer_frame_frame_count]
      rfl
    · simp [hg, ctrl_of, ctrl_step, hs, hsc]
      rfl
  | CAL_MU =>
    unfold process_audio_frame
    simp only [buffer_frame_state, hs]
    simp [ctrl_of, ctrl_step, hs, hsc, calculate_mu, buffer_frame_fft_count,
      buffer_frame_frame_count]
    rfl
  | CAL_FF_RESPONSE =>
    unfold process_audio_frame
    simp only [buffer_frame_state, hs]
    simp [ctrl_of, ctrl_step, hs, hsc, calculate_ff_response, buffer_frame_fft_count,
      buffer_frame_frame_count]
    rfl
  | CAL_TARGET_FF =>
    unfold process_audio_frame
    simp only [buffer_frame_state, hs]
    simp [ctrl_of, ctrl_step, hs, hsc, calculate_target_ff, buffer_frame_fft_count,
      buffer_frame_frame_count]
    rfl
  | CAL_FF_INIT_LOSS =>
    unfold process_audio_frame
    simp only [buffer_frame_state, hs]
    show ({ ctrl_of (calculate_ff_init_loss lm (buffer_frame g ff_in fb_in spk_in n)) with
      state := ProcessState.UPDATE_EQ_PARAMS } : Ctrl) = _
    rw [same_analysis_ctrl _ _ (same_analysis_calculate_ff_init_loss lm _), hb]
    simp [ctrl_of, ctrl_step, hs]
  | UPDATE_EQ_PARAMS =>
    unfold process_audio_frame
    simp only [buffer_frame_state, hs]
    show ({ ctrl_of (update_eq_params lm (buffer_frame g ff_in fb_in spk_in n)) with
      state := ProcessState.UPDATE_FILTER_COEFFS } : Ctrl) = _
    rw [same_analysis_ctrl _ _ (same_analysis_update_eq_params lm _), hb]
    simp [ctrl_of, ctrl_step, hs]
  | UPDATE_FILTER_COEFFS =>
    unfold process_audio_frame
    simp only [buffer_frame_state, hs]
    show ({ ctrl_of (update_filter_coeffs lm (buffer_frame g ff_in fb_in spk_in n)) with
      state := ProcessState.SIGNAL_PROCESS, frame_count := 0, fft_count := 0 } : Ctrl) = _
    rw [same_analysis_ctrl _ _ (same_analysis_update_filter_coeffs lm _), hb]
    simp [ctrl_of, ctrl_step, hs]

theorem same_analysis_set_param_record (s : SystemState α) (i : Nat) (pr : BiquadParam α) :
    same_analysis s (set_param_record s i pr) := by
  cases s; rfl

theorem system_init_ctrl (lm : Libm α) : ctrl_of (system_init lm) = ctrl_init := by
  unfold system_init
  simp only [Int.toNat_zero]
  have h := forLoop_invariant
    (fun t : SystemState α => ctrl_of t = ctrl_init) NUM_BIQUADS
    (fun i (g : SystemState α) =>
      rebuild_coeffs lm (set_param_record g i (eq_presets_biquads 0 i)) i)
    { ({ (zero_state : SystemState α) with
          state := ProcessState.SIGNAL_PROCESS, current_preset_index := 0 } : SystemState α) with
      secondary_path := forLoop FFT_HALF_LENGTH (fun i sp =>
        Function.update sp i
          ⟨secondary_path_table (0 : Nat) (i * 2), secondary_path_table (0 : Nat) (i * 2 + 1)⟩)
        (fun _ => ⟨0, 0⟩) }
    rfl
    (fun i t _ ht => by
      show ctrl_of (rebuild_coeffs lm (set_param_record t i (eq_presets_biquads 0 i)) i) = _
      rw [same_analysis_ctrl _ _ (same_analysis_trans _ _ _
        (same_analysis_set_param_record t i _) (same_analysis_rebuild_coeffs lm _ i))]
      exact ht)
  exact h

theorem run_frames_ctrl (lm : Libm α) (w : Nat → α) (ff fb spk : Nat → Nat → α)
    (len : Nat → Int) (g : SystemState α) (n : Nat) :
    ctrl_of (run_frames lm w ff fb spk len g n)
      = ctrl_run (fun i => decide (gate_accepts lm
          (run_frames lm w ff fb spk len g i).target_ff
          (run_frames lm w ff fb spk len g i).prev_target_ff
          (run_frames lm w ff fb spk len g i).prev_smoothness)) (ctrl_of g) n := by
  induction n with
  | zero => rfl
  | succ n ih =>
    show ctrl_of (process_audio_frame lm w (run_frames lm w ff fb spk len g n) _ _ _ _) = _
    rw [process_audio_frame_ctrl, ih]
    rfl

theorem first_window_stable_check :
    ∀ b : Bool, ∀ n, n < 65 →
      (ctrl_run (fun _ => b) ctrl_init n).state = ProcessState.STABLE_CHECK → n = 35 := by
  decide

theorem ctrl_run_first_window (v : Nat → Bool) (n : Nat) (hn : n ≤ 65) :
    ctrl_run v ctrl_init n = ctrl_run (fun _ => v 35) ctrl_init n := by
  induction n with
  | zero => rfl
  | succ n ih =>
    show ctrl_step (ctrl_run v ctrl_init n) (v n) = ctrl_step (ctrl_run _ ctrl_init n) (v 35)
    rw [ih (by omega)]
    by_cases hst : (ctrl_run (fun _ => v 35) ctrl_init n).state = ProcessState.STABLE_CHECK
    · rw [first_window_stable_check (v 35) n (by omega) hst]
    · exact ctrl_step_verdict _ _ _ hst

theorem first_window_pass :
    ctrl_run (fun _ => true) ctrl_init 32 = ⟨ProcessState.CAL_MU, 32, 10, 0, 10⟩ ∧
      ctrl_run (fun _ => true) ctrl_init 39 = ⟨ProcessState.SIGNAL_PROCESS, 0, 0, 1120, 10⟩ ∧
      ctrl_run (fun _ => true) ctrl_init 64 = ⟨ProcessState.CAL_MU, 25, 10, 0, 20⟩ ∧
      ctrl_run (fun _ => true) ctrl_init 65 = ⟨ProcessState.CAL_FF_RESPONSE, 25, 10, 160, 20⟩ ∧
      (∀ n, n ≤ 65 →
        ((ctrl_run (fun _ => true) ctrl_init n).state = ProcessState.SIGNAL_PROCESS ∧
          (ctrl_run (fun _ => true) ctrl_init n).fft_count = 0 ↔ n < 4 ∨ n = 39)) ∧
      ∀ n, n ≤ 65 →
        ((ctrl_run (fun _ => true) ctrl_init n).accum_count ≤ 10 ↔ n ≤ 39) := by
  decide

theorem first_window_fail :
    ctrl_run (fun _ => false) ctrl_init 32 = ⟨ProcessState.CAL_MU, 32, 10, 0, 10⟩ ∧
      ctrl_run (fun _ => false) ctrl_init 36 = ⟨ProcessState.SIGNAL_PROCESS, 0, 0, 640, 10⟩ ∧
      ctrl_run (fun _ => false) ctrl_init 64 = ⟨ProcessState.CAL_MU, 28, 10, 0, 20⟩ ∧
      ctrl_run (fun _ => false) ctrl_init 65 = ⟨ProcessState.CAL_FF_RESPONSE, 28, 10, 160, 20⟩ ∧
      (∀ n, n ≤ 65 →
        ((ctrl_run (fun _ => false) ctrl_init n).state = ProcessState.SIGNAL_PROCESS ∧
          (ctrl_run (fun _ => false) ctrl_init n).fft_count = 0 ↔ n < 4 ∨ n = 36)) ∧
      ∀ n, n ≤ 65 →
        ((ctrl_run (fun _ => false) ctrl_init n).accum_count ≤ 10 ↔ n ≤ 36) := by
  decide

theorem run_frames_first_window (lm : Libm α) (w : Nat → α) (ff fb spk : Nat → Nat → α)
    (len : Nat → Int) :
    ∃ b : Bool, ∀ n, n ≤ 65 →
      ctrl_of (run_frames lm w ff fb spk len (system_init lm) n)
        = ctrl_run (fun _ => b) ctrl_init n := by
  refine ⟨decide (gate_accepts lm
    (run_frames lm w ff fb spk len (system_init lm) 35).target_ff
    (run_frames lm w ff fb spk len (system_init lm) 35).prev_target_ff
    (run_frames lm w ff fb spk len (system_init lm) 35).prev_smoothness), ?_⟩
  intro n hn
  rw [run_frames_ctrl, system_init_ctrl, ctrl_run_first_window _ n hn]

theorem average_fft_results_bins (g : SystemState α) (k : Nat) (hk : k < FFT_HALF_LENGTH) :
    (average_fft_results g).pp_average k
        = complex_scale (g.fft_accum.pp_accum k) (1 / ((g.fft_accum.accum_count : Int) : α)) ∧
      (average_fft_results g).ff_avg.bins k
        = complex_scale (g.fft_accum.ff_accum.bins k)
            (1 / ((g.fft_accum.accum_count : Int) : α)) := by
  unfold average_fft_results
  simp only [forLoop_update_apply, hk, if_true]
  exact ⟨trivial, trivial⟩

theorem signal_process_shape (lm : Libm α) (w : Nat → α) (g : SystemState α) :
    ∃ g2 : SystemState α, g2.state = g.state ∧
      ((signal_process lm w g).state = ProcessState.CAL_MU ∨
        (signal_process lm w g).state = g.state) ∧
      ((signal_process lm w g).state = ProcessState.CAL_MU → g.state ≠ ProcessState.CAL_MU →
        (signal_process lm w g).pp_average = (average_fft_results g2).pp_average ∧
        (signal_process lm w g).ff_avg = (average_fft_results g2).ff_avg ∧
        (signal_process lm w g).fft_accum = g2.fft_accum) := by
  refine ⟨
    (if (if g.frame_count = 0 ∧ g.ff_buffer.sample_count ≥ (FFT_LENGTH : Int) then
          ({ g with fft_count := 0, fft_accum := zero_accum } : SystemState α)
        else g).ff_buffer.sample_count ≥ FFT_HOP_SIZE ∧
        (if g.frame_count = 0 ∧ g.ff_buffer.sample_count ≥ (FFT_LENGTH : Int) then
          ({ g with fft_count := 0, fft_accum := zero_accum } : SystemState α)
        else g).fft_count < NUM_FFT_AVERAGE then
      fft_pass lm w (if g.frame_count = 0 ∧ g.ff_buffer.sample_count ≥ (FFT_LENGTH : Int) then
          ({ g with fft_count := 0, fft_accum := zero_accum } : SystemState α)
        else g)
    else (if g.frame_count = 0 ∧ g.ff_buffer.sample_count ≥ (FFT_LENGTH : Int) then
          ({ g with fft_count := 0, fft_accum := zero_accum } : SystemState α)
        else g)), ?_, ?_, ?_⟩
  · split_ifs <;> rfl
  · simp only [signal_process]
    split_ifs <;> first | exact Or.inl rfl | exact Or.inr rfl
  · intro hout hne
    simp only [signal_process] at hout ⊢
    split_ifs at hout ⊢ <;>
      first
      | exact ⟨rfl, rfl, rfl⟩
      | exact absurd hout hne

theorem signal_process_average (lm : Libm α) (w : Nat → α) (g : SystemState α)
    (hs : g.state = ProcessState.SIGNAL_PROCESS)
    (hout : (signal_process lm w g).state = ProcessState.CAL_MU) (k : Nat)
    (hk : k < FFT_HALF_LENGTH) :
    (signal_process lm w g).pp_average k
        = complex_scale ((signal_process lm w g).fft_accum.pp_accum k)
            (1 / (((signal_process lm w g).fft_accum.accum_count : Int) : α)) ∧
      (signal_process lm w g).ff_avg.bins k
        = complex_scale ((signal_process lm w g).fft_accum.ff_accum.bins k)
            (1 / (((signal_process lm w g).fft_accum.accum_count : Int) : α)) := by
  have hne : g.state ≠ ProcessState.CAL_MU := by rw [hs]; decide
  obtain ⟨g2, _, _, h3⟩ := signal_process_shape lm w g
  obtain ⟨e1, e2, e3⟩ := h3 hout hne
  rw [e1, e2, e3]
  exact average_fft_results_bins g2 k hk

theorem first_window_second_average :
    ∀ b : Bool, (ctrl_run (fun _ => b) ctrl_init 63).state = ProcessState.SIGNAL_PROCESS ∧
      (ctrl_run (fun _ => b) ctrl_init 64).state = ProcessState.CAL_MU ∧
      (ctrl_run (fun _ => b) ctrl_init 64).accum_count = 20 := by
  decide

/-- C11: the first 325 ms window of the frame loop, evaluated on the code.  From the
state left by `system_init`, for every math library, window, input frames and frame
lengths: the tenth FFT falls in call 32 (the machine is then in `CAL_MU`); the machine
is back in `SIGNAL_PROCESS` with `fft_count = 0` after call `m`, where `m` is 36 or 39
(the gate rejects or accepts in call 36), and at no other call from 4 to 65; after the
65 calls of the window it is in `CAL_FF_RESPONSE`, not in `SIGNAL_PROCESS`. -/
theorem first_window_schedule (lm : Libm α) (w : Nat → α) (ff fb spk : Nat → Nat → α)
    (len : Nat → Int) :
    (run_frames lm w ff fb spk len (system_init lm) 32).state = ProcessState.CAL_MU ∧
      (run_frames lm w ff fb spk len (system_init lm) 32).fft_count = 10 ∧
      (run_frames lm w ff fb spk len (system_init lm) 65).state
        = ProcessState.CAL_FF_RESPONSE ∧
      ∃ m, (m = 36 ∨ m = 39) ∧ ∀ n, n ≤ 65 →
        ((run_frames lm w ff fb spk len (system_init lm) n).state
              = ProcessState.SIGNAL_PROCESS ∧
            (run_frames lm w ff fb spk len (system_init lm) n).fft_count = 0
          ↔ n < 4 ∨ n = m) := by
  obtain ⟨b, hb⟩ := run_frames_first_window lm w ff fb spk len
  have hst : ∀ n, (run_frames lm w ff fb spk len (system_init lm) n).state
      = (ctrl_of (run_frames lm w ff fb spk len (system_init lm) n)).state := fun _ => rfl
  have hfc : ∀ n, (run_frames lm w ff fb spk len (system_init lm) n).fft_count
      = (ctrl_of (run_frames lm w ff fb spk len (system_init lm) n)).fft_count := fun _ => rfl
  cases b with
  | true =>
    obtain ⟨t1, _, _, t4, t5, _⟩ := first_window_pass
    refine ⟨?_, ?_, ?_, 39, Or.inr rfl, ?_⟩
    · rw [hst, hb 32 (by decide), t1]
    · rw [hfc, hb 32 (by decide), t1]
    · rw [hst, hb 65 (by decide), t4]
    · intro n hn
      rw [hst, hfc, hb n hn]
      exact t5 n hn
  | false =>
    obtain ⟨t1, _, _, t4, t5, _⟩ := first_window_fail
    refine ⟨?_, ?_, ?_, 36, Or.inl rfl, ?_⟩
    · rw [hst, hb 32 (by decide), t1]
    · rw [hfc, hb 32 (by decide), t1]
    · rw [hst, hb 65 (by decide), t4]
    · intro n hn
      rw [hst, hfc, hb n hn]
      exact t5 n hn

/-- C17: the accumulator count in the first window, evaluated on the code.  From the
state left by `system_init`, for every math library, window and input: the second call
of `average_fft_results` falls in call 64 of `process_audio_frame`, with
`fft_accum.accum_count = 20`, and divides every accumulator bin by 20, not by
`NUM_FFT_AVERAGE = 10`. -/
theorem accum_count_second_pass (lm : Libm α) (w : Nat → α) (ff fb spk : Nat → Nat → α)
    (len : Nat → Int) :
    (run_frames lm w ff fb spk len (system_init lm) 63).state = ProcessState.SIGNAL_PROCESS ∧
      (run_frames lm w ff fb spk len (system_init lm) 64).state = ProcessState.CAL_MU ∧
      (run_frames lm w ff fb spk len (system_init lm) 64).fft_accum.accum_count = 20 ∧
      ∀ k, k < FFT_HALF_LENGTH →
        (run_frames lm w ff fb spk len (system_init lm) 64).pp_average k
            = complex_scale
                ((run_frames lm w ff fb spk len (system_init lm) 64).fft_accum.pp_accum k)
                (1 / 20) ∧
          (run_frames lm w ff fb spk len (system_init lm) 64).ff_avg.bins k
            = complex_scale
                ((run_frames lm w ff fb spk len (system_init lm) 64).fft_accum.ff_accum.bins k)
                (1 / 20) := by
  obtain ⟨b, hb⟩ := run_frames_first_window lm w ff fb spk len
  obtain ⟨c1, c2, c3⟩ := first_window_second_average b
  have h63 : (run_frames lm w ff fb spk len (system_init lm) 63).state
      = ProcessState.SIGNAL_PROCESS := by
    show (ctrl_of (run_frames lm w ff fb spk len (system_init lm) 63)).state = _
    rw [hb 63 (by decide)]; exact c1
  have h64 : (run_frames lm w ff fb spk len (system_init lm) 64).state
      = ProcessState.CAL_MU := by
    show (ctrl_of (run_frames lm w ff fb spk len (system_init lm) 64)).state = _
    rw [hb 64 (by decide)]; exact c2
  have ha : (run_frames lm w ff fb spk len (system_init lm) 64).fft_accum.accum_count = 20 := by
    show (ctrl_of (run_frames lm w ff fb spk len (system_init lm) 64)).accum_count = _
    rw [hb 64 (by decide)]; exact c3
  refine ⟨h63, h64, ha, ?_⟩
  intro k hk
  have e : run_frames lm w ff fb spk len (system_init lm) 64
      = signal_process lm w (buffer_frame (run_frames lm w ff fb spk len (system_init lm) 63)
          (ff 63) (fb 63) (spk 63) (len 63)) :=
    process_audio_frame_signal_process lm w _ _ _ _ _ h63
  have hav := signal_process_average lm w
    (buffer_frame (run_frames lm w ff fb spk len (system_init lm) 63)
      (ff 63) (fb 63) (spk 63) (len 63))
    (by rw [buffer_frame_state]; exact h63) (by rw [← e]; exact h64) k hk
  rw [← e, ha] at hav
  simpa using hav

/-! ### The rate of the installed coefficients -/

theorem coeffs_at_realtime_of_filter_part (lm : Libm α) (s t : SystemState α)
    (h : filter_part t = filter_part s) (hs : coeffs_at_realtime lm s) :
    coeffs_at_realtime lm t := by
  unfold filter_part at h
  unfold coeffs_at_realtime at hs ⊢
  intro i hi
  have h1 : t.ff_filter.coeffs = s.ff_filter.coeffs := congrArg Prod.fst h
  have h2 : t.eq_update.params = s.eq_update.params := congrArg Prod.snd h
  rw [h1, h2]
  exact hs i hi

theorem filter_part_calculate_ff_response (lm : Libm α) (s : SystemState α) :
    filter_part (calculate_ff_response lm s) = filter_part s := by
  cases s; rfl

theorem filter_part_set_current_loss (s : SystemState α) (v : α) :
    filter_part (set_current_loss s v) = filter_part s := by
  cases s; rfl

theorem filter_part_set_init_loss (s : SystemState α) (v : α) :
    filter_part (set_init_loss s v) = filter_part s := by
  cases s; rfl

theorem filter_part_set_update_accepted (s : SystemState α) (v : Int) :
    filter_part (set_update_accepted s v) = filter_part s := by
  cases s; rfl

theorem filter_part_set_total_gain_dB (s : SystemState α) (v : α) :
    filter_part (set_total_gain_dB s v) = filter_part s := by
  cases s; rfl

theorem filter_part_set_total_gain (s : SystemState α) (v : α) :
    filter_part (set_total_gain s v) = filter_part s := by
  cases s; rfl

theorem filter_part_buffer_frame (g : SystemState α) (ff_in fb_in spk_in : Nat → α) (n : Int) :
    filter_part (buffer_frame g ff_in fb_in spk_in n) = filter_part g := rfl

theorem filter_part_calculate_mu (lm : Libm α) (s : SystemState α) :
    filter_part (calculate_mu lm s) = filter_part s := rfl

theorem filter_part_calculate_target_ff (lm : Libm α) (s : SystemState α) :
    filter_part (calculate_target_ff lm s) = filter_part s := rfl

theorem filter_part_signal_process (lm : Libm α) (w : Nat → α) (s : SystemState α) :
    filter_part (signal_process lm w s) = filter_part s := by
  simp only [signal_process]
  split_ifs <;> rfl

theorem filter_part_stable_check (lm : Libm α) (s : SystemState α) :
    filter_part (stable_check lm s) = filter_part s := by
  unfold stable_check
  rw [check_target_stability_eq]
  split_ifs <;> simp_all [filter_part, set_prev_smoothness]

theorem filter_part_eq_entry (lm : Libm α) (s : SystemState α) :
    filter_part (eq_entry lm s) = filter_part s := by
  unfold eq_entry
  rw [filter_part_set_current_loss, filter_part_calculate_ff_response]

theorem filter_part_install_total_gain (lm : Libm α) (s : SystemState α) (g : α) :
    filter_part (install_total_gain lm s g) = filter_part s := by
  unfold install_total_gain
  rw [filter_part_calculate_ff_response, filter_part_set_total_gain,
    filter_part_set_total_gain_dB]

theorem filter_part_total_gain_step (lm : Libm α) (s : SystemState α) :
    filter_part (total_gain_step lm s) = filter_part s := by
  unfold total_gain_step
  split_ifs
  · rw [filter_part_set_current_loss, filter_part_install_total_gain]
  · rw [filter_part_install_total_gain]

theorem filter_part_final_verdict (s : SystemState α) :
    filter_part (final_verdict s) = filter_part s := by
  unfold final_verdict
  split_ifs <;> rw [filter_part_set_update_accepted]

theorem filter_part_calculate_ff_init_loss (lm : Libm α) (s : SystemState α) :
    filter_part (calculate_ff_init_loss lm s) = filter_part s := by
  unfold calculate_ff_init_loss
  simp only [filter_part_set_current_loss, filter_part_set_init_loss,
    filter_part_calculate_ff_response]

theorem coeffs_at_realtime_install_value (lm : Libm α) (s : SystemState α) (b p : Nat) (v : α)
    (hs : coeffs_at_realtime lm s) : coeffs_at_realtime lm (install_value lm s b p v) := by
  intro i hi
  rw [install_value_coeffs, install_value_eq_update]
  by_cases hib : i = b
  · subst hib
    simp only [Function.update_same]
  · simp only [Function.update_noteq hib]
    exact hs i hi

theorem coeffs_at_realtime_update_single_param (lm : Libm α) (s : SystemState α) (b p : Nat)
    (hs : coeffs_at_realtime lm s) : coeffs_at_realtime lm (update_single_param lm s b p).1 := by
  cases h : param_setup (s.eq_update.params b) p with
  | none => rw [update_single_param_none lm s b p h]; exact hs
  | some su =>
    rw [update_single_param_eq lm s b p su h]
    split_ifs
    · exact coeffs_at_realtime_of_filter_part lm _ _ (filter_part_set_current_loss _ _)
        (coeffs_at_realtime_install_value lm s b p _ hs)
    · exact coeffs_at_realtime_install_value lm s b p _ hs

theorem coeffs_at_realtime_biquad_sweep (lm : Libm α) (s : SystemState α)
    (hs : coeffs_at_realtime lm s) : coeffs_at_realtime lm (biquad_sweep lm s) := by
  unfold biquad_sweep
  apply forLoop_invariant (fun t => coeffs_at_realtime lm t)
  · exact hs
  · intro i t _ ht
    exact coeffs_at_realtime_update_single_param lm _ i 2
      (coeffs_at_realtime_update_single_param lm _ i 1
        (coeffs_at_realtime_update_single_param lm t i 0 ht))

theorem coeffs_at_realtime_update_eq_params (lm : Libm α) (s : SystemState α)
    (hs : coeffs_at_realtime lm s) : coeffs_at_realtime lm (update_eq_params lm s) := by
  have he : coeffs_at_realtime lm (eq_entry lm s) :=
    coeffs_at_realtime_of_filter_part lm _ _ (filter_part_eq_entry lm s) hs
  rw [update_eq_params_eq]
  split_ifs
  · exact coeffs_at_realtime_of_filter_part lm _ _ (filter_part_set_update_accepted _ _) he
  · exact coeffs_at_realtime_of_filter_part lm _ _
      ((filter_part_final_verdict _).trans (filter_part_total_gain_step lm _))
      (coeffs_at_realtime_biquad_sweep lm _ he)

theorem update_filter_coeffs_loop (lm : Libm α) (s : SystemState α) (n : Nat) :
    (forLoop n (fun i state => rebuild_coeffs lm state i) s).eq_update = s.eq_update ∧
      ∀ i, (forLoop n (fun i state => rebuild_coeffs lm state i) s).ff_filter.coeffs i
        = if i < n then eq_to_biquad_coeffs lm (s.eq_update.params i) (REALTIME_SAMPLE_RATE : α)
          else s.ff_filter.coeffs i := by
  induction n with
  | zero => rw [forLoop_zero]; simp
  | succ n ih =>
    obtain ⟨h1, h2⟩ := ih
    rw [forLoop_succ, rebuild_coeffs_eq_update, rebuild_coeffs_coeffs, h1]
    refine ⟨rfl, ?_⟩
    intro i
    by_cases hin : i = n
    · subst hin
      simp
    · rw [Function.update_noteq hin, h2 i]
      by_cases hlt : i < n
      · rw [if_pos hlt, if_pos (by omega)]
      · rw [if_neg hlt, if_neg (by omega)]

theorem coeffs_at_realtime_update_filter_coeffs (lm : Libm α) (s : SystemState α) :
    coeffs_at_realtime lm (update_filter_coeffs lm s) := by
  unfold update_filter_coeffs
  apply coeffs_at_realtime_of_filter_part lm _ _ (filter_part_set_total_gain _ _)
  intro i hi
  obtain ⟨h1, h2⟩ := update_filter_coeffs_loop lm s NUM_BIQUADS
  rw [h1, h2 i, if_pos hi]

theorem coeffs_at_realtime_system_init (lm : Libm α) : coeffs_at_realtime lm (system_init lm) := by
  intro i hi
  rw [system_init_coeffs, system_init_params]
  simp only [hi, if_true]

/-- The switch of `process_audio_frame` on the state on entry, applied to the state
with the frame buffered. -/
theorem process_audio_frame_eq (lm : Libm α) (w : Nat → α) (g : SystemState α)
    (ff_in fb_in spk_in : Nat → α) (n : Int) :
    process_audio_frame lm w g ff_in fb_in spk_in n
      = (match g.state with
        | ProcessState.SIGNAL_PROCESS =>
          signal_process lm w (buffer_frame g ff_in fb_in spk_in n)
        | ProcessState.CAL_MU =>
          { calculate_mu lm (buffer_frame g ff_in fb_in spk_in n) with
            state := ProcessState.CAL_FF_RESPONSE }
        | ProcessState.CAL_FF_RESPONSE =>
          { calculate_ff_response lm (buffer_frame g ff_in fb_in spk_in n) with
            state := ProcessState.CAL_TARGET_FF }
        | ProcessState.CAL_TARGET_FF =>
          { calculate_target_ff lm (buffer_frame g ff_in fb_in spk_in n) with
            state := ProcessState.STABLE_CHECK }
        | ProcessState.STABLE_CHECK => stable_check lm (buffer_frame g ff_in fb_in spk_in n)
        | ProcessState.CAL_FF_INIT_LOSS =>
          { calculate_ff_init_loss lm (buffer_frame g ff_in fb_in spk_in n) with
            state := ProcessState.UPDATE_EQ_PARAMS }
        | ProcessState.UPDATE_EQ_PARAMS =>
          { update_eq_params lm (buffer_frame g ff_in fb_in spk_in n) with
            state := ProcessState.UPDATE_FILTER_COEFFS }
        | ProcessState.UPDATE_FILTER_COEFFS =>
          { update_filter_coeffs lm (buffer_frame g ff_in fb_in spk_in n) with
            state := ProcessState.SIGNAL_PROCESS, frame_count := 0, fft_count := 0 }) := by
  cases hs : g.state <;>
    (unfold process_audio_frame; simp only [buffer_frame_state, hs])

theorem filter_part_with_state (x : SystemState α) (st : ProcessState) :
    filter_part { x with state := st } = filter_part x := rfl

theorem filter_part_with_restart (x : SystemState α) :
    filter_part { x with state := ProcessState.SIGNAL_PROCESS, frame_count := 0, fft_count := 0 }
      = filter_part x := rfl

theorem coeffs_at_realtime_process_audio_frame (lm : Libm α) (w : Nat → α) (g : SystemState α)
    (ff_in fb_in spk_in : Nat → α) (n : Int) (hg : coeffs_at_realtime lm g) :
    coeffs_at_realtime lm (process_audio_frame lm w g ff_in fb_in spk_in n) := by
  have hb : coeffs_at_realtime lm (buffer_frame g ff_in fb_in spk_in n) :=
    coeffs_at_realtime_of_filter_part lm _ _ (filter_part_buffer_frame g _ _ _ n) hg
  rw [process_audio_frame_eq]
  generalize buffer_frame g ff_in fb_in spk_in n = g1 at hb ⊢
  cases g.state
  · exact coeffs_at_realtime_of_filter_part lm _ _ (filter_part_signal_process lm w _) hb
  · exact coeffs_at_realtime_of_filter_part lm _ _
      ((filter_part_with_state _ _).trans (filter_part_calculate_mu lm _)) hb
  · exact coeffs_at_realtime_of_filter_part lm _ _
      ((filter_part_with_state _ _).trans (filter_part_calculate_ff_response lm _)) hb
  · exact coeffs_at_realtime_of_filter_part lm _ _
      ((filter_part_with_state _ _).trans (filter_part_calculate_target_ff lm _)) hb
  · exact coeffs_at_realtime_of_filter_part lm _ _ (filter_part_stable_check lm _) hb
  · exact coeffs_at_realtime_of_filter_part lm _ _
      ((filter_part_with_state _ _).trans (filter_part_calculate_ff_init_loss lm _)) hb
  · exact coeffs_at_realtime_of_filter_part lm _ _ (filter_part_with_state _ _)
      (coeffs_at_realtime_update_eq_params lm _ hb)
  · exact coeffs_at_realtime_of_filter_part lm _ _ (filter_part_with_restart _)
      (coeffs_at_realtime_update_filter_coeffs lm _)

theorem coeffs_at_realtime_run_frames (lm : Libm α) (w : Nat → α) (ff fb spk : Nat → Nat → α)
    (len : Nat → Int) (n : Nat) :
    coeffs_at_realtime lm (run_frames lm w ff fb spk len (system_init lm) n) := by
  induction n with
  | zero => exact coeffs_at_realtime_system_init lm
  | succ n ih => exact coeffs_at_realtime_process_audio_frame lm w _ _ _ _ _ ih

theorem ff_response_bin_congr (lm : Libm α) (f1 f2 : FeedforwardFilter α) (k : Nat)
    (hc : ∀ i, i < NUM_BIQUADS → f1.coeffs i = f2.coeffs i)
    (hg : f1.total_gain = f2.total_gain) :
    ff_response_bin lm f1 k = ff_response_bin lm f2 k := by
  unfold ff_response_bin
  simp only [hg]
  congr 1
  apply forLoop_congr
  intro i hi H
  simp only [hc i hi]

theorem system_init_total_gain (lm : Libm α) :
    (system_init lm).ff_filter.total_gain = lm.powf 10 (0 / 20) := by
  unfold system_init
  rfl

theorem anti_alias_decimate_zero (input : Nat → α) (input_len : Int) (output_len : Nat)
    (h : ∀ j, input j = 0) (i : Nat) :
    anti_alias_decimate input input_len (fun _ => 0) output_len i = 0 := by
  unfold anti_alias_decimate
  have key := forLoop_invariant (fun out : Nat → α => ∀ i, out i = 0) output_len
    (fun i (output : Nat → α) =>
      if decimate_src_idx input_len output_len i < input_len then
        Function.update output i (input (decimate_src_idx input_len output_len i).toNat)
      else output)
    (fun _ => 0) (fun _ => rfl)
    (fun i t _ ht => by
      intro k
      show (if _ then _ else _ : Nat → α) k = 0
      split_ifs
      · by_cases hk : k = i
        · rw [hk, Function.update_same, h]
        · rw [Function.update_noteq hk, ht]
      · exact ht k)
  exact key i

theorem push_sample_recent_zero (buf : TimeBuffer α) (c : Nat)
    (h : ring_recent_zero buf c) : ring_recent_zero (push_sample buf 0) (c + 1) := by
  obtain ⟨hw, hz⟩ := h
  unfold ring_recent_zero push_sample at *
  unfold FFT_LENGTH at *
  refine ⟨Nat.mod_lt _ (by decide), ?_⟩
  intro j hj hj2
  show Function.update buf.data buf.write_index 0
    (((buf.write_index + 1) % 2048 + 2048 - 1 - j) % 2048) = 0
  by_cases h0 : j = 0
  · have e : ((buf.write_index + 1) % 2048 + 2048 - 1 - j) % 2048 = buf.write_index := by
      omega
    rw [e, Function.update_same]
  · have e : ((buf.write_index + 1) % 2048 + 2048 - 1 - j) % 2048
        = (buf.write_index + 2048 - 1 - (j - 1)) % 2048 := by omega
    have ne : (buf.write_index + 2048 - 1 - (j - 1)) % 2048 ≠ buf.write_index := by omega
    rw [e, Function.update_noteq ne]
    exact hz (j - 1) (by omega) (by omega)

theorem push_sample_recent_any (buf : TimeBuffer α) (x : α) :
    ring_recent_zero (push_sample buf x) 0 := by
  unfold ring_recent_zero push_sample FFT_LENGTH
  exact ⟨Nat.mod_lt _ (by decide), fun j hj _ => absurd hj (Nat.not_lt_zero j)⟩

theorem ring_recent_zero_mono (buf : TimeBuffer α) (c d : Nat) (hdc : d ≤ c)
    (h : ring_recent_zero buf c) : ring_recent_zero buf d :=
  ⟨h.1, fun j hj hj2 => h.2 j (by omega) hj2⟩

theorem ring_all_zero (buf : TimeBuffer α) (c : Nat) (hc : FFT_LENGTH ≤ c)
    (h : ring_recent_zero buf c) (i : Nat) (hi : i < FFT_LENGTH) : buf.data i = 0 := by
  obtain ⟨hw, hz⟩ := h
  unfold FFT_LENGTH at *
  have := hz ((buf.write_index + 2048 - 1 - i) % 2048) (by omega) (by omega)
  have e : (buf.write_index + 2048 - 1 - (buf.write_index + 2048 - 1 - i) % 2048) % 2048 = i := by
    omega
  rw [e] at this
  exact this

theorem push_loop_recent_zero (d1 d2 d3 : Nat → α) (b : TimeBuffer α × TimeBuffer α × TimeBuffer α)
    (c : Nat) (hd : ∀ i, d1 i = 0) (h : ring_recent_zero b.1 c) (n : Nat) :
    ring_recent_zero
      (forLoop n (fun i (b : TimeBuffer α × TimeBuffer α × TimeBuffer α) =>
        (push_sample b.1 (d1 i), push_sample b.2.1 (d2 i), push_sample b.2.2 (d3 i))) b).1
      (c + n) := by
  induction n with
  | zero => rw [forLoop_zero]; exact h
  | succ n ih =>
    rw [forLoop_succ]
    show ring_recent_zero (push_sample _ (d1 n)) (c + n + 1)
    rw [hd n]
    exact push_sample_recent_zero _ _ ih

theorem push_loop_recent_any (d1 d2 d3 : Nat → α) (b : TimeBuffer α × TimeBuffer α × TimeBuffer α)
    (n : Nat) :
    ring_recent_zero
      (forLoop (n + 1) (fun i (b : TimeBuffer α × TimeBuffer α × TimeBuffer α) =>
        (push_sample b.1 (d1 i), push_sample b.2.1 (d2 i), push_sample b.2.2 (d3 i))) b).1
      0 := by
  rw [forLoop_succ]
  exact push_sample_recent_any _ _

theorem buffer_frame_silent (g : SystemState α) (ff_in fb_in spk_in : Nat → α) (n : Int)
    (c : Nat) (hsil : ∀ j, ff_in j = 0) (h : ring_recent_zero g.ff_buffer c) :
    ring_recent_zero (buffer_frame g ff_in fb_in spk_in n).ff_buffer (c + 160) := by
  unfold buffer_frame
  simp only [SAMPLES_PER_INTERVAL_eq]
  exact push_loop_recent_zero _ _ _ _ c (anti_alias_decimate_zero ff_in n 160 hsil) h 160

theorem buffer_frame_any (g : SystemState α) (ff_in fb_in spk_in : Nat → α) (n : Int) :
    ring_recent_zero (buffer_frame g ff_in fb_in spk_in n).ff_buffer 0 := by
  unfold buffer_frame
  simp only [SAMPLES_PER_INTERVAL_eq]
  exact push_loop_recent_any _ _ _ _ 159

theorem analysis_part_same_analysis (s t : SystemState α) (h : same_analysis s t) :
    analysis_part t = analysis_part s := by
  unfold same_analysis at h
  rw [h]
  rfl

theorem analysis_part_with_state (x : SystemState α) (st : ProcessState) :
    analysis_part { x with state := st } = analysis_part x := rfl

theorem analysis_part_with_restart (x : SystemState α) :
    analysis_part
        { x with state := ProcessState.SIGNAL_PROCESS, frame_count := 0, fft_count := 0 }
      = analysis_part x := rfl

theorem analysis_part_calculate_mu (lm : Libm α) (s : SystemState α) :
    analysis_part (calculate_mu lm s) = analysis_part s := rfl

theorem analysis_part_calculate_target_ff (lm : Libm α) (s : SystemState α) :
    analysis_part (calculate_target_ff lm s) = analysis_part s := rfl

theorem analysis_part_stable_check (lm : Libm α) (s : SystemState α) :
    analysis_part (stable_check lm s) = analysis_part s := by
  unfold stable_check
  rw [check_target_stability_eq]
  split_ifs <;> simp_all [analysis_part, set_prev_smoothness]

theorem process_audio_frame_analysis (lm : Libm α) (w : Nat → α) (g : SystemState α)
    (ff_in fb_in spk_in : Nat → α) (n : Int) (hs : g.state ≠ ProcessState.SIGNAL_PROCESS) :
    analysis_part (process_audio_frame lm w g ff_in fb_in spk_in n)
      = analysis_part (buffer_frame g ff_in fb_in spk_in n) := by
  rw [process_audio_frame_eq]
  generalize buffer_frame g ff_in fb_in spk_in n = g1
  cases hst : g.state
  · exact absurd hst hs
  · exact (analysis_part_with_state _ _).trans (analysis_part_calculate_mu lm _)
  · exact (analysis_part_with_state _ _).trans
      (analysis_part_same_analysis _ _ (same_analysis_calculate_ff_response lm _))
  · exact (analysis_part_with_state _ _).trans (analysis_part_calculate_target_ff lm _)
  · exact analysis_part_stable_check lm _
  · exact (analysis_part_with_state _ _).trans
      (analysis_part_same_analysis _ _ (same_analysis_calculate_ff_init_loss lm _))
  · exact (analysis_part_with_state _ _).trans
      (analysis_part_same_analysis _ _ (same_analysis_update_eq_params lm _))
  · exact (analysis_part_with_restart _).trans
      (analysis_part_same_analysis _ _ (same_analysis_update_filter_coeffs lm _))

theorem signal_process_ring (lm : Libm α) (w : Nat → α) (g : SystemState α) :
    (signal_process lm w g).ff_buffer.data = g.ff_buffer.data ∧
      (signal_process lm w g).ff_buffer.write_index = g.ff_buffer.write_index := by
  simp only [signal_process]
  split_ifs <;> exact ⟨rfl, rfl⟩

theorem ring_recent_zero_congr (b1 b2 : TimeBuffer α) (c : Nat) (hd : b2.data = b1.data)
    (hw : b2.write_index = b1.write_index) (h : ring_recent_zero b1 c) :
    ring_recent_zero b2 c := by
  unfold ring_recent_zero at *
  rw [hd, hw]
  exact h

theorem process_audio_frame_ring (lm : Libm α) (w : Nat → α) (g : SystemState α)
    (ff_in fb_in spk_in : Nat → α) (n : Int) (c : Nat)
    (h : ring_recent_zero (buffer_frame g ff_in fb_in spk_in n).ff_buffer c) :
    ring_recent_zero (process_audio_frame lm w g ff_in fb_in spk_in n).ff_buffer c := by
  by_cases hs : g.state = ProcessState.SIGNAL_PROCESS
  · rw [process_audio_frame_signal_process lm w g ff_in fb_in spk_in n hs]
    obtain ⟨h1, h2⟩ := signal_process_ring lm w (buffer_frame g ff_in fb_in spk_in n)
    exact ring_recent_zero_congr _ _ c h1 h2 h
  · have e := process_audio_frame_analysis lm w g ff_in fb_in spk_in n hs
    unfold analysis_part at e
    have h1 := congrArg Prod.fst e
    have h2 := congrArg (fun p => p.2.1) e
    exact ring_recent_zero_congr _ _ c h1 h2 h

theorem apply_window_zero (w buffer : Nat → α) (length : Nat)
    (h : ∀ i, i < length → buffer i = 0) (i : Nat) :
    apply_window w buffer (fun _ => 0) length i = 0 := by
  unfold apply_window
  rw [forLoop_update_apply]
  split_ifs with hi
  · rw [h i hi, zero_mul]
  · rfl

theorem perform_fft_zero (lm : Libm α) (input : Nat → α) (length : Nat)
    (h : ∀ n, n < length → input n = 0) (k : Nat) :
    perform_fft lm input (fun _ => ⟨0, 0⟩) length k = ⟨0, 0⟩ := by
  unfold perform_fft
  rw [forLoop_update_apply]
  split_ifs
  · apply forLoop_invariant (fun acc : Complex α => acc = ⟨0, 0⟩)
    · rfl
    · intro n acc hn hacc
      rw [hacc, h n hn]
      simp
  · rfl

theorem accumulate_fft_results_zero (fft : Nat → Complex α) (accum : FreqResponse α)
    (h : ∀ k, fft k = ⟨0, 0⟩) :
    (accumulate_fft_results fft accum).bins = accum.bins := by
  unfold accumulate_fft_results
  apply forLoop_invariant (fun bins : Nat → Complex α => bins = accum.bins)
  · rfl
  · intro i bins _ hb
    rw [hb, h i]
    funext k
    by_cases hk : k = i
    · rw [hk, Function.update_same]
      simp
    · rw [Function.update_noteq hk]

theorem fft_pass_silent (lm : Libm α) (w : Nat → α) (g : SystemState α)
    (hz : ∀ i, i < FFT_LENGTH → g.ff_buffer.data i = 0) :
    (fft_pass lm w g).fft_accum.pp_accum = g.fft_accum.pp_accum ∧
      (fft_pass lm w g).fft_accum.ff_accum.bins = g.fft_accum.ff_accum.bins ∧
      (fft_pass lm w g).ff_avg = g.ff_avg ∧ (fft_pass lm w g).pp_average = g.pp_average := by
  have hfft : ∀ k, perform_fft lm (apply_window w g.ff_buffer.data (fun _ => 0) FFT_LENGTH)
      (fun _ => ⟨0, 0⟩) FFT_LENGTH k = ⟨0, 0⟩ :=
    perform_fft_zero lm _ _ (fun n _ => apply_window_zero w _ _ hz n)
  refine ⟨?_, ?_, rfl, rfl⟩
  · show forLoop FFT_HALF_LENGTH _ g.fft_accum.pp_accum = _
    apply forLoop_invariant (fun pp : Nat → Complex α => pp = g.fft_accum.pp_accum)
    · rfl
    · intro i pp _ hpp
      rw [hpp]
      funext k
      by_cases hk : k = i
      · rw [hk, Function.update_same]
        simp only [hfft i, complex_div]
        simp
      · rw [Function.update_noteq hk]
  · exact accumulate_fft_results_zero _ _ hfft

theorem signal_process_silent (lm : Libm α) (w : Nat → α) (g : SystemState α)
    (hz : ∀ i, i < FFT_LENGTH → g.ff_buffer.data i = 0) :
    ((signal_process lm w g).fft_accum.pp_accum = g.fft_accum.pp_accum ∧
        (signal_process lm w g).fft_accum.ff_accum.bins = g.fft_accum.ff_accum.bins) ∨
      ((g.frame_count = 0 ∧ g.ff_buffer.sample_count ≥ (FFT_LENGTH : Int)) ∧
        (signal_process lm w g).fft_accum.pp_accum = (fun _ => ⟨0, 0⟩) ∧
        (signal_process lm w g).fft_accum.ff_accum.bins = (fun _ => ⟨0, 0⟩)) := by
  have hr := fft_pass_silent lm w
    ({ g with fft_count := 0, fft_accum := zero_accum } : SystemState α) hz
  have hn := fft_pass_silent lm w g hz
  simp only [signal_process]
  split_ifs with h1 h2 h3 h3 h2 h3 h3
  · exact Or.inr ⟨h1, hr.1, hr.2.1⟩
  · exact Or.inr ⟨h1, hr.1, hr.2.1⟩
  · exact Or.inr ⟨h1, rfl, rfl⟩
  · exact Or.inr ⟨h1, rfl, rfl⟩
  · exact Or.inl ⟨hn.1, hn.2.1⟩
  · exact Or.inl ⟨hn.1, hn.2.1⟩
  · exact Or.inl ⟨rfl, rfl⟩
  · exact Or.inl ⟨rfl, rfl⟩

theorem complex_scale_zero (s : α) : complex_scale (⟨0, 0⟩ : Complex α) s = ⟨0, 0⟩ := by
  simp [complex_scale]

theorem average_fft_results_zero (g : SystemState α)
    (hp : ∀ k, g.fft_accum.pp_accum k = ⟨0, 0⟩) (hf : ∀ k, g.fft_accum.ff_accum.bins k = ⟨0, 0⟩)
    (hpa : ∀ k, g.pp_average k = ⟨0, 0⟩) (hfa : ∀ k, g.ff_avg.bins k = ⟨0, 0⟩) :
    (∀ k, (average_fft_results g).pp_average k = ⟨0, 0⟩) ∧
      ∀ k, (average_fft_results g).ff_avg.bins k = ⟨0, 0⟩ := by
  unfold average_fft_results
  simp only [forLoop_update_apply]
  constructor
  · intro k
    split_ifs
    · rw [hp k, complex_scale_zero]
    · exact hpa k
  · intro k
    split_ifs
    · rw [hf k, complex_scale_zero]
    · exact hfa k

theorem average_fft_results_apply (g : SystemState α) (k : Nat) :
    (average_fft_results g).pp_average k
        = (if k < FFT_HALF_LENGTH then
            complex_scale (g.fft_accum.pp_accum k) (1 / ((g.fft_accum.accum_count : Int) : α))
          else g.pp_average k) ∧
      (average_fft_results g).ff_avg.bins k
        = (if k < FFT_HALF_LENGTH then
            complex_scale (g.fft_accum.ff_accum.bins k)
              (1 / ((g.fft_accum.accum_count : Int) : α))
          else g.ff_avg.bins k) := by
  unfold average_fft_results
  simp only [forLoop_update_apply]
  exact ⟨trivial, trivial⟩

theorem signal_process_averages (lm : Libm α) (w : Nat → α) (g : SystemState α) (k : Nat) :
    ((signal_process lm w g).pp_average k = g.pp_average k ∨
        (signal_process lm w g).pp_average k
          = complex_scale ((signal_process lm w g).fft_accum.pp_accum k)
              (1 / (((signal_process lm w g).fft_accum.accum_count : Int) : α))) ∧
      ((signal_process lm w g).ff_avg.bins k = g.ff_avg.bins k ∨
        (signal_process lm w g).ff_avg.bins k
          = complex_scale ((signal_process lm w g).fft_accum.ff_accum.bins k)
              (1 / (((signal_process lm w g).fft_accum.accum_count : Int) : α))) := by
  simp only [signal_process]
  split_ifs <;>
    first
    | exact ⟨Or.inl rfl, Or.inl rfl⟩
    | (rw [(average_fft_results_apply _ k).1, (average_fft_results_apply _ k).2]
       by_cases hk : k < FFT_HALF_LENGTH
       · rw [if_pos hk, if_pos hk]
         exact ⟨Or.inr rfl, Or.inr rfl⟩
       · rw [if_neg hk, if_neg hk]
         exact ⟨Or.inl rfl, Or.inl rfl⟩)

theorem first_window_no_reset :
    ∀ b : Bool, ∀ n, n < 65 →
      ¬ ((ctrl_run (fun _ => b) ctrl_init n).state = ProcessState.SIGNAL_PROCESS ∧
        (ctrl_run (fun _ => b) ctrl_init n).frame_count = 0 ∧
        (ctrl_run (fun _ => b) ctrl_init n).sample_count + 160 ≥ 2048) := by
  decide

theorem first_window_second_pass_start :
    ∀ b : Bool, ∀ n, 32 ≤ n → n < 64 →
      (ctrl_run (fun _ => b) ctrl_init n).state = ProcessState.SIGNAL_PROCESS → 36 ≤ n := by
  decide

theorem first_window_first_average :
    ∀ b : Bool, (ctrl_run (fun _ => b) ctrl_init 31).state = ProcessState.SIGNAL_PROCESS ∧
      (ctrl_run (fun _ => b) ctrl_init 32).state = ProcessState.CAL_MU ∧
      (ctrl_run (fun _ => b) ctrl_init 32).accum_count = 10 ∧
      (ctrl_run (fun _ => b) ctrl_init 33).state = ProcessState.CAL_FF_RESPONSE ∧
      (ctrl_run (fun _ => b) ctrl_init 34).state = ProcessState.CAL_TARGET_FF := by
  decide

theorem system_init_analysis (lm : Libm α) :
    analysis_part (system_init lm) = analysis_part (zero_state : SystemState α) := by
  unfold system_init
  simp only [Int.toNat_zero]
  have h := forLoop_invariant
    (fun t : SystemState α => analysis_part t = analysis_part (zero_state : SystemState α))
    NUM_BIQUADS
    (fun i (g : SystemState α) =>
      rebuild_coeffs lm (set_param_record g i (eq_presets_biquads 0 i)) i)
    { ({ (zero_state : SystemState α) with
          state := ProcessState.SIGNAL_PROCESS, current_preset_index := 0 } : SystemState α) with
      secondary_path := forLoop FFT_HALF_LENGTH (fun i sp =>
        Function.update sp i
          ⟨secondary_path_table (0 : Nat) (i * 2), secondary_path_table (0 : Nat) (i * 2 + 1)⟩)
        (fun _ => ⟨0, 0⟩) }
    rfl
    (fun i t _ ht => by
      show analysis_part
        (rebuild_coeffs lm (set_param_record t i (eq_presets_biquads 0 i)) i) = _
      rw [analysis_part_same_analysis _ _ (same_analysis_trans _ _ _
        (same_analysis_set_param_record t i _) (same_analysis_rebuild_coeffs lm _ i))]
      exact ht)
  exact h

theorem silent_state_of_analysis_part (s t : SystemState α)
    (h : analysis_part t = analysis_part s) (hs : silent_state s) : silent_state t := by
  unfold analysis_part at h
  have h1 : t.ff_buffer.data = s.ff_buffer.data := congrArg Prod.fst h
  have h2 : t.ff_buffer.write_index = s.ff_buffer.write_index := congrArg (fun p => p.2.1) h
  have h3 : t.fft_accum = s.fft_accum := congrArg (fun p => p.2.2.1) h
  have h4 : t.ff_avg = s.ff_avg := congrArg (fun p => p.2.2.2.1) h
  have h5 : t.pp_average = s.pp_average := congrArg (fun p => p.2.2.2.2) h
  unfold silent_state at *
  rw [h3, h4, h5]
  exact ⟨ring_recent_zero_congr _ _ _ h1 h2 hs.1, hs.2⟩

theorem silent_state_system_init (lm : Libm α) : silent_state (system_init lm) := by
  apply silent_state_of_analysis_part _ _ (system_init_analysis lm)
  refine ⟨⟨?_, fun _ _ _ => rfl⟩, fun _ => rfl, fun _ => rfl, fun _ => rfl, fun _ => rfl⟩
  show (0 : Nat) < FFT_LENGTH
  decide

theorem silent_state_buffer_frame (g : SystemState α) (ff_in fb_in spk_in : Nat → α) (n : Int)
    (hsil : ∀ j, ff_in j = 0) (hg : silent_state g) :
    silent_state (buffer_frame g ff_in fb_in spk_in n) := by
  obtain ⟨h1, h2⟩ := hg
  exact ⟨ring_recent_zero_mono _ _ _ (Nat.le_add_right _ _)
    (buffer_frame_silent g ff_in fb_in spk_in n _ hsil h1), h2⟩

theorem silent_state_signal_process (lm : Libm α) (w : Nat → α) (g : SystemState α)
    (hg : silent_state g) : silent_state (signal_process lm w g) := by
  obtain ⟨h1, h2, h3, h4, h5⟩ := hg
  have hz : ∀ i, i < FFT_LENGTH → g.ff_buffer.data i = 0 :=
    fun i hi => ring_all_zero _ _ (le_refl _) h1 i hi
  obtain ⟨r1, r2⟩ := signal_process_ring lm w g
  have hacc : (∀ k, (signal_process lm w g).fft_accum.pp_accum k = ⟨0, 0⟩) ∧
      ∀ k, (signal_process lm w g).fft_accum.ff_accum.bins k = ⟨0, 0⟩ := by
    rcases signal_process_silent lm w g hz with ⟨a1, a2⟩ | ⟨_, a1, a2⟩
    · rw [a1, a2]; exact ⟨h2, h3⟩
    · rw [a1, a2]; exact ⟨fun _ => rfl, fun _ => rfl⟩
  refine ⟨ring_recent_zero_congr _ _ _ r1 r2 h1, hacc.1, hacc.2, ?_, ?_⟩
  · intro k
    rcases (signal_process_averages lm w g k).1 with e | e
    · rw [e]; exact h4 k
    · rw [e, hacc.1 k, complex_scale_zero]
  · intro k
    rcases (signal_process_averages lm w g k).2 with e | e
    · rw [e]; exact h5 k
    · rw [e, hacc.2 k, complex_scale_zero]

theorem silent_state_process_audio_frame (lm : Libm α) (w : Nat → α) (g : SystemState α)
    (ff_in fb_in spk_in : Nat → α) (n : Int) (hsil : ∀ j, ff_in j = 0) (hg : silent_state g) :
    silent_state (process_audio_frame lm w g ff_in fb_in spk_in n) := by
  have hb := silent_state_buffer_frame g ff_in fb_in spk_in n hsil hg
  by_cases hs : g.state = ProcessState.SIGNAL_PROCESS
  · rw [process_audio_frame_signal_process lm w g ff_in fb_in spk_in n hs]
    exact silent_state_signal_process lm w _ hb
  · exact silent_state_of_analysis_part _ _
      (process_audio_frame_analysis lm w g ff_in fb_in spk_in n hs) hb

theorem silent_state_run_frames (lm : Libm α) (w : Nat → α) (ff fb spk : Nat → Nat → α)
    (len : Nat → Int) (hsil : ∀ i j, ff i j = 0) (n : Nat) :
    silent_state (run_frames lm w ff fb spk len (system_init lm) n) := by
  induction n with
  | zero => exact silent_state_system_init lm
  | succ n ih => exact silent_state_process_audio_frame lm w _ _ _ _ _ (hsil n) ih

theorem calculate_mu_silent (lm : Libm α) (s : SystemState α) (k : Nat)
    (hk : k < FFT_HALF_LENGTH) (h : s.ff_avg.bins k = ⟨0, 0⟩) :
    (calculate_mu lm s).mu k = 0.1 := by
  rw [calculate_mu_bin lm s k hk, h]
  unfold clamp_value
  norm_num

theorem target_ff_bin_silent (lm : Libm α) (s : SystemState α) (k : Nat)
    (h : s.pp_average k = ⟨0, 0⟩) : target_ff_bin lm s k = s.current_ff k := by
  unfold target_ff_bin
  simp only [h]
  have hd : ∀ x : Complex α, complex_div ⟨0, 0⟩ x = ⟨0, 0⟩ := by
    intro x
    unfold complex_div
    dsimp only
    split_ifs <;> simp
  rw [hd]
  simp [complex_scale, complex_add]

theorem run_frames_average (lm : Libm α) (w : Nat → α) (ff fb spk : Nat → Nat → α)
    (len : Nat → Int) (n : Nat) (c : Int)
    (h1 : (run_frames lm w ff fb spk len (system_init lm) n).state
      = ProcessState.SIGNAL_PROCESS)
    (h2 : (run_frames lm w ff fb spk len (system_init lm) (n + 1)).state = ProcessState.CAL_MU)
    (h3 : (run_frames lm w ff fb spk len (system_init lm) (n + 1)).fft_accum.accum_count = c)
    (k : Nat) (hk : k < FFT_HALF_LENGTH) :
    (run_frames lm w ff fb spk len (system_init lm) (n + 1)).pp_average k
        = complex_scale
            ((run_frames lm w ff fb spk len (system_init lm) (n + 1)).fft_accum.pp_accum k)
            (1 / (c : α)) ∧
      (run_frames lm w ff fb spk len (system_init lm) (n + 1)).ff_avg.bins k
        = complex_scale
            ((run_frames lm w ff fb spk len (system_init lm) (n + 1)).fft_accum.ff_accum.bins k)
            (1 / (c : α)) := by
  have e : run_frames lm w ff fb spk len (system_init lm) (n + 1)
      = signal_process lm w (buffer_frame (run_frames lm w ff fb spk len (system_init lm) n)
          (ff n) (fb n) (spk n) (len n)) :=
    process_audio_frame_signal_process lm w _ _ _ _ _ h1
  have hav := signal_process_average lm w
    (buffer_frame (run_frames lm w ff fb spk len (system_init lm) n)
      (ff n) (fb n) (spk n) (len n))
    (by rw [buffer_frame_state]; exact h1) (by rw [← e]; exact h2) k hk
  rw [← e, h3] at hav
  exact hav

theorem run_frames_ring (lm : Libm α) (w : Nat → α) (ff fb spk : Nat → Nat → α)
    (len : Nat → Int) (hsil : ∀ i, 20 ≤ i → ∀ j, ff i j = 0) (m : Nat) :
    ring_recent_zero (run_frames lm w ff fb spk len (system_init lm) (20 + m)).ff_buffer
      (160 * m) := by
  induction m with
  | zero =>
    exact process_audio_frame_ring lm w _ _ _ _ _ 0 (buffer_frame_any _ _ _ _ _)
  | succ m ih =>
    have h := buffer_frame_silent
      (run_frames lm w ff fb spk len (system_init lm) (20 + m))
      (ff (20 + m)) (fb (20 + m)) (spk (20 + m)) (len (20 + m)) (160 * m)
      (hsil (20 + m) (by omega)) ih
    have e : 160 * m + 160 = 160 * (m + 1) := by ring
    rw [e] at h
    exact process_audio_frame_ring lm w _ _ _ _ _ _ h

theorem run_frames_accum_step (lm : Libm α) (w : Nat → α) (ff fb spk : Nat → Nat → α)
    (len : Nat → Int) (hsil : ∀ i, 20 ≤ i → ∀ j, ff i j = 0) (n : Nat) (h32 : 32 ≤ n)
    (h64 : n < 64) :
    (run_frames lm w ff fb spk len (system_init lm) (n + 1)).fft_accum.pp_accum
        = (run_frames lm w ff fb spk len (system_init lm) n).fft_accum.pp_accum ∧
      (run_frames lm w ff fb spk len (system_init lm) (n + 1)).fft_accum.ff_accum.bins
        = (run_frames lm w ff fb spk len (system_init lm) n).fft_accum.ff_accum.bins := by
  obtain ⟨b, hb⟩ := run_frames_first_window lm w ff fb spk len
  have hc := hb n (by omega)
  by_cases hs : (run_frames lm w ff fb spk len (system_init lm) n).state
      = ProcessState.SIGNAL_PROCESS
  · have hst : (ctrl_run (fun _ => b) ctrl_init n).state = ProcessState.SIGNAL_PROCESS := by
      rw [← hc]; exact hs
    have h36 : 36 ≤ n := first_window_second_pass_start b n h32 h64 hst
    have e : run_frames lm w ff fb spk len (system_init lm) (n + 1)
        = signal_process lm w (buffer_frame (run_frames lm w ff fb spk len (system_init lm) n)
            (ff n) (fb n) (spk n) (len n)) :=
      process_audio_frame_signal_process lm w _ _ _ _ _ hs
    obtain ⟨m, hm⟩ : ∃ m, n = 20 + m := ⟨n - 20, by omega⟩
    have hr := buffer_frame_silent
      (run_frames lm w ff fb spk len (system_init lm) n)
      (ff n) (fb n) (spk n) (len n) (160 * m) (hsil n (by omega))
      (by rw [hm]; exact run_frames_ring lm w ff fb spk len hsil m)
    have hz : ∀ i, i < FFT_LENGTH →
        (buffer_frame (run_frames lm w ff fb spk len (system_init lm) n)
          (ff n) (fb n) (spk n) (len n)).ff_buffer.data i = 0 :=
      fun i hi => ring_all_zero _ _ (by unfold FFT_LENGTH; omega) hr i hi
    rw [e]
    rcases signal_process_silent lm w _ hz with ⟨a1, a2⟩ | ⟨⟨r1, r2⟩, _⟩
    · exact ⟨a1, a2⟩
    · exfalso
      apply first_window_no_reset b n (by omega)
      rw [← hc]
      refine ⟨hs, r1, ?_⟩
      rw [buffer_frame_sample_count] at r2
      have : ((FFT_LENGTH : Nat) : Int) = 2048 := rfl
      rw [this] at r2
      exact r2
  · have e := process_audio_frame_analysis lm w
      (run_frames lm w ff fb spk len (system_init lm) n) (ff n) (fb n) (spk n) (len n) hs
    unfold analysis_part at e
    have h3 : (run_frames lm w ff fb spk len (system_init lm) (n + 1)).fft_accum
        = (run_frames lm w ff fb spk len (system_init lm) n).fft_accum :=
      congrArg (fun p => p.2.2.1) e
    rw [h3]
    exact ⟨rfl, rfl⟩

theorem run_frames_accum_kept (lm : Libm α) (w : Nat → α) (ff fb spk : Nat → Nat → α)
    (len : Nat → Int) (hsil : ∀ i, 20 ≤ i → ∀ j, ff i j = 0) (m : Nat) (hm : m ≤ 32) :
    (run_frames lm w ff fb spk len (system_init lm) (32 + m)).fft_accum.pp_accum
        = (run_frames lm w ff fb spk len (system_init lm) 32).fft_accum.pp_accum ∧
      (run_frames lm w ff fb spk len (system_init lm) (32 + m)).fft_accum.ff_accum.bins
        = (run_frames lm w ff fb spk len (system_init lm) 32).fft_accum.ff_accum.bins := by
  induction m with
  | zero => exact ⟨rfl, rfl⟩
  | succ m ih =>
    obtain ⟨i1, i2⟩ := ih (by omega)
    obtain ⟨s1, s2⟩ := run_frames_accum_step lm w ff fb spk len hsil (32 + m) (by omega)
      (by omega)
    exact ⟨s1.trans i1, s2.trans i2⟩

theorem complex_scale_scale (x : Complex α) (a b : α) :
    complex_scale (complex_scale x a) b = complex_scale x (a * b) := by
  simp [complex_scale, mul_assoc]

/-- C14: silent analysis cycles, evaluated on the code.  From the state left by
`system_init`, for every math library, window and FB and SPK input, and every bin
`k < 1025`: when the FF samples of every frame from frame 20 on are zero (so every frame
of the second analysis cycle, calls 37 to 64, is silent), the second averaging (call 64)
gives `pp_average[k] = pp_accum[k] / 20` with `pp_accum` the sums of the first cycle,
which is half the first cycle's `pp_average[k]` and not 0.  When the FF samples of all
frames are zero, the first cycle gives `pp_average[k] = 0` (call 32), `mu[k] = 0.1`
(call 33) and `target_ff[k] = current_ff[k]` (call 35). -/
theorem silent_cycle_average (lm : Libm α) (w : Nat → α) (ff fb spk : Nat → Nat → α)
    (len : Nat → Int) (hsil : ∀ i, 20 ≤ i → ∀ j, ff i j = 0) (k : Nat)
    (hk : k < FFT_HALF_LENGTH) :
    (run_frames lm w ff fb spk len (system_init lm) 64).state = ProcessState.CAL_MU ∧
      (run_frames lm w ff fb spk len (system_init lm) 64).pp_average k
        = complex_scale
            ((run_frames lm w ff fb spk len (system_init lm) 32).fft_accum.pp_accum k)
            (1 / 20) ∧
      (run_frames lm w ff fb spk len (system_init lm) 32).pp_average k
        = complex_scale
            ((run_frames lm w ff fb spk len (system_init lm) 32).fft_accum.pp_accum k)
            (1 / 10) ∧
      (run_frames lm w ff fb spk len (system_init lm) 64).pp_average k
        = complex_scale ((run_frames lm w ff fb spk len (system_init lm) 32).pp_average k)
            (1 / 2) ∧
      ((∀ i j, ff i j = 0) →
        (run_frames lm w ff fb spk len (system_init lm) 32).pp_average k = ⟨0, 0⟩ ∧
          (run_frames lm w ff fb spk len (system_init lm) 33).mu k = 0.1 ∧
          (run_frames lm w ff fb spk len (system_init lm) 35).target_ff k
            = (run_frames lm w ff fb spk len (system_init lm) 35).current_ff k) := by
  obtain ⟨b, hb⟩ := run_frames_first_window lm w ff fb spk len
  obtain ⟨c1, c2, c3⟩ := first_window_second_average b
  obtain ⟨d1, d2, d3, d4, d5⟩ := first_window_first_average b
  have hstate : ∀ n, n ≤ 65 → (run_frames lm w ff fb spk len (system_init lm) n).state
      = (ctrl_run (fun _ => b) ctrl_init n).state := fun n hn => by
    rw [← hb n hn]; rfl
  have hacc : ∀ n, n ≤ 65 →
      (run_frames lm w ff fb spk len (system_init lm) n).fft_accum.accum_count
        = (ctrl_run (fun _ => b) ctrl_init n).accum_count := fun n hn => by
    rw [← hb n hn]; rfl
  have h64 := run_frames_average lm w ff fb spk len 63 20
    (by rw [hstate 63 (by decide)]; exact c1) (by rw [hstate 64 (by decide)]; exact c2)
    (by rw [hacc 64 (by decide)]; exact c3) k hk
  have h32 := run_frames_average lm w ff fb spk len 31 10
    (by rw [hstate 31 (by decide)]; exact d1) (by rw [hstate 32 (by decide)]; exact d2)
    (by rw [hacc 32 (by decide)]; exact d3) k hk
  have hkept := run_frames_accum_kept lm w ff fb spk len hsil 32 (le_refl _)
  have e64 : (run_frames lm w ff fb spk len (system_init lm) 64).pp_average k
      = complex_scale
          ((run_frames lm w ff fb spk len (system_init lm) 32).fft_accum.pp_accum k)
          (1 / 20) := by
    rw [h64.1, hkept.1]
    norm_num
  have e32 : (run_frames lm w ff fb spk len (system_init lm) 32).pp_average k
      = complex_scale
          ((run_frames lm w ff fb spk len (system_init lm) 32).fft_accum.pp_accum k)
          (1 / 10) := by
    rw [h32.1]
    norm_num
  refine ⟨by rw [hstate 64 (by decide)]; exact c2, e64, e32, ?_, ?_⟩
  · rw [e64, e32, complex_scale_scale]
    norm_num
  · intro hall
    have hs32 := silent_state_run_frames lm w ff fb spk len hall 32
    have hs34 := silent_state_run_frames lm w ff fb spk len hall 34
    refine ⟨hs32.2.2.2.1 k, ?_, ?_⟩
    · have e : run_frames lm w ff fb spk len (system_init lm) 33
          = process_audio_frame lm w (run_frames lm w ff fb spk len (system_init lm) 32)
              (ff 32) (fb 32) (spk 32) (len 32) := rfl
      rw [e, process_audio_frame_eq, hstate 32 (by decide), d2]
      exact calculate_mu_silent lm _ k hk (hs32.2.2.2.2 k)
    · have e : run_frames lm w ff fb spk len (system_init lm) 35
          = process_audio_frame lm w (run_frames lm w ff fb spk len (system_init lm) 34)
              (ff 34) (fb 34) (spk 34) (len 34) := rfl
      rw [e, process_audio_frame_eq, hstate 34 (by decide), d5]
      show (calculate_target_ff lm _).target_ff k = _
      rw [calculate_target_ff_bin lm _ k hk]
      exact target_ff_bin_silent lm _ k (hs34.2.2.2.1 k)

/-- Witness of C14: all-silent input, bin 0. -/
theorem silent_cycle_average_witness :
    (∀ i, 20 ≤ i → ∀ j, silent_frames i j = 0) ∧ 0 < FFT_HALF_LENGTH ∧
      (run_frames sample_libm (fun _ => 0) silent_frames silent_frames silent_frames
          (fun _ => 1875) (system_init sample_libm) 64).state = ProcessState.CAL_MU ∧
      (run_frames sample_libm (fun _ => 0) silent_frames silent_frames silent_frames
          (fun _ => 1875) (system_init sample_libm) 33).mu 0 = 0.1 :=
  have h := silent_cycle_average sample_libm (fun _ => 0) silent_frames silent_frames
    silent_frames (fun _ => 1875) (fun _ _ _ => rfl) 0 (by decide)
  ⟨fun _ _ _ => rfl, by decide, h.1, (h.2.2.2.2 (fun _ _ => rfl)).2.1⟩

theorem at_index_neg (s : Nat → α) (k : Int) (h : k < 0) : at_index s k = 0 := by
  unfold at_index; rw [if_pos h]

theorem at_index_nat (s : Nat → α) (n : Nat) : at_index s (n : Int) = s n := by
  unfold at_index; rw [if_neg (by omega)]; rfl

theorem biquad_run_x2 (c : BiquadCoeffs α) (x : Nat → α) (n : Nat) :
    (biquad_run c ⟨0, 0, 0, 0⟩ x (n + 1)).x2
      = c.b2 * x n - c.a2 * biquad_output c ⟨0, 0, 0, 0⟩ x n := rfl

theorem biquad_run_x1 (c : BiquadCoeffs α) (x : Nat → α) (n : Nat) :
    (biquad_run c ⟨0, 0, 0, 0⟩ x (n + 1)).x1
      = c.b1 * x n - c.a1 * biquad_output c ⟨0, 0, 0, 0⟩ x n
        + (biquad_run c ⟨0, 0, 0, 0⟩ x n).x2 := rfl

theorem biquad_output_eq (c : BiquadCoeffs α) (s : BiquadTimeDomainState α) (x : Nat → α)
    (n : Nat) :
    biquad_output c s x n = c.b0 * x n + (biquad_run c s x n).x1 := rfl

/-- Claim C30.  Iterating `biquad_process_sample` from the zero state over an input
sequence `x` returns, at every call `n`, the sample
`b0*x[n] + b1*x[n-1] + b2*x[n-2] - a1*y[n-1] - a2*y[n-2]`, where `y` is the sequence of
returned samples and `x`, `y` are read as 0 at negative indices; this holds for all
coefficients (the stepper never reads `a0`). -/
theorem stepper_difference_equation (c : BiquadCoeffs α) (x : Nat → α) (n : Nat) :
    biquad_output c ⟨0, 0, 0, 0⟩ x n
      = c.b0 * at_index x n + c.b1 * at_index x ((n : Int) - 1)
        + c.b2 * at_index x ((n : Int) - 2)
        - c.a1 * at_index (biquad_output c ⟨0, 0, 0, 0⟩ x) ((n : Int) - 1)
        - c.a2 * at_index (biquad_output c ⟨0, 0, 0, 0⟩ x) ((n : Int) - 2) := by
  rcases n with _ | _ | n
  · rw [at_index_nat, at_index_neg _ _ (by norm_num), at_index_neg _ _ (by norm_num),
      at_index_neg _ _ (by norm_num), at_index_neg _ _ (by norm_num), biquad_output_eq]
    show c.b0 * x 0 + 0 = _
    ring
  · rw [show (((0 + 1 : Nat) : Int) - 1) = ((0 : Nat) : Int) by norm_num,
      show (((0 + 1 : Nat) : Int) - 2) = -1 by norm_num,
      at_index_nat, at_index_nat, at_index_nat, at_index_neg x _ (by norm_num),
      at_index_neg _ (-1) (by norm_num), biquad_output_eq c _ x (0 + 1), biquad_run_x1]
    show _ + (c.b1 * x 0 - c.a1 * biquad_output c ⟨0, 0, 0, 0⟩ x 0 + 0) = _
    ring
  · rw [at_index_nat,
      show (((n + 1 + 1 : Nat) : Int) - 1) = ((n + 1 : Nat) : Int) by push_cast; ring,
      show (((n + 1 + 1 : Nat) : Int) - 2) = ((n : Nat) : Int) by push_cast; ring,
      at_index_nat, at_index_nat, at_index_nat, at_index_nat,
      biquad_output_eq c _ x (n + 1 + 1), biquad_run_x1, biquad_run_x2]
    ring

/-! ### Frame lemmas for the parameter records -/

theorem params_part_of_eq_update (s t : SystemState α) (h : t.eq_update = s.eq_update) :
    params_part t = params_part s := by
  unfold params_part; rw [h]

theorem params_part_with_state (x : SystemState α) (st : ProcessState) :
    params_part { x with state := st } = params_part x := rfl

theorem params_part_with_restart (x : SystemState α) :
    params_part { x with state := ProcessState.SIGNAL_PROCESS, frame_count := 0, fft_count := 0 }
      = params_part x := rfl

theorem params_part_signal_process (lm : Libm α) (w : Nat → α) (s : SystemState α) :
    params_part (signal_process lm w s) = params_part s := by
  simp only [signal_process]
  split_ifs <;> rfl

theorem params_part_stable_check (lm : Libm α) (s : SystemState α) :
    params_part (stable_check lm s) = params_part s := by
  unfold stable_check
  rw [check_target_stability_eq]
  split_ifs <;> simp_all [params_part, set_prev_smoothness]

theorem params_part_calculate_ff_init_loss (lm : Libm α) (s : SystemState α) :
    params_part (calculate_ff_init_loss lm s) = params_part s := by
  unfold params_part
  rw [calculate_ff_init_loss_eq_update]

theorem params_part_update_filter_coeffs (lm : Libm α) (s : SystemState α) :
    params_part (update_filter_coeffs lm s) = params_part s := by
  apply params_part_of_eq_update
  unfold update_filter_coeffs
  rw [set_total_gain_eq_update]
  exact (update_filter_coeffs_loop lm s NUM_BIQUADS).1

theorem params_part_process_audio_frame (lm : Libm α) (w : Nat → α) (g : SystemState α)
    (ff_in fb_in spk_in : Nat → α) (n : Int) (hs : g.state ≠ ProcessState.UPDATE_EQ_PARAMS) :
    params_part (process_audio_frame lm w g ff_in fb_in spk_in n) = params_part g := by
  have hb : params_part (buffer_frame g ff_in fb_in spk_in n) = params_part g := rfl
  rw [process_audio_frame_eq, ← hb]
  generalize buffer_frame g ff_in fb_in spk_in n = g1
  revert hs
  cases g.state <;> intro hs
  · exact params_part_signal_process lm w _
  · exact (params_part_with_state _ _).trans rfl
  · exact (params_part_with_state _ _).trans
      (params_part_of_eq_update _ _ (calculate_ff_response_eq_update lm _))
  · exact (params_part_with_state _ _).trans rfl
  · exact params_part_stable_check lm _
  · exact (params_part_with_state _ _).trans (params_part_calculate_ff_init_loss lm _)
  · exact absurd rfl hs
  · exact (params_part_with_restart _).trans (params_part_update_filter_coeffs lm _)

/-- Claim C21.  A `process_audio_frame` call made in any state other than
`UPDATE_EQ_PARAMS` (so also a `STABLE_CHECK` call, whether the gate accepts or rejects)
leaves the ten `BiquadParam` records and `total_gain_dB` as they were. -/
theorem params_only_optimizer (lm : Libm α) (w : Nat → α) (g : SystemState α)
    (ff_in fb_in spk_in : Nat → α) (n : Int) (hs : g.state ≠ ProcessState.UPDATE_EQ_PARAMS) :
    (∀ i, (process_audio_frame lm w g ff_in fb_in spk_in n).eq_update.params i
        = g.eq_update.params i) ∧
      (process_audio_frame lm w g ff_in fb_in spk_in n).eq_update.total_gain_dB
        = g.eq_update.total_gain_dB := by
  have h := params_part_process_audio_frame lm w g ff_in fb_in spk_in n hs
  unfold params_part at h
  rw [Prod.mk.injEq] at h
  exact ⟨fun i => congrFun h.1 i, h.2⟩

/-- Witness of C21: a `STABLE_CHECK` call on the state left by `system_init`. -/
theorem params_only_optimizer_witness :
    stable_check_demo_state.state ≠ ProcessState.UPDATE_EQ_PARAMS ∧
      (∀ i, (process_audio_frame sample_libm (fun _ => 1) stable_check_demo_state
          (fun _ => 1) (fun _ => 1) (fun _ => 0) 1875).eq_update.params i
        = stable_check_demo_state.eq_update.params i) ∧
      (process_audio_frame sample_libm (fun _ => 1) stable_check_demo_state
          (fun _ => 1) (fun _ => 1) (fun _ => 0) 1875).eq_update.total_gain_dB
        = stable_check_demo_state.eq_update.total_gain_dB :=
  ⟨fun h => ProcessState.noConfusion h,
    params_only_optimizer sample_libm (fun _ => 1) stable_check_demo_state
      (fun _ => 1) (fun _ => 1) (fun _ => 0) 1875 (fun h => ProcessState.noConfusion h)⟩

/-! ### The gate against an all-zero reference -/

/-- With `prev_target_ff` zero on the band bins, every entry of `H_prev_db` is
`20 * log10f(sqrtf(0) + 1e-8)`. -/
theorem band_db_zero_reference (lm : Libm α) (prev : Nat → Complex α)
    (hprev : ∀ k, 12 ≤ k → k ≤ 64 → prev k = ⟨0, 0⟩) (i : Nat) (hi : i < 53) :
    band_db lm prev i = 20 * lm.log10f (lm.sqrtf 0 + 1 / 100000000) := by
  rw [band_db_apply lm prev i hi]
  unfold spec_H_db complex_mag
  rw [hprev (12 + i) (by omega) (by omega)]
  simp

/-- The gate rejects whenever the previous band level is one value below -46 dB on
every band bin: a target inside the absolute bound then moves every bin by more than
6 dB. -/
theorem gate_rejects_low_reference (lm : Libm α) (target prev : Nat → Complex α) (ps c : α)
    (hc : c < -46) (hp : ∀ i, i < 53 → band_db lm prev i = c) :
    ¬ gate_accepts lm target prev ps := by
  intro h
  rw [gate_accepts_iff_arrays] at h
  obtain ⟨_, h2, ⟨h3, _⟩, _⟩ := h
  have hall : spec_spike_number (band_db lm target) (band_db lm prev) = 53 := by
    unfold spec_spike_number
    rw [Finset.filter_true_of_mem, Finset.card_range]
    intro i hi
    rw [Finset.mem_range] at hi
    rw [hp i hi]
    have := h3 i hi
    exact lt_of_lt_of_le (by linarith) (le_abs_self _)
  rw [hall] at h2
  norm_num at h2

theorem gate_rejects_zero (lm : Libm α) (target prev : Nat → Complex α) (ps : α)
    (hsqrt : lm.sqrtf 0 = 0) (hlog : lm.log10f (1 / 100000000) = -8)
    (hprev : ∀ k, 12 ≤ k → k ≤ 64 → prev k = ⟨0, 0⟩) :
    ¬ gate_accepts lm target prev ps := by
  apply gate_rejects_low_reference lm target prev ps (20 * lm.log10f (lm.sqrtf 0 + 1 / 100000000))
  · rw [hsqrt, zero_add, hlog]; norm_num
  · exact band_db_zero_reference lm prev hprev

/-- Claim C24.  When the math library is exact at `sqrtf(0) = 0` and
`log10f(1e-8) = -8` and `prev_target_ff` is zero on the band bins 12..64, then for
every target and every `prev_smoothness` the vector `H_prev_db` is -160 dB on every
band bin and `check_target_stability` returns 0 (reject) with the state untouched. -/
theorem gate_rejects_zero_reference (lm : Libm α) (state : SystemState α)
    (hsqrt : lm.sqrtf 0 = 0) (hlog : lm.log10f (1 / 100000000) = -8)
    (hprev : ∀ k, 12 ≤ k → k ≤ 64 → state.prev_target_ff k = ⟨0, 0⟩) :
    (∀ i, i < 53 → band_db lm state.prev_target_ff i = -160) ∧
      check_target_stability lm state = (state, 0) := by
  constructor
  · intro i hi
    rw [band_db_zero_reference lm _ hprev i hi, hsqrt, zero_add, hlog]
    norm_num
  · rw [check_target_stability_eq,
      if_neg (gate_rejects_zero lm _ _ _ hsqrt hlog hprev)]

/-- Witness of C24: the zero state under `gate_libm`. -/
theorem gate_rejects_zero_reference_witness :
    gate_libm.sqrtf 0 = 0 ∧ gate_libm.log10f (1 / 100000000) = -8 ∧
      band_db gate_libm (zero_state : SystemState ℚ).prev_target_ff 0 = -160 ∧
      check_target_stability gate_libm (zero_state : SystemState ℚ) = (zero_state, 0) :=
  have h := gate_rejects_zero_reference gate_libm (zero_state : SystemState ℚ)
    (by simp [gate_libm, sample_libm]) (by simp [gate_libm]) (fun _ _ _ => rfl)
  ⟨by simp [gate_libm, sample_libm], by simp [gate_libm], h.1 0 (by decide), h.2⟩

/-! ### Frame lemmas for the gate's reference -/

theorem reference_part_same_analysis (s t : SystemState α) (h : same_analysis s t) :
    reference_part t = reference_part s := by
  unfold same_analysis at h
  rw [h]
  rfl

theorem reference_part_with_state (x : SystemState α) (st : ProcessState) :
    reference_part { x with state := st } = reference_part x := rfl

theorem reference_part_with_restart (x : SystemState α) :
    reference_part
        { x with state := ProcessState.SIGNAL_PROCESS, frame_count := 0, fft_count := 0 }
      = reference_part x := rfl

theorem reference_part_signal_process (lm : Libm α) (w : Nat → α) (s : SystemState α) :
    reference_part (signal_process lm w s) = reference_part s := by
  simp only [signal_process]
  split_ifs <;> rfl

theorem reference_part_stable_check_fail (lm : Libm α) (s : SystemState α)
    (h : ¬ gate_accepts lm s.target_ff s.prev_target_ff s.prev_smoothness) :
    reference_part (stable_check lm s) = reference_part s := by
  obtain ⟨h1, h2, _⟩ := stable_check_fail lm s h
  unfold reference_part
  rw [h1, h2]

theorem reference_part_process_audio_frame (lm : Libm α) (w : Nat → α) (g : SystemState α)
    (ff_in fb_in spk_in : Nat → α) (n : Int)
    (hs : g.state = ProcessState.STABLE_CHECK →
      ¬ gate_accepts lm g.target_ff g.prev_target_ff g.prev_smoothness) :
    reference_part (process_audio_frame lm w g ff_in fb_in spk_in n) = reference_part g := by
  have hb : reference_part (buffer_frame g ff_in fb_in spk_in n) = reference_part g := rfl
  have ht : (buffer_frame g ff_in fb_in spk_in n).target_ff = g.target_ff := rfl
  have hp : (buffer_frame g ff_in fb_in spk_in n).prev_target_ff = g.prev_target_ff := rfl
  have hq : (buffer_frame g ff_in fb_in spk_in n).prev_smoothness = g.prev_smoothness := rfl
  rw [process_audio_frame_eq, ← hb]
  rw [← ht, ← hp, ← hq] at hs
  generalize buffer_frame g ff_in fb_in spk_in n = g1 at hs ⊢
  revert hs
  cases g.state <;> intro hs
  · exact reference_part_signal_process lm w _
  · exact (reference_part_with_state _ _).trans rfl
  · exact (reference_part_with_state _ _).trans
      (reference_part_same_analysis _ _ (same_analysis_calculate_ff_response lm _))
  · exact (reference_part_with_state _ _).trans rfl
  · exact reference_part_stable_check_fail lm _ (hs rfl)
  · exact (reference_part_with_state _ _).trans
      (reference_part_same_analysis _ _ (same_analysis_calculate_ff_init_loss lm _))
  · exact (reference_part_with_state _ _).trans
      (reference_part_same_analysis _ _ (same_analysis_update_eq_params lm _))
  · exact (reference_part_with_restart _).trans
      (reference_part_same_analysis _ _ (same_analysis_update_filter_coeffs lm _))

theorem system_init_reference (lm : Libm α) :
    reference_part (system_init lm) = (fun _ => ⟨0, 0⟩, 1) := by
  unfold system_init
  rfl

theorem first_check_call :
    ∀ b : Bool, (ctrl_run (fun _ => b) ctrl_init 35).state = ProcessState.STABLE_CHECK := by
  decide

theorem run_frames_reference (lm : Libm α) (w : Nat → α) (ff fb spk : Nat → Nat → α)
    (len : Nat → Int) (n : Nat) (hn : n ≤ 35) :
    reference_part (run_frames lm w ff fb spk len (system_init lm) n)
      = (fun _ => ⟨0, 0⟩, 1) := by
  obtain ⟨b, hb⟩ := run_frames_first_window lm w ff fb spk len
  induction n with
  | zero => exact system_init_reference lm
  | succ n ih =>
    show reference_part (process_audio_frame lm w _ _ _ _ _) = _
    rw [reference_part_process_audio_frame, ih (by omega)]
    intro hst
    exfalso
    have h1 : (ctrl_of (run_frames lm w ff fb spk len (system_init lm) n)).state
        = ProcessState.STABLE_CHECK := hst
    rw [hb n (by omega)] at h1
    have := first_window_stable_check b n (by omega) h1
    omega

/-! ### The machine never passes the gate -/

theorem ctrl_step_reject_state (c : Ctrl)
    (h : c.state ≠ ProcessState.CAL_FF_INIT_LOSS ∧ c.state ≠ ProcessState.UPDATE_EQ_PARAMS ∧
      c.state ≠ ProcessState.UPDATE_FILTER_COEFFS) :
    (ctrl_step c false).state ≠ ProcessState.CAL_FF_INIT_LOSS ∧
      (ctrl_step c false).state ≠ ProcessState.UPDATE_EQ_PARAMS ∧
      (ctrl_step c false).state ≠ ProcessState.UPDATE_FILTER_COEFFS := by
  obtain ⟨st, fc, n, sc, ac⟩ := c
  obtain ⟨h1, h2, h3⟩ := h
  cases st
  · simp only [ctrl_step]
    split_ifs <;> simp
  · simp [ctrl_step]
  · simp [ctrl_step]
  · simp [ctrl_step]
  · simp [ctrl_step]
  · exact absurd rfl h1
  · exact absurd rfl h2
  · exact absurd rfl h3

theorem eq_update_process_audio_frame (lm : Libm α) (w : Nat → α) (g : SystemState α)
    (ff_in fb_in spk_in : Nat → α) (n : Int)
    (h : g.state ≠ ProcessState.CAL_FF_INIT_LOSS ∧ g.state ≠ ProcessState.UPDATE_EQ_PARAMS ∧
      g.state ≠ ProcessState.UPDATE_FILTER_COEFFS) :
    (process_audio_frame lm w g ff_in fb_in spk_in n).eq_update = g.eq_update := by
  have hb : (buffer_frame g ff_in fb_in spk_in n).eq_update = g.eq_update := rfl
  rw [process_audio_frame_eq, ← hb]
  generalize buffer_frame g ff_in fb_in spk_in n = g1
  revert h
  cases g.state <;> rintro ⟨h1, h2, h3⟩
  · simp only [signal_process]
    split_ifs <;> rfl
  · rfl
  · exact calculate_ff_response_eq_update lm _
  · rfl
  · by_cases hg : gate_accepts lm g1.target_ff g1.prev_target_ff g1.prev_smoothness
    · exact (stable_check_pass lm g1 hg).2.2.2
    · exact (stable_check_fail lm g1 hg).2.2.2.2.2
  · exact absurd rfl h1
  · exact absurd rfl h2
  · exact absurd rfl h3

theorem never_adapted_system_init (lm : Libm α) : never_adapted lm (system_init lm) := by
  have hc := system_init_ctrl lm
  have hs : (system_init lm).state = ProcessState.SIGNAL_PROCESS :=
    congrArg Ctrl.state hc
  refine ⟨?_, system_init_reference lm, rfl⟩
  rw [hs]
  exact ⟨fun h => ProcessState.noConfusion h, fun h => ProcessState.noConfusion h,
    fun h => ProcessState.noConfusion h⟩

theorem never_adapted_process_audio_frame (lm : Libm α)
    (hlow : 20 * lm.log10f (lm.sqrtf 0 + 1 / 100000000) < -46)
    (w : Nat → α) (g : SystemState α)
    (ff_in fb_in spk_in : Nat → α) (n : Int) (hg : never_adapted lm g) :
    never_adapted lm (process_audio_frame lm w g ff_in fb_in spk_in n) := by
  obtain ⟨hst, href, heq⟩ := hg
  have hprev : ∀ k, 12 ≤ k → k ≤ 64 → g.prev_target_ff k = ⟨0, 0⟩ := by
    intro k _ _
    have := congrArg Prod.fst href
    exact congrFun this k
  have hrej : ¬ gate_accepts lm g.target_ff g.prev_target_ff g.prev_smoothness :=
    gate_rejects_low_reference lm _ _ _ _ hlow (band_db_zero_reference lm _ hprev)
  refine ⟨?_, ?_, ?_⟩
  · have hc := process_audio_frame_ctrl lm w g ff_in fb_in spk_in n
    rw [decide_eq_false hrej] at hc
    have h := ctrl_step_reject_state (ctrl_of g) hst
    rw [← hc] at h
    exact h
  · rw [reference_part_process_audio_frame lm w g _ _ _ _ (fun _ => hrej), href]
  · rw [eq_update_process_audio_frame lm w g _ _ _ _ hst, heq]

theorem never_adapted_run_frames (lm : Libm α)
    (hlow : 20 * lm.log10f (lm.sqrtf 0 + 1 / 100000000) < -46)
    (w : Nat → α) (ff fb spk : Nat → Nat → α)
    (len : Nat → Int) (n : Nat) :
    never_adapted lm (run_frames lm w ff fb spk len (system_init lm) n) := by
  induction n with
  | zero => exact never_adapted_system_init lm
  | succ n ih => exact never_adapted_process_audio_frame lm hlow w _ _ _ _ _ ih

theorem system_init_update_accepted (lm : Libm α) :
    (system_init lm).eq_update.update_accepted = 0 := by
  unfold system_init
  rfl

/-! ### The adaptation loop of `main` -/

theorem time_sim_get_signals_recordings (sim : TimeDomainSimulator α) (n : Int) :
    (time_sim_get_signals sim n).1.simulated_fb = sim.simulated_fb ∧
      (time_sim_get_signals sim n).1.original_fb = sim.original_fb := by
  simp only [time_sim_get_signals]
  split_ifs <;> exact ⟨rfl, rfl⟩

/-- The bound on the passes of the frame loop is never the reason it stops: with
`target_samples - samples_processed` passes allowed, one more changes nothing. -/
theorem frame_loop_fuel (lm : Libm α) (w : Nat → α) (sr target : Int) (fuel : Nat) :
    ∀ v : TimeDomainSimulator α × SystemState α × Int, (target - v.2.2).toNat ≤ fuel →
      frame_loop lm w sr target (fuel + 1) v = frame_loop lm w sr target fuel v := by
  induction fuel with
  | zero =>
    intro v hv
    have h : ¬ v.2.2 < target := by omega
    simp only [frame_loop, h, if_false]
  | succ k ih =>
    intro v hv
    rw [frame_loop]
    conv_rhs => rw [frame_loop]
    by_cases h : v.2.2 < target
    · simp only [h, if_true]
      generalize (if Int.tdiv (sr * (PROCESS_INTERVAL_MS : Int)) 1000 > target - v.2.2
        then target - v.2.2 else Int.tdiv (sr * (PROCESS_INTERVAL_MS : Int)) 1000) = spf
      by_cases hgot : (time_sim_get_signals v.1 spf).2.2.2 ≤ 0
      · simp only [hgot, if_true]
      · simp only [hgot, if_false]
        apply ih
        show (target - (v.2.2 + _)).toNat ≤ k
        omega
    · simp only [h, if_false]

theorem frame_loop_invariant (lm : Libm α)
    (hlow : 20 * lm.log10f (lm.sqrtf 0 + 1 / 100000000) < -46)
    (w : Nat → α) (sr target : Int) (fuel : Nat) :
    ∀ v : TimeDomainSimulator α × SystemState α × Int,
      never_adapted lm v.2.1 →
      never_adapted lm (frame_loop lm w sr target fuel v).2.1 ∧
        (frame_loop lm w sr target fuel v).1.simulated_fb = v.1.simulated_fb ∧
        (frame_loop lm w sr target fuel v).1.original_fb = v.1.original_fb := by
  induction fuel with
  | zero => intro v h1; exact ⟨h1, rfl, rfl⟩
  | succ k ih =>
    intro v h1
    rw [frame_loop]
    by_cases h : v.2.2 < target
    · simp only [h, if_true]
      generalize (if Int.tdiv (sr * (PROCESS_INTERVAL_MS : Int)) 1000 > target - v.2.2
        then target - v.2.2 else Int.tdiv (sr * (PROCESS_INTERVAL_MS : Int)) 1000) = spf
      by_cases hgot : (time_sim_get_signals v.1 spf).2.2.2 ≤ 0
      · simp only [hgot, if_true]
        exact ⟨h1, (time_sim_get_signals_recordings _ _).1,
          (time_sim_get_signals_recordings _ _).2⟩
      · simp only [hgot, if_false]
        have hn := ih (((time_sim_get_signals v.1 spf).1,
          process_audio_frame lm w v.2.1 (time_sim_get_signals v.1 spf).2.1
            (time_sim_get_signals v.1 spf).2.2.1 (fun _ => 0) (time_sim_get_signals v.1 spf).2.2.2,
          v.2.2 + (time_sim_get_signals v.1 spf).2.2.2))
          (never_adapted_process_audio_frame lm hlow w _ _ _ _ _ h1)
        exact ⟨hn.1, hn.2.1.trans (time_sim_get_signals_recordings _ _).1,
          hn.2.2.trans (time_sim_get_signals_recordings _ _).2⟩
    · rw [if_neg h]
      exact ⟨h1, rfl, rfl⟩

theorem phase2_skipped (lm : Libm α) (total_samples : Int) (m : MainLoop α)
    (h : never_adapted lm m.system_state) :
    phase2 total_samples m = { m with phase2_log := m.phase2_log ++ [false] } := by
  unfold phase2
  have h0 : m.system_state.eq_update.update_accepted = 0 := by
    rw [h.2.2]; exact system_init_update_accepted lm
  rw [if_neg]
  rintro ⟨_, h1⟩
  exact h1 h0

/-- The bound on the passes of the adaptation loop is never the reason it stops: with
`max_iterations - iteration` passes allowed, one more changes nothing. -/
theorem adaptation_loop_fuel (lm : Libm α) (w : Nat → α) (total sr : Int) (fuel : Nat) :
    ∀ m : MainLoop α, (100 - m.iteration).toNat ≤ fuel →
      adaptation_loop lm w total sr (fuel + 1) m = adaptation_loop lm w total sr fuel m := by
  induction fuel with
  | zero =>
    intro m hm
    have h : ¬ ((m.time_sim.current_sample : Int) < total ∧ m.iteration < 100) := by
      rintro ⟨_, h2⟩; omega
    simp only [adaptation_loop, h, if_false]
  | succ k ih =>
    intro m hm
    rw [adaptation_loop]
    conv_rhs => rw [adaptation_loop]
    by_cases h : (m.time_sim.current_sample : Int) < total ∧ m.iteration < 100
    · simp only [h, and_self, if_true]
      generalize (if (m.time_sim.current_sample : Int) + iteration_samples sr > total
        then total - (m.time_sim.current_sample : Int) else iteration_samples sr) = target
      generalize frame_loop lm w sr target target.toNat (m.time_sim, m.system_state, 0) = r
      by_cases h0 : r.2.2 = 0
      · simp only [h0, if_true]
      · simp only [h0, if_false]
        apply ih
        have e : ∀ x : MainLoop α, (phase2 total x).iteration = x.iteration := by
          intro x; unfold phase2; split_ifs <;> rfl
        show (100 - ((phase2 total _).iteration + 1)).toNat ≤ k
        rw [e]
        show (100 - (m.iteration + 1)).toNat ≤ k
        omega
    · simp only [h, if_false]

theorem adaptation_loop_invariant (lm : Libm α)
    (hlow : 20 * lm.log10f (lm.sqrtf 0 + 1 / 100000000) < -46)
    (w : Nat → α) (total sr : Int) (fuel : Nat) :
    ∀ m : MainLoop α, never_adapted lm m.system_state →
      (∀ b, b ∈ m.phase2_log → b = false) →
      never_adapted lm (adaptation_loop lm w total sr fuel m).system_state ∧
        (adaptation_loop lm w total sr fuel m).time_sim.simulated_fb = m.time_sim.simulated_fb ∧
        (adaptation_loop lm w total sr fuel m).time_sim.original_fb = m.time_sim.original_fb ∧
        (∀ b, b ∈ (adaptation_loop lm w total sr fuel m).phase2_log → b = false) := by
  induction fuel with
  | zero => intro m h1 h3; exact ⟨h1, rfl, rfl, h3⟩
  | succ k ih =>
    intro m h1 h3
    rw [adaptation_loop]
    by_cases h : (m.time_sim.current_sample : Int) < total ∧ m.iteration < 100
    · simp only [h, and_self, if_true]
      generalize htarget : (if (m.time_sim.current_sample : Int) + iteration_samples sr > total
        then total - (m.time_sim.current_sample : Int) else iteration_samples sr) = target
      have hfl := frame_loop_invariant lm hlow w sr target target.toNat
        (m.time_sim, m.system_state, 0) h1
      generalize frame_loop lm w sr target target.toNat (m.time_sim, m.system_state, 0) = r
        at hfl ⊢
      by_cases h0 : r.2.2 = 0
      · simp only [h0, if_true]
        exact ⟨hfl.1, hfl.2.1, hfl.2.2, h3⟩
      · simp only [h0, if_false]
        rw [phase2_skipped lm total _ hfl.1]
        have hn := ih
          { time_sim := r.1, system_state := r.2.1, iteration := m.iteration + 1,
            phase2_log := m.phase2_log ++ [false] } hfl.1
          (by
            intro b hb
            rw [List.mem_append] at hb
            rcases hb with hb | hb
            · exact h3 b hb
            · simpa using hb)
        exact ⟨hn.1, hn.2.1.trans hfl.2.1, hn.2.2.1.trans hfl.2.2, hn.2.2.2⟩
    · rw [if_neg h]
      exact ⟨h1, rfl, rfl, h3⟩

theorem iteration_samples_realtime : iteration_samples 375000 = 121875 := by
  have h : Rat.floor (325 * ((375000 : Int) : ℚ) / 1000) = 121875 := by
    apply rat_floor_eq <;> norm_num
  have h0 : (0 : ℚ) ≤ 325 * ((375000 : Int) : ℚ) / 1000 := by norm_num
  unfold iteration_samples toInt
  simp only [h0, if_true, h]

/-- Claim C25.  With a math library whose `20 * log10f(sqrtf(0) + 1e-8)` is below -46 dB
(the exact value is -160 dB):
in the state after any number of `process_audio_frame` calls from `system_init`, with
any frames of any lengths, the machine is not in `CAL_FF_INIT_LOSS`, `UPDATE_EQ_PARAMS`
or `UPDATE_FILTER_COEFFS`, `prev_target_ff` is zero on every bin, `update_accepted` is
0, the ten parameter records are those of preset 0 and `total_gain_dB` is that of
preset 0; and the adaptation loop of `main` (for sample counts and rates inside the
`int` range) logs "Skipped" at every Phase 2 and leaves `simulated_fb` and
`original_fb` both equal to the input recording `fb_signal`. -/
theorem system_never_adapts (lm : Libm α)
    (hlow : 20 * lm.log10f (lm.sqrtf 0 + 1 / 100000000) < -46) (w : Nat → α)
    (ff fb spk : Nat → Nat → α)
    (len : Nat → Int) (n : Nat) (sim : TimeDomainSimulator α) (ff_signal fb_signal : Nat → α)
    (total_samples sample_rate_actual : Int) (sp_ir : Nat → α) (sp_length : Int)
    (_hrange : main_in_range total_samples sample_rate_actual) :
    ((run_frames lm w ff fb spk len (system_init lm) n).state ≠ ProcessState.CAL_FF_INIT_LOSS ∧
      (run_frames lm w ff fb spk len (system_init lm) n).state ≠ ProcessState.UPDATE_EQ_PARAMS ∧
      (run_frames lm w ff fb spk len (system_init lm) n).state
        ≠ ProcessState.UPDATE_FILTER_COEFFS) ∧
    (∀ k, (run_frames lm w ff fb spk len (system_init lm) n).prev_target_ff k = ⟨0, 0⟩) ∧
    (run_frames lm w ff fb spk len (system_init lm) n).eq_update.update_accepted = 0 ∧
    (∀ i, i < NUM_BIQUADS →
      (run_frames lm w ff fb spk len (system_init lm) n).eq_update.params i
        = eq_presets_biquads 0 i) ∧
    (run_frames lm w ff fb spk len (system_init lm) n).eq_update.total_gain_dB
      = eq_presets_total_gain_dB 0 ∧
    (∀ b, b ∈ (main_adaptation lm sim ff_signal fb_signal total_samples sample_rate_actual
        sp_ir sp_length).phase2_log → b = false) ∧
    (main_adaptation lm sim ff_signal fb_signal total_samples sample_rate_actual
        sp_ir sp_length).time_sim.simulated_fb = fb_signal ∧
    (main_adaptation lm sim ff_signal fb_signal total_samples sample_rate_actual
        sp_ir sp_length).time_sim.original_fb = fb_signal := by
  obtain ⟨h1, h2, h3⟩ := never_adapted_run_frames lm hlow w ff fb spk len n
  have hloop := adaptation_loop_invariant lm hlow (init_blackman_window lm)
    total_samples sample_rate_actual 100
    ⟨time_sim_init sim ff_signal fb_signal total_samples sp_ir sp_length, system_init lm, 0, []⟩
    (never_adapted_system_init lm) (fun b hb => absurd hb (List.not_mem_nil b))
  refine ⟨h1, ?_, ?_, ?_, ?_, hloop.2.2.2, hloop.2.1, hloop.2.2.1⟩
  · intro k
    exact congrFun (congrArg Prod.fst h2) k
  · rw [h3]; exact system_init_update_accepted lm
  · intro i hi
    simp only [h3, system_init_params, hi, if_true]
  · rw [h3]; exact system_init_total_gain_dB lm

/-- Witness of C25: 36 frames of ones under `gate_libm`, and the driver on ten seconds
of ones at 375 kHz. -/
theorem system_never_adapts_witness :
    20 * gate_libm.log10f (gate_libm.sqrtf 0 + 1 / 100000000) < -46 ∧
      main_in_range 3750000 375000 ∧
      (run_frames gate_libm (fun _ => 1) (fun _ _ => 1) (fun _ _ => 1) (fun _ _ => 0)
        (fun _ => 1875) (system_init gate_libm) 36).eq_update.update_accepted = 0 ∧
      (main_adaptation gate_libm stale_sim (fun _ => 1) (fun _ => 1) 3750000 375000
        (fun _ => 1) 1).time_sim.simulated_fb = fun _ => 1 :=
  have hr : main_in_range 3750000 375000 := by
    unfold main_in_range
    rw [iteration_samples_realtime]
    decide
  have hl : 20 * gate_libm.log10f (gate_libm.sqrtf 0 + 1 / 100000000) < -46 := by
    norm_num [gate_libm, sample_libm]
  have h := system_never_adapts gate_libm hl (fun _ => 1) (fun _ _ => 1) (fun _ _ => 1) (fun _ _ => 0)
    (fun _ => 1875) 36 stale_sim (fun _ => 1) (fun _ => 1) 3750000 375000 (fun _ => 1) 1 hr
  ⟨hl, hr, h.2.2.1, h.2.2.2.2.2.2.1⟩

/-- Claim C22, as the code behaves.  From `system_init`, whatever the input, the first
call made in `STABLE_CHECK` is call 36 (the state after 35 calls is the first in
`STABLE_CHECK`).  In that state `prev_smoothness` is 1 and every entry of `H_prev_db`
is `20 * log10f(sqrtf(0) + 1e-8)`, which is -160 dB, not 0 dB, for a math library exact
at `sqrtf(0) = 0` and `log10f(1e-8) = -8`. -/
theorem first_check_reference (lm : Libm α) (w : Nat → α) (ff fb spk : Nat → Nat → α)
    (len : Nat → Int) :
    (run_frames lm w ff fb spk len (system_init lm) 35).state = ProcessState.STABLE_CHECK ∧
    (∀ n, n < 35 →
      (run_frames lm w ff fb spk len (system_init lm) n).state ≠ ProcessState.STABLE_CHECK) ∧
    (run_frames lm w ff fb spk len (system_init lm) 35).prev_smoothness = 1 ∧
    (∀ i, i < 53 →
      band_db lm (run_frames lm w ff fb spk len (system_init lm) 35).prev_target_ff i
        = 20 * lm.log10f (lm.sqrtf 0 + 1 / 100000000)) ∧
    (lm.sqrtf 0 = 0 → lm.log10f (1 / 100000000) = -8 → ∀ i, i < 53 →
      band_db lm (run_frames lm w ff fb spk len (system_init lm) 35).prev_target_ff i
        = -160) := by
  obtain ⟨b, hb⟩ := run_frames_first_window lm w ff fb spk len
  have href := run_frames_reference lm w ff fb spk len 35 (le_refl _)
  have hprev : ∀ k, 12 ≤ k → k ≤ 64 →
      (run_frames lm w ff fb spk len (system_init lm) 35).prev_target_ff k = ⟨0, 0⟩ := by
    intro k _ _
    exact congrFun (congrArg Prod.fst href) k
  refine ⟨?_, ?_, congrArg Prod.snd href, band_db_zero_reference lm _ hprev, ?_⟩
  · have h := congrArg Ctrl.state (hb 35 (by omega))
    exact h.trans (first_check_call b)
  · intro n hn hst
    have h1 : (ctrl_of (run_frames lm w ff fb spk len (system_init lm) n)).state
        = ProcessState.STABLE_CHECK := hst
    rw [hb n (by omega)] at h1
    have := first_window_stable_check b n (by omega) h1
    omega
  · intro hsqrt hlog i hi
    rw [band_db_zero_reference lm _ hprev i hi, hsqrt, zero_add, hlog]
    norm_num

/-- The reference of the first stability check evaluated under `gate_libm` on frames of
ones: band entry 0 of `H_prev_db` is -160 dB and not 0 dB. -/
theorem first_check_reference_eval :
    band_db gate_libm (run_frames gate_libm (fun _ => 1) (fun _ _ => 1) (fun _ _ => 1)
        (fun _ _ => 0) (fun _ => 1875) (system_init gate_libm) 35).prev_target_ff 0 = -160 ∧
      band_db gate_libm (run_frames gate_libm (fun _ => 1) (fun _ _ => 1) (fun _ _ => 1)
        (fun _ _ => 0) (fun _ => 1875) (system_init gate_libm) 35).prev_target_ff 0 ≠ 0 :=
  have h := (first_check_reference gate_libm (fun _ => 1) (fun _ _ => 1) (fun _ _ => 1)
    (fun _ _ => 0) (fun _ => 1875)).2.2.2.2 (by simp [gate_libm, sample_libm])
    (by simp [gate_libm]) 0 (by decide)
  ⟨h, by rw [h]; norm_num⟩

/-! ### FFT passes per call -/

theorem ctrl_step_fft_start (c : Ctrl) (v : Bool) (hs : c.state = ProcessState.SIGNAL_PROCESS)
    (h0 : c.fft_count = 0) :
    ((ctrl_step c v).fft_count = 1 ↔ 512 ≤ c.sample_count + 160) ∧
      ((ctrl_step c v).fft_count = 0 ↔ c.sample_count + 160 < 512) := by
  obtain ⟨st, fc, n, sc, ac⟩ := c
  simp only at hs h0
  subst hs h0
  simp only [ctrl_step]
  split_ifs <;> simp at * <;> omega

theorem ctrl_step_one_pass (c : Ctrl) (v : Bool) (hs : c.state = ProcessState.SIGNAL_PROCESS)
    (h9 : c.fft_count < 9) :
    (ctrl_step c v).state = ProcessState.SIGNAL_PROCESS ∧
      (ctrl_step c v).fft_count ≤ max c.fft_count 0 + 1 ∧
      c.sample_count + 160 - 512 ≤ (ctrl_step c v).sample_count ∧
      ((ctrl_step c v).fft_count = c.fft_count + 1 →
        (ctrl_step c v).sample_count = c.sample_count + 160 - 512) := by
  obtain ⟨st, fc, n, sc, ac⟩ := c
  simp only at hs h9
  subst hs
  simp only [ctrl_step]
  split_ifs <;> simp at * <;> omega

theorem first_pass_table :
    ∀ b : Bool, ctrl_run (fun _ => b) ctrl_init 3 = ⟨ProcessState.SIGNAL_PROCESS, 3, 0, 480, 0⟩ ∧
      ctrl_run (fun _ => b) ctrl_init 4 = ⟨ProcessState.SIGNAL_PROCESS, 4, 1, 128, 1⟩ := by
  decide

/-- Claim C26, as the code behaves.  In `SIGNAL_PROCESS` with `fft_count = 0` a call
performs an FFT pass (`fft_count` becomes 1) exactly when `sample_count`, after the 160
samples of the frame are appended, is at least `FFT_HOP_SIZE = 512`, not `L = 2048`.
From `system_init`, whatever the input, call 4 performs the first FFT pass: after 3
calls `sample_count` is 480 with no pass made, and call 4 appends up to 640 samples,
makes one pass and leaves `sample_count = 128`. -/
theorem fft_start_threshold (lm : Libm α) (w : Nat → α) (ff fb spk : Nat → Nat → α)
    (len : Nat → Int) :
    (∀ (g : SystemState α) (ff_in fb_in spk_in : Nat → α) (n : Int),
      g.state = ProcessState.SIGNAL_PROCESS → g.fft_count = 0 →
      ((process_audio_frame lm w g ff_in fb_in spk_in n).fft_count = 1 ↔
        512 ≤ g.ff_buffer.sample_count + 160)) ∧
    ctrl_of (run_frames lm w ff fb spk len (system_init lm) 3)
      = ⟨ProcessState.SIGNAL_PROCESS, 3, 0, 480, 0⟩ ∧
    ctrl_of (run_frames lm w ff fb spk len (system_init lm) 4)
      = ⟨ProcessState.SIGNAL_PROCESS, 4, 1, 128, 1⟩ := by
  refine ⟨?_, ?_⟩
  · intro g ff_in fb_in spk_in n hs h0
    have hc := process_audio_frame_ctrl lm w g ff_in fb_in spk_in n
    have h := (ctrl_step_fft_start (ctrl_of g)
      (decide (gate_accepts lm g.target_ff g.prev_target_ff g.prev_smoothness)) hs h0).1
    rw [← hc] at h
    exact h
  · obtain ⟨b, hb⟩ := run_frames_first_window lm w ff fb spk len
    rw [hb 3 (by omega), hb 4 (by omega)]
    exact first_pass_table b

theorem process_audio_frame_one_pass (lm : Libm α) (w : Nat → α) (g : SystemState α)
    (ff_in fb_in spk_in : Nat → α) (n : Int) (hs : g.state = ProcessState.SIGNAL_PROCESS)
    (h9 : g.fft_count < 9) :
    (process_audio_frame lm w g ff_in fb_in spk_in n).state = ProcessState.SIGNAL_PROCESS ∧
      (process_audio_frame lm w g ff_in fb_in spk_in n).fft_count ≤ max g.fft_count 0 + 1 ∧
      g.ff_buffer.sample_count + 160 - 512
        ≤ (process_audio_frame lm w g ff_in fb_in spk_in n).ff_buffer.sample_count ∧
      ((process_audio_frame lm w g ff_in fb_in spk_in n).fft_count = g.fft_count + 1 →
        (process_audio_frame lm w g ff_in fb_in spk_in n).ff_buffer.sample_count
          = g.ff_buffer.sample_count + 160 - 512) := by
  have hc := process_audio_frame_ctrl lm w g ff_in fb_in spk_in n
  have h := ctrl_step_one_pass (ctrl_of g)
    (decide (gate_accepts lm g.target_ff g.prev_target_ff g.prev_smoothness)) hs h9
  rw [← hc] at h
  exact h

/-- Claim C28, amended.  From every `SIGNAL_PROCESS` state with `fft_count < 9` (so in
particular with `fft_count = 0`, however full the rings are) a single
`process_audio_frame` call performs at most one FFT pass: `fft_count` grows by at most
one, `sample_count` loses at most one hop of 512 after the 160 appended, exactly one hop
when a pass is made, and the machine stays in `SIGNAL_PROCESS`. -/
theorem one_fft_pass_per_call (lm : Libm α) (w : Nat → α) (g : SystemState α)
    (ff_in fb_in spk_in : Nat → α) (n : Int) (hs : g.state = ProcessState.SIGNAL_PROCESS)
    (h9 : g.fft_count < 9) :
    (process_audio_frame lm w g ff_in fb_in spk_in n).state = ProcessState.SIGNAL_PROCESS ∧
      (process_audio_frame lm w g ff_in fb_in spk_in n).fft_count ≤ max g.fft_count 0 + 1 ∧
      g.ff_buffer.sample_count + 160 - 512
        ≤ (process_audio_frame lm w g ff_in fb_in spk_in n).ff_buffer.sample_count ∧
      ((process_audio_frame lm w g ff_in fb_in spk_in n).fft_count = g.fft_count + 1 →
        (process_audio_frame lm w g ff_in fb_in spk_in n).ff_buffer.sample_count
          = g.ff_buffer.sample_count + 160 - 512) :=
  process_audio_frame_one_pass lm w g ff_in fb_in spk_in n hs h9

/-- Witness of C28 (amended): the full-ring state. -/
theorem one_fft_pass_per_call_witness :
    full_ring_state.state = ProcessState.SIGNAL_PROCESS ∧ full_ring_state.fft_count < 9 ∧
      (process_audio_frame sample_libm (fun _ => 1) full_ring_state (fun _ => 1) (fun _ => 1)
        (fun _ => 0) 1875).state = ProcessState.SIGNAL_PROCESS :=
  ⟨rfl, by decide,
    (one_fft_pass_per_call sample_libm (fun _ => 1) full_ring_state (fun _ => 1) (fun _ => 1)
      (fun _ => 0) 1875 rfl (by decide)).1⟩

/-- Counterexample to C28 as stated: from the full-ring state (`sample_count = 5120`,
`fft_count = 0`) one call makes one FFT pass, not ten, and ends in `SIGNAL_PROCESS`, not
`CAL_MU`; and no `SIGNAL_PROCESS` state with `fft_count = 0` is taken to `CAL_MU` by a
single call, whatever the frame. -/
theorem one_fft_pass_counterexample :
    ctrl_of (process_audio_frame sample_libm (fun _ => 1) full_ring_state (fun _ => 1)
        (fun _ => 1) (fun _ => 0) 1875)
      = ⟨ProcessState.SIGNAL_PROCESS, 33, 1, 4768, 1⟩ ∧
    ¬ ∃ (g : SystemState ℚ) (ff_in fb_in spk_in : Nat → ℚ) (n : Int),
      g.state = ProcessState.SIGNAL_PROCESS ∧ g.fft_count = 0 ∧
        (process_audio_frame sample_libm (fun _ => 1) g ff_in fb_in spk_in n).state
          = ProcessState.CAL_MU := by
  constructor
  · rw [process_audio_frame_ctrl]
    generalize decide (gate_accepts sample_libm full_ring_state.target_ff
      full_ring_state.prev_target_ff full_ring_state.prev_smoothness) = b
    revert b
    decide
  · rintro ⟨g, ff_in, fb_in, spk_in, n, hs, h0, hmu⟩
    have h := (process_audio_frame_one_pass sample_libm (fun _ => 1) g ff_in fb_in spk_in n hs
      (by rw [h0]; decide)).1
    rw [h] at hmu
    exact ProcessState.noConfusion hmu

/-! ### The binary32 source index of the decimator -/

theorem round_half_even_near (x : ℚ) :
    ((round_half_even x : Int) : ℚ) ≤ x + 1 / 2 ∧ x - 1 / 2 ≤ ((round_half_even x : Int) : ℚ) := by
  have h1 : ((Rat.floor x : Int) : ℚ) ≤ x := Int.floor_le x
  have h2 : x < ((Rat.floor x : Int) : ℚ) + 1 := Int.lt_floor_add_one x
  unfold round_half_even
  dsimp only
  split_ifs with a b c
  · constructor <;> linarith
  · push_cast; constructor <;> linarith
  · constructor <;> linarith
  · push_cast; constructor <;> linarith

theorem round_half_even_int (n : Int) : round_half_even (n : ℚ) = n := by
  unfold round_half_even
  have h : Rat.floor (n : ℚ) = n := rat_floor_eq _ n (le_refl _) (by linarith)
  simp only [h, sub_self]
  norm_num

theorem round_half_even_eq (x : ℚ) (n : Int) (h1 : (n : ℚ) - 1 / 2 < x)
    (h2 : x < (n : ℚ) + 1 / 2) : round_half_even x = n := by
  obtain ⟨a, b⟩ := round_half_even_near x
  have c1 : ((round_half_even x : Int) : ℚ) < (n : ℚ) + 1 := by linarith
  have c2 : (n : ℚ) - 1 < ((round_half_even x : Int) : ℚ) := by linarith
  have d1 : round_half_even x < n + 1 := by exact_mod_cast c1
  have d2 : n - 1 < round_half_even x := by exact_mod_cast c2
  omega

theorem round_half_even_nonneg (x : ℚ) (hx : 0 ≤ x) : 0 ≤ round_half_even x := by
  obtain ⟨_, b⟩ := round_half_even_near x
  have c : (-1 : ℚ) < ((round_half_even x : Int) : ℚ) := by linarith
  have d : -1 < round_half_even x := by exact_mod_cast c
  omega

/-- The rounding error of `round_binary32` on a nonnegative value: relative `2^-24`, or
absolute `2^-150` below the normal range. -/
theorem round_binary32_upper (x : ℚ) (hx : 0 ≤ x) :
    0 ≤ round_binary32 x ∧
      round_binary32 x ≤ x * (1 + 1 / 16777216) + 1 / 2 ^ 150 := by
  unfold round_binary32
  by_cases h0 : x = 0
  · rw [if_pos h0, h0]
    norm_num
  · rw [if_neg h0]
    have hpos : 0 < x := lt_of_le_of_ne hx (Ne.symm h0)
    dsimp only
    rw [abs_of_pos hpos]
    generalize he : max (Int.log 2 x) (-126) = e
    have hu : (0 : ℚ) < 2 ^ (e - 23) := by positivity
    obtain ⟨a, _⟩ := round_half_even_near (x / 2 ^ (e - 23))
    have hn := round_half_even_nonneg (x / 2 ^ (e - 23)) (by positivity)
    have hn' : (0 : ℚ) ≤ ((round_half_even (x / 2 ^ (e - 23)) : Int) : ℚ) := by exact_mod_cast hn
    refine ⟨by positivity, ?_⟩
    have h1 : ((round_half_even (x / 2 ^ (e - 23)) : Int) : ℚ) * 2 ^ (e - 23)
        ≤ x + 2 ^ (e - 23) / 2 := by
      have := mul_le_mul_of_nonneg_right a (le_of_lt hu)
      rw [add_mul, div_mul_cancel₀ _ (ne_of_gt hu)] at this
      linarith
    have h2 : (2 : ℚ) ^ (e - 23) / 2 ≤ x * (1 / 16777216) + 1 / 2 ^ 150 := by
      have e24 : (2 : ℚ) ^ (e - 23) / 2 = 2 ^ e * (1 / 16777216) := by
        rw [zpow_sub₀ (by norm_num)]
        norm_num
        ring
      rw [e24]
      rcases le_total (Int.log 2 x) (-126) with hc | hc
      · rw [max_eq_right hc] at he
        subst he
        have : (0 : ℚ) ≤ x * (1 / 16777216) := by positivity
        have e2 : (2 : ℚ) ^ (-126 : Int) * (1 / 16777216) = 1 / 2 ^ 150 := by
          rw [zpow_neg]
          norm_num
        rw [e2]
        linarith
      · rw [max_eq_left hc] at he
        subst he
        have h3 : ((2 : Nat) : ℚ) ^ Int.log 2 x ≤ x := Int.zpow_log_le_self (by norm_num) hpos
        have h3' : (2 : ℚ) ^ Int.log 2 x ≤ x := by exact_mod_cast h3
        have : (0 : ℚ) ≤ 1 / 2 ^ 150 := by positivity
        have := mul_le_mul_of_nonneg_right h3' (show (0 : ℚ) ≤ 1 / 16777216 by norm_num)
        linarith
    linarith

theorem binary32_log_eq (x : ℚ) (e : Int) (h1 : (2 : ℚ) ^ e ≤ x) (h2 : x < (2 : ℚ) ^ (e + 1)) :
    Int.log 2 x = e := by
  have hpos : 0 < x := lt_of_lt_of_le (by positivity) h1
  have a : e ≤ Int.log 2 x := by
    rw [← Int.zpow_le_iff_le_log (by norm_num) hpos]
    exact_mod_cast h1
  have b : Int.log 2 x < e + 1 := by
    rw [← Int.lt_zpow_iff_log_lt (by norm_num) hpos]
    exact_mod_cast h2
  omega

/-- Evaluation of `round_binary32` on a positive normal value: in the binade
`[2^e, 2^(e+1))` the result is `n * 2^(e-23)` for the integer `n` within `1/2` of the
scaled value. -/
theorem round_binary32_eq (x : ℚ) (e n : Int) (he : -126 ≤ e) (h1 : (2 : ℚ) ^ e ≤ x)
    (h2 : x < (2 : ℚ) ^ (e + 1)) (h3 : (n : ℚ) - 1 / 2 < x / 2 ^ (e - 23))
    (h4 : x / 2 ^ (e - 23) < (n : ℚ) + 1 / 2) :
    round_binary32 x = (n : ℚ) * 2 ^ (e - 23) := by
  have hpos : 0 < x := lt_of_lt_of_le (by positivity) h1
  unfold round_binary32
  rw [if_neg (ne_of_gt hpos)]
  dsimp only
  rw [abs_of_pos hpos, binary32_log_eq x e h1 h2, max_eq_left he,
    round_half_even_eq _ n h3 h4]

/-- A value `n * 2^k` with `|n| < 2^24` and `k >= -149` is a binary32 value:
`round_binary32` returns it unchanged. -/
theorem round_binary32_exact (n k : Int) (hn : |n| < 16777216) (hk : -149 ≤ k) :
    round_binary32 ((n : ℚ) * 2 ^ k) = (n : ℚ) * 2 ^ k := by
  unfold round_binary32
  by_cases h0 : (n : ℚ) * 2 ^ k = 0
  · rw [if_pos h0, h0]
  · rw [if_neg h0]
    dsimp only
    have hn0 : n ≠ 0 := by
      intro h
      apply h0
      rw [h]
      simp
    have habs : |(n : ℚ) * 2 ^ k| = (|n| : Int) * 2 ^ k := by
      rw [abs_mul, abs_of_pos (show (0 : ℚ) < 2 ^ k by positivity)]
      push_cast
      rfl
    have hpos : (0 : ℚ) < |(n : ℚ) * 2 ^ k| := abs_pos.mpr h0
    have hlog : Int.log 2 |(n : ℚ) * 2 ^ k| < 24 + k := by
      rw [← Int.lt_zpow_iff_log_lt (by norm_num) hpos, habs]
      have hq : ((|n| : Int) : ℚ) < 16777216 := by exact_mod_cast hn
      have : ((|n| : Int) : ℚ) * 2 ^ k < 16777216 * 2 ^ k :=
        mul_lt_mul_of_pos_right hq (by positivity)
      have e2 : ((2 : Nat) : ℚ) ^ (24 + k) = 16777216 * 2 ^ k := by
        rw [zpow_add₀ (by norm_num)]
        norm_num
      rw [e2]
      exact this
    generalize he : max (Int.log 2 |(n : ℚ) * 2 ^ k|) (-126) = e
    have hle : e - 23 ≤ k := by
      rw [← he]
      rcases le_total (Int.log 2 |(n : ℚ) * 2 ^ k|) (-126) with hc | hc
      · rw [max_eq_right hc]; omega
      · rw [max_eq_left hc]; omega
    obtain ⟨j, hj⟩ : ∃ j : Nat, k = (e - 23) + (j : Int) := ⟨(k - (e - 23)).toNat, by omega⟩
    have hm : (n : ℚ) * 2 ^ k / 2 ^ (e - 23) = ((n * 2 ^ j : Int) : ℚ) := by
      rw [hj, zpow_add₀ (by norm_num), zpow_natCast]
      push_cast
      field_simp
      ring
    rw [hm, round_half_even_int]
    rw [hj, zpow_add₀ (by norm_num), zpow_natCast]
    push_cast
    ring

/-! ### Decimation and the ring buffers -/

theorem decimate_index (i F : Nat) :
    toInt ((i : ℚ) * (((F : Int) : ℚ) / ((160 : Nat) : ℚ))) = ((i * F / 160 : Nat) : Int) := by
  have h0 : (0 : ℚ) ≤ (i : ℚ) * (((F : Int) : ℚ) / ((160 : Nat) : ℚ)) := by positivity
  unfold toInt
  rw [if_pos h0]
  have h1 := Nat.div_mul_le_self (i * F) 160
  have h2 := Nat.lt_div_mul_add (a := i * F) (b := 160) (by norm_num)
  generalize i * F / 160 = q at h1 h2 ⊢
  have h1' : ((q : ℚ)) * 160 ≤ (i : ℚ) * (F : ℚ) := by exact_mod_cast h1
  have h2' : (i : ℚ) * (F : ℚ) < (q : ℚ) * 160 + 160 := by exact_mod_cast h2
  apply rat_floor_eq
  · push_cast
    rw [mul_div_assoc', le_div_iff₀ (by norm_num)]
    exact h1'
  · push_cast
    rw [mul_div_assoc', div_lt_iff₀ (by norm_num)]
    linarith

theorem round_binary32_nat (n : Nat) (hn : n < 16777216) :
    round_binary32 (n : ℚ) = (n : ℚ) := by
  have h := round_binary32_exact (n : Int) 0 (by rw [abs_of_nonneg (by positivity)]; omega)
    (by norm_num)
  simpa using h

theorem round_binary32_dyadic (n k : Nat) (hn : n < 16777216) (hk : k ≤ 149) :
    round_binary32 ((n : ℚ) / 2 ^ k) = (n : ℚ) / 2 ^ k := by
  have h := round_binary32_exact (n : Int) (-(k : Int))
    (by rw [abs_of_nonneg (by positivity)]; omega) (by omega)
  have e : ((n : Int) : ℚ) * 2 ^ (-(k : Int)) = (n : ℚ) / 2 ^ k := by
    rw [zpow_neg, zpow_natCast]
    push_cast
    ring
  rw [e] at h
  exact h

theorem toInt_floor_nonneg (x : ℚ) (hx : 0 ≤ x) : 0 ≤ toInt x ∧ ((toInt x : Int) : ℚ) ≤ x := by
  unfold toInt
  rw [if_pos hx]
  have h1 : ((Rat.floor x : Int) : ℚ) ≤ x := Int.floor_le x
  have h2 : (0 : Int) ≤ Rat.floor x := Int.floor_nonneg.mpr hx
  exact ⟨h2, h1⟩

/-- For a frame length that is a multiple of 5 (up to 500000) the binary32 products of
`anti_alias_decimate` are exact and the source index is `floor(i * F / 160)`. -/
theorem decimate_src_idx_exact (F i : Nat) (h5 : F % 5 = 0) (hF : F ≤ 500000) (hi : i < 160) :
    decimate_src_idx (F : Int) 160 i = ((i * F / 160 : Nat) : Int) := by
  obtain ⟨q, hq⟩ : ∃ q, F = 5 * q := ⟨F / 5, by omega⟩
  unfold decimate_src_idx
  dsimp only
  have e1 : round_binary32 (((F : Int) : ℚ)) = (F : ℚ) := by
    have := round_binary32_nat F (by omega)
    exact_mod_cast this
  have e2 : round_binary32 (((160 : Nat) : ℚ)) = 160 := by
    have := round_binary32_nat 160 (by norm_num)
    exact_mod_cast this
  have e3 : round_binary32 ((i : ℚ)) = (i : ℚ) := round_binary32_nat i (by omega)
  have e4 : (F : ℚ) / 160 = (q : ℚ) / 2 ^ 5 := by
    rw [hq]
    push_cast
    ring
  have e5 : round_binary32 ((q : ℚ) / 2 ^ 5) = (q : ℚ) / 2 ^ 5 :=
    round_binary32_dyadic q 5 (by omega) (by norm_num)
  have e6 : (i : ℚ) * ((q : ℚ) / 2 ^ 5) = ((i * q : Nat) : ℚ) / 2 ^ 5 := by
    push_cast
    ring
  have hiq : i * q < 16777216 := by
    have : i * q ≤ 159 * 100000 := Nat.mul_le_mul (by omega) (by omega)
    omega
  have e7 : round_binary32 (((i * q : Nat) : ℚ) / 2 ^ 5) = ((i * q : Nat) : ℚ) / 2 ^ 5 :=
    round_binary32_dyadic (i * q) 5 hiq (by norm_num)
  rw [e1, e2, e3, e4, e5, e6, e7]
  have h := decimate_index i F
  have e8 : (i : ℚ) * (((F : Int) : ℚ) / ((160 : Nat) : ℚ)) = ((i * q : Nat) : ℚ) / 2 ^ 5 := by
    rw [hq]
    push_cast
    ring
  rw [e8] at h
  exact h

/-- The source index of `anti_alias_decimate` is inside the frame: for every frame
length that is an `int` and at least 1, `0 <= src_idx < F`. -/
theorem decimate_src_idx_lt (F i : Nat) (hF : 1 ≤ F) (hi : i < 160) :
    0 ≤ decimate_src_idx (F : Int) 160 i ∧ decimate_src_idx (F : Int) 160 i < (F : Int) := by
  unfold decimate_src_idx
  dsimp only
  have e2 : round_binary32 (((160 : Nat) : ℚ)) = 160 := by
    have := round_binary32_nat 160 (by norm_num)
    exact_mod_cast this
  have e3 : round_binary32 ((i : ℚ)) = (i : ℚ) := round_binary32_nat i (by omega)
  rw [e2, e3]
  have hFq : (1 : ℚ) ≤ ((F : Int) : ℚ) := by exact_mod_cast hF
  have hsmall : (1 : ℚ) / 2 ^ 150 ≤ 1 / 1000000000 := by norm_num
  obtain ⟨a0, a1⟩ := round_binary32_upper (((F : Int) : ℚ)) (by linarith)
  generalize round_binary32 (((F : Int) : ℚ)) = F1 at a0 a1 ⊢
  obtain ⟨b0, b1⟩ := round_binary32_upper (F1 / 160) (by positivity)
  generalize round_binary32 (F1 / 160) = r at b0 b1 ⊢
  have hiq : (i : ℚ) ≤ 159 := by
    have : i ≤ 159 := by omega
    exact_mod_cast this
  have hi0 : (0 : ℚ) ≤ (i : ℚ) := by positivity
  obtain ⟨c0, c1⟩ := round_binary32_upper ((i : ℚ) * r) (by positivity)
  generalize round_binary32 ((i : ℚ) * r) = p at c0 c1 ⊢
  have hir : (i : ℚ) * r ≤ 159 * r := mul_le_mul_of_nonneg_right hiq b0
  obtain ⟨t0, t1⟩ := toInt_floor_nonneg p c0
  refine ⟨t0, ?_⟩
  have hlt : ((toInt p : Int) : ℚ) < ((F : Int) : ℚ) := by
    generalize ((F : Int) : ℚ) = Fq at hFq a1 ⊢
    linarith
  exact_mod_cast hlt

/-- The tail frame `F = 84`: `(float)84 / (float)160` rounds down to
`8808038 * 2^-24`, the product with 120 rounds to `16515071 * 2^-18`, just below 63, and
the cast gives 62, while `floor(120 * 84 / 160) = 63`. -/
theorem decimate_src_idx_84 :
    decimate_src_idx 84 160 120 = 62 ∧ 120 * 84 / 160 = 63 := by
  refine ⟨?_, by decide⟩
  unfold decimate_src_idx
  dsimp only
  have e1 : round_binary32 (((84 : Int) : ℚ)) = 84 := by
    have := round_binary32_nat 84 (by norm_num)
    exact_mod_cast this
  have e2 : round_binary32 (((160 : Nat) : ℚ)) = 160 := by
    have := round_binary32_nat 160 (by norm_num)
    exact_mod_cast this
  have e3 : round_binary32 (((120 : Nat) : ℚ)) = 120 := by
    have := round_binary32_nat 120 (by norm_num)
    exact_mod_cast this
  have e4 : round_binary32 ((84 : ℚ) / 160) = 8808038 / 16777216 := by
    have := round_binary32_eq (84 / 160) (-1) 8808038 (by norm_num) (by norm_num)
      (by norm_num) (by norm_num) (by norm_num)
    rw [this]
    norm_num
  have e5 : round_binary32 ((120 : ℚ) * (8808038 / 16777216)) = 16515071 / 262144 := by
    have := round_binary32_eq (120 * (8808038 / 16777216)) 5 16515071 (by norm_num)
      (by norm_num) (by norm_num) (by norm_num) (by norm_num)
    rw [this]
    norm_num
  rw [e1, e2, e3, e4, e5]
  unfold toInt
  rw [if_pos (by norm_num)]
  apply rat_floor_eq <;> norm_num

theorem anti_alias_decimate_apply (input : Nat → α) (F : Nat) (hF : 1 ≤ F) (i : Nat)
    (hi : i < 160) :
    anti_alias_decimate input (F : Int) (fun _ => 0) 160 i
      = input (decimate_src_idx (F : Int) 160 i).toNat := by
  unfold anti_alias_decimate
  have key : ∀ n, n ≤ 160 → ∀ k, k < n →
      forLoop n (fun (i : Nat) (output : Nat → α) =>
        if decimate_src_idx (F : Int) 160 i < (F : Int) then
          Function.update output i (input (decimate_src_idx (F : Int) 160 i).toNat)
        else output) (fun _ => 0) k = input (decimate_src_idx (F : Int) 160 k).toNat := by
    intro n
    induction n with
    | zero => intro _ k hk; omega
    | succ n ih =>
      intro hn k hk
      rw [forLoop_succ, if_pos (decimate_src_idx_lt F n hF (by omega)).2]
      by_cases hkn : k = n
      · subst hkn; rw [Function.update_same]
      · rw [Function.update_noteq hkn]
        exact ih (by omega) k (by omega)
  exact key 160 (le_refl _) i hi

theorem push_loop_split (d1 d2 d3 : Nat → α)
    (b : TimeBuffer α × TimeBuffer α × TimeBuffer α) (n : Nat) :
    forLoop n (fun i (b : TimeBuffer α × TimeBuffer α × TimeBuffer α) =>
        (push_sample b.1 (d1 i), push_sample b.2.1 (d2 i), push_sample b.2.2 (d3 i))) b
      = (forLoop n (fun i buf => push_sample buf (d1 i)) b.1,
          forLoop n (fun i buf => push_sample buf (d2 i)) b.2.1,
          forLoop n (fun i buf => push_sample buf (d3 i)) b.2.2) := by
  induction n with
  | zero => simp only [forLoop_zero]
  | succ n ih => simp only [forLoop_succ, ih]

theorem push_loop_single (d : Nat → α) (b : TimeBuffer α) (hw : b.write_index < FFT_LENGTH)
    (n : Nat) (hn : n ≤ FFT_LENGTH) :
    (forLoop n (fun i buf => push_sample buf (d i)) b).write_index
        = (b.write_index + n) % FFT_LENGTH ∧
      (∀ i, i < n →
        (forLoop n (fun i buf => push_sample buf (d i)) b).data
            ((b.write_index + i) % FFT_LENGTH) = d i) ∧
      (∀ j, (∀ i, i < n → j ≠ (b.write_index + i) % FFT_LENGTH) →
        (forLoop n (fun i buf => push_sample buf (d i)) b).data j = b.data j) := by
  unfold FFT_LENGTH at *
  induction n with
  | zero =>
    rw [forLoop_zero]
    exact ⟨by rw [Nat.add_zero, Nat.mod_eq_of_lt hw], fun i hi => absurd hi (Nat.not_lt_zero i),
      fun _ _ => rfl⟩
  | succ n ih =>
    obtain ⟨h1, h2, h3⟩ := ih (by omega)
    rw [forLoop_succ]
    generalize forLoop n (fun i buf => push_sample buf (d i)) b = L at h1 h2 h3 ⊢
    show (L.write_index + 1) % 2048 = _ ∧
      (∀ i, i < n + 1 →
        Function.update L.data L.write_index (d n) ((b.write_index + i) % 2048) = d i) ∧
      (∀ j, (∀ i, i < n + 1 → j ≠ (b.write_index + i) % 2048) →
        Function.update L.data L.write_index (d n) j = b.data j)
    rw [h1]
    refine ⟨by omega, ?_, ?_⟩
    · intro i hi
      by_cases hin : i = n
      · subst hin; rw [Function.update_same]
      · rw [Function.update_noteq (by omega)]
        exact h2 i (by omega)
    · intro j hj
      rw [Function.update_noteq (hj n (by omega))]
      exact h3 j (fun i hi => hj i (by omega))

theorem ring_appended_push (input : Nat → α) (F : Nat) (hF : 1 ≤ F) (b : TimeBuffer α)
    (hw : b.write_index < FFT_LENGTH) :
    ring_appended b
      (forLoop 160 (fun i buf =>
        push_sample buf (anti_alias_decimate input (F : Int) (fun _ => 0) 160 i)) b)
      input F := by
  obtain ⟨h1, h2, h3⟩ := push_loop_single
    (anti_alias_decimate input (F : Int) (fun _ => 0) 160) b hw 160 (by decide)
  refine ⟨h1, ?_, h3⟩
  intro i hi
  rw [h2 i hi, anti_alias_decimate_apply input F hF i hi]

theorem ring_appended_congr (old new new2 : TimeBuffer α) (input : Nat → α) (F : Nat)
    (hd : new2.data = new.data) (hw : new2.write_index = new.write_index)
    (h : ring_appended old new input F) : ring_appended old new2 input F := by
  unfold ring_appended at *
  rw [hd, hw]
  exact h

theorem buffer_frame_appends (g : SystemState α) (ff_in fb_in spk_in : Nat → α) (F : Nat)
    (hF : 1 ≤ F) (hff : g.ff_buffer.write_index < FFT_LENGTH)
    (hfb : g.fb_buffer.write_index < FFT_LENGTH) (hspk : g.spk_buffer.write_index < FFT_LENGTH) :
    ring_appended g.ff_buffer (buffer_frame g ff_in fb_in spk_in F).ff_buffer ff_in F ∧
      ring_appended g.fb_buffer (buffer_frame g ff_in fb_in spk_in F).fb_buffer fb_in F ∧
      ring_appended g.spk_buffer (buffer_frame g ff_in fb_in spk_in F).spk_buffer spk_in F := by
  unfold buffer_frame
  simp only [SAMPLES_PER_INTERVAL_eq, push_loop_split]
  exact ⟨ring_appended_congr _ _ _ _ _ rfl rfl (ring_appended_push ff_in F hF _ hff),
    ring_appended_congr _ _ _ _ _ rfl rfl (ring_appended_push fb_in F hF _ hfb),
    ring_appended_congr _ _ _ _ _ rfl rfl (ring_appended_push spk_in F hF _ hspk)⟩

theorem rings_part_same_analysis (s t : SystemState α) (h : same_analysis s t) :
    rings_part t = rings_part s := by
  unfold same_analysis at h
  rw [h]
  rfl

theorem rings_part_with_state (x : SystemState α) (st : ProcessState) :
    rings_part { x with state := st } = rings_part x := rfl

theorem rings_part_with_restart (x : SystemState α) :
    rings_part { x with state := ProcessState.SIGNAL_PROCESS, frame_count := 0, fft_count := 0 }
      = rings_part x := rfl

theorem rings_part_signal_process (lm : Libm α) (w : Nat → α) (s : SystemState α) :
    rings_part (signal_process lm w s) = rings_part s := by
  simp only [signal_process]
  split_ifs <;> rfl

theorem rings_part_stable_check (lm : Libm α) (s : SystemState α) :
    rings_part (stable_check lm s) = rings_part s := by
  unfold stable_check
  rw [check_target_stability_eq]
  split_ifs <;> simp_all [rings_part, set_prev_smoothness]

theorem rings_part_process_audio_frame (lm : Libm α) (w : Nat → α) (g : SystemState α)
    (ff_in fb_in spk_in : Nat → α) (n : Int) :
    rings_part (process_audio_frame lm w g ff_in fb_in spk_in n)
      = rings_part (buffer_frame g ff_in fb_in spk_in n) := by
  rw [process_audio_frame_eq]
  generalize buffer_frame g ff_in fb_in spk_in n = g1
  cases g.state
  · exact rings_part_signal_process lm w _
  · exact (rings_part_with_state _ _).trans rfl
  · exact (rings_part_with_state _ _).trans
      (rings_part_same_analysis _ _ (same_analysis_calculate_ff_response lm _))
  · exact (rings_part_with_state _ _).trans rfl
  · exact rings_part_stable_check lm _
  · exact (rings_part_with_state _ _).trans
      (rings_part_same_analysis _ _ (same_analysis_calculate_ff_init_loss lm _))
  · exact (rings_part_with_state _ _).trans
      (rings_part_same_analysis _ _ (same_analysis_update_eq_params lm _))
  · exact (rings_part_with_restart _).trans
      (rings_part_same_analysis _ _ (same_analysis_update_filter_coeffs lm _))

theorem process_audio_frame_appends (lm : Libm α) (w : Nat → α) (g : SystemState α)
    (ff_in fb_in spk_in : Nat → α) (F : Nat) (hF : 1 ≤ F)
    (hff : g.ff_buffer.write_index < FFT_LENGTH) (hfb : g.fb_buffer.write_index < FFT_LENGTH)
    (hspk : g.spk_buffer.write_index < FFT_LENGTH) :
    ring_appended g.ff_buffer (process_audio_frame lm w g ff_in fb_in spk_in F).ff_buffer
        ff_in F ∧
      ring_appended g.fb_buffer (process_audio_frame lm w g ff_in fb_in spk_in F).fb_buffer
        fb_in F ∧
      ring_appended g.spk_buffer (process_audio_frame lm w g ff_in fb_in spk_in F).spk_buffer
        spk_in F := by
  obtain ⟨h1, h2, h3⟩ := buffer_frame_appends g ff_in fb_in spk_in F hF hff hfb hspk
  have e := rings_part_process_audio_frame lm w g ff_in fb_in spk_in (F : Int)
  unfold rings_part at e
  simp only [Prod.mk.injEq] at e
  obtain ⟨⟨e1, e2⟩, ⟨e3, e4⟩, e5, e6⟩ := e
  exact ⟨ring_appended_congr _ _ _ _ _ e1 e2 h1, ring_appended_congr _ _ _ _ _ e3 e4 h2,
    ring_appended_congr _ _ _ _ _ e5 e6 h3⟩

theorem spec_decimated_length_160 (F : Nat) :
    spec_decimated_length F = 160 ↔ 1864 ≤ F ∧ F ≤ 1875 := by
  unfold spec_decimated_length DSP_SAMPLE_RATE REALTIME_SAMPLE_RATE
  constructor
  · intro h
    have h1 := Nat.div_mul_le_self (F * 32000 + 375000 - 1) 375000
    have h2 := Nat.lt_div_mul_add (a := F * 32000 + 375000 - 1) (b := 375000) (by norm_num)
    rw [h] at h1 h2
    omega
  · rintro ⟨h1, h2⟩
    apply Nat.div_eq_of_lt_le <;> omega

/-- Claim C29, amended.  For every frame of `F >= 1` realtime samples (`F` an `int`)
and rings whose write indices are inside the ring, `process_audio_frame` appends exactly
`SAMPLES_PER_INTERVAL = 160` decimated samples to each of the three rings, whatever `F`
is: appended sample `i` is `input[src_idx(i)]` with `src_idx(i) = (int)(i * ratio)`,
`ratio = (float)F / (float)160`, evaluated in binary32 as the code does, and every such
source index is below `F`.  When `F` is a multiple of 5 up to 500000 (the nominal 1875
is one) the binary32 operations are exact and `src_idx(i) = floor(i * F / 160)`; for
other lengths the index can be one less: the tail frame `F = 84` reads `input[62]` at
`i = 120`, where `floor(120 * 84 / 160) = 63`.  The count 160 is the claimed
`F' = ceil(F * 32000 / 375000)` exactly for `1864 <= F <= 1875`. -/
theorem decimation_length (lm : Libm α) (w : Nat → α) (g : SystemState α)
    (ff_in fb_in spk_in : Nat → α) (F : Nat) (hF : 1 ≤ F) (_hint : (F : Int) < 2 ^ 31)
    (hff : g.ff_buffer.write_index < FFT_LENGTH) (hfb : g.fb_buffer.write_index < FFT_LENGTH)
    (hspk : g.spk_buffer.write_index < FFT_LENGTH) :
    ring_appended g.ff_buffer (process_audio_frame lm w g ff_in fb_in spk_in F).ff_buffer
        ff_in F ∧
      ring_appended g.fb_buffer (process_audio_frame lm w g ff_in fb_in spk_in F).fb_buffer
        fb_in F ∧
      ring_appended g.spk_buffer (process_audio_frame lm w g ff_in fb_in spk_in F).spk_buffer
        spk_in F ∧
      (∀ i, i < 160 →
        0 ≤ decimate_src_idx (F : Int) 160 i ∧ decimate_src_idx (F : Int) 160 i < (F : Int)) ∧
      (F % 5 = 0 → F ≤ 500000 → ∀ i, i < 160 →
        decimate_src_idx (F : Int) 160 i = ((i * F / 160 : Nat) : Int)) ∧
      (decimate_src_idx 84 160 120 = 62 ∧ 120 * 84 / 160 = 63) ∧
      (spec_decimated_length F = 160 ↔ 1864 ≤ F ∧ F ≤ 1875) := by
  obtain ⟨h1, h2, h3⟩ := process_audio_frame_appends lm w g ff_in fb_in spk_in F hF hff hfb hspk
  exact ⟨h1, h2, h3, fun i hi => decimate_src_idx_lt F i hF hi,
    fun h5 hmax i hi => decimate_src_idx_exact F i h5 hmax hi, decimate_src_idx_84,
    spec_decimated_length_160 F⟩

/-- Witness of C29 (amended): a nominal frame of 1875 samples into the zero state. -/
theorem decimation_length_witness :
    1 ≤ 1875 ∧ ((1875 : Nat) : Int) < 2 ^ 31 ∧
      (zero_state : SystemState ℚ).ff_buffer.write_index < FFT_LENGTH ∧
      (zero_state : SystemState ℚ).fb_buffer.write_index < FFT_LENGTH ∧
      (zero_state : SystemState ℚ).spk_buffer.write_index < FFT_LENGTH ∧
      ring_appended (zero_state : SystemState ℚ).ff_buffer
        (process_audio_frame sample_libm (fun _ => 1) zero_state ramp_input ramp_input
          (fun _ => 0) (1875 : Nat)).ff_buffer ramp_input 1875 :=
  ⟨by decide, by decide, by decide, by decide, by decide,
    (decimation_length sample_libm (fun _ => 1) zero_state ramp_input ramp_input (fun _ => 0)
      1875 (by decide) (by decide) (by decide) (by decide) (by decide)).1⟩

/-- Counterexample to C29 as stated: a frame of `F = 100` samples of the ramp
`input[j] = j + 1` into the zero state.  The claim gives `F' = 9` appended samples with
sample 1 equal to `input[floor(100 / 9)] = input[11] = 12`; the code advances the write
index by 160, stores `input[0] = 1` as sample 1 and stores a tenth sample,
`input[5] = 6`, in slot 9 (for `F = 100` the binary32 index is exact). -/
theorem decimation_length_counterexample :
    spec_decimated_length 100 = 9 ∧ ramp_input (1 * 100 / 9) = 12 ∧
      (process_audio_frame sample_libm (fun _ => 1) zero_state ramp_input ramp_input
        (fun _ => 0) (100 : Nat)).ff_buffer.write_index = 160 ∧
      (process_audio_frame sample_libm (fun _ => 1) zero_state ramp_input ramp_input
        (fun _ => 0) (100 : Nat)).ff_buffer.data 1 = 1 ∧
      (process_audio_frame sample_libm (fun _ => 1) zero_state ramp_input ramp_input
        (fun _ => 0) (100 : Nat)).ff_buffer.data 9 = 6 := by
  obtain ⟨h1, h2, _⟩ := (process_audio_frame_appends sample_libm (fun _ => 1) zero_state
    ramp_input ramp_input (fun _ => 0) 100 (by decide) (by decide) (by decide) (by decide)).1
  have e1 := h2 1 (by decide)
  have e9 := h2 9 (by decide)
  rw [decimate_src_idx_exact 100 1 (by decide) (by decide) (by decide), Int.toNat_ofNat] at e1
  rw [decimate_src_idx_exact 100 9 (by decide) (by decide) (by decide), Int.toNat_ofNat] at e9
  refine ⟨by decide, by norm_num [ramp_input], h1, ?_, ?_⟩
  · exact e1.trans (by norm_num [ramp_input])
  · exact e9.trans (by norm_num [ramp_input])

/-! ### The order of the FFT input -/

theorem apply_window_apply (w buffer out : Nat → α) (length i : Nat) (hi : i < length) :
    apply_window w buffer out length i = buffer i * w i := by
  unfold apply_window
  rw [forLoop_update_apply, if_pos hi]

/-- Pushing a sample shifts the chronological view by one and puts the new sample
last. -/
theorem ring_chronological_push (buf : TimeBuffer α) (x : α)
    (hw : buf.write_index < FFT_LENGTH) (i : Nat) (hi : i < FFT_LENGTH) :
    ring_chronological (push_sample buf x) i
      = if i = FFT_LENGTH - 1 then x else ring_chronological buf (i + 1) := by
  unfold ring_chronological push_sample FFT_LENGTH at *
  show Function.update buf.data buf.write_index x (((buf.write_index + 1) % 2048 + i) % 2048) = _
  split_ifs with h
  · have e : ((buf.write_index + 1) % 2048 + i) % 2048 = buf.write_index := by omega
    rw [e, Function.update_same]
  · have e : ((buf.write_index + 1) % 2048 + i) % 2048 = (buf.write_index + (i + 1)) % 2048 := by
      omega
    rw [e, Function.update_noteq (by omega)]

theorem ring_storage_rotation (buf : TimeBuffer α) (hw : buf.write_index < FFT_LENGTH)
    (i : Nat) (hi : i < FFT_LENGTH) :
    buf.data i
      = ring_chronological buf ((i + FFT_LENGTH - buf.write_index) % FFT_LENGTH) := by
  unfold ring_chronological FFT_LENGTH at *
  congr 1
  omega

theorem buffer_frame_write_index (g : SystemState α) (ff_in fb_in spk_in : Nat → α) (n : Int)
    (hw : g.ff_buffer.write_index < FFT_LENGTH) :
    (buffer_frame g ff_in fb_in spk_in n).ff_buffer.write_index
      = (g.ff_buffer.write_index + 160) % FFT_LENGTH := by
  unfold buffer_frame
  simp only [SAMPLES_PER_INTERVAL_eq, push_loop_split]
  exact (push_loop_single _ _ hw 160 (by decide)).1

theorem run_frames_write_index (lm : Libm α) (w : Nat → α) (ff fb spk : Nat → Nat → α)
    (len : Nat → Int) (n : Nat) :
    (run_frames lm w ff fb spk len (system_init lm) n).ff_buffer.write_index
      = (160 * n) % FFT_LENGTH := by
  induction n with
  | zero =>
    have h := congrArg (fun p => p.2.1) (system_init_analysis lm)
    exact h
  | succ n ih =>
    have e := congrArg (fun p => p.1.2)
      (rings_part_process_audio_frame lm w (run_frames lm w ff fb spk len (system_init lm) n)
        (ff n) (fb n) (spk n) (len n))
    have hw : (run_frames lm w ff fb spk len (system_init lm) n).ff_buffer.write_index
        < FFT_LENGTH := by
      rw [ih]; exact Nat.mod_lt _ (by decide)
    show (process_audio_frame lm w _ _ _ _ _).ff_buffer.write_index = _
    refine (e.trans (buffer_frame_write_index _ _ _ _ _ hw)).trans ?_
    rw [ih]
    unfold FFT_LENGTH
    omega

theorem blackman_taylor_one : init_blackman_window taylor_libm 1 ≠ 0 := by
  unfold init_blackman_window
  rw [forLoop_update_apply, if_pos (by decide)]
  simp only [taylor_libm, M_PI, FFT_LENGTH]
  norm_num

/-- Claim C27, amended.  An FFT pass transforms, for each channel, the window applied to
the ring in storage order: `windowed[i] = data[i] * blackman_window[i]` for every
`i < L`, whatever array `windowed` held before.  Storage slot `i` holds the chronological
sample number `(i + L - write_index) mod L`, so the windowed sequence is the most recent
`L` samples in chronological order only when `write_index = 0`; from `system_init` the
ring's write index before call `n + 1` is `160 * n mod L`, which is 640 at the first FFT
pass. -/
theorem fft_input_order (lm : Libm α) (w : Nat → α) (g : SystemState α) (out : Nat → α)
    (i : Nat) (hi : i < FFT_LENGTH) (hw : g.ff_buffer.write_index < FFT_LENGTH) :
    (fft_pass lm w g).fft_accum.ff_accum
        = accumulate_fft_results
            (perform_fft lm (apply_window w g.ff_buffer.data (fun _ => 0) FFT_LENGTH)
              (fun _ => ⟨0, 0⟩) FFT_LENGTH) g.fft_accum.ff_accum ∧
      apply_window w g.ff_buffer.data out FFT_LENGTH i = g.ff_buffer.data i * w i ∧
      apply_window w g.fb_buffer.data out FFT_LENGTH i = g.fb_buffer.data i * w i ∧
      apply_window w g.spk_buffer.data out FFT_LENGTH i = g.spk_buffer.data i * w i ∧
      g.ff_buffer.data i
        = ring_chronological g.ff_buffer
            ((i + FFT_LENGTH - g.ff_buffer.write_index) % FFT_LENGTH) ∧
      (g.ff_buffer.write_index = 0 →
        apply_window w g.ff_buffer.data out FFT_LENGTH i
          = w i * ring_chronological g.ff_buffer i) ∧
      (∀ (ff fb spk : Nat → Nat → α) (len : Nat → Int) (n : Nat),
        (run_frames lm w ff fb spk len (system_init lm) n).ff_buffer.write_index
          = (160 * n) % FFT_LENGTH) := by
  refine ⟨rfl, apply_window_apply _ _ _ _ _ hi, apply_window_apply _ _ _ _ _ hi,
    apply_window_apply _ _ _ _ _ hi, ring_storage_rotation _ hw i hi, ?_,
    fun ff fb spk len n => run_frames_write_index lm w ff fb spk len n⟩
  intro h0
  rw [apply_window_apply _ _ _ _ _ hi, mul_comm]
  unfold ring_chronological
  rw [h0, Nat.zero_add, Nat.mod_eq_of_lt hi]

/-- Witness of C27 (amended): slot 1 of the zero state. -/
theorem fft_input_order_witness :
    1 < FFT_LENGTH ∧ (zero_state : SystemState ℚ).ff_buffer.write_index < FFT_LENGTH ∧
      apply_window (init_blackman_window taylor_libm) (zero_state : SystemState ℚ).ff_buffer.data
        (fun _ => 0) FFT_LENGTH 1
        = (zero_state : SystemState ℚ).ff_buffer.data 1 * init_blackman_window taylor_libm 1 :=
  ⟨by decide, by decide,
    (fft_input_order taylor_libm (init_blackman_window taylor_libm) zero_state (fun _ => 0) 1
      (by decide) (by decide)).2.1⟩

/-- Counterexample to C27 as stated: the ring `[1, 2, 0, ...]` with `write_index = 2`
under the Blackman window of `taylor_libm`.  The windowed entry 1 is
`2 * blackman_window[1]`, which is not zero, while the chronological sample 1 of the ring
is the zero in slot 3. -/
theorem fft_input_order_counterexample :
    rotated_ring.write_index = 2 ∧ ring_chronological rotated_ring 1 = 0 ∧
      apply_window (init_blackman_window taylor_libm) rotated_ring.data (fun _ => 0)
          FFT_LENGTH 1
        = 2 * init_blackman_window taylor_libm 1 ∧
      apply_window (init_blackman_window taylor_libm) rotated_ring.data (fun _ => 0)
          FFT_LENGTH 1
        ≠ init_blackman_window taylor_libm 1 * ring_chronological rotated_ring 1 := by
  have h1 : rotated_ring.data 1 = 2 := by
    simp [rotated_ring, push_sample, FFT_LENGTH]
  have h3 : ring_chronological rotated_ring 1 = 0 := by
    simp [ring_chronological, rotated_ring, push_sample, FFT_LENGTH]
  have hw : rotated_ring.write_index = 2 := by
    simp [rotated_ring, push_sample, FFT_LENGTH]
  have e := apply_window_apply (init_blackman_window taylor_libm) rotated_ring.data
    (fun _ => 0) FFT_LENGTH 1 (by decide)
  rw [h1] at e
  refine ⟨hw, h3, e, ?_⟩
  rw [e, h3, mul_zero]
  exact mul_ne_zero (by norm_num) blackman_taylor_one

/-! ### Unsupported WAV formats -/

/-- Claim C23, as the code behaves.  For a file that opens and whose header is
RIFF/WAVE: when `audio_format != 1`, and when `audio_format = 1` with at least one
channel and a bit depth of at least 8 other than 16 and 32, `wav_read` returns -1 with
`valid = 0` and `main` keeps `use_wav_input = 0`; but when `audio_format = 1` and the
bit depth is below 8 or `num_channels = 0`, `wav_read` divides by zero before it looks
at the bit depth. -/
theorem wav_read_unsupported (f : WavFile) (h : WavHeader) (heap : Nat → Nat → α)
    (wav_data : WavData α) (hh : f.header = some h)
    (hriff : h.chunk_id = ['R', 'I', 'F', 'F']) (hwave : h.format = ['W', 'A', 'V', 'E']) :
    (h.audio_format ≠ 1 →
      (∃ d, wav_read (some f) heap wav_data = some (d, -1) ∧ d.valid = 0) ∧
        main_use_wav_input (some f) heap wav_data = some 0) ∧
    (h.audio_format = 1 → 1 ≤ h.num_channels → 8 ≤ h.bits_per_sample →
      h.bits_per_sample ≠ 16 → h.bits_per_sample ≠ 32 →
      (∃ d, wav_read (some f) heap wav_data = some (d, -1) ∧ d.valid = 0) ∧
        main_use_wav_input (some f) heap wav_data = some 0) ∧
    (h.audio_format = 1 → (h.bits_per_sample < 8 ∨ h.num_channels = 0) →
      wav_read (some f) heap wav_data = none ∧
        main_use_wav_input (some f) heap wav_data = none) := by
  have hid : ¬ (h.chunk_id ≠ ['R', 'I', 'F', 'F'] ∨ h.format ≠ ['W', 'A', 'V', 'E']) := by
    rw [hriff, hwave]; simp
  refine ⟨?_, ?_, ?_⟩
  · intro hfmt
    have e : wav_read (some f) heap wav_data
        = some ({ ({ wav_data with header := h } : WavData α) with valid := 0 }, -1) := by
      simp only [wav_read, hh, hid, if_false, hfmt, ne_eq, not_false_eq_true, if_true]
    refine ⟨⟨_, e, rfl⟩, ?_⟩
    simp only [main_use_wav_input, e]
    rfl
  · intro hfmt hch hbits h16 h32
    have hdiv : ¬ (((h.num_channels : Nat) : Int) * ((h.bits_per_sample / 8 : Nat) : Int) = 0) := by
      have h1 : 1 ≤ h.bits_per_sample / 8 := by omega
      have h2 : 0 < h.num_channels * (h.bits_per_sample / 8) := Nat.mul_pos hch h1
      intro h0
      have h3 : ((h.num_channels * (h.bits_per_sample / 8) : Nat) : Int) = 0 := by
        push_cast; exact h0
      omega
    have e : ∃ d, wav_read (some f) heap wav_data = some (d, -1) ∧ d.valid = 0 := by
      simp only [wav_read, hh, hid, if_false, hfmt, ne_eq, not_true_eq_false, hdiv, h16, h32]
      exact ⟨_, rfl, rfl⟩
    refine ⟨e, ?_⟩
    obtain ⟨d, e1, _⟩ := e
    simp only [main_use_wav_input, e1]
    rfl
  · intro hfmt hbad
    have hdiv : ((h.num_channels : Nat) : Int) * ((h.bits_per_sample / 8 : Nat) : Int) = 0 := by
      rcases hbad with hb | hc
      · have : h.bits_per_sample / 8 = 0 := by omega
        rw [this]; simp
      · rw [hc]; simp
    have e : wav_read (some f) heap wav_data = none := by
      simp only [wav_read, hh, hid, if_false, hfmt, ne_eq, not_true_eq_false, hdiv, if_true]
    exact ⟨e, by simp only [main_use_wav_input, e]⟩

/-- The failing input of C23: a RIFF/WAVE PCM file with two channels and 4 bits per
sample makes `wav_read` divide by zero. -/
theorem wav_read_unsupported_witness :
    (pcm_file 2 4).header = some (pcm_header 2 4) ∧
      (pcm_header 2 4).chunk_id = ['R', 'I', 'F', 'F'] ∧
      (pcm_header 2 4).format = ['W', 'A', 'V', 'E'] ∧
      wav_read (some (pcm_file 2 4)) (fun _ _ => 0) blank_wav_data = none ∧
      main_use_wav_input (some (pcm_file 2 4)) (fun _ _ => 0) blank_wav_data = none :=
  ⟨rfl, rfl, rfl,
    (wav_read_unsupported (pcm_file 2 4) (pcm_header 2 4) (fun _ _ => (0 : ℚ)) blank_wav_data
      rfl rfl rfl).2.2 rfl (Or.inl (by decide))⟩

/-! ### Zero-gain sections -/

theorem biquad_run_identity (c : BiquadCoeffs α) (h0 : c.b0 = 1) (h1 : c.b1 = c.a1)
    (h2 : c.b2 = c.a2) (x : Nat → α) (n : Nat) :
    biquad_run c ⟨0, 0, 0, 0⟩ x n = ⟨0, 0, 0, 0⟩ := by
  induction n with
  | zero => rfl
  | succ n ih =>
    show (biquad_process_sample (x n) c (biquad_run c ⟨0, 0, 0, 0⟩ x n)).1 = _
    rw [ih]
    simp only [biquad_process_sample, h0, h1, h2, BiquadTimeDomainState.mk.injEq, and_true]
    constructor <;> ring

theorem biquad_output_identity (c : BiquadCoeffs α) (h0 : c.b0 = 1) (h1 : c.b1 = c.a1)
    (h2 : c.b2 = c.a2) (x : Nat → α) (n : Nat) :
    biquad_output c ⟨0, 0, 0, 0⟩ x n = x n := by
  rw [biquad_output_eq, biquad_run_identity c h0 h1 h2, h0]
  ring

/-- Claim C38.  With a math library exact at `powf(10, 0) = 1` and `sqrtf(1) = 1` and
whose `sinf` is not negative on `(0, M_PI)`: for every section type, every `Q > 0` and
every `fc` with `0 < fc < sample_rate / 2`, the coefficients `eq_to_biquad_coeffs`
returns for `gain_dB = 0` have `a0 = 1`, `b0 = 1`, `b1 = a1` and `b2 = a2`, and
`biquad_process_sample` iterated with them from the zero state returns every input
sample unchanged and stays in the zero state. -/
theorem zero_gain_identity (lm : Libm α) (p : BiquadParam α) (sample_rate : α)
    (x : Nat → α) (n : Nat) (hg : p.gain_dB = 0) (hq : 0 < p.q) (hfc : 0 < p.fc)
    (hny : p.fc < sample_rate / 2) (hpow : lm.powf 10 0 = 1) (hsqrt : lm.sqrtf 1 = 1)
    (hsin : ∀ t, 0 < t → t < M_PI → 0 ≤ lm.sinf t) :
    (eq_to_biquad_coeffs lm p sample_rate).a0 = 1 ∧
      (eq_to_biquad_coeffs lm p sample_rate).b0 = 1 ∧
      (eq_to_biquad_coeffs lm p sample_rate).b1 = (eq_to_biquad_coeffs lm p sample_rate).a1 ∧
      (eq_to_biquad_coeffs lm p sample_rate).b2 = (eq_to_biquad_coeffs lm p sample_rate).a2 ∧
      biquad_output (eq_to_biquad_coeffs lm p sample_rate) ⟨0, 0, 0, 0⟩ x n = x n ∧
      biquad_run (eq_to_biquad_coeffs lm p sample_rate) ⟨0, 0, 0, 0⟩ x n = ⟨0, 0, 0, 0⟩ := by
  have hrate : 0 < sample_rate := by linarith
  have hpi : (0 : α) < M_PI := by unfold M_PI; norm_num
  have hα : 0 ≤ section_alpha lm p sample_rate := by
    unfold section_alpha
    apply div_nonneg
    · apply hsin
      · positivity
      · rw [div_lt_iff₀ hrate]
        nlinarith
    · linarith
  obtain ⟨h0, h1, h2⟩ := flat_section lm p sample_rate hg hpow hsqrt hα
  exact ⟨rfl, h0, h1, h2, biquad_output_identity _ h0 h1 h2 x n,
    biquad_run_identity _ h0 h1 h2 x n⟩

/-- Witness of C38: the peaking section at 20 kHz, `Q = 1`, at the realtime rate, under
`taylor_libm`, fed the ramp. -/
theorem zero_gain_identity_witness :
    biquad_output (eq_to_biquad_coeffs taylor_libm ⟨BiquadType.BIQUAD_PEAKING, 0, 1, 20000⟩
        (375000 : ℚ)) ⟨0, 0, 0, 0⟩ ramp_input 3 = ramp_input 3 :=
  (zero_gain_identity taylor_libm ⟨BiquadType.BIQUAD_PEAKING, 0, 1, 20000⟩ (375000 : ℚ)
    ramp_input 3 rfl (by norm_num) (by norm_num) (by norm_num) (by simp [taylor_libm])
    rfl (fun t ht _ => le_of_lt ht)).2.2.2.2.1

/-! ### The filtering pass run twice -/

theorem time_sim_loop_core (coeffs : Nat → BiquadCoeffs α) (g : α) (start : Nat)
    (s1 s2 : TimeDomainSimulator α) (hff : s1.original_ff = s2.original_ff)
    (hfb : s1.original_fb = s2.original_fb) (hb : s1.biquad_states = s2.biquad_states)
    (hf : s1.secondary_path_fir = s2.secondary_path_fir) (n : Nat) :
    (forLoop n (time_sim_step coeffs g start) s1).biquad_states
        = (forLoop n (time_sim_step coeffs g start) s2).biquad_states ∧
      (forLoop n (time_sim_step coeffs g start) s1).secondary_path_fir
        = (forLoop n (time_sim_step coeffs g start) s2).secondary_path_fir ∧
      ∀ j, start ≤ j → j < start + n →
        (forLoop n (time_sim_step coeffs g start) s1).simulated_fb j
          = (forLoop n (time_sim_step coeffs g start) s2).simulated_fb j := by
  induction n with
  | zero =>
    rw [forLoop_zero, forLoop_zero]
    exact ⟨hb, hf, fun j h1 h2 => by omega⟩
  | succ n ih =>
    obtain ⟨i1, i2, i3⟩ := ih
    obtain ⟨a1, a2, _, _, _, _⟩ := time_sim_loop_frame coeffs g start s1 n
    obtain ⟨b1, b2, _, _, _, _⟩ := time_sim_loop_frame coeffs g start s2 n
    rw [forLoop_succ, forLoop_succ]
    generalize forLoop n (time_sim_step coeffs g start) s1 = L1 at i1 i2 i3 a1 a2 ⊢
    generalize forLoop n (time_sim_step coeffs g start) s2 = L2 at i1 i2 i3 b1 b2 ⊢
    have eff : L1.original_ff = L2.original_ff := by rw [a1, b1, hff]
    have efb : L1.original_fb = L2.original_fb := by rw [a2, b2, hfb]
    refine ⟨?_, ?_, ?_⟩
    · show (biquad_cascade coeffs L1.biquad_states (L1.original_ff (start + n))).1
        = (biquad_cascade coeffs L2.biquad_states (L2.original_ff (start + n))).1
      rw [i1, eff]
    · show (fir_process L1.secondary_path_fir
          ((biquad_cascade coeffs L1.biquad_states (L1.original_ff (start + n))).2 * g)).1
        = (fir_process L2.secondary_path_fir
          ((biquad_cascade coeffs L2.biquad_states (L2.original_ff (start + n))).2 * g)).1
      rw [i1, i2, eff]
    · intro j h1 h2
      rw [(time_sim_step_frame coeffs g start n L1).2.2.2.2.2,
        (time_sim_step_frame coeffs g start n L2).2.2.2.2.2, i1, i2, eff, efb]
      by_cases hj : j = start + n
      · rw [hj, Function.update_same, Function.update_same]
      · rw [Function.update_noteq hj, Function.update_noteq hj]
        exact i3 j h1 (by omega)

/-- Along the sample loop the FIR stage keeps its taps and length, its write index
stays inside the delay line and the slots past `MAX_FIR_LENGTH` are not written. -/
theorem time_sim_loop_fir (coeffs : Nat → BiquadCoeffs α) (g : α) (start : Nat)
    (s : TimeDomainSimulator α) (hlen : s.secondary_path_fir.length ≤ (MAX_FIR_LENGTH : Int))
    (hw : s.secondary_path_fir.write_index = 0) (n : Nat) :
    (forLoop n (time_sim_step coeffs g start) s).secondary_path_fir.coeffs
        = s.secondary_path_fir.coeffs ∧
      (forLoop n (time_sim_step coeffs g start) s).secondary_path_fir.length
        = s.secondary_path_fir.length ∧
      (0 ≤ (forLoop n (time_sim_step coeffs g start) s).secondary_path_fir.write_index ∧
        (forLoop n (time_sim_step coeffs g start) s).secondary_path_fir.write_index
          < (MAX_FIR_LENGTH : Int)) ∧
      ∀ i, MAX_FIR_LENGTH ≤ i →
        (forLoop n (time_sim_step coeffs g start) s).secondary_path_fir.buffer i
          = s.secondary_path_fir.buffer i := by
  induction n with
  | zero =>
    rw [forLoop_zero]
    refine ⟨rfl, rfl, ⟨by rw [hw], by rw [hw]; decide⟩, fun _ _ => rfl⟩
  | succ n ih =>
    obtain ⟨i1, i2, ⟨i3, i4⟩, i5⟩ := ih
    rw [forLoop_succ]
    generalize forLoop n (time_sim_step coeffs g start) s = L at i1 i2 i3 i4 i5 ⊢
    have e : (time_sim_step coeffs g start n L).secondary_path_fir
        = (fir_process L.secondary_path_fir
            ((biquad_cascade coeffs L.biquad_states (L.original_ff (start + n))).2 * g)).1 := rfl
    rw [e, fir_process_fst]
    refine ⟨i1, i2, ?_, ?_⟩
    · show 0 ≤ (if L.secondary_path_fir.write_index + 1 ≥ L.secondary_path_fir.length then 0
          else L.secondary_path_fir.write_index + 1) ∧
        (if L.secondary_path_fir.write_index + 1 ≥ L.secondary_path_fir.length then 0
          else L.secondary_path_fir.write_index + 1) < (MAX_FIR_LENGTH : Int)
      rw [i2]
      have hM : (0 : Int) < (MAX_FIR_LENGTH : Int) := by decide
      split_ifs with h
      · exact ⟨le_refl _, hM⟩
      · constructor <;> omega
    · intro i hi
      show Function.update L.secondary_path_fir.buffer L.secondary_path_fir.write_index.toNat _ i
        = _
      have hne : i ≠ L.secondary_path_fir.write_index.toNat := by
        have : (MAX_FIR_LENGTH : Int) ≤ (i : Int) := by exact_mod_cast hi
        omega
      rw [Function.update_noteq hne]
      exact i5 i hi

theorem fir_reset_congr (f1 f2 : FIRFilter α) (hc : f1.coeffs = f2.coeffs)
    (hl : f1.length = f2.length) (hb : ∀ i, MAX_FIR_LENGTH ≤ i → f1.buffer i = f2.buffer i) :
    fir_reset f1 = fir_reset f2 := by
  unfold fir_reset
  rw [FIRFilter.mk.injEq]
  refine ⟨hc, ?_, hl, rfl⟩
  funext i
  split_ifs with h
  · rfl
  · exact hb i (not_lt.mp h)

theorem time_sim_ext (a b : TimeDomainSimulator α) (h1 : a.biquad_states = b.biquad_states)
    (h2 : a.secondary_path_fir = b.secondary_path_fir) (h3 : a.original_ff = b.original_ff)
    (h4 : a.original_fb = b.original_fb) (h5 : a.simulated_fb = b.simulated_fb)
    (h6 : a.total_samples = b.total_samples) (h7 : a.current_sample = b.current_sample)
    (h8 : a.enabled = b.enabled) : a = b := by
  cases a; cases b
  simp only at h1 h2 h3 h4 h5 h6 h7 h8
  subst h1 h2 h3 h4 h5 h6 h7 h8
  rfl

theorem time_sim_process_eq (s : TimeDomainSimulator α) (coeffs : Nat → BiquadCoeffs α)
    (g : α) (num_samples : Int) (he : s.enabled ≠ 0) (hpos : 0 < time_sim_count s num_samples) :
    time_sim_process s coeffs g num_samples
      = forLoop (time_sim_count s num_samples).toNat (time_sim_step coeffs g s.current_sample)
          (time_sim_reset_filters s) := by
  unfold time_sim_process
  rw [if_neg he]
  dsimp only
  rw [if_neg (not_le.mpr hpos)]

/-- Two simulators with the same recordings, cursor, length, enable flag and
secondary-path taps produce the same samples in one filtering pass, whatever their
filter states and `simulated_fb` held; and the filter states they end in are the
same. -/
theorem time_sim_process_history (s1 s2 : TimeDomainSimulator α)
    (coeffs : Nat → BiquadCoeffs α) (g : α) (num_samples : Int)
    (hff : s1.original_ff = s2.original_ff) (hfb : s1.original_fb = s2.original_fb)
    (hcur : s1.current_sample = s2.current_sample)
    (htot : s1.total_samples = s2.total_samples) (hen : s1.enabled = s2.enabled)
    (hc : s1.secondary_path_fir.coeffs = s2.secondary_path_fir.coeffs)
    (hl : s1.secondary_path_fir.length = s2.secondary_path_fir.length)
    (hb : ∀ i, MAX_FIR_LENGTH ≤ i →
      s1.secondary_path_fir.buffer i = s2.secondary_path_fir.buffer i)
    (he : s1.enabled ≠ 0) (hpos : 0 < time_sim_count s1 num_samples) :
    (time_sim_process s1 coeffs g num_samples).biquad_states
        = (time_sim_process s2 coeffs g num_samples).biquad_states ∧
      (time_sim_process s1 coeffs g num_samples).secondary_path_fir
        = (time_sim_process s2 coeffs g num_samples).secondary_path_fir ∧
      ∀ j : Nat, s1.current_sample ≤ j →
        (j : Int) < (s1.current_sample : Int) + time_sim_count s1 num_samples →
        (time_sim_process s1 coeffs g num_samples).simulated_fb j
          = (time_sim_process s2 coeffs g num_samples).simulated_fb j := by
  have hcount : time_sim_count s2 num_samples = time_sim_count s1 num_samples := by
    unfold time_sim_count
    rw [hcur, htot]
  rw [time_sim_process_eq s1 coeffs g num_samples he hpos,
    time_sim_process_eq s2 coeffs g num_samples (by rw [← hen]; exact he)
      (by rw [hcount]; exact hpos), hcount, ← hcur]
  obtain ⟨h1, h2, h3⟩ := time_sim_loop_core coeffs g s1.current_sample
    (time_sim_reset_filters s1) (time_sim_reset_filters s2) hff hfb rfl
    (fir_reset_congr _ _ hc hl hb) (time_sim_count s1 num_samples).toNat
  refine ⟨h1, h2, ?_⟩
  intro j hj1 hj2
  exact h3 j hj1 (by omega)

theorem time_sim_process_twice (sim : TimeDomainSimulator α)
    (coeffs : Nat → BiquadCoeffs α) (g : α) (num_samples : Int)
    (hlen : sim.secondary_path_fir.length ≤ (MAX_FIR_LENGTH : Int)) :
    time_sim_process (time_sim_process sim coeffs g num_samples) coeffs g num_samples
      = time_sim_process sim coeffs g num_samples := by
  by_cases he : sim.enabled = 0
  · have e : time_sim_process sim coeffs g num_samples = sim := by
      unfold time_sim_process; rw [if_pos he]
    rw [e, e]
  by_cases hpos : 0 < time_sim_count sim num_samples
  swap
  · have e : time_sim_process sim coeffs g num_samples = sim := by
      unfold time_sim_process
      rw [if_neg he]
      dsimp only
      rw [if_pos (not_lt.mp hpos)]
    rw [e, e]
  have key : ∀ P : TimeDomainSimulator α, P = time_sim_process sim coeffs g num_samples →
      time_sim_process P coeffs g num_samples = P := by
    intro P hP
    have hP2 := hP.trans (time_sim_process_eq sim coeffs g num_samples he hpos)
    obtain ⟨l1, l2, l3, l4, l5, _⟩ := time_sim_loop_frame coeffs g sim.current_sample
      (time_sim_reset_filters sim) (time_sim_count sim num_samples).toNat
    obtain ⟨f1, f2, _, f4⟩ := time_sim_loop_fir coeffs g sim.current_sample
      (time_sim_reset_filters sim) hlen rfl (time_sim_count sim num_samples).toNat
    rw [← hP2] at l1 l2 l3 l4 l5 f1 f2 f4
    have hff : P.original_ff = sim.original_ff := l1
    have hfb : P.original_fb = sim.original_fb := l2
    have hcur : P.current_sample = sim.current_sample := l3
    have htot : P.total_samples = sim.total_samples := l4
    have hen : P.enabled = sim.enabled := l5
    have hcount : time_sim_count P num_samples = time_sim_count sim num_samples := by
      unfold time_sim_count
      rw [hcur, htot]
    have heP : P.enabled ≠ 0 := by rw [hen]; exact he
    have hposP : 0 < time_sim_count P num_samples := by rw [hcount]; exact hpos
    obtain ⟨h1, h2, h3⟩ := time_sim_process_history P sim coeffs g num_samples hff hfb hcur
      htot hen f1 f2
      (fun i hi => by
        rw [f4 i hi]
        show (if i < MAX_FIR_LENGTH then (0 : α) else sim.secondary_path_fir.buffer i) = _
        rw [if_neg (not_lt.mpr hi)])
      heP hposP
    rw [← hP] at h1 h2 h3
    obtain ⟨m1, m2, m3, m4, m5, m6⟩ := time_sim_loop_frame coeffs g P.current_sample
      (time_sim_reset_filters P) (time_sim_count P num_samples).toNat
    rw [← time_sim_process_eq P coeffs g num_samples heP hposP] at m1 m2 m3 m4 m5 m6
    apply time_sim_ext _ _ h1 h2 m1 m2 _ m4 m3 m5
    funext j
    by_cases hj : P.current_sample ≤ j ∧ j < P.current_sample + (time_sim_count P num_samples).toNat
    · exact h3 j hj.1 (by omega)
    · exact m6 j hj
  exact key _ rfl

/-- Claim C37.  For a simulator whose FIR length is at most `MAX_FIR_LENGTH` (as
`fir_init` leaves it) and fixed coefficients, gain and `num_samples`: the samples an
enabled `time_sim_process` writes into `simulated_fb`, and the filter states it ends
in, are the same whatever the stepper states, the FIR delay line, its write index and
`simulated_fb` held before the pass; and running `time_sim_process` twice in a row
leaves the same simulator state as running it once. -/
theorem filtering_pass_idempotent (sim : TimeDomainSimulator α)
    (coeffs : Nat → BiquadCoeffs α) (total_gain : α) (num_samples : Int)
    (hlen : sim.secondary_path_fir.length ≤ (MAX_FIR_LENGTH : Int)) :
    (∀ (states : Nat → BiquadTimeDomainState α) (line : Nat → α) (write_index : Int)
        (fb : Nat → α),
      sim.enabled ≠ 0 →
      ∀ j : Nat, sim.current_sample ≤ j →
        (j : Int) < min ((sim.current_sample : Int) + num_samples) sim.total_samples →
        (time_sim_process
            { sim with
              biquad_states := states
              secondary_path_fir :=
                { sim.secondary_path_fir with
                  buffer := fun i =>
                    if i < MAX_FIR_LENGTH then line i else sim.secondary_path_fir.buffer i
                  write_index := write_index }
              simulated_fb := fb }
            coeffs total_gain num_samples).simulated_fb j
          = (time_sim_process sim coeffs total_gain num_samples).simulated_fb j) ∧
      time_sim_process (time_sim_process sim coeffs total_gain num_samples) coeffs total_gain
          num_samples
        = time_sim_process sim coeffs total_gain num_samples := by
  refine ⟨?_, time_sim_process_twice sim coeffs total_gain num_samples hlen⟩
  intro states line write_index fb he j hj1 hj2
  have hcount : (sim.current_sample : Int) + time_sim_count sim num_samples
      = min ((sim.current_sample : Int) + num_samples) sim.total_samples := by
    unfold time_sim_count
    split_ifs with h
    · rw [min_eq_right (le_of_lt h)]; ring
    · rw [min_eq_left (not_lt.mp h)]
  have hpos : 0 < time_sim_count sim num_samples := by omega
  have h := time_sim_process_history
    { sim with
      biquad_states := states
      secondary_path_fir :=
        { sim.secondary_path_fir with
          buffer := fun i =>
            if i < MAX_FIR_LENGTH then line i else sim.secondary_path_fir.buffer i
          write_index := write_index }
      simulated_fb := fb }
    sim coeffs total_gain num_samples rfl rfl rfl rfl rfl rfl rfl
    (fun i hi => by
      show (if i < MAX_FIR_LENGTH then line i else sim.secondary_path_fir.buffer i) = _
      rw [if_neg (not_lt.mpr hi)])
    he hpos
  exact h.2.2 j hj1 (by
    show (j : Int) < (sim.current_sample : Int) + time_sim_count sim num_samples
    rw [hcount]; exact hj2)

/-- Witness of C37: the stale simulator, whose FIR has length 2. -/
theorem filtering_pass_idempotent_witness :
    stale_sim.secondary_path_fir.length ≤ (MAX_FIR_LENGTH : Int) ∧
      time_sim_process
          (time_sim_process stale_sim (fun _ => ⟨2, 1, 1, 1, 1, 1⟩) 1 4)
          (fun _ => ⟨2, 1, 1, 1, 1, 1⟩) 1 4
        = time_sim_process stale_sim (fun _ => ⟨2, 1, 1, 1, 1, 1⟩) 1 4 :=
  ⟨by decide,
    (filtering_pass_idempotent stale_sim (fun _ => ⟨2, 1, 1, 1, 1, 1⟩) 1 4 (by decide)).2⟩

/-! ### The steps of `update_eq_params` one by one -/

theorem sweep_steps_succ (lm : Libm α) (s : SystemState α) (j : Nat) :
    sweep_steps lm s (j + 1) = (update_single_param lm (sweep_steps lm s j) (j / 3) (j % 3)).1 :=
  rfl

theorem forLoop_sweep_steps (lm : Libm α) (s : SystemState α) (n : Nat) :
    forLoop n (fun i state =>
      (update_single_param lm
        (update_single_param lm (update_single_param lm state i 0).1 i 1).1 i 2).1) s
      = sweep_steps lm s (3 * n) := by
  induction n with
  | zero => rw [forLoop_zero]; rfl
  | succ n ih =>
    rw [forLoop_succ, ih]
    have e : 3 * (n + 1) = 3 * n + 1 + 1 + 1 := by ring
    rw [e, sweep_steps_succ, sweep_steps_succ, sweep_steps_succ]
    have d0 : 3 * n / 3 = n := by omega
    have m0 : 3 * n % 3 = 0 := by omega
    have d1 : (3 * n + 1) / 3 = n := by omega
    have m1 : (3 * n + 1) % 3 = 1 := by omega
    have d2 : (3 * n + 1 + 1) / 3 = n := by omega
    have m2 : (3 * n + 1 + 1) % 3 = 2 := by omega
    rw [d0, m0, d1, m1, d2, m2]

theorem biquad_sweep_eq_steps (lm : Libm α) (s : SystemState α) :
    biquad_sweep lm s = sweep_steps lm s 30 := by
  unfold biquad_sweep
  exact forLoop_sweep_steps lm s NUM_BIQUADS

theorem sum_sq_eq_zero (a b : α) (h : a * a + b * b = 0) : a = 0 ∧ b = 0 := by
  have ha := mul_self_nonneg a
  have hb := mul_self_nonneg b
  constructor
  · exact mul_self_eq_zero.mp (by linarith)
  · exact mul_self_eq_zero.mp (by linarith)

/-- A zero loss means the response meets the target on every bin. -/
theorem calculate_loss_zero_bins (t : SystemState α) (h : calculate_loss t = 0) (k : Nat)
    (hk : k < FFT_HALF_LENGTH) : t.target_ff k = t.current_ff k := by
  unfold calculate_loss at h
  dsimp only at h
  rw [forLoop_sum FFT_HALF_LENGTH (fun i =>
    (complex_sub (t.target_ff i) (t.current_ff i)).real *
        (complex_sub (t.target_ff i) (t.current_ff i)).real +
      (complex_sub (t.target_ff i) (t.current_ff i)).imag *
        (complex_sub (t.target_ff i) (t.current_ff i)).imag)] at h
  have hN : ((FFT_HALF_LENGTH : Nat) : α) ≠ 0 := by norm_num [FFT_HALF_LENGTH]
  have hs := (div_eq_zero_iff.mp h).resolve_right hN
  have hnn : ∀ i ∈ Finset.range FFT_HALF_LENGTH,
      0 ≤ (complex_sub (t.target_ff i) (t.current_ff i)).real *
          (complex_sub (t.target_ff i) (t.current_ff i)).real +
        (complex_sub (t.target_ff i) (t.current_ff i)).imag *
          (complex_sub (t.target_ff i) (t.current_ff i)).imag := by
    intro i _
    exact add_nonneg (mul_self_nonneg _) (mul_self_nonneg _)
  have hk0 := (Finset.sum_eq_zero_iff_of_nonneg hnn).mp hs k (Finset.mem_range.mpr hk)
  obtain ⟨h1, h2⟩ := sum_sq_eq_zero _ _ hk0
  unfold complex_sub at h1 h2
  simp only at h1 h2
  cases hx : t.target_ff k with
  | mk tr ti =>
    cases hy : t.current_ff k with
    | mk cr ci =>
      rw [hx, hy] at h1 h2
      simp only at h1 h2
      rw [Complex.mk.injEq]
      exact ⟨by linarith, by linarith⟩

/-- Claim C35.  When `update_eq_params` runs right after `calculate_ff_init_loss` on
the same state: the early-skip test `current_loss <= 0.95 * init_loss` succeeds exactly
when `init_loss = 0`, which is exactly when the target equals the response of the
installed filter on every bin; then `update_accepted` is set to 1 with no step
attempted.  When `init_loss` is not 0 (it is never negative) the function runs the 30
`update_single_param` calls, the total-gain step and the final verdict. -/
theorem early_skip_iff_zero_loss (lm : Libm α) (s : SystemState α) :
    ((eq_entry lm (calculate_ff_init_loss lm s)).eq_update.current_loss
        ≤ (eq_entry lm (calculate_ff_init_loss lm s)).eq_update.init_loss
          * LOSS_IMPROVEMENT_FACTOR
      ↔ (calculate_ff_init_loss lm s).eq_update.init_loss = 0) ∧
    ((calculate_ff_init_loss lm s).eq_update.init_loss = 0
      ↔ ∀ k, k < FFT_HALF_LENGTH → s.target_ff k = ff_response_bin lm s.ff_filter k) ∧
    0 ≤ (calculate_ff_init_loss lm s).eq_update.init_loss ∧
    ((calculate_ff_init_loss lm s).eq_update.init_loss = 0 →
      update_eq_params lm (calculate_ff_init_loss lm s)
        = set_update_accepted (eq_entry lm (calculate_ff_init_loss lm s)) 1) ∧
    ((calculate_ff_init_loss lm s).eq_update.init_loss ≠ 0 →
      update_eq_params lm (calculate_ff_init_loss lm s)
        = final_verdict (total_gain_step lm
            (sweep_steps lm (eq_entry lm (calculate_ff_init_loss lm s)) 30))) := by
  have hentry := eq_entry_after_init_loss lm s
  have hinit : (calculate_ff_init_loss lm s).eq_update.init_loss
      = calculate_loss (calculate_ff_response lm s) := by
    rw [calculate_ff_init_loss_eq_update]
  have hnn := calculate_loss_nonneg (calculate_ff_response lm s)
  have hskip : ((eq_entry lm (calculate_ff_init_loss lm s)).eq_update.current_loss
        ≤ (eq_entry lm (calculate_ff_init_loss lm s)).eq_update.init_loss
          * LOSS_IMPROVEMENT_FACTOR
      ↔ (calculate_ff_init_loss lm s).eq_update.init_loss = 0) := by
    rw [hentry.1, hentry.2, hinit]
    unfold LOSS_IMPROVEMENT_FACTOR
    constructor
    · intro h; linarith
    · intro h; rw [h]; norm_num
  refine ⟨hskip, ?_, by rw [hinit]; exact hnn, ?_, ?_⟩
  · rw [hinit]
    constructor
    · intro h k hk
      have := calculate_loss_zero_bins _ h k hk
      rw [calculate_ff_response_target_ff, calculate_ff_response_current_ff, if_pos hk] at this
      exact this
    · intro h
      apply calculate_loss_eq_zero
      intro k hk
      rw [calculate_ff_response_target_ff, calculate_ff_response_current_ff, h k hk]
      simp [hk]
  · intro h0
    rw [update_eq_params_eq, if_pos (hskip.mpr h0)]
  · intro h0
    rw [update_eq_params_eq, if_neg (fun h => h0 (hskip.mp h)), biquad_sweep_eq_steps]

/-! ### The cap on one step -/

/-- A capped step from a value inside the range, clipped to the range, moves the value
by at most the cap, whatever the raw step is. -/
theorem capped_step_bound (v d lo hi cap : α) (hcap : 0 ≤ cap) (hlo : lo ≤ v) (hhi : v ≤ hi) :
    |clamp_value (v + clamp_value d (-cap) cap) lo hi - v| ≤ cap := by
  have h1 := clamp_value_bounds d (-cap) cap (by linarith)
  generalize clamp_value d (-cap) cap = e at h1
  unfold clamp_value
  rw [abs_le]
  split_ifs with a b <;> constructor <;> linarith [h1.1, h1.2]

theorem param_value_store_param (pr : BiquadParam α) (p : Nat) (v : α) :
    param_value (store_param pr p v) p = v := by
  unfold param_value store_param
  split_ifs <;> rfl

theorem param_setup_some (pr : BiquadParam α) (p : Nat) (hp : p < 3) (hb : in_box pr) :
    ∃ su : ParamSetup α, param_setup pr p = some su ∧ su.original_value = param_value pr p ∧
      su.max_delta = spec_max_delta p ∧ su.min_val ≤ su.original_value ∧
      su.original_value ≤ su.max_val := by
  obtain ⟨h1, h2, h3, h4, h5, h6⟩ := hb
  interval_cases p
  · exact ⟨_, rfl, rfl, by simp [MAX_DELTA_GAIN, spec_max_delta],
      by simpa [MIN_GAIN_DB] using h1, by simpa [MAX_GAIN_DB] using h2⟩
  · exact ⟨_, rfl, rfl, by norm_num [MAX_DELTA_Q, spec_max_delta],
      by simpa [MIN_Q] using h3, by simpa [MAX_Q] using h4⟩
  · exact ⟨_, rfl, rfl, by norm_num [MAX_DELTA_FC, spec_max_delta],
      by simpa [MIN_FC] using h5, by simpa [MAX_FC] using h6⟩

theorem spec_max_delta_nonneg (p : Nat) : (0 : α) ≤ spec_max_delta p := by
  unfold spec_max_delta
  split_ifs <;> norm_num

theorem update_single_param_step (lm : Libm α) (s : SystemState α) (b p : Nat) (hp : p < 3)
    (hb : in_box (s.eq_update.params b)) :
    |param_value ((update_single_param lm s b p).1.eq_update.params b) p
        - param_value (s.eq_update.params b) p| ≤ spec_max_delta p := by
  obtain ⟨su, hsu, ho, hd, hlo, hhi⟩ := param_setup_some (s.eq_update.params b) p hp hb
  rw [update_single_param_eq lm s b p su hsu]
  split_ifs with hlt
  · simp only [set_current_loss_eq_update, install_value_eq_update, Function.update_same,
      param_value_store_param]
    unfold candidate_value
    rw [← ho, ← hd]
    exact capped_step_bound _ _ _ _ _ (by rw [hd]; exact spec_max_delta_nonneg p) hlo hhi
  · simp only [install_value_eq_update, Function.update_same, param_value_store_param]
    rw [ho, sub_self, abs_zero]
    exact spec_max_delta_nonneg p

theorem total_gain_step_bound (lm : Libm α) (s : SystemState α)
    (hlo : -10 ≤ s.eq_update.total_gain_dB) (hhi : s.eq_update.total_gain_dB ≤ 10) :
    |(total_gain_step lm s).eq_update.total_gain_dB - s.eq_update.total_gain_dB| ≤ 1 := by
  unfold total_gain_step
  split_ifs with hlt
  · simp only [set_current_loss_eq_update, install_total_gain_eq_update]
    unfold total_gain_candidate
    have h := capped_step_bound s.eq_update.total_gain_dB
      (-LEARNING_RATE_TOTAL_GAIN *
        ((calculate_loss (install_total_gain lm s
            (s.eq_update.total_gain_dB + EPSILON_TOTAL_GAIN))
          - s.eq_update.current_loss) / EPSILON_TOTAL_GAIN))
      MIN_TOTAL_GAIN_DB MAX_TOTAL_GAIN_DB MAX_DELTA_TOTAL_GAIN
      (by norm_num [MAX_DELTA_TOTAL_GAIN]) (by simpa [MIN_TOTAL_GAIN_DB] using hlo)
      (by simpa [MAX_TOTAL_GAIN_DB] using hhi)
    simpa [MAX_DELTA_TOTAL_GAIN] using h
  · simp only [install_total_gain_eq_update]
    rw [sub_self, abs_zero]
    norm_num

theorem sweep_steps_total_gain_dB (lm : Libm α) (s : SystemState α) (j : Nat) :
    (sweep_steps lm s j).eq_update.total_gain_dB = s.eq_update.total_gain_dB ∧
      (sweep_steps lm s j).ff_filter.total_gain = s.ff_filter.total_gain := by
  induction j with
  | zero => exact ⟨rfl, rfl⟩
  | succ j ih =>
    rw [sweep_steps_succ]
    generalize sweep_steps lm s j = t at ih ⊢
    cases h : param_setup (t.eq_update.params (j / 3)) (j % 3) with
    | none => rw [update_single_param_none lm t _ _ h]; exact ih
    | some su =>
      rw [update_single_param_eq lm t _ _ su h]
      split_ifs
      · simp only [set_current_loss_eq_update, set_current_loss_ff_filter,
          install_value_eq_update, install_value_total_gain]
        exact ih
      · simp only [install_value_eq_update, install_value_total_gain]
        exact ih

/-- Claim C31.  For every state whose parameters are inside the box, one
`update_single_param` call for parameter type 0, 1 or 2 of a biquad changes that
parameter by at most `Delta_max` in absolute value (2.0 for `gain_dB`, 0.2 for `Q`, 100
for `fc`), and the total-gain step of `update_eq_params`, hence `update_eq_params` as a
whole, changes `total_gain_dB` by at most 1.0; the finite-difference gradient enters
only through a step that is capped before it is applied. -/
theorem per_step_cap (lm : Libm α) (s : SystemState α) (b p : Nat) (hbox : param_box s)
    (hb : b < NUM_BIQUADS) (hp : p < 3) :
    |param_value ((update_single_param lm s b p).1.eq_update.params b) p
        - param_value (s.eq_update.params b) p| ≤ spec_max_delta p ∧
      (spec_max_delta 0 = (2 : α) ∧ spec_max_delta 1 = (0.2 : α) ∧
        spec_max_delta 2 = (100 : α)) ∧
      |(total_gain_step lm s).eq_update.total_gain_dB - s.eq_update.total_gain_dB| ≤ 1 ∧
      |(update_eq_params lm s).eq_update.total_gain_dB - s.eq_update.total_gain_dB| ≤ 1 := by
  obtain ⟨hin, hlo, hhi⟩ := hbox
  refine ⟨update_single_param_step lm s b p hp (hin b hb),
    ⟨by simp [spec_max_delta], by simp [spec_max_delta], by simp [spec_max_delta]⟩,
    total_gain_step_bound lm s hlo hhi, ?_⟩
  rw [update_eq_params_eq]
  split_ifs with hskip
  · rw [set_update_accepted_eq_update, eq_entry_eq_update, sub_self, abs_zero]
    norm_num
  · rw [final_verdict_eq_update, biquad_sweep_eq_steps]
    have h30 := (sweep_steps_total_gain_dB lm (eq_entry lm s) 30).1
    rw [eq_entry_eq_update] at h30
    have hb1 := total_gain_step_bound lm (sweep_steps lm (eq_entry lm s) 30)
      (by rw [h30]; exact hlo) (by rw [h30]; exact hhi)
    rw [h30] at hb1
    exact hb1

/-- Witness of C31: the gain step of biquad 0 on the state left by `system_init`. -/
theorem per_step_cap_witness :
    param_box (system_init sample_libm) ∧ 0 < NUM_BIQUADS ∧
      |param_value
            ((update_single_param sample_libm (system_init sample_libm) 0 0).1.eq_update.params 0) 0
          - param_value ((system_init sample_libm).eq_update.params 0) 0| ≤ 2 :=
  ⟨system_init_param_box sample_libm, by decide,
    le_trans (per_step_cap sample_libm (system_init sample_libm) 0 0
      (system_init_param_box sample_libm) (by decide) (by decide)).1 (by simp [spec_max_delta])⟩

/-! ### The caches of the optimizer -/

theorem response_cached_calculate_ff_response (lm : Libm α) (s : SystemState α) :
    response_cached lm (calculate_ff_response lm s) := by
  intro k hk
  rw [calculate_ff_response_current_ff, calculate_ff_response_ff_filter, if_pos hk]

theorem calculate_loss_set_current_loss (s : SystemState α) (v : α) :
    calculate_loss (set_current_loss s v) = calculate_loss s := by
  apply calculate_loss_congr
  · intro k _; rw [set_current_loss_target_ff]
  · intro k _; rw [set_current_loss_current_ff]

theorem optimizer_cache_recompute (lm : Libm α) (s : SystemState α)
    (hc : coeffs_at_realtime lm s) :
    optimizer_cache lm
      (set_current_loss (calculate_ff_response lm s)
        (calculate_loss (calculate_ff_response lm s))) := by
  refine ⟨?_, ?_, ?_⟩
  · intro k hk
    rw [set_current_loss_current_ff, set_current_loss_ff_filter]
    exact response_cached_calculate_ff_response lm s k hk
  · exact coeffs_at_realtime_of_filter_part lm _ _
      ((filter_part_set_current_loss _ _).trans (filter_part_calculate_ff_response lm s)) hc
  · unfold loss_cached
    rw [set_current_loss_eq_update, calculate_loss_set_current_loss]

/-- Reinstalling the value a parameter already has leaves the filter's response as it
was, when the coefficients are those of the parameters. -/
theorem install_original_response (lm : Libm α) (s : SystemState α) (b p : Nat)
    (su : ParamSetup α) (hsu : param_setup (s.eq_update.params b) p = some su)
    (hc : coeffs_at_realtime lm s) (k : Nat) :
    ff_response_bin lm (install_value lm s b p su.original_value).ff_filter k
      = ff_response_bin lm s.ff_filter k := by
  apply ff_response_bin_congr
  · intro i hi
    rw [install_value_coeffs, store_param_original _ _ _ hsu]
    by_cases hib : i = b
    · subst hib
      rw [Function.update_same]
      exact (hc i hi).symm
    · rw [Function.update_noteq hib]
  · exact install_value_total_gain lm s b p _

theorem optimizer_cache_update_single_param (lm : Libm α) (s : SystemState α) (b p : Nat)
    (h : optimizer_cache lm s) : optimizer_cache lm (update_single_param lm s b p).1 := by
  obtain ⟨hr, hc, hl⟩ := h
  refine ⟨?_, coeffs_at_realtime_update_single_param lm s b p hc, ?_⟩
  · cases hsu : param_setup (s.eq_update.params b) p with
    | none => rw [update_single_param_none lm s b p hsu]; exact hr
    | some su =>
      rw [update_single_param_eq lm s b p su hsu]
      split_ifs
      · intro k hk
        rw [set_current_loss_current_ff, set_current_loss_ff_filter]
        exact install_value_current_ff lm s b p _ k hk
      · intro k hk
        exact install_value_current_ff lm s b p _ k hk
  · cases hsu : param_setup (s.eq_update.params b) p with
    | none => rw [update_single_param_none lm s b p hsu]; exact hl
    | some su =>
      rw [update_single_param_eq lm s b p su hsu]
      split_ifs
      · unfold loss_cached
        rw [set_current_loss_eq_update, calculate_loss_set_current_loss]
        rfl
      · unfold loss_cached at hl ⊢
        rw [install_value_eq_update]
        show s.eq_update.current_loss = _
        rw [hl]
        apply calculate_loss_congr
        · intro k _; rw [install_value_target_ff]
        · intro k hk
          rw [install_value_current_ff lm s b p _ k hk,
            install_original_response lm s b p su hsu hc k, hr k hk]

theorem optimizer_cache_eq_entry (lm : Libm α) (s : SystemState α)
    (hc : coeffs_at_realtime lm s) : optimizer_cache lm (eq_entry lm s) := by
  unfold eq_entry
  exact optimizer_cache_recompute lm s hc

theorem optimizer_cache_sweep_steps (lm : Libm α) (s : SystemState α) (j : Nat)
    (h : optimizer_cache lm s) : optimizer_cache lm (sweep_steps lm s j) := by
  induction j with
  | zero => exact h
  | succ j ih =>
    rw [sweep_steps_succ]
    exact optimizer_cache_update_single_param lm _ _ _ ih

theorem install_total_gain_facts (lm : Libm α) (s : SystemState α) (g : α) :
    gain_consistent lm (install_total_gain lm s g) ∧
      response_cached lm (install_total_gain lm s g) ∧
      (install_total_gain lm s g).ff_filter.coeffs = s.ff_filter.coeffs ∧
      (install_total_gain lm s g).ff_filter.total_gain = lm.powf 10 (g / 20) := by
  refine ⟨?_, ?_, ?_, ?_⟩
  · unfold gain_consistent
    rw [install_total_gain_eq_update]
    unfold install_total_gain
    rw [calculate_ff_response_ff_filter, set_total_gain_ff_filter]
  · unfold install_total_gain
    exact response_cached_calculate_ff_response lm _
  · unfold install_total_gain
    rw [calculate_ff_response_ff_filter, set_total_gain_ff_filter, set_total_gain_dB_ff_filter]
  · unfold install_total_gain
    rw [calculate_ff_response_ff_filter, set_total_gain_ff_filter]

theorem coeffs_at_realtime_install_total_gain (lm : Libm α) (s : SystemState α) (g : α)
    (hc : coeffs_at_realtime lm s) : coeffs_at_realtime lm (install_total_gain lm s g) := by
  intro i hi
  rw [(install_total_gain_facts lm s g).2.2.1, install_total_gain_eq_update]
  exact hc i hi

theorem optimizer_cache_total_gain_step (lm : Libm α) (s : SystemState α)
    (h : optimizer_cache lm s) (hg : gain_consistent lm s) :
    optimizer_cache lm (total_gain_step lm s) ∧ gain_consistent lm (total_gain_step lm s) := by
  obtain ⟨hr, hc, hl⟩ := h
  unfold total_gain_step
  split_ifs
  · refine ⟨⟨?_, ?_, ?_⟩, ?_⟩
    · intro k hk
      rw [set_current_loss_current_ff, set_current_loss_ff_filter]
      exact (install_total_gain_facts lm s _).2.1 k hk
    · exact coeffs_at_realtime_of_filter_part lm _ _ (filter_part_set_current_loss _ _)
        (coeffs_at_realtime_install_total_gain lm s _ hc)
    · unfold loss_cached
      rw [set_current_loss_eq_update, calculate_loss_set_current_loss]
    · unfold gain_consistent
      rw [set_current_loss_eq_update, set_current_loss_ff_filter]
      exact (install_total_gain_facts lm s _).1
  · refine ⟨⟨(install_total_gain_facts lm s _).2.1,
      coeffs_at_realtime_install_total_gain lm s _ hc, ?_⟩, (install_total_gain_facts lm s _).1⟩
    unfold loss_cached at hl ⊢
    rw [install_total_gain_eq_update]
    show s.eq_update.current_loss = _
    rw [hl]
    apply calculate_loss_congr
    · intro k _; rw [install_total_gain_target_ff]
    · intro k hk
      rw [(install_total_gain_facts lm s _).2.1 k hk, hr k hk]
      apply ff_response_bin_congr
      · intro i _
        rw [(install_total_gain_facts lm s _).2.2.1]
      · rw [(install_total_gain_facts lm s _).2.2.2]
        exact hg

theorem optimizer_cache_set_update_accepted (lm : Libm α) (s : SystemState α) (v : Int)
    (h : optimizer_cache lm s) : optimizer_cache lm (set_update_accepted s v) := by
  obtain ⟨hr, hc, hl⟩ := h
  refine ⟨?_, coeffs_at_realtime_of_filter_part lm _ _ (filter_part_set_update_accepted _ _) hc,
    ?_⟩
  · intro k hk
    have e1 : (set_update_accepted s v).current_ff = s.current_ff := by cases s; rfl
    rw [e1, set_update_accepted_ff_filter]
    exact hr k hk
  · unfold loss_cached at hl ⊢
    rw [set_update_accepted_eq_update]
    show s.eq_update.current_loss = _
    rw [hl]
    apply calculate_loss_congr
    · intro k _; rw [set_update_accepted_target_ff]
    · intro k _
      have e1 : (set_update_accepted s v).current_ff = s.current_ff := by cases s; rfl
      rw [e1]

theorem gain_consistent_sweep_steps (lm : Libm α) (s : SystemState α) (j : Nat)
    (hg : gain_consistent lm s) : gain_consistent lm (sweep_steps lm s j) := by
  unfold gain_consistent at hg ⊢
  rw [(sweep_steps_total_gain_dB lm s j).1, (sweep_steps_total_gain_dB lm s j).2]
  exact hg

theorem gain_consistent_eq_entry (lm : Libm α) (s : SystemState α)
    (hg : gain_consistent lm s) : gain_consistent lm (eq_entry lm s) := by
  unfold gain_consistent at hg ⊢
  rw [eq_entry_eq_update, eq_entry_ff_filter]
  exact hg

theorem optimizer_cache_update_eq_params (lm : Libm α) (s : SystemState α)
    (hc : coeffs_at_realtime lm s) (hg : gain_consistent lm s) :
    optimizer_cache lm (update_eq_params lm s) := by
  have he := optimizer_cache_eq_entry lm s hc
  rw [update_eq_params_eq]
  split_ifs
  · exact optimizer_cache_set_update_accepted lm _ _ he
  · rw [biquad_sweep_eq_steps]
    unfold final_verdict
    have ht := (optimizer_cache_total_gain_step lm _ (optimizer_cache_sweep_steps lm _ 30 he)
      (gain_consistent_sweep_steps lm _ 30 (gain_consistent_eq_entry lm s hg))).1
    split_ifs <;> exact optimizer_cache_set_update_accepted lm _ _ ht

/-- Claim C39.  If on entry to `update_single_param` the cached response `current_ff`
is the response of the installed coefficients, the coefficients are those of the
parameters and `current_loss = calculate_loss(state)`, then the same three facts hold
on return, whether the step is accepted or rejected (or the parameter type is not 0, 1
or 2).  Hence, when `update_eq_params` is entered with coefficients that are those of
the parameters, the three facts hold after its recomputation on entry and after each of
its 30 `update_single_param` calls; and when also `total_gain = 10^(total_gain_dB/20)`
on entry, after the total-gain step and on return. -/
theorem cached_loss_consistent (lm : Libm α) (s : SystemState α) (b p : Nat)
    (hr : ∀ k, k < FFT_HALF_LENGTH → s.current_ff k = ff_response_bin lm s.ff_filter k)
    (hc : coeffs_at_realtime lm s) (hl : s.eq_update.current_loss = calculate_loss s) :
    ((∀ k, k < FFT_HALF_LENGTH →
        (update_single_param lm s b p).1.current_ff k
          = ff_response_bin lm (update_single_param lm s b p).1.ff_filter k) ∧
      coeffs_at_realtime lm (update_single_param lm s b p).1 ∧
      (update_single_param lm s b p).1.eq_update.current_loss
        = calculate_loss (update_single_param lm s b p).1) ∧
    (∀ j, optimizer_cache lm (sweep_steps lm (eq_entry lm s) j)) ∧
    (gain_consistent lm s →
      optimizer_cache lm (total_gain_step lm (sweep_steps lm (eq_entry lm s) 30)) ∧
        optimizer_cache lm (update_eq_params lm s)) := by
  refine ⟨optimizer_cache_update_single_param lm s b p ⟨hr, hc, hl⟩, ?_, ?_⟩
  · intro j
    exact optimizer_cache_sweep_steps lm _ j (optimizer_cache_eq_entry lm s hc)
  · intro hg
    exact ⟨(optimizer_cache_total_gain_step lm _
        (optimizer_cache_sweep_steps lm _ 30 (optimizer_cache_eq_entry lm s hc))
        (gain_consistent_sweep_steps lm _ 30 (gain_consistent_eq_entry lm s hg))).1,
      optimizer_cache_update_eq_params lm s hc hg⟩

/-- Witness of C39: the gain step of biquad 0 on the state `update_eq_params` reaches on
entry from the state left by `system_init`. -/
theorem cached_loss_consistent_witness :
    coeffs_at_realtime sample_libm (eq_entry sample_libm (system_init sample_libm)) ∧
      (update_single_param sample_libm (eq_entry sample_libm (system_init sample_libm))
          0 0).1.eq_update.current_loss
        = calculate_loss
            (update_single_param sample_libm (eq_entry sample_libm (system_init sample_libm))
              0 0).1 :=
  have h := optimizer_cache_eq_entry sample_libm (system_init sample_libm)
    (coeffs_at_realtime_system_init sample_libm)
  ⟨h.2.1, (cached_loss_consistent sample_libm (eq_entry sample_libm (system_init sample_libm))
    0 0 h.1 h.2.1 h.2.2).1.2.2⟩

/-! ### Acceptance and accepted steps -/

theorem install_original_ff_filter (lm : Libm α) (s : SystemState α) (b p : Nat)
    (su : ParamSetup α) (hsu : param_setup (s.eq_update.params b) p = some su)
    (hb : b < NUM_BIQUADS) (hc : coeffs_at_realtime lm s) :
    (install_value lm s b p su.original_value).ff_filter = s.ff_filter ∧
      (install_value lm s b p su.original_value).eq_update = s.eq_update := by
  constructor
  · unfold install_value
    rw [calculate_ff_response_ff_filter]
    unfold rebuild_coeffs write_param
    simp only [Function.update_same, store_param_original _ _ _ hsu, ← hc b hb,
      Function.update_eq_self]
  · rw [install_value_eq_update, store_param_original _ _ _ hsu, Function.update_eq_self]

theorem final_verdict_facts (s : SystemState α) :
    ((final_verdict s).eq_update.update_accepted = 1 ↔
      s.eq_update.current_loss < s.eq_update.init_loss) ∧
    ((final_verdict s).eq_update.update_accepted ≠ 1 →
      (final_verdict s).eq_update.update_accepted = 0) ∧
    ((final_verdict s).eq_update.params = s.eq_update.params ∧
      (final_verdict s).eq_update.total_gain_dB = s.eq_update.total_gain_dB) ∧
    (final_verdict s).ff_filter = s.ff_filter := by
  unfold final_verdict
  split_ifs with h
  · rw [set_update_accepted_eq_update, set_update_accepted_ff_filter]
    exact ⟨⟨fun _ => h, fun _ => rfl⟩, fun h1 => absurd rfl h1, ⟨rfl, rfl⟩, rfl⟩
  · rw [set_update_accepted_eq_update, set_update_accepted_ff_filter]
    refine ⟨⟨fun h1 => ?_, fun h1 => absurd h1 h⟩, fun _ => rfl, ⟨rfl, rfl⟩, rfl⟩
    exact absurd (show (0 : Int) = 1 from h1) (by decide)

/-- One `update_single_param` call on a state whose coefficients are those of the
parameters: an accepted step lowers the cached loss; a step that is not accepted leaves
`eq_update` and `ff_filter` as they were. -/
theorem update_single_param_moves (lm : Libm α) (s : SystemState α) (b p : Nat)
    (hb : b < NUM_BIQUADS) (hc : coeffs_at_realtime lm s) :
    ((update_single_param lm s b p).2 = 1 →
      (update_single_param lm s b p).1.eq_update.current_loss < s.eq_update.current_loss) ∧
    ((update_single_param lm s b p).2 ≠ 1 →
      (update_single_param lm s b p).1.eq_update = s.eq_update ∧
        (update_single_param lm s b p).1.ff_filter = s.ff_filter) := by
  cases hsu : param_setup (s.eq_update.params b) p with
  | none =>
    rw [update_single_param_none lm s b p hsu]
    exact ⟨fun h => absurd (show (0 : Int) = 1 from h) (by decide), fun _ => ⟨rfl, rfl⟩⟩
  | some su =>
    rw [update_single_param_eq lm s b p su hsu]
    split_ifs with hlt
    · refine ⟨fun _ => ?_, fun h => absurd rfl h⟩
      show (set_current_loss _ _).eq_update.current_loss < _
      rw [set_current_loss_eq_update]
      exact hlt
    · refine ⟨fun h => absurd (show (0 : Int) = 1 from h) (by decide), fun _ => ?_⟩
      obtain ⟨h1, h2⟩ := install_original_ff_filter lm s b p su hsu hb hc
      exact ⟨h2, h1⟩

theorem coeffs_at_realtime_sweep_steps (lm : Libm α) (s : SystemState α) (j : Nat)
    (hc : coeffs_at_realtime lm s) : coeffs_at_realtime lm (sweep_steps lm s j) := by
  induction j with
  | zero => exact hc
  | succ j ih =>
    rw [sweep_steps_succ]
    exact coeffs_at_realtime_update_single_param lm _ _ _ ih

theorem sweep_steps_moves (lm : Libm α) (s : SystemState α) (hc : coeffs_at_realtime lm s)
    (j : Nat) (hj : j ≤ 30) :
    (sweep_steps lm s j).eq_update.current_loss ≤ s.eq_update.current_loss ∧
    (sweep_steps lm s j).eq_update.init_loss = s.eq_update.init_loss ∧
    ((∃ i, i < j ∧ step_accepts lm s i) →
      (sweep_steps lm s j).eq_update.current_loss < s.eq_update.current_loss) ∧
    ((¬ ∃ i, i < j ∧ step_accepts lm s i) →
      (sweep_steps lm s j).eq_update = s.eq_update ∧
        (sweep_steps lm s j).ff_filter = s.ff_filter) := by
  induction j with
  | zero =>
    refine ⟨le_refl _, rfl, ?_, fun _ => ⟨rfl, rfl⟩⟩
    rintro ⟨i, hi, _⟩
    omega
  | succ j ih =>
    obtain ⟨i1, i2, i3, i4⟩ := ih (by omega)
    have hcj := coeffs_at_realtime_sweep_steps lm s j hc
    have hl := update_single_param_loss lm (sweep_steps lm s j) (j / 3) (j % 3)
    have hm := update_single_param_moves lm (sweep_steps lm s j) (j / 3) (j % 3)
      (by unfold NUM_BIQUADS; omega) hcj
    rw [sweep_steps_succ]
    refine ⟨le_trans hl.1 i1, hl.2.1.trans i2, ?_, ?_⟩
    · rintro ⟨i, hi, hacc⟩
      by_cases hij : i < j
      · exact lt_of_le_of_lt hl.1 (i3 ⟨i, hij, hacc⟩)
      · have e : i = j := by omega
        subst e
        exact lt_of_lt_of_le (hm.1 hacc) i1
    · intro hno
      have hno' : ¬ ∃ i, i < j ∧ step_accepts lm s i := by
        rintro ⟨i, hi, hacc⟩
        exact hno ⟨i, by omega, hacc⟩
      have hnj : (update_single_param lm (sweep_steps lm s j) (j / 3) (j % 3)).2 ≠ 1 := by
        intro hacc
        exact hno ⟨j, by omega, hacc⟩
      obtain ⟨e1, e2⟩ := i4 hno'
      obtain ⟨f1, f2⟩ := hm.2 hnj
      exact ⟨f1.trans e1, f2.trans e2⟩

theorem total_gain_step_moves (lm : Libm α) (s : SystemState α) (hg : gain_consistent lm s) :
    (total_gain_accepts lm s →
      (total_gain_step lm s).eq_update.current_loss < s.eq_update.current_loss) ∧
    (¬ total_gain_accepts lm s →
      (total_gain_step lm s).eq_update = s.eq_update ∧
        (total_gain_step lm s).ff_filter = s.ff_filter) := by
  unfold total_gain_accepts total_gain_step
  split_ifs with hlt
  · refine ⟨fun _ => ?_, fun h => absurd hlt h⟩
    rw [set_current_loss_eq_update]
    exact hlt
  · refine ⟨fun h => absurd h hlt, fun _ => ⟨?_, ?_⟩⟩
    · rw [install_total_gain_eq_update]
    · unfold install_total_gain
      rw [calculate_ff_response_ff_filter]
      unfold set_total_gain set_total_gain_dB
      unfold gain_consistent at hg
      simp only [← hg]

theorem gain_consistent_system_init (lm : Libm α) : gain_consistent lm (system_init lm) := by
  unfold gain_consistent
  rw [system_init_total_gain, system_init_total_gain_dB]

theorem init_loss_ne_zero (lm : Libm α) (s : SystemState α) (k : Nat)
    (hk : k < FFT_HALF_LENGTH) (h : s.target_ff k ≠ ff_response_bin lm s.ff_filter k) :
    (calculate_ff_init_loss lm s).eq_update.init_loss ≠ 0 := by
  rw [calculate_ff_init_loss_eq_update]
  intro h0
  have hz := calculate_loss_zero_bins (calculate_ff_response lm s) h0 k hk
  rw [calculate_ff_response_target_ff, calculate_ff_response_current_ff, if_pos hk] at hz
  exact h hz

theorem offset_target_state_facts :
    coeffs_at_realtime sample_libm offset_target_state ∧
      gain_consistent sample_libm offset_target_state ∧
      (calculate_ff_init_loss sample_libm offset_target_state).eq_update.init_loss ≠ 0 := by
  refine ⟨?_, ?_, init_loss_ne_zero sample_libm _ 0 (by decide) ?_⟩
  · intro i hi
    unfold offset_target_state
    rw [set_target_ff_ff_filter, set_target_ff_eq_update]
    exact coeffs_at_realtime_system_init sample_libm i hi
  · unfold gain_consistent offset_target_state
    rw [set_target_ff_ff_filter, set_target_ff_eq_update]
    exact gain_consistent_system_init sample_libm
  · unfold offset_target_state
    rw [set_target_ff_ff_filter, set_target_ff_target_ff]
    intro h
    have hr := congrArg Complex.real h
    simp only at hr
    linarith

/-- Claim C34.  Let `update_eq_params` run right after `calculate_ff_init_loss` on a
state whose coefficients are those of the parameters and whose linear gain is
`10^(total_gain_dB/20)` (as in every state the program reaches), with `init_loss` not 0
so that the early skip is not taken.  Then `update_accepted` is set to 1 exactly when
at least one of the 30 `update_single_param` calls returned 1 or the total-gain step was
accepted; otherwise it is set to 0 and the parameters, `total_gain_dB`, the coefficients
and `total_gain` are those on entry. -/
theorem acceptance_iff_step_moved (lm : Libm α) (s : SystemState α)
    (hc : coeffs_at_realtime lm s) (hg : gain_consistent lm s)
    (h0 : (calculate_ff_init_loss lm s).eq_update.init_loss ≠ 0) :
    ((update_eq_params lm (calculate_ff_init_loss lm s)).eq_update.update_accepted = 1 ↔
      ((∃ j, j < 30 ∧ step_accepts lm (eq_entry lm (calculate_ff_init_loss lm s)) j) ∨
        total_gain_accepts lm
          (sweep_steps lm (eq_entry lm (calculate_ff_init_loss lm s)) 30))) ∧
    ((update_eq_params lm (calculate_ff_init_loss lm s)).eq_update.update_accepted ≠ 1 →
      (update_eq_params lm (calculate_ff_init_loss lm s)).eq_update.update_accepted = 0 ∧
        (update_eq_params lm (calculate_ff_init_loss lm s)).eq_update.params
          = s.eq_update.params ∧
        (update_eq_params lm (calculate_ff_init_loss lm s)).eq_update.total_gain_dB
          = s.eq_update.total_gain_dB ∧
        (update_eq_params lm (calculate_ff_init_loss lm s)).ff_filter.coeffs
          = s.ff_filter.coeffs ∧
        (update_eq_params lm (calculate_ff_init_loss lm s)).ff_filter.total_gain
          = s.ff_filter.total_gain) := by
  have hentry := eq_entry_after_init_loss lm s
  have hinit : (calculate_ff_init_loss lm s).eq_update.init_loss
      = calculate_loss (calculate_ff_response lm s) := by
    rw [calculate_ff_init_loss_eq_update]
  have hnn := calculate_loss_nonneg (calculate_ff_response lm s)
  rw [hinit] at h0
  have hns : ¬ ((eq_entry lm (calculate_ff_init_loss lm s)).eq_update.current_loss
      ≤ (eq_entry lm (calculate_ff_init_loss lm s)).eq_update.init_loss
        * LOSS_IMPROVEMENT_FACTOR) := by
    rw [hentry.1, hentry.2]
    unfold LOSS_IMPROVEMENT_FACTOR
    intro h
    apply h0
    linarith
  have hc1 : coeffs_at_realtime lm (calculate_ff_init_loss lm s) :=
    coeffs_at_realtime_of_filter_part lm _ _ (filter_part_calculate_ff_init_loss lm s) hc
  have hce : coeffs_at_realtime lm (eq_entry lm (calculate_ff_init_loss lm s)) :=
    coeffs_at_realtime_of_filter_part lm _ _ (filter_part_eq_entry lm _) hc1
  have hg1 : gain_consistent lm (calculate_ff_init_loss lm s) := by
    unfold gain_consistent at hg ⊢
    rw [calculate_ff_init_loss_ff_filter, calculate_ff_init_loss_eq_update]
    exact hg
  have hge := gain_consistent_eq_entry lm _ hg1
  obtain ⟨s1, s2, s3, s4⟩ := sweep_steps_moves lm _ hce 30 (le_refl _)
  have hgx := gain_consistent_sweep_steps lm _ 30 hge
  obtain ⟨t1, t2⟩ := total_gain_step_moves lm _ hgx
  have tf := total_gain_step_facts lm
    (sweep_steps lm (eq_entry lm (calculate_ff_init_loss lm s)) 30)
  have hep : (eq_entry lm (calculate_ff_init_loss lm s)).eq_update.params
        = s.eq_update.params ∧
      (eq_entry lm (calculate_ff_init_loss lm s)).eq_update.total_gain_dB
        = s.eq_update.total_gain_dB ∧
      (eq_entry lm (calculate_ff_init_loss lm s)).ff_filter = s.ff_filter := by
    rw [eq_entry_eq_update, eq_entry_ff_filter, calculate_ff_init_loss_eq_update,
      calculate_ff_init_loss_ff_filter]
    exact ⟨rfl, rfl, rfl⟩
  rw [update_eq_params_eq, if_neg hns, biquad_sweep_eq_steps]
  generalize eq_entry lm (calculate_ff_init_loss lm s) = e at *
  generalize sweep_steps lm e 30 = X at *
  have hinitX : (total_gain_step lm X).eq_update.init_loss = e.eq_update.init_loss :=
    tf.2.2.2.trans s2
  have hee : e.eq_update.current_loss = e.eq_update.init_loss := by
    rw [hentry.1, hentry.2]
  have key : (total_gain_step lm X).eq_update.current_loss
        < (total_gain_step lm X).eq_update.init_loss ↔
      ((∃ j, j < 30 ∧ step_accepts lm e j) ∨ total_gain_accepts lm X) := by
    rw [hinitX, ← hee]
    constructor
    · intro hlt
      by_contra hno
      rw [not_or] at hno
      obtain ⟨n1, n2⟩ := hno
      have a1 := (s4 n1).1
      have a2 := (t2 n2).1
      rw [a2, a1] at hlt
      exact lt_irrefl _ hlt
    · rintro (hs | ht)
      · exact lt_of_le_of_lt tf.2.2.1 (s3 hs)
      · exact lt_of_lt_of_le (t1 ht) s1
  obtain ⟨v1, v2, v3, v4⟩ := final_verdict_facts (total_gain_step lm X)
  rw [v3.1, v3.2, v4]
  constructor
  · rw [v1, key]
  · intro hne
    have hno := mt (v1.trans key).2 hne
    rw [not_or] at hno
    obtain ⟨n1, n2⟩ := hno
    obtain ⟨a1, a2⟩ := s4 n1
    obtain ⟨b1, b2⟩ := t2 n2
    have hu : (total_gain_step lm X).eq_update = e.eq_update := b1.trans a1
    have hf : (total_gain_step lm X).ff_filter = e.ff_filter := b2.trans a2
    refine ⟨v2 hne, ?_, ?_, ?_, ?_⟩
    · rw [hu, hep.1]
    · rw [hu, hep.2.1]
    · rw [hf, hep.2.2]
    · rw [hf, hep.2.2]

theorem acceptance_iff_step_moved_witness :
    (calculate_ff_init_loss sample_libm offset_target_state).eq_update.init_loss ≠ 0 ∧
      ((update_eq_params sample_libm
          (calculate_ff_init_loss sample_libm offset_target_state)).eq_update.update_accepted
            = 1 ↔
        ((∃ j, j < 30 ∧ step_accepts sample_libm
            (eq_entry sample_libm (calculate_ff_init_loss sample_libm offset_target_state)) j) ∨
          total_gain_accepts sample_libm
            (sweep_steps sample_libm
              (eq_entry sample_libm
                (calculate_ff_init_loss sample_libm offset_target_state)) 30))) :=
  ⟨offset_target_state_facts.2.2,
    (acceptance_iff_step_moved sample_libm offset_target_state offset_target_state_facts.1
      offset_target_state_facts.2.1 offset_target_state_facts.2.2).1⟩

/-! ### The installed gain follows `total_gain_dB` -/

theorem gain_consistent_of_gain_part (lm : Libm α) (s t : SystemState α)
    (h : gain_part t = gain_part s) (hs : gain_consistent lm s) : gain_consistent lm t := by
  unfold gain_part at h
  unfold gain_consistent at hs ⊢
  have h1 : t.ff_filter.total_gain = s.ff_filter.total_gain := congrArg Prod.fst h
  have h2 : t.eq_update.total_gain_dB = s.eq_update.total_gain_dB := congrArg Prod.snd h
  rw [h1, h2]
  exact hs

theorem gain_part_buffer_frame (g : SystemState α) (ff_in fb_in spk_in : Nat → α) (n : Int) :
    gain_part (buffer_frame g ff_in fb_in spk_in n) = gain_part g := rfl

theorem gain_part_calculate_mu (lm : Libm α) (s : SystemState α) :
    gain_part (calculate_mu lm s) = gain_part s := rfl

theorem gain_part_calculate_ff_response (lm : Libm α) (s : SystemState α) :
    gain_part (calculate_ff_response lm s) = gain_part s := by
  cases s; rfl

theorem gain_part_calculate_target_ff (lm : Libm α) (s : SystemState α) :
    gain_part (calculate_target_ff lm s) = gain_part s := rfl

theorem gain_part_signal_process (lm : Libm α) (w : Nat → α) (s : SystemState α) :
    gain_part (signal_process lm w s) = gain_part s := by
  simp only [signal_process]
  split_ifs <;> rfl

theorem gain_part_stable_check (lm : Libm α) (s : SystemState α) :
    gain_part (stable_check lm s) = gain_part s := by
  unfold stable_check
  rw [check_target_stability_eq]
  split_ifs <;> simp_all [gain_part, set_prev_smoothness]

theorem gain_part_calculate_ff_init_loss (lm : Libm α) (s : SystemState α) :
    gain_part (calculate_ff_init_loss lm s) = gain_part s := by
  unfold gain_part
  rw [calculate_ff_init_loss_ff_filter, calculate_ff_init_loss_eq_update]

theorem gain_part_with_state (x : SystemState α) (st : ProcessState) :
    gain_part { x with state := st } = gain_part x := rfl

theorem gain_part_with_restart (x : SystemState α) :
    gain_part { x with state := ProcessState.SIGNAL_PROCESS, frame_count := 0, fft_count := 0 }
      = gain_part x := rfl

theorem gain_consistent_update_eq_params (lm : Libm α) (s : SystemState α)
    (hc : coeffs_at_realtime lm s) (hg : gain_consistent lm s) :
    gain_consistent lm (update_eq_params lm s) := by
  have he := optimizer_cache_eq_entry lm s hc
  have hge := gain_consistent_eq_entry lm s hg
  rw [update_eq_params_eq]
  split_ifs
  · unfold gain_consistent at hge ⊢
    rw [set_update_accepted_ff_filter, set_update_accepted_eq_update]
    exact hge
  · rw [biquad_sweep_eq_steps]
    have ht := (optimizer_cache_total_gain_step lm _ (optimizer_cache_sweep_steps lm _ 30 he)
      (gain_consistent_sweep_steps lm _ 30 hge)).2
    obtain ⟨_, _, v3, v4⟩ := final_verdict_facts
      (total_gain_step lm (sweep_steps lm (eq_entry lm s) 30))
    unfold gain_consistent at ht ⊢
    rw [v4, v3.2]
    exact ht

theorem gain_consistent_update_filter_coeffs (lm : Libm α) (s : SystemState α) :
    gain_consistent lm (update_filter_coeffs lm s) := by
  unfold update_filter_coeffs gain_consistent
  cases forLoop NUM_BIQUADS (fun i state => rebuild_coeffs lm state i) s
  rfl

theorem gain_consistent_process_audio_frame (lm : Libm α) (w : Nat → α) (g : SystemState α)
    (ff_in fb_in spk_in : Nat → α) (n : Int) (hc : coeffs_at_realtime lm g)
    (hg : gain_consistent lm g) :
    gain_consistent lm (process_audio_frame lm w g ff_in fb_in spk_in n) := by
  have hb : gain_consistent lm (buffer_frame g ff_in fb_in spk_in n) :=
    gain_consistent_of_gain_part lm _ _ (gain_part_buffer_frame g _ _ _ n) hg
  have hcb : coeffs_at_realtime lm (buffer_frame g ff_in fb_in spk_in n) :=
    coeffs_at_realtime_of_filter_part lm _ _ (filter_part_buffer_frame g _ _ _ n) hc
  rw [process_audio_frame_eq]
  generalize buffer_frame g ff_in fb_in spk_in n = g1 at hb hcb ⊢
  cases g.state
  · exact gain_consistent_of_gain_part lm _ _ (gain_part_signal_process lm w _) hb
  · exact gain_consistent_of_gain_part lm _ _
      ((gain_part_with_state _ _).trans (gain_part_calculate_mu lm _)) hb
  · exact gain_consistent_of_gain_part lm _ _
      ((gain_part_with_state _ _).trans (gain_part_calculate_ff_response lm _)) hb
  · exact gain_consistent_of_gain_part lm _ _
      ((gain_part_with_state _ _).trans (gain_part_calculate_target_ff lm _)) hb
  · exact gain_consistent_of_gain_part lm _ _ (gain_part_stable_check lm _) hb
  · exact gain_consistent_of_gain_part lm _ _
      ((gain_part_with_state _ _).trans (gain_part_calculate_ff_init_loss lm _)) hb
  · exact gain_consistent_of_gain_part lm _ _ (gain_part_with_state _ _)
      (gain_consistent_update_eq_params lm _ hcb hb)
  · exact gain_consistent_of_gain_part lm _ _ (gain_part_with_restart _)
      (gain_consistent_update_filter_coeffs lm _)

theorem gain_consistent_run_frames (lm : Libm α) (w : Nat → α) (ff fb spk : Nat → Nat → α)
    (len : Nat → Int) (n : Nat) :
    gain_consistent lm (run_frames lm w ff fb spk len (system_init lm) n) := by
  induction n with
  | zero => exact gain_consistent_system_init lm
  | succ n ih =>
    exact gain_consistent_process_audio_frame lm w _ _ _ _ _
      (coeffs_at_realtime_run_frames lm w ff fb spk len n) ih

theorem update_filter_coeffs_call (lm : Libm α) (w : Nat → α) (g : SystemState α)
    (ff_in fb_in spk_in : Nat → α) (n : Int)
    (hs : g.state = ProcessState.UPDATE_FILTER_COEFFS) :
    coeffs_at_realtime lm (process_audio_frame lm w g ff_in fb_in spk_in n) ∧
      gain_consistent lm (process_audio_frame lm w g ff_in fb_in spk_in n) := by
  rw [process_audio_frame_eq, hs]
  exact ⟨coeffs_at_realtime_of_filter_part lm _ _ (filter_part_with_restart _)
      (coeffs_at_realtime_update_filter_coeffs lm _),
    gain_consistent_of_gain_part lm _ _ (gain_part_with_restart _)
      (gain_consistent_update_filter_coeffs lm _)⟩

/-- Claim C32.  Coefficient/parameter consistency: after `system_init`, and after every
`process_audio_frame` call of a run from it, `coeffs[i]` is
`eq_to_biquad_coeffs(params[i], 375000)` for every section `i` and `total_gain` is
`10^(total_gain_dB/20)`; a call preserves the two facts from any state that has them;
and a call made in UPDATE_FILTER_COEFFS establishes them from any state, whatever
`update_accepted` holds. -/
theorem coeffs_follow_params (lm : Libm α) (w : Nat → α) :
    (coeffs_at_realtime lm (system_init lm) ∧ gain_consistent lm (system_init lm)) ∧
    (∀ (ff fb spk : Nat → Nat → α) (len : Nat → Int) (n : Nat),
      coeffs_at_realtime lm (run_frames lm w ff fb spk len (system_init lm) n) ∧
        gain_consistent lm (run_frames lm w ff fb spk len (system_init lm) n)) ∧
    (∀ (g : SystemState α) (ff_in fb_in spk_in : Nat → α) (n : Int),
      coeffs_at_realtime lm g → gain_consistent lm g →
        coeffs_at_realtime lm (process_audio_frame lm w g ff_in fb_in spk_in n) ∧
          gain_consistent lm (process_audio_frame lm w g ff_in fb_in spk_in n)) ∧
    (∀ (g : SystemState α) (ff_in fb_in spk_in : Nat → α) (n : Int),
      g.state = ProcessState.UPDATE_FILTER_COEFFS →
        coeffs_at_realtime lm (process_audio_frame lm w g ff_in fb_in spk_in n) ∧
          gain_consistent lm (process_audio_frame lm w g ff_in fb_in spk_in n)) :=
  ⟨⟨coeffs_at_realtime_system_init lm, gain_consistent_system_init lm⟩,
    fun ff fb spk len n => ⟨coeffs_at_realtime_run_frames lm w ff fb spk len n,
      gain_consistent_run_frames lm w ff fb spk len n⟩,
    fun g ff_in fb_in spk_in n hc hg =>
      ⟨coeffs_at_realtime_process_audio_frame lm w g ff_in fb_in spk_in n hc,
        gain_consistent_process_audio_frame lm w g ff_in fb_in spk_in n hc hg⟩,
    fun g ff_in fb_in spk_in n hs => update_filter_coeffs_call lm w g ff_in fb_in spk_in n hs⟩

/-! ### Bins with a small secondary path -/

theorem target_ff_bin_small (lm : Libm α) (s : SystemState α) (k : Nat)
    (hcs : ∀ t, lm.cosf t * lm.cosf t + lm.sinf t * lm.sinf t ≤ 1000000)
    (h : complex_mag lm (s.secondary_path k) < SP_EPSILON ∨
      (s.secondary_path k).real * (s.secondary_path k).real
        + (s.secondary_path k).imag * (s.secondary_path k).imag ≤ 1 / 10000000000) :
    target_ff_bin lm s k = s.current_ff k := by
  have hfl : ∀ t, ¬ (SP_EPSILON * lm.cosf t * (SP_EPSILON * lm.cosf t)
      + SP_EPSILON * lm.sinf t * (SP_EPSILON * lm.sinf t) > (1 / 10000000000 : α)) := by
    intro t
    have h1 := hcs t
    unfold SP_EPSILON
    rw [gt_iff_lt, not_lt]
    nlinarith
  unfold target_ff_bin
  by_cases hf : complex_mag lm (s.secondary_path k) < SP_EPSILON
  · simp only [hf, if_true]
    unfold complex_div
    simp only [hfl, if_false]
    simp [complex_scale, complex_add]
  · simp only [hf, if_false]
    have hd := h.resolve_left hf
    unfold complex_div
    simp only [not_lt.mpr hd, gt_iff_lt, if_false]
    simp [complex_scale, complex_add]

theorem secondary_path_same_analysis (s t : SystemState α) (h : same_analysis s t) :
    t.secondary_path = s.secondary_path := by
  unfold same_analysis at h
  rw [h]

theorem secondary_path_signal_process (lm : Libm α) (w : Nat → α) (s : SystemState α) :
    (signal_process lm w s).secondary_path = s.secondary_path := by
  simp only [signal_process]
  split_ifs <;> rfl

theorem secondary_path_stable_check (lm : Libm α) (s : SystemState α) :
    (stable_check lm s).secondary_path = s.secondary_path := by
  unfold stable_check
  rw [check_target_stability_eq]
  split_ifs <;> simp_all [set_prev_smoothness]

theorem secondary_path_process_audio_frame (lm : Libm α) (w : Nat → α) (g : SystemState α)
    (ff_in fb_in spk_in : Nat → α) (n : Int) :
    (process_audio_frame lm w g ff_in fb_in spk_in n).secondary_path = g.secondary_path := by
  have hb : (buffer_frame g ff_in fb_in spk_in n).secondary_path = g.secondary_path := rfl
  rw [process_audio_frame_eq, ← hb]
  generalize buffer_frame g ff_in fb_in spk_in n = g1
  cases g.state
  · exact secondary_path_signal_process lm w _
  · rfl
  · show (calculate_ff_response lm g1).secondary_path = _
    exact secondary_path_same_analysis _ _ (same_analysis_calculate_ff_response lm _)
  · rfl
  · exact secondary_path_stable_check lm _
  · show (calculate_ff_init_loss lm g1).secondary_path = _
    exact secondary_path_same_analysis _ _ (same_analysis_calculate_ff_init_loss lm _)
  · show (update_eq_params lm g1).secondary_path = _
    exact secondary_path_same_analysis _ _ (same_analysis_update_eq_params lm _)
  · show (update_filter_coeffs lm g1).secondary_path = _
    exact secondary_path_same_analysis _ _ (same_analysis_update_filter_coeffs lm _)

theorem system_init_secondary_path (lm : Libm α) (k : Nat) :
    (system_init lm).secondary_path k
      = if k < FFT_HALF_LENGTH then
          ⟨secondary_path_table 0 (k * 2), secondary_path_table 0 (k * 2 + 1)⟩
        else ⟨0, 0⟩ := by
  unfold system_init
  simp only [Int.toNat_zero]
  have h := forLoop_invariant
    (fun t : SystemState α => t.secondary_path = forLoop FFT_HALF_LENGTH (fun i sp =>
        Function.update sp i
          ⟨secondary_path_table (0 : Nat) (i * 2), secondary_path_table (0 : Nat) (i * 2 + 1)⟩)
        (fun _ => (⟨0, 0⟩ : Complex α)))
    NUM_BIQUADS
    (fun i (g : SystemState α) =>
      rebuild_coeffs lm (set_param_record g i (eq_presets_biquads 0 i)) i)
    { ({ (zero_state : SystemState α) with
          state := ProcessState.SIGNAL_PROCESS, current_preset_index := 0 } : SystemState α) with
      secondary_path := forLoop FFT_HALF_LENGTH (fun i sp =>
        Function.update sp i
          ⟨secondary_path_table (0 : Nat) (i * 2), secondary_path_table (0 : Nat) (i * 2 + 1)⟩)
        (fun _ => ⟨0, 0⟩) }
    rfl
    (fun i t _ ht => by
      show (rebuild_coeffs lm (set_param_record t i (eq_presets_biquads 0 i)) i).secondary_path
        = _
      rw [secondary_path_same_analysis _ _ (same_analysis_trans _ _ _
        (same_analysis_set_param_record t i _) (same_analysis_rebuild_coeffs lm _ i))]
      exact ht)
  exact (congrFun h k).trans (forLoop_update_apply _ _ _ k)

theorem run_frames_secondary_path (lm : Libm α) (w : Nat → α) (ff fb spk : Nat → Nat → α)
    (len : Nat → Int) (n : Nat) :
    (run_frames lm w ff fb spk len (system_init lm) n).secondary_path
      = (system_init lm).secondary_path := by
  induction n with
  | zero => rfl
  | succ n ih =>
    show (process_audio_frame lm w _ _ _ _ _).secondary_path = _
    rw [secondary_path_process_audio_frame, ih]

theorem preset_zero_bins (lm : Libm α) (k : Nat) (h2 : 2 ≤ k) (hk : k < 1024) :
    (system_init lm).secondary_path k = ⟨0, 0⟩ := by
  rw [system_init_secondary_path, if_pos (by unfold FFT_HALF_LENGTH; omega)]
  unfold secondary_path_table FFT_HALF_LENGTH
  have e1 : ¬ (k * 2 = 0) := by omega
  have e2 : ¬ (k * 2 = 1) := by omega
  have e3 : ¬ (k * 2 = 2) := by omega
  have e4 : ¬ (k * 2 = 3) := by omega
  have e5 : ¬ (k * 2 = 1025 * 2 - 2) := by omega
  have f1 : ¬ (k * 2 + 1 = 0) := by omega
  have f2 : ¬ (k * 2 + 1 = 1) := by omega
  have f3 : ¬ (k * 2 + 1 = 2) := by omega
  have f4 : ¬ (k * 2 + 1 = 3) := by omega
  have f5 : ¬ (k * 2 + 1 = 1025 * 2 - 2) := by omega
  simp only [e1, e2, e3, e4, e5, f1, f2, f3, f4, f5, if_true, if_false]

/-- Claim C33.  For a libm whose `cosf(t)^2 + sinf(t)^2` never exceeds `10^6`:
`calculate_target_ff` stores `target_ff[k] = current_ff[k]`, whatever `pp_average[k]` and
`mu[k]` hold, on every bin `k` with `|secondary_path[k]|^2 <= 1e-10` and on every bin
where the floor `|S_k| < 1e-8` is applied (the floored divisor has squared magnitude
`1e-16 * (cosf^2 + sinf^2)`, under the guard of `complex_div`).  Bins 2 to 1023 of
preset 0 are zero in every state of a run from `system_init`, so the update is
suppressed on them. -/
theorem small_secondary_path_no_update (lm : Libm α)
    (hcs : ∀ t, lm.cosf t * lm.cosf t + lm.sinf t * lm.sinf t ≤ 1000000) :
    (∀ (s : SystemState α) (pp : Nat → Complex α) (m : Nat → α) (k : Nat),
      k < FFT_HALF_LENGTH →
      (s.secondary_path k).real * (s.secondary_path k).real
        + (s.secondary_path k).imag * (s.secondary_path k).imag ≤ 1 / 10000000000 →
      (calculate_target_ff lm { s with pp_average := pp, mu := m }).target_ff k
        = s.current_ff k) ∧
    (∀ (s : SystemState α) (pp : Nat → Complex α) (m : Nat → α) (k : Nat),
      k < FFT_HALF_LENGTH →
      complex_mag lm (s.secondary_path k) < SP_EPSILON →
      (calculate_target_ff lm { s with pp_average := pp, mu := m }).target_ff k
        = s.current_ff k) ∧
    (∀ (w : Nat → α) (ff fb spk : Nat → Nat → α) (len : Nat → Int) (n k : Nat),
      2 ≤ k → k < 1024 →
      (run_frames lm w ff fb spk len (system_init lm) n).secondary_path k = ⟨0, 0⟩ ∧
        (calculate_target_ff lm (run_frames lm w ff fb spk len (system_init lm) n)).target_ff k
          = (run_frames lm w ff fb spk len (system_init lm) n).current_ff k) := by
  refine ⟨?_, ?_, ?_⟩
  · intro s pp m k hk hd
    rw [calculate_target_ff_bin lm _ k hk]
    exact target_ff_bin_small lm _ k hcs (Or.inr hd)
  · intro s pp m k hk hf
    rw [calculate_target_ff_bin lm _ k hk]
    exact target_ff_bin_small lm _ k hcs (Or.inl hf)
  · intro w ff fb spk len n k h2 hk
    have hz : (run_frames lm w ff fb spk len (system_init lm) n).secondary_path k = ⟨0, 0⟩ := by
      rw [run_frames_secondary_path, preset_zero_bins lm k h2 hk]
    refine ⟨hz, ?_⟩
    rw [calculate_target_ff_bin lm _ k (by unfold FFT_HALF_LENGTH; omega)]
    apply target_ff_bin_small lm _ k hcs
    right
    rw [hz]
    norm_num

theorem small_secondary_path_no_update_witness :
    (∀ t, sample_libm.cosf t * sample_libm.cosf t + sample_libm.sinf t * sample_libm.sinf t
        ≤ 1000000) ∧
      (calculate_target_ff sample_libm guard_demo_state).target_ff 0
        = guard_demo_state.current_ff 0 :=
  ⟨fun _ => by simp [sample_libm],
    (small_secondary_path_no_update sample_libm (fun _ => by simp [sample_libm])).1
      guard_demo_state guard_demo_state.pp_average guard_demo_state.mu 0 (by decide)
      (by norm_num [guard_demo_state, zero_state])⟩

/-! ### The accumulators over a whole run -/

theorem ctrl_bounds_pending (c : Ctrl) (m : Int) (h : ctrl_bounds c m)
    (hs : c.state = ProcessState.SIGNAL_PROCESS) : c.sample_count + 160 < 1440 := by
  obtain ⟨st, fc, f, sc, ac⟩ := c
  simp only at hs
  subst hs
  unfold ctrl_bounds at h
  simp only at h
  show sc + 160 < 1440
  omega

theorem ctrl_bounds_step (c : Ctrl) (m : Int) (b : Bool) (h : ctrl_bounds c m) :
    ctrl_bounds (ctrl_step c b)
      (m + if (ctrl_step c b).state = ProcessState.CAL_MU then 1 else 0) := by
  obtain ⟨st, fc, f, sc, ac⟩ := c
  cases st
  · obtain ⟨h0, h1, h2, h3, h4⟩ := h
    simp only at h0 h1 h2 h3 h4
    have hnr : ¬ (fc = 0 ∧ sc + 160 ≥ 2048) := by omega
    unfold ctrl_step
    simp only [hnr, if_false]
    by_cases hp : sc + 160 ≥ 512 ∧ f < 10
    · simp only [hp, and_self, if_true]
      by_cases h10 : f + 1 ≥ 10
      · simp only [h10, if_true]
        unfold ctrl_bounds
        simp only
        omega
      · simp only [h10, if_false]
        unfold ctrl_bounds
        simp only [reduceCtorEq, if_false]
        omega
    · simp only [hp, if_false]
      have h10 : ¬ (f ≥ 10) := by omega
      simp only [h10, if_false]
      unfold ctrl_bounds
      simp only [reduceCtorEq, if_false]
      omega
  all_goals
    unfold ctrl_bounds at h
    simp only at h
    unfold ctrl_step
    cases b <;> simp only [reduceCtorEq, if_false, if_true, Bool.false_eq_true] <;>
      unfold ctrl_bounds <;> simp only [reduceCtorEq, if_false, if_true] <;>
      first
        | omega
        | exact ⟨by omega, by omega, by omega, by omega, Or.inr (Or.inl ⟨trivial, by omega⟩)⟩

theorem ctrl_step_into_cal_mu (c : Ctrl) (b : Bool)
    (h : (ctrl_step c b).state = ProcessState.CAL_MU) :
    c.state = ProcessState.SIGNAL_PROCESS := by
  obtain ⟨st, fc, f, sc, ac⟩ := c
  cases st
  · rfl
  all_goals (cases b <;> exact absurd h (by unfold ctrl_step; simp))

theorem run_frames_bounds (lm : Libm α) (w : Nat → α) (ff fb spk : Nat → Nat → α)
    (len : Nat → Int) (n : Nat) :
    ctrl_bounds (ctrl_of (run_frames lm w ff fb spk len (system_init lm) n))
      ((completed_cycles lm w ff fb spk len n : Nat) : Int) := by
  induction n with
  | zero =>
    show ctrl_bounds (ctrl_of (system_init lm)) 0
    rw [system_init_ctrl]
    unfold ctrl_bounds ctrl_init
    simp
  | succ n ih =>
    have hstep := ctrl_bounds_step _ _
      (decide (gate_accepts lm
        (run_frames lm w ff fb spk len (system_init lm) n).target_ff
        (run_frames lm w ff fb spk len (system_init lm) n).prev_target_ff
        (run_frames lm w ff fb spk len (system_init lm) n).prev_smoothness)) ih
    rw [← process_audio_frame_ctrl lm w _ (ff n) (fb n) (spk n) (len n)] at hstep
    have e : ((completed_cycles lm w ff fb spk len (n + 1) : Nat) : Int)
        = (completed_cycles lm w ff fb spk len n : Nat)
          + if (ctrl_of (process_audio_frame lm w
              (run_frames lm w ff fb spk len (system_init lm) n)
              (ff n) (fb n) (spk n) (len n))).state = ProcessState.CAL_MU then 1 else 0 := by
      show ((completed_cycles lm w ff fb spk len n
        + (if (run_frames lm w ff fb spk len (system_init lm) (n + 1)).state
            = ProcessState.CAL_MU then 1 else 0) : Nat) : Int) = _
      rw [Nat.cast_add]
      congr 1
      show ((if (ctrl_of (process_audio_frame lm w
              (run_frames lm w ff fb spk len (system_init lm) n)
              (ff n) (fb n) (spk n) (len n))).state = ProcessState.CAL_MU then 1 else 0 : Nat)
            : Int) = _
      split_ifs <;> rfl
    rw [e]
    exact hstep

theorem ctrl_bounds_accum (c : Ctrl) (m : Int) (h : ctrl_bounds c m) :
    (c.state = ProcessState.SIGNAL_PROCESS → c.accum_count = 10 * m + c.fft_count) ∧
      (c.state ≠ ProcessState.SIGNAL_PROCESS → c.accum_count = 10 * m) := by
  obtain ⟨st, fc, f, sc, ac⟩ := c
  unfold ctrl_bounds at h
  cases st <;> simp only at h <;> simp only [reduceCtorEq, ne_eq, not_true_eq_false,
    not_false_eq_true, forall_const, false_implies, true_implies, and_true, true_and] <;>
    first | exact h.2.1 | exact h.2.2.2.1

/-- Claim C36.  In every run of the frame loop from `system_init`, for every math
library, window, input frames and frame lengths: the branch of `case SIGNAL_PROCESS`
that zeroes `fft_accum` (`frame_count == 0` and `sample_count >= FFT_LENGTH`) is never
taken, the buffered sample count in that case being below 1440; `accum_count` is ten
times the number of completed analysis cycles plus the passes of the cycle under way;
and a call that completes a cycle (it leaves the machine in `CAL_MU`) stores the
accumulators divided by `accum_count`, which is ten times the number of cycles completed
so far, that call included. -/
theorem accumulators_never_cleared (lm : Libm α) (w : Nat → α) (ff fb spk : Nat → Nat → α)
    (len : Nat → Int) (n : Nat) :
    ¬ ((run_frames lm w ff fb spk len (system_init lm) n).state = ProcessState.SIGNAL_PROCESS ∧
      (buffer_frame (run_frames lm w ff fb spk len (system_init lm) n)
          (ff n) (fb n) (spk n) (len n)).frame_count = 0 ∧
      (buffer_frame (run_frames lm w ff fb spk len (system_init lm) n)
          (ff n) (fb n) (spk n) (len n)).ff_buffer.sample_count ≥ (FFT_LENGTH : Int)) ∧
    ((run_frames lm w ff fb spk len (system_init lm) n).state = ProcessState.SIGNAL_PROCESS →
      (run_frames lm w ff fb spk len (system_init lm) n).fft_accum.accum_count
        = 10 * (completed_cycles lm w ff fb spk len n : Int)
          + (run_frames lm w ff fb spk len (system_init lm) n).fft_count) ∧
    ((run_frames lm w ff fb spk len (system_init lm) n).state ≠ ProcessState.SIGNAL_PROCESS →
      (run_frames lm w ff fb spk len (system_init lm) n).fft_accum.accum_count
        = 10 * (completed_cycles lm w ff fb spk len n : Int)) ∧
    ((run_frames lm w ff fb spk len (system_init lm) (n + 1)).state = ProcessState.CAL_MU →
      (run_frames lm w ff fb spk len (system_init lm) (n + 1)).fft_accum.accum_count
        = 10 * (completed_cycles lm w ff fb spk len (n + 1) : Int) ∧
      completed_cycles lm w ff fb spk len (n + 1) = completed_cycles lm w ff fb spk len n + 1 ∧
      ∀ k, k < FFT_HALF_LENGTH →
        (run_frames lm w ff fb spk len (system_init lm) (n + 1)).pp_average k
            = complex_scale
                ((run_frames lm w ff fb spk len (system_init lm) (n + 1)).fft_accum.pp_accum k)
                (1 / (10 * (completed_cycles lm w ff fb spk len (n + 1) : α))) ∧
          (run_frames lm w ff fb spk len (system_init lm) (n + 1)).ff_avg.bins k
            = complex_scale
                ((run_frames lm w ff fb spk len (system_init lm) (n + 1)).fft_accum.ff_accum.bins
                  k)
                (1 / (10 * (completed_cycles lm w ff fb spk len (n + 1) : α)))) := by
  have hb := run_frames_bounds lm w ff fb spk len n
  have hb1 := run_frames_bounds lm w ff fb spk len (n + 1)
  refine ⟨?_, ?_, ?_, ?_⟩
  · rintro ⟨hs, _, hsc⟩
    have hp := ctrl_bounds_pending _ _ hb hs
    rw [buffer_frame_sample_count] at hsc
    have hp2 : (run_frames lm w ff fb spk len (system_init lm) n).ff_buffer.sample_count + 160
        < 1440 := hp
    unfold FFT_LENGTH at hsc
    norm_num at hsc
    omega
  · exact (ctrl_bounds_accum _ _ hb).1
  · exact (ctrl_bounds_accum _ _ hb).2
  · intro hs
    have hne : (run_frames lm w ff fb spk len (system_init lm) (n + 1)).state
        ≠ ProcessState.SIGNAL_PROCESS := by
      rw [hs]; decide
    have ha : (run_frames lm w ff fb spk len (system_init lm) (n + 1)).fft_accum.accum_count
        = 10 * (completed_cycles lm w ff fb spk len (n + 1) : Int) :=
      (ctrl_bounds_accum _ _ hb1).2 hne
    have hprev : (run_frames lm w ff fb spk len (system_init lm) n).state
        = ProcessState.SIGNAL_PROCESS := by
      apply ctrl_step_into_cal_mu (ctrl_of (run_frames lm w ff fb spk len (system_init lm) n))
        (decide (gate_accepts lm
          (run_frames lm w ff fb spk len (system_init lm) n).target_ff
          (run_frames lm w ff fb spk len (system_init lm) n).prev_target_ff
          (run_frames lm w ff fb spk len (system_init lm) n).prev_smoothness))
      rw [← process_audio_frame_ctrl lm w _ (ff n) (fb n) (spk n) (len n)]
      exact hs
    refine ⟨ha, ?_, ?_⟩
    · show completed_cycles lm w ff fb spk len n + (if _ then 1 else 0) = _
      rw [if_pos hs]
    · intro k hk
      have e : run_frames lm w ff fb spk len (system_init lm) (n + 1)
          = signal_process lm w (buffer_frame (run_frames lm w ff fb spk len (system_init lm) n)
              (ff n) (fb n) (spk n) (len n)) :=
        process_audio_frame_signal_process lm w _ _ _ _ _ hprev
      have hav := signal_process_average lm w
        (buffer_frame (run_frames lm w ff fb spk len (system_init lm) n)
          (ff n) (fb n) (spk n) (len n))
        (by rw [buffer_frame_state]; exact hprev) (by rw [← e]; exact hs) k hk
      rw [← e, ha] at hav
      have hc : (((10 * (completed_cycles lm w ff fb spk len (n + 1) : Int) : Int)) : α)
          = 10 * (completed_cycles lm w ff fb spk len (n + 1) : α) := by
        push_cast
        rfl
      rw [hc] at hav
      exact hav

end ANC
